import Mathlib

/-!
# Volume composition and read translation of `grub-core/disk/diskfilter.c`

A shallow embedding of the volume model, the readability oracle
(`is_node_readable`, `is_lv_readable`), segment validation, the read path
(`grub_diskfilter_read_node`, `read_segment`, `read_lv`) and the disk device
(`is_valid_diskfilter_name`, `find_lv`, `grub_diskfilter_open`,
`grub_diskfilter_write`).

Conventions of the embedding.

* A C array together with its element count is a list: `seg->nodes` with
  `seg->node_count` is `seg.nodes` with `seg.node_count = seg.nodes.length`,
  and `lv->segments` with `lv->segment_count` is `lv.segments`.
* A pointer to a physical volume is an address into a heap `pvs` of
  `grub_diskfilter_pv` records, so that attaching a device to a member is seen
  by every node that references it. A nested logical volume is held by value,
  so the volume stack is finite (the C code does not return on a cyclic one).
* A pointer that may be `NULL` is an `Option`.
* Sector arithmetic is done in `Nat`; it agrees with the 64-bit arithmetic of
  the source whenever no intermediate value reaches `2^64`. The counters
  `need` and `have` of the oracle are C `int`s and are modelled in `Int`,
  which agrees with the source whenever `node_count < 2^31`: the unsigned
  expression `node_count - n + 1` converted to `int` is then exactly the
  integer `node_count - n + 1`, also when it is negative.
* `seg->layout` is taken to be non-negative.
* A division by zero and an access to `seg->nodes[k]` with `k` outside the
  array are faults; a function that can fault returns `none` there.
* `grub_errno` is not modelled in the oracle, the validation and the read path:
  there it is written but never read for a decision (every decision is on the
  returned `err`). It is a field of the module state `State`, on which the
  functions of the disk device (`find_lv`, `grub_diskfilter_open`,
  `grub_diskfilter_write`) are embedded.
-/

namespace Diskfilter

/-- The error codes of `grub_err_t` that the embedded code produces or
inspects; `GRUB_ERR_OTHER` stands for every other code a device may return. -/
inductive grub_err_t where
  | GRUB_ERR_NONE
  | GRUB_ERR_READ_ERROR
  | GRUB_ERR_UNKNOWN_DEVICE
  | GRUB_ERR_BAD_DEVICE
  | GRUB_ERR_BAD_FS
  | GRUB_ERR_NOT_IMPLEMENTED_YET
  | GRUB_ERR_OUT_OF_RANGE
  | GRUB_ERR_BAD_ARGUMENT
  | GRUB_ERR_OUT_OF_MEMORY
  | GRUB_ERR_OTHER (code : Nat)
  deriving DecidableEq, Repr

open grub_err_t

/-- The identity of a physical member: `struct grub_diskfilter_pv_id`
(a uuid of `uuidlen` bytes when `uuidlen > 0`, else the ordinal `id`). -/
structure grub_diskfilter_pv_id where
  uuidlen : Nat
  uuid : List Nat
  id : Nat
  deriving DecidableEq, Repr

/-- A physical member, `struct grub_diskfilter_pv`; `disk` is the handle of the
backing device, `none` until it is discovered. -/
structure grub_diskfilter_pv where
  id : grub_diskfilter_pv_id
  name : Option String
  disk : Option Nat
  part_start : Nat
  part_size : Nat
  start_sector : Nat
  deriving DecidableEq, Repr

/-- A segment, `struct grub_diskfilter_segment`, over a node type `ν`. -/
structure grub_diskfilter_segment (ν : Type) where
  start_extent : Nat
  extent_count : Nat
  type : Nat
  layout : Nat
  raid_member_size : Nat
  nodes : List ν
  stripe_size : Nat

/-- A logical volume, `struct grub_diskfilter_lv`, over a node type `ν`. The
field `vg` is the back-reference `lv->vg` reduced to the one field of the
group that the read path uses, `vg->extent_size`; `none` is a `NULL` `lv->vg`. -/
structure grub_diskfilter_lv_of (ν : Type) where
  fullname : Option String
  idname : Option String
  name : Option String
  number : Nat
  size : Nat
  became_readable_at : Nat
  scanned : Bool
  visible : Bool
  segments : List (grub_diskfilter_segment ν)
  vg : Option Nat

/-- A node, `struct grub_diskfilter_node`: `pv` is the address of a physical
member in the heap, `lv` a nested logical volume. -/
inductive grub_diskfilter_node where
  | mk (name : String) (start : Nat) (pv : Option Nat)
      (lv : Option (grub_diskfilter_lv_of grub_diskfilter_node))

/-- The segments of the volume model. -/
abbrev grub_diskfilter_seg := grub_diskfilter_segment grub_diskfilter_node

/-- The logical volumes of the volume model. -/
abbrev grub_diskfilter_lv := grub_diskfilter_lv_of grub_diskfilter_node

/-- Field `node->name`. -/
def grub_diskfilter_node.name : grub_diskfilter_node → String
  | .mk n _ _ _ => n

/-- Field `node->start`. -/
def grub_diskfilter_node.start : grub_diskfilter_node → Nat
  | .mk _ s _ _ => s

/-- Field `node->pv`. -/
def grub_diskfilter_node.pv : grub_diskfilter_node → Option Nat
  | .mk _ _ p _ => p

/-- Field `node->lv`. -/
def grub_diskfilter_node.lv : grub_diskfilter_node → Option grub_diskfilter_lv
  | .mk _ _ _ l => l

/-- Field `seg->node_count`: the length of the array `seg->nodes`. -/
def grub_diskfilter_segment.node_count {ν : Type} (seg : grub_diskfilter_segment ν) : Nat :=
  seg.nodes.length

/-- Field `lv->segment_count`: the length of the array `lv->segments`. -/
def grub_diskfilter_lv_of.segment_count {ν : Type} (lv : grub_diskfilter_lv_of ν) : Nat :=
  lv.segments.length

/-! The enumerators of `seg->type` are declared in `grub/diskfilter.h`, which is
not among the sources. Their values are the RAID levels: `read_segment` itself
tests `seg->type == 1` for the mirror and `seg->type == 10` for RAID10, takes
`seg->type / 3` as the parity count ("n = 1 for level 4 and 5, 2 for level 6")
and `seg->type >= 5` for the rotating levels, and `grub_diskfilter_make_raid`
stores its `level` (0, 1, 4, 5, 6 or 10) as the type. -/

/-- Enumerator `GRUB_DISKFILTER_STRIPED`. -/
def GRUB_DISKFILTER_STRIPED : Nat := 0
/-- Enumerator `GRUB_DISKFILTER_MIRROR`. -/
def GRUB_DISKFILTER_MIRROR : Nat := 1
/-- Enumerator `GRUB_DISKFILTER_RAID4`. -/
def GRUB_DISKFILTER_RAID4 : Nat := 4
/-- Enumerator `GRUB_DISKFILTER_RAID5`. -/
def GRUB_DISKFILTER_RAID5 : Nat := 5
/-- Enumerator `GRUB_DISKFILTER_RAID6`. -/
def GRUB_DISKFILTER_RAID6 : Nat := 6
/-- Enumerator `GRUB_DISKFILTER_RAID10`. -/
def GRUB_DISKFILTER_RAID10 : Nat := 10

/-! ## Readability oracle (diskfilter.c:50-111) -/

/-- The `switch` of `is_lv_readable` (lines 70-98): the number of live nodes a
segment needs. `need` starts as `node_count`; the case of RAID6 decrements it
when `!easily` and falls through to the case of RAID4/RAID5, which decrements
it when `!easily` and falls through to the `break` of STRIPED; a type without a
case leaves it unchanged. -/
def is_lv_readable_need (seg : grub_diskfilter_seg) (easily : Bool) : Int :=
  let need : Int := seg.node_count
  if seg.type = GRUB_DISKFILTER_RAID6 then
    let need := if !easily then need - 1 else need
    let need := if !easily then need - 1 else need
    need
  else if seg.type = GRUB_DISKFILTER_RAID4 ∨ seg.type = GRUB_DISKFILTER_RAID5 then
    let need := if !easily then need - 1 else need
    need
  else if seg.type = GRUB_DISKFILTER_STRIPED then
    need
  else if seg.type = GRUB_DISKFILTER_MIRROR then
    1
  else if seg.type = GRUB_DISKFILTER_RAID10 then
    let n := seg.layout &&& 0xFF
    let n := if n = 1 then (seg.layout >>> 8) &&& 0xFF else n
    (seg.node_count : Int) - (n : Int) + 1
  else
    need

mutual
/-- Function `is_node_readable` (lines 50-60). -/
def is_node_readable (pvs : Nat → grub_diskfilter_pv) :
    grub_diskfilter_node → Bool → Bool
  | .mk _ _ (some pv) _, _ => (pvs pv).disk.isSome
  | .mk _ _ none (some lv), easily => is_lv_readable pvs lv easily
  | .mk _ _ none none, _ => false
/-- Function `is_lv_readable` (lines 62-111), for a non-`NULL` volume. -/
def is_lv_readable (pvs : Nat → grub_diskfilter_pv) :
    grub_diskfilter_lv → Bool → Bool
  | { segments := segs, .. }, easily => is_lv_readable_segments pvs segs easily
/-- The loop over the segments (lines 68-108): `return 0` at the first segment
with `have < need`, `return 1` after the last. -/
def is_lv_readable_segments (pvs : Nat → grub_diskfilter_pv) :
    List grub_diskfilter_seg → Bool → Bool
  | [], _ => true
  | seg :: rest, easily =>
    if is_lv_readable_have pvs seg.nodes easily (is_lv_readable_need seg easily) 0
        < is_lv_readable_need seg easily then
      false
    else
      is_lv_readable_segments pvs rest easily
/-- The loop over the nodes (lines 99-105), entered with the current `have`:
the value of `have` when the loop is left, by `break` or at the end. -/
def is_lv_readable_have (pvs : Nat → grub_diskfilter_pv) :
    List grub_diskfilter_node → Bool → Int → Int → Int
  | [], _, _, have_ => have_
  | node :: rest, easily, need, have_ =>
    let have_ := if is_node_readable pvs node easily then have_ + 1 else have_
    if have_ ≥ need then have_ else is_lv_readable_have pvs rest easily need have_
end

/-! ## Segment validation (diskfilter.c:534-618) -/

mutual
/-- Function `validate_node` (lines 555-565). -/
def validate_node : grub_diskfilter_node → grub_err_t
  | .mk _ _ (some _) _ => GRUB_ERR_NONE
  | .mk _ _ none (some lv) => validate_lv lv
  | .mk _ _ none none => GRUB_ERR_UNKNOWN_DEVICE
/-- Function `validate_lv` (lines 534-552), for a non-`NULL` volume. -/
def validate_lv : grub_diskfilter_lv → grub_err_t
  | { segments := segs, vg := vg, .. } =>
    if vg = none ∨ vg = some 0 then GRUB_ERR_READ_ERROR
    else validate_lv_segments segs
/-- The loop of `validate_lv` over the segments (lines 544-550). -/
def validate_lv_segments : List grub_diskfilter_seg → grub_err_t
  | [] => GRUB_ERR_NONE
  | seg :: rest =>
    if validate_segment seg ≠ GRUB_ERR_NONE then validate_segment seg
    else validate_lv_segments rest
/-- Function `validate_segment` (lines 567-618). In the case of RAID10 `near`
and `far` are `grub_uint8_t`, which the masks with `0xFF` already are. -/
def validate_segment : grub_diskfilter_seg → grub_err_t
  | { type := type, layout := layout, nodes := nodes, stripe_size := stripe_size, .. } =>
    if stripe_size = 0 ∨ nodes.length = 0 then GRUB_ERR_BAD_FS
    else if type = GRUB_DISKFILTER_RAID10 then
      if layout >>> 16 = 0 ∧ (layout >>> 8) &&& 0xFF = 0 then GRUB_ERR_BAD_FS
      else if layout &&& 0xFF > nodes.length then GRUB_ERR_BAD_FS
      else validate_segment_nodes nodes
    else if type = GRUB_DISKFILTER_STRIPED ∨ type = GRUB_DISKFILTER_MIRROR then
      validate_segment_nodes nodes
    else if type = GRUB_DISKFILTER_RAID4 ∨ type = GRUB_DISKFILTER_RAID5 then
      if nodes.length ≤ 1 then GRUB_ERR_BAD_FS
      else validate_segment_nodes nodes
    else if type = GRUB_DISKFILTER_RAID6 then
      if nodes.length ≤ 2 then GRUB_ERR_BAD_FS
      else validate_segment_nodes nodes
    else GRUB_ERR_NOT_IMPLEMENTED_YET
/-- The loop of `validate_segment` over the nodes (lines 610-615). -/
def validate_segment_nodes : List grub_diskfilter_node → grub_err_t
  | [] => GRUB_ERR_NONE
  | node :: rest =>
    if validate_node node ≠ GRUB_ERR_NONE then validate_node node
    else validate_segment_nodes rest
end

/-! ## The read path (diskfilter.c:507-528, 620-939)

The read path is embedded with the calls it makes made explicit: a read
returns the error code together with the record of the calls made, in call
order. -/

/-- A call made by the read path, with the error code it returned.
* `disk_read`: `grub_disk_read (disk, sector, offset, size, buf)`, `size` in bytes;
* `node_read`: `grub_diskfilter_read_node (&seg->nodes[k], sector, size, buf)`
  made by `read_segment`, with the calls made inside it;
* `segment_read`: `read_segment (&lv->segments[i], sector, size, buf)` made by
  `read_lv`, with the calls made inside it;
* `raid5_recover`: `(*grub_raid5_recover_func) (seg, disknr, buf, sector, size)`;
* `raid6_recover`: `(*grub_raid6_recover_func) (seg, disknr, p, buf, sector, size)`.
The buffer `buf` is the offset in bytes from the start of the caller's buffer. -/
inductive Event where
  | disk_read (disk sector offset size buf : Nat) (err : grub_err_t)
  | node_read (k sector size buf : Nat) (err : grub_err_t) (sub : List Event)
  | segment_read (i sector size buf : Nat) (err : grub_err_t) (sub : List Event)
  | raid5_recover (disknr buf sector size : Nat) (err : grub_err_t)
  | raid6_recover (disknr p buf sector size : Nat) (err : grub_err_t)

/-- The result of a read: `none` is a fault (a division by zero or an index
outside `seg->nodes`), else the returned error code and the calls made. -/
abbrev Res := Option (grub_err_t × List Event)

/-- A reader of one node or one segment: sector, size in sectors, buffer. -/
abbrev Reader := Nat → Nat → Nat → Res

/-- The surroundings of the read path: the heap of physical members, the
device layer, the two recovery strategies (`none` when the module is not
loaded), and the constants of headers that are not among the sources
(`grub/diskfilter.h` for the layout masks, `grub/disk.h` for the sector bits). -/
structure Env where
  pvs : Nat → grub_diskfilter_pv
  grub_disk_read : Nat → Nat → Nat → Nat → Nat → grub_err_t
  grub_raid5_recover_func :
    Option (grub_diskfilter_seg → Nat → Nat → Nat → Nat → grub_err_t)
  grub_raid6_recover_func :
    Option (grub_diskfilter_seg → Nat → Nat → Nat → Nat → Nat → grub_err_t)
  GRUB_RAID_LAYOUT_RIGHT_MASK : Nat
  GRUB_RAID_LAYOUT_SYMMETRIC_MASK : Nat
  GRUB_DISK_SECTOR_BITS : Nat

/-- Function `grub_divmod64 (n, d, &r)`: quotient and remainder; a zero
divisor is a fault. -/
def grub_divmod64 (n d : Nat) : Option (Nat × Nat) :=
  if d = 0 then none else some (n / d, n % d)

/-- How control leaves a loop of `read_segment`: by `return err` out of the
function, or past the end of the loop (by `break` or by its condition) with the
loop variables `s`. -/
inductive Flow (σ : Type) where
  | ret (err : grub_err_t)
  | next (s : σ)

/-- The call `grub_diskfilter_read_node (&seg->nodes[k], sector, size, buf)` of
`read_segment`, given the readers of the nodes of the segment. -/
def read_segment_node (rd : List Reader) (k sector size buf : Nat) :
    Option (grub_err_t × Event) :=
  match rd[k]? with
  | none => none
  | some f =>
    match f sector size buf with
    | none => none
    | some (err, sub) => some (err, Event.node_read k sector size buf err sub)

/-- The loop over the far copies (lines 683-702) with `n` iterations left,
entered at index `j` with member `k` and the current `err`. -/
def read_segment_far_loop (rd : List Reader) (node_count read_sector far_ofs b read_size buf : Nat) :
    Nat → Nat → Nat → grub_err_t → Option (Flow grub_err_t × List Event)
  | 0, _, _, err => some (Flow.next err, [])
  | n + 1, j, k, _ =>
    match read_segment_node rd k (read_sector + j * far_ofs + b) read_size buf with
    | none => none
    | some (err, ev) =>
      if err = GRUB_ERR_NONE then some (Flow.next err, [ev])
      else if err ≠ GRUB_ERR_READ_ERROR ∧ err ≠ GRUB_ERR_UNKNOWN_DEVICE then
        some (Flow.ret err, [ev])
      else
        let k := k + 1
        let k := if k = node_count then 0 else k
        match read_segment_far_loop rd node_count read_sector far_ofs b read_size buf n (j + 1) k err with
        | none => none
        | some (fl, tr) => some (fl, ev :: tr)

/-- The variables of the loop over the near copies that are used after it. -/
structure NearState where
  i : Nat
  disknr : Nat
  read_sector : Nat
  err : grub_err_t

/-- The loop over the near copies (lines 677-713) with `n` iterations left,
entered at index `i` with the current `disknr`, `read_sector` and `err`. -/
def read_segment_near_loop (rd : List Reader) (node_count far ofs far_ofs b read_size buf : Nat) :
    Nat → Nat → Nat → Nat → grub_err_t → Option (Flow NearState × List Event)
  | 0, i, disknr, read_sector, err => some (Flow.next ⟨i, disknr, read_sector, err⟩, [])
  | n + 1, i, disknr, read_sector, _ =>
    match read_segment_far_loop rd node_count read_sector far_ofs b read_size buf far 0 disknr
        GRUB_ERR_NONE with
    | none => none
    | some (Flow.ret err, tr) => some (Flow.ret err, tr)
    | some (Flow.next err, tr) =>
      if err = GRUB_ERR_NONE then some (Flow.next ⟨i, disknr, read_sector, err⟩, tr)
      else
        let disknr := disknr + 1
        let wrapped := decide (disknr = node_count)
        let read_sector := if wrapped then read_sector + ofs else read_sector
        let disknr := if wrapped then 0 else disknr
        match read_segment_near_loop rd node_count far ofs far_ofs b read_size buf n (i + 1) disknr
            read_sector err with
        | none => none
        | some (fl, tr2) => some (fl, tr ++ tr2)

/-- The loop `while (disknr >= seg->node_count)` (lines 725-729), with `fuel`
iterations allowed: the final `disknr` and `read_sector`. -/
def read_segment_wrap_loop (node_count ofs : Nat) : Nat → Nat → Nat → Nat × Nat
  | 0, disknr, read_sector => (disknr, read_sector)
  | fuel + 1, disknr, read_sector =>
    if disknr ≥ node_count then
      read_segment_wrap_loop node_count ofs fuel (disknr - node_count) (read_sector + ofs)
    else (disknr, read_sector)

/-- The loop `while (1)` of the striped, mirror and RAID10 case (lines
668-730). Every iteration but the last consumes at least one sector, so `fuel`
= `size` iterations after the first are enough; `none` when they are not. -/
def read_segment_copies_loop (bits : Nat) (rd : List Reader) (node_count stripe_size near far ofs far_ofs : Nat) :
    Nat → Nat → Nat → Nat → Nat → Nat → Res
  | fuel, disknr, read_sector, b, size, buf =>
    let read_size := stripe_size - b
    let read_size := if read_size > size then size else read_size
    match read_segment_near_loop rd node_count far ofs far_ofs b read_size buf near 0 disknr
        read_sector GRUB_ERR_NONE with
    | none => none
    | some (Flow.ret err, tr) => some (err, tr)
    | some (Flow.next st, tr) =>
      if st.err ≠ GRUB_ERR_NONE then some (st.err, tr)
      else
        let buf := buf + (read_size <<< bits)
        let size := size - read_size
        if size = 0 then some (GRUB_ERR_NONE, tr)
        else
          let disknr := st.disknr + (near - st.i)
          let w := read_segment_wrap_loop node_count ofs disknr disknr st.read_sector
          match fuel with
          | 0 => none
          | fuel + 1 =>
            match read_segment_copies_loop bits rd node_count stripe_size near far ofs far_ofs
                fuel w.1 w.2 0 size buf with
            | none => none
            | some (err, tr2) => some (err, tr ++ tr2)

/-- The set-up of the striped, mirror and RAID10 case (lines 639-666): the
values of `near`, `far`, `ofs`, `far_ofs`, `disknr`, `read_sector` and `b` with
which the loop `while (1)` is entered. -/
def read_segment_copies_start (seg : grub_diskfilter_seg) (sector : Nat) :
    Option (Nat × Nat × Nat × Nat × Nat × Nat × Nat) :=
  match grub_divmod64 sector seg.stripe_size with
  | none => none
  | some (read_sector, b) =>
    let layout_vars : Option (Nat × Nat × Nat × Nat) :=
      if seg.type = 1 then some (seg.node_count, 1, 1, 0)
      else if seg.type = 10 then
        let near := seg.layout &&& 0xFF
        let far := (seg.layout >>> 8) &&& 0xFF
        if seg.layout >>> 16 ≠ 0 then some (near, far, far, 1 * seg.stripe_size)
        else
          match grub_divmod64 seg.raid_member_size (far * seg.stripe_size) with
          | none => none
          | some (far_ofs, _) => some (near, far, 1, far_ofs * seg.stripe_size)
      else some (1, 1, 1, 0)
    match layout_vars with
    | none => none
    | some (near, far, ofs, far_ofs) =>
      match grub_divmod64 (read_sector * near) seg.node_count with
      | none => none
      | some (read_sector, disknr) =>
        let ofs := ofs * seg.stripe_size
        let read_sector := read_sector * ofs
        some (near, far, ofs, far_ofs, disknr, read_sector, b)

/-- The parity position of a stripe row of a RAID5 or RAID6 segment (lines
749-752), from the remainder `p` of the row number by `node_count`. -/
def read_segment_parity_p (env : Env) (seg : grub_diskfilter_seg) (p : Nat) : Nat :=
  if seg.layout &&& env.GRUB_RAID_LAYOUT_RIGHT_MASK = 0 then seg.node_count - 1 - p else p

/-- The member of a data block of a RAID5 or RAID6 segment (lines 754-773),
from the parity position `p` of its row and its index `disknr` among the data
blocks of the row. -/
def read_segment_parity_disknr (env : Env) (seg : grub_diskfilter_seg) (n p disknr : Nat) : Nat :=
  let disknr :=
    if seg.layout &&& env.GRUB_RAID_LAYOUT_SYMMETRIC_MASK ≠ 0 then disknr + (p + n)
    else
      let q := p + (n - 1)
      let q := if q ≥ seg.node_count then q - seg.node_count else q
      if disknr ≥ p then disknr + n
      else if disknr ≥ q then disknr + (q + 1)
      else disknr
  if disknr ≥ seg.node_count then disknr - seg.node_count else disknr

/-- The set-up of the RAID4, RAID5 and RAID6 case (lines 740-777), with `n`
the number of parity blocks: the values of `disknr`, `read_sector`, `p` and `b`
with which the loop `while (1)` is entered. The subtraction `node_count - n` is
truncated; the source wraps it when `node_count < n`, which validation
excludes. -/
def read_segment_parity_start (env : Env) (seg : grub_diskfilter_seg) (n sector : Nat) :
    Option (Nat × Nat × Nat × Nat) :=
  match grub_divmod64 sector seg.stripe_size with
  | none => none
  | some (read_sector, b) =>
    match grub_divmod64 read_sector (seg.node_count - n) with
    | none => none
    | some (read_sector, disknr) =>
      if seg.type ≥ 5 then
        match grub_divmod64 read_sector seg.node_count with
        | none => none
        | some (_, p) =>
          let p := read_segment_parity_p env seg p
          let disknr := read_segment_parity_disknr env seg n p disknr
          some (disknr, read_sector * seg.stripe_size, p, b)
      else
        some (disknr, read_sector * seg.stripe_size, seg.node_count - n, b)

/-- The end of one iteration of the parity loop (lines 836-884), after `b = 0`:
the next `disknr`, `read_sector` and `p`. -/
def read_segment_parity_next (env : Env) (seg : grub_diskfilter_seg) (n : Nat)
    (disknr read_sector p : Nat) : Nat × Nat × Nat :=
  let disknr := disknr + 1
  let symmetric := decide (seg.layout &&& env.GRUB_RAID_LAYOUT_SYMMETRIC_MASK ≠ 0)
  let disknr :=
    if symmetric then (if disknr = seg.node_count then 0 else disknr)
    else (if disknr = p then disknr + n else disknr)
  let next_level := if symmetric then decide (disknr = p) else decide (disknr ≥ seg.node_count)
  if next_level then
    let read_sector := read_sector + seg.stripe_size
    if seg.type ≥ 5 then
      let p :=
        if seg.layout &&& env.GRUB_RAID_LAYOUT_RIGHT_MASK ≠ 0 then
          (if p = seg.node_count - 1 then 0 else p + 1)
        else (if p = 0 then seg.node_count - 1 else p - 1)
      if symmetric then
        let disknr := p + n
        let disknr := if disknr ≥ seg.node_count then disknr - seg.node_count else disknr
        (disknr, read_sector, p)
      else
        let disknr := disknr - seg.node_count
        let disknr :=
          if (disknr ≥ p ∧ disknr < p + n)
              ∨ (disknr + seg.node_count ≥ p ∧ disknr + seg.node_count < p + n) then p + n
          else disknr
        let disknr := if disknr ≥ seg.node_count then disknr - seg.node_count else disknr
        (disknr, read_sector, p)
    else (0, read_sector, p)
  else (disknr, read_sector, p)

/-- The recovery of a failed member read (lines 802-825): the strategy of the
level is called when it is registered, else the error is that of
`grub_error (GRUB_ERR_BAD_DEVICE, "module isn't loaded")`. -/
def read_segment_recover (env : Env) (seg : grub_diskfilter_seg)
    (disknr p buf sector size : Nat) : grub_err_t × List Event :=
  if seg.type = GRUB_DISKFILTER_RAID6 then
    match env.grub_raid6_recover_func with
    | some f =>
      (f seg disknr p buf sector size,
        [Event.raid6_recover disknr p buf sector size (f seg disknr p buf sector size)])
    | none => (GRUB_ERR_BAD_DEVICE, [])
  else
    match env.grub_raid5_recover_func with
    | some f =>
      (f seg disknr buf sector size,
        [Event.raid5_recover disknr buf sector size (f seg disknr buf sector size)])
    | none => (GRUB_ERR_BAD_DEVICE, [])

/-- The loop `while (1)` of the RAID4, RAID5 and RAID6 case (lines 779-885).
Every iteration but the last consumes at least one sector, so `fuel` = `size`
iterations after the first are enough; `none` when they are not. -/
def read_segment_parity_loop (env : Env) (rd : List Reader) (seg : grub_diskfilter_seg) (n : Nat) :
    Nat → Nat → Nat → Nat → Nat → Nat → Nat → Res
  | fuel, disknr, read_sector, p, b, size, buf =>
    let read_size := seg.stripe_size - b
    let read_size := if read_size > size then size else read_size
    match read_segment_node rd disknr (read_sector + b) read_size buf with
    | none => none
    | some (err, ev) =>
      if err ≠ GRUB_ERR_NONE ∧ (err ≠ GRUB_ERR_READ_ERROR ∧ err ≠ GRUB_ERR_UNKNOWN_DEVICE) then
        some (err, [ev])
      else
        let rc : grub_err_t × List Event :=
          if err ≠ GRUB_ERR_NONE then
            read_segment_recover env seg disknr p buf (read_sector + b) read_size
          else (err, [])
        if rc.1 ≠ GRUB_ERR_NONE then some (rc.1, ev :: rc.2)
        else
          let buf := buf + (read_size <<< env.GRUB_DISK_SECTOR_BITS)
          let size := size - read_size
          if size = 0 then some (GRUB_ERR_NONE, ev :: rc.2)
          else
            let nx := read_segment_parity_next env seg n disknr read_sector p
            match fuel with
            | 0 => none
            | fuel + 1 =>
              match read_segment_parity_loop env rd seg n fuel nx.1 nx.2.1 nx.2.2 0 size buf with
              | none => none
              | some (err2, tr2) => some (err2, ev :: rc.2 ++ tr2)

/-- Function `read_segment` (lines 620-892), given the readers of the nodes of
the segment. -/
def read_segment_with (env : Env) (rd : List Reader) (seg : grub_diskfilter_seg)
    (sector size buf : Nat) : Res :=
  if seg.type = GRUB_DISKFILTER_STRIPED ∧ seg.node_count = 1 then
    match read_segment_node rd 0 sector size buf with
    | none => none
    | some (err, ev) => some (err, [ev])
  else if seg.type = GRUB_DISKFILTER_STRIPED ∨ seg.type = GRUB_DISKFILTER_MIRROR
      ∨ seg.type = GRUB_DISKFILTER_RAID10 then
    match read_segment_copies_start seg sector with
    | none => none
    | some (near, far, ofs, far_ofs, disknr, read_sector, b) =>
      read_segment_copies_loop env.GRUB_DISK_SECTOR_BITS rd seg.node_count seg.stripe_size
        near far ofs far_ofs size disknr read_sector b size buf
  else if seg.type = GRUB_DISKFILTER_RAID4 ∨ seg.type = GRUB_DISKFILTER_RAID5
      ∨ seg.type = GRUB_DISKFILTER_RAID6 then
    match read_segment_parity_start env seg (seg.type / 3) sector with
    | none => none
    | some (disknr, read_sector, p, b) =>
      read_segment_parity_loop env rd seg (seg.type / 3) size disknr read_sector p b size buf
  else some (GRUB_ERR_NOT_IMPLEMENTED_YET, [])

/-- The search for the segment of an extent in `read_lv` (lines 912-923),
entered at index `i`: the index of the first segment from there whose extent
range contains `extent`, `none` when the loop ends with `i == segment_count`. -/
def read_lv_find_segment (extent : Nat) : List grub_diskfilter_seg → Nat → Option Nat
  | [], _ => none
  | seg :: rest, i =>
    if seg.start_extent ≤ extent ∧ seg.start_extent + seg.extent_count > extent then some i
    else read_lv_find_segment extent rest (i + 1)

/-- The loop `while (size)` of `read_lv` (lines 901-937), given the segments,
their readers and `lv->vg`. A `NULL` `lv->vg` is a fault. Every iteration
consumes at least one sector, so `fuel` = `size` iterations are enough; `none`
when they are not. -/
def read_lv_loop (bits : Nat) (segs : List grub_diskfilter_seg) (rd : List Reader)
    (vg : Option Nat) : Nat → Nat → Nat → Nat → Res
  | fuel, sector, size, buf =>
    if size = 0 then some (GRUB_ERR_NONE, [])
    else
      match vg with
      | none => none
      | some extent_size =>
        match grub_divmod64 sector extent_size with
        | none => none
        | some (extent, _) =>
          match read_lv_find_segment extent segs 0 with
          | none => some (GRUB_ERR_READ_ERROR, [])
          | some i =>
            match segs[i]?, rd[i]? with
            | some seg, some f =>
              let to_read := (seg.start_extent + seg.extent_count) * extent_size - sector
              let to_read := if to_read > size then size else to_read
              match f (sector - seg.start_extent * extent_size) to_read buf with
              | none => none
              | some (err, sub) =>
                let ev := Event.segment_read i (sector - seg.start_extent * extent_size)
                  to_read buf err sub
                if err ≠ GRUB_ERR_NONE then some (err, [ev])
                else
                  match fuel with
                  | 0 => none
                  | fuel + 1 =>
                    match read_lv_loop bits segs rd vg fuel (sector + to_read) (size - to_read)
                        (buf + (to_read <<< bits)) with
                    | none => none
                    | some (err2, tr2) => some (err2, ev :: tr2)
            | _, _ => none

mutual
/-- Function `grub_diskfilter_read_node` (lines 507-528). -/
def grub_diskfilter_read_node (env : Env) : grub_diskfilter_node → Reader
  | .mk _ start (some pv) _, sector, size, buf =>
    match (env.pvs pv).disk with
    | some disk =>
      some (env.grub_disk_read disk (sector + start + (env.pvs pv).start_sector) 0
              (size <<< env.GRUB_DISK_SECTOR_BITS) buf,
            [Event.disk_read disk (sector + start + (env.pvs pv).start_sector) 0
              (size <<< env.GRUB_DISK_SECTOR_BITS) buf
              (env.grub_disk_read disk (sector + start + (env.pvs pv).start_sector) 0
                (size <<< env.GRUB_DISK_SECTOR_BITS) buf)])
    | none => some (GRUB_ERR_UNKNOWN_DEVICE, [])
  | .mk _ start none (some lv), sector, size, buf => read_lv env lv (sector + start) size buf
  | .mk _ _ none none, _, _, _ => some (GRUB_ERR_UNKNOWN_DEVICE, [])
/-- The readers of the nodes of a segment: `grub_diskfilter_read_node` on each. -/
def read_segment_readers (env : Env) : List grub_diskfilter_node → List Reader
  | [] => []
  | node :: rest => grub_diskfilter_read_node env node :: read_segment_readers env rest
/-- Function `read_lv` (lines 894-939), for a non-`NULL` volume. -/
def read_lv (env : Env) : grub_diskfilter_lv → Reader
  | { segments := segs, vg := vg, .. }, sector, size, buf =>
    read_lv_loop env.GRUB_DISK_SECTOR_BITS segs (read_lv_readers env segs) vg size sector size buf
/-- The readers of the segments of a volume: `read_segment` on each. -/
def read_lv_readers (env : Env) : List grub_diskfilter_seg → List Reader
  | [] => []
  | seg :: rest =>
    read_segment_with env (read_segment_readers env seg.nodes) seg :: read_lv_readers env rest
end

/-- Function `read_segment` (lines 620-892). -/
def read_segment (env : Env) (seg : grub_diskfilter_seg) : Reader :=
  read_segment_with env (read_segment_readers env seg.nodes) seg

/-! ## Definitions used to state the properties -/

/-- The number of live nodes of a segment, counting every node. -/
def live_nodes (pvs : Nat → grub_diskfilter_pv) (seg : grub_diskfilter_seg) (easily : Bool) : Nat :=
  seg.nodes.countP (fun node => is_node_readable pvs node easily)

/-- A node that references the physical member at address `a`, at offset 0. -/
def pv_node (a : Nat) : grub_diskfilter_node := .mk "" 0 (some a) none

/-- A heap of physical members in which the member at address `a` carries the
device `a` when `att a`, and no device otherwise. -/
def heap_of (att : Nat → Bool) : Nat → grub_diskfilter_pv :=
  fun a => ⟨⟨0, [], a⟩, none, if att a then some a else none, 0, 0, 0⟩

/-- A segment of the given type and layout over the members at the addresses
`0 .. n-1`, starting at extent 0. -/
def segment_of (type layout n stripe_size extent_count raid_member_size : Nat) : grub_diskfilter_seg :=
  ⟨0, extent_count, type, layout, raid_member_size, (List.range n).map pv_node, stripe_size⟩

/-- A logical volume with the given segments in a group of the given extent size. -/
def volume_of (segs : List grub_diskfilter_seg) (extent_size : Nat) : grub_diskfilter_lv :=
  { fullname := none, idname := none, name := none, number := 0, size := 0,
    became_readable_at := 0, scanned := false, visible := false,
    segments := segs, vg := some extent_size }

/-- The node references a physical member with an attached device. -/
def node_attached (pvs : Nat → grub_diskfilter_pv) (node : grub_diskfilter_node) : Bool :=
  match node.pv with
  | some a => (pvs a).disk.isSome
  | none => false

/-- The number of nodes of a segment that reference a physical member with an
attached device. -/
def attached_nodes (pvs : Nat → grub_diskfilter_pv) (seg : grub_diskfilter_seg) : Nat :=
  seg.nodes.countP (node_attached pvs)

/-- The near-copy count of a RAID10 layout code: its low byte. -/
def raid10_near (layout : Nat) : Nat := layout &&& 0xFF

/-- The far-copy count of a RAID10 layout code: its second byte. -/
def raid10_far (layout : Nat) : Nat := (layout >>> 8) &&& 0xFF

/-- A RAID10 segment of 4 members with 1 near copy and 2 far copies. -/
def c2_segment : grub_diskfilter_seg := segment_of GRUB_DISKFILTER_RAID10 0x201 4 8 64 16

/-- The call recorded by a `node_read` event: member index, sector, size in
sectors, buffer and returned error code; `none` for the other events. -/
def Event.node_call : Event → Option (Nat × Nat × Nat × Nat × grub_err_t)
  | Event.node_read k sector size buf err _ => some (k, sector, size, buf, err)
  | _ => none

/-- The member reads issued by `read_segment`, in order. -/
def node_calls (tr : List Event) : List (Nat × Nat × Nat × Nat × grub_err_t) :=
  tr.filterMap Event.node_call

/-- The candidates (member index, member-relative sector) are read in order,
each with the same size and buffer, until one read does not fail with
`GRUB_ERR_READ_ERROR` or `GRUB_ERR_UNKNOWN_DEVICE`: the error code of the last
read made (`err` when there is no candidate) and the reads made. -/
def try_candidates (rd : List Reader) (read_size buf : Nat) :
    List (Nat × Nat) → grub_err_t → Option (grub_err_t × List Event)
  | [], err => some (err, [])
  | c :: rest, _ =>
    match read_segment_node rd c.1 c.2 read_size buf with
    | none => none
    | some (err, ev) =>
      if err = GRUB_ERR_READ_ERROR ∨ err = GRUB_ERR_UNKNOWN_DEVICE then
        match try_candidates rd read_size buf rest err with
        | none => none
        | some (err2, tr) => some (err2, ev :: tr)
      else some (err, [ev])

/-- The far copies of the near candidate on member `d` at sector `rs`: far copy
`j` is on member `(d + j) mod N` at sector `rs + j * far_ofs + b`. -/
def far_candidates (N far far_ofs b d rs : Nat) : List (Nat × Nat) :=
  (List.range far).map (fun j => ((d + j) % N, rs + j * far_ofs + b))

/-- The candidates of one chunk, near copy by near copy and within each far
copy by far copy, when the first near candidate is member `d` at sector `rs`:
near candidate `i` is member `(d + i) mod N`, `(d + i) div N` rows of `ofs`
sectors further. -/
def copies_candidates (N near far ofs far_ofs b d rs : Nat) : List (Nat × Nat) :=
  (List.range near).flatMap
    (fun i => far_candidates N far far_ofs b ((d + i) % N) (rs + (d + i) / N * ofs))

/-- The error code with which a loop of `read_segment` is left. -/
def Flow.err : Flow grub_err_t → grub_err_t
  | Flow.ret e => e
  | Flow.next e => e

/-- The error code with which the loop over the near copies is left. -/
def Flow.near_err : Flow NearState → grub_err_t
  | Flow.ret e => e
  | Flow.next st => st.err

/-- Every member read succeeds: the reader of each of the first `N` nodes
returns `GRUB_ERR_NONE` for every request. -/
def all_healthy (rd : List Reader) (N : Nat) : Prop :=
  ∀ k, k < N → ∃ f, rd[k]? = some f ∧ ∀ s z b, ∃ sub, f s z b = some (GRUB_ERR_NONE, sub)

/-- The member reads of a request `(x, size)` over `D` data members in stripes
of `S` sectors when every read succeeds: the request is cut at the stripe
boundaries, and the piece that starts at logical sector `x` is read from member
`(x div S) mod D` at member-relative sector `((x div S) div D) * S + x mod S`. -/
def striped_calls (bits S D : Nat) :
    Nat → Nat → Nat → Nat → List (Nat × Nat × Nat × Nat × grub_err_t)
  | fuel, x, size, buf =>
    let len := if S - x % S > size then size else S - x % S
    (x / S % D, x / S / D * S + x % S, len, buf, GRUB_ERR_NONE) ::
      (if size - len = 0 then []
       else
        match fuel with
        | 0 => []
        | fuel + 1 => striped_calls bits S D fuel (x + len) (size - len) (buf + (len <<< bits)))

/-- The outcome of a read reduced to the returned error code and the member
reads issued by `read_segment`. -/
def res_calls (r : Res) : Option (grub_err_t × List (Nat × Nat × Nat × Nat × grub_err_t)) :=
  r.map (fun p => (p.1, node_calls p.2))

/-- Every node of the segment references a physical member with an attached
device, every read of which succeeds. -/
def members_read_successfully (env : Env) (seg : grub_diskfilter_seg) : Prop :=
  ∀ node ∈ seg.nodes, ∃ a d, node.pv = some a ∧ (env.pvs a).disk = some d
    ∧ ∀ s o z b, env.grub_disk_read d s o z b = GRUB_ERR_NONE

/-- Surroundings in which the member at address `a` carries the device `a` when
`att a`, the read of the device `d` returns `dev d`, no recovery strategy is
registered, the layout masks are 1 (right) and 2 (symmetric) and a sector has
`2^9` bytes. -/
def env_of (att : Nat → Bool) (dev : Nat → grub_err_t) : Env where
  pvs := heap_of att
  grub_disk_read := fun d _ _ _ _ => dev d
  grub_raid5_recover_func := none
  grub_raid6_recover_func := none
  GRUB_RAID_LAYOUT_RIGHT_MASK := 1
  GRUB_RAID_LAYOUT_SYMMETRIC_MASK := 2
  GRUB_DISK_SECTOR_BITS := 9

/-- Surroundings in which every member is attached and every read succeeds. -/
def env_ok : Env := env_of (fun _ => true) (fun _ => GRUB_ERR_NONE)

/-- A STRIPED segment of 2 members with stripe size 1. -/
def c3_segment : grub_diskfilter_seg := segment_of GRUB_DISKFILTER_STRIPED 0 2 1 64 32

/-- A RAID5 segment of 4 members with stripe size 2 and layout code 0. -/
def c4_segment : grub_diskfilter_seg := segment_of GRUB_DISKFILTER_RAID5 0 4 2 64 32

/-- A RAID4 segment of 3 members with stripe size 2. -/
def c5_segment : grub_diskfilter_seg := segment_of GRUB_DISKFILTER_RAID4 0 3 2 64 32

/-- The parity member index given to a recovery strategy by a recorded call:
the RAID6 strategy is called with one, the RAID5 strategy is not. -/
def Event.parity_index : Event → Option Nat
  | Event.raid6_recover _ p _ _ _ _ => some p
  | _ => none

/-- Surroundings like `env_of att dev` in which both recovery strategies are
registered and succeed. -/
def env_recover (att : Nat → Bool) (dev : Nat → grub_err_t) : Env where
  pvs := heap_of att
  grub_disk_read := fun d _ _ _ _ => dev d
  grub_raid5_recover_func := some (fun _ _ _ _ _ => GRUB_ERR_NONE)
  grub_raid6_recover_func := some (fun _ _ _ _ _ _ => GRUB_ERR_NONE)
  GRUB_RAID_LAYOUT_RIGHT_MASK := 1
  GRUB_RAID_LAYOUT_SYMMETRIC_MASK := 2
  GRUB_DISK_SECTOR_BITS := 9

/-- A RAID6 segment of 4 members with stripe size 2 and layout code 0. -/
def c10_segment : grub_diskfilter_seg := segment_of GRUB_DISKFILTER_RAID6 0 4 2 64 32

/-- The height of a row of a RAID10 segment in sectors: `far` stripes in
far-offset mode, one stripe otherwise (the final `ofs` of `read_segment`). -/
def raid10_ofs (seg : grub_diskfilter_seg) : Nat :=
  (if seg.layout >>> 16 ≠ 0 then raid10_far seg.layout else 1) * seg.stripe_size

/-- The distance in sectors between two consecutive far copies of a RAID10
segment: one stripe in far-offset mode, and
`raid_member_size div (far * stripe_size)` stripes otherwise (the final
`far_ofs` of `read_segment`). -/
def raid10_far_ofs (seg : grub_diskfilter_seg) : Nat :=
  (if seg.layout >>> 16 ≠ 0 then 1
    else seg.raid_member_size / (raid10_far seg.layout * seg.stripe_size)) * seg.stripe_size

/-- A RAID10 segment of 4 members with stripe size 4, 2 near copies and 1 far
copy. -/
def c7_segment : grub_diskfilter_seg := segment_of GRUB_DISKFILTER_RAID10 0x102 4 4 64 32

/-- A RAID10 segment of 2 members of 32 sectors with stripe size 4, 1 near copy
and 2 far copies, not in far-offset mode. -/
def c8_segment_far : grub_diskfilter_seg := segment_of GRUB_DISKFILTER_RAID10 0x201 2 4 64 32

/-- A MIRROR segment of 2 members with the stripe size 64 set at registration. -/
def c6_segment : grub_diskfilter_seg := segment_of GRUB_DISKFILTER_MIRROR 0 2 64 64 32

/-- A RAID10 segment of 2 members of 32 sectors with stripe size 4, 1 near copy
and 3 far copies, covering the extents 0 to 63. -/
def c9_segment : grub_diskfilter_seg := segment_of GRUB_DISKFILTER_RAID10 0x301 2 4 64 32

/-- The volume that consists of `c9_segment`, in a group of extent size 1. -/
def c9_volume : grub_diskfilter_lv := volume_of [c9_segment] 1

/-- The chunks of a request `(x, size)` read into `buf` with stripe size `S`:
the request cut at the stripe boundaries, each chunk with its first logical
sector, its length in sectors and its place in the buffer. -/
def request_chunks (bits S : Nat) : Nat → Nat → Nat → Nat → List (Nat × Nat × Nat)
  | fuel, x, size, buf =>
    let len := if S - x % S > size then size else S - x % S
    (x, len, buf) ::
      (if size - len = 0 then []
       else
        match fuel with
        | 0 => []
        | fuel + 1 => request_chunks bits S fuel (x + len) (size - len) (buf + (len <<< bits)))

/-- No read of one of the first `N` nodes faults. -/
def no_read_faults (rd : List Reader) (N : Nat) : Prop :=
  ∀ k, k < N → ∀ s z b, ∃ r, read_segment_node rd k s z b = some r

/-- Every read of a device succeeds. -/
def device_reads_succeed (env : Env) : Prop :=
  ∀ d s o z b, env.grub_disk_read d s o z b = GRUB_ERR_NONE

/-- Every sector of the request `(sector, size)` lies in the extent range of one
of the segments, in a group of extent size `E`. -/
def request_in_segments (segs : List grub_diskfilter_seg) (E sector size : Nat) : Prop :=
  ∀ t, sector ≤ t → t < sector + size →
    ∃ seg ∈ segs, seg.start_extent * E ≤ t ∧ t < (seg.start_extent + seg.extent_count) * E


/-- No recovery strategy is registered for the level of the segment: the RAID6
strategy for RAID6, the RAID5 strategy for the other levels. -/
def no_recovery_strategy (env : Env) (seg : grub_diskfilter_seg) : Prop :=
  (seg.type = GRUB_DISKFILTER_RAID6 → env.grub_raid6_recover_func = none)
  ∧ (seg.type ≠ GRUB_DISKFILTER_RAID6 → env.grub_raid5_recover_func = none)

/-- The read of a request of `size` sectors by a striped, mirror or RAID10
segment, chunk by chunk: the request is cut at the stripe boundaries (the first
chunk starts at offset `b` of its stripe), the candidates of a chunk whose
first near candidate is member `d` at sector `rs` are tried in the order of
`copies_candidates` until one read does not fail with `GRUB_ERR_READ_ERROR` or
`GRUB_ERR_UNKNOWN_DEVICE`, a chunk whose search ends with an error ends the
read with that error, and the first near candidate of the next chunk lies
`near` members further. `none` when a member read faults or the fuel runs out. -/
def copies_read (bits : Nat) (rd : List Reader) (N S near far ofs far_ofs : Nat) :
    Nat → Nat → Nat → Nat → Nat → Nat → Res
  | fuel, d, rs, b, size, buf =>
    let len := if S - b > size then size else S - b
    match try_candidates rd len buf (copies_candidates N near far ofs far_ofs b d rs)
        GRUB_ERR_NONE with
    | none => none
    | some (err, tr) =>
      if err ≠ GRUB_ERR_NONE then some (err, tr)
      else if size - len = 0 then some (GRUB_ERR_NONE, tr)
      else
        match fuel with
        | 0 => none
        | fuel + 1 =>
          match copies_read bits rd N S near far ofs far_ofs fuel ((d + near) % N)
              (rs + (d + near) / N * ofs) 0 (size - len) (buf + (len <<< bits)) with
          | none => none
          | some (err2, tr2) => some (err2, tr ++ tr2)


/-- The extent range `[start_extent, start_extent + extent_count)` of the
segment contains the extent. -/
def segment_has_extent (seg : grub_diskfilter_seg) (extent : Nat) : Prop :=
  seg.start_extent ≤ extent ∧ extent < seg.start_extent + seg.extent_count

/-- The size argument, in sectors (in bytes for `disk_read`), of a recorded call. -/
def Event.read_size : Event → Nat
  | Event.disk_read _ _ _ size _ _ => size
  | Event.node_read _ _ size _ _ _ => size
  | Event.segment_read _ _ size _ _ _ => size
  | Event.raid5_recover _ _ _ size _ => size
  | Event.raid6_recover _ _ _ _ size _ => size

/-- The error code returned by a recorded call. -/
def Event.err : Event → grub_err_t
  | Event.disk_read _ _ _ _ _ err => err
  | Event.node_read _ _ _ _ err _ => err
  | Event.segment_read _ _ _ _ err _ => err
  | Event.raid5_recover _ _ _ _ err => err
  | Event.raid6_recover _ _ _ _ _ err => err

/-- The calls `tr` are segment reads that split the request `(sector, size)`,
read into `buf`, of a volume with the segments `segs` and extent size `E`, from
its start: each sub-request starts where the one before ended, has a positive
length, goes to the first segment whose extent range contains the extent of its
first sector, at the sector relative to the start of that segment, lies inside
that segment, and ends at the end of the segment or at the end of the request;
every call but the last returned `GRUB_ERR_NONE`. -/
def lv_split (bits : Nat) (segs : List grub_diskfilter_seg) (E : Nat) :
    Nat → Nat → Nat → List Event → Prop
  | _, _, _, [] => True
  | sector, size, buf, Event.segment_read i rel len b err _ :: rest =>
    0 < len ∧ len ≤ size ∧ b = buf
    ∧ (∃ seg, segs[i]? = some seg ∧ segment_has_extent seg (sector / E)
        ∧ (∀ j seg2, j < i → segs[j]? = some seg2 → ¬ segment_has_extent seg2 (sector / E))
        ∧ seg.start_extent * E ≤ sector
        ∧ sector + len ≤ (seg.start_extent + seg.extent_count) * E
        ∧ (sector + len = (seg.start_extent + seg.extent_count) * E ∨ len = size)
        ∧ rel = sector - seg.start_extent * E)
    ∧ (rest ≠ [] → err = GRUB_ERR_NONE)
    ∧ lv_split bits segs E (sector + len) (size - len) (buf + (len <<< bits)) rest
  | _, _, _, _ :: _ => False

/-- The call recorded by a `segment_read` event: segment index, segment-relative
sector, size in sectors, buffer and returned error code. -/
def Event.segment_call : Event → Option (Nat × Nat × Nat × Nat × grub_err_t)
  | Event.segment_read i sector size buf err _ => some (i, sector, size, buf, err)
  | _ => none

/-- A volume of two MIRROR segments of 2 members in a group of extent size 4:
the first covers the extents 0 and 1, the second the extents 2 and 3. -/
def c13_volume : grub_diskfilter_lv :=
  volume_of [{ c6_segment with extent_count := 2 },
    { c6_segment with start_extent := 2, extent_count := 2 }] 4


/-! ## The registry and the disk device (diskfilter.c:36-42, 119-126, 445-495, 948-956)

A C string is a `String` (without NUL), and `grub_strcmp (a, b) == 0` is
`a = b`. `grub_error (n, ...)` of `kern/err.c`, which is not among the sources,
returns `n` after recording it in `grub_errno`. -/

/-- A volume group, `struct grub_diskfilter_vg` (declared in
`grub/diskfilter.h`, which is not among the sources), with the fields that the
code uses: the uuid (`uuid_len` is its length), the name, the extent size, the
list `vg->pvs` of the addresses of its physical members and the list `vg->lvs`
of its logical volumes. -/
structure grub_diskfilter_vg where
  uuid : List Nat
  name : Option String
  extent_size : Nat
  pvs : List Nat
  lvs : List grub_diskfilter_lv

/-- The state of the module: the registry `array_list`, the counters `inscnt`
and `lv_num`, the heap of the physical members, and `grub_errno`. -/
structure State where
  array_list : List grub_diskfilter_vg
  pvs : Nat → grub_diskfilter_pv
  inscnt : Nat
  lv_num : Nat
  grub_errno : grub_err_t

/-- Function `grub_error (n, ...)`: records `n` in `grub_errno` and returns it. -/
def grub_error (st : State) (n : grub_err_t) : grub_err_t × State :=
  (n, { st with grub_errno := n })

/-- The test `grub_memcmp (s, lit, n) == 0` on a NUL-terminated string `s`: the
first `n` bytes of `s`, its characters followed by the terminating NUL, are
those of `lit`. -/
def grub_memcmp_eq (s lit : List Char) (n : Nat) : Bool :=
  (List.range n).all (fun i => s.getD i (Char.ofNat 0) == lit.getD i (Char.ofNat 0))

/-- Function `is_valid_diskfilter_name` (lines 119-126); `sizeof (lit) - 1` is
the length of the literal. -/
def is_valid_diskfilter_name (name : String) : Bool :=
  grub_memcmp_eq name.toList "md".toList "md".length
  || grub_memcmp_eq name.toList "lvm/".toList "lvm/".length
  || grub_memcmp_eq name.toList "lvmid/".toList "lvmid/".length
  || grub_memcmp_eq name.toList "ldm/".toList "ldm/".length

/-- The condition of `find_lv` on one volume (lines 455-457). -/
def find_lv_match (pvs : Nat → grub_diskfilter_pv) (name : String) (lv : grub_diskfilter_lv) :
    Bool :=
  ((match lv.fullname with
    | some fullname => decide (fullname = name)
    | none => false)
   || (match lv.idname with
    | some idname => decide (idname = name)
    | none => false))
  && is_lv_readable pvs lv false

/-- The inner loop of `find_lv` over the volumes of one group (lines 454-458). -/
def find_lv_lvs (pvs : Nat → grub_diskfilter_pv) (name : String) :
    List grub_diskfilter_lv → Option grub_diskfilter_lv
  | [] => none
  | lv :: rest => if find_lv_match pvs name lv then some lv else find_lv_lvs pvs name rest

/-- The outer loop of `find_lv` over the groups (lines 451-459). -/
def find_lv_vgs (pvs : Nat → grub_diskfilter_pv) (name : String) :
    List grub_diskfilter_vg → Option grub_diskfilter_lv
  | [] => none
  | vg :: rest =>
    match find_lv_lvs pvs name vg.lvs with
    | some lv => some lv
    | none => find_lv_vgs pvs name rest

/-- Function `find_lv` (lines 445-461): `none` is `NULL`. -/
def find_lv (st : State) (name : String) : Option grub_diskfilter_lv :=
  find_lv_vgs st.pvs name st.array_list

/-- The fields of `struct grub_disk` that `grub_diskfilter_open` writes. -/
structure grub_disk where
  id : Nat
  data : Option grub_diskfilter_lv
  total_sectors : Nat
  max_agglomerate : Nat

/-- A call made by `grub_diskfilter_open`: `find_lv (name)` or
`scan_devices (name)`. -/
inductive OpenCall where
  | find_lv (name : String)
  | scan_devices (name : String)
  deriving DecidableEq, Repr

/-- The scan of `grub_diskfilter_open` (lines 476-481): `scan_devices (name)`,
after which a pending error is printed and `grub_errno` is reset. -/
def grub_diskfilter_open_scan (scan_devices : Option String → State → State) (name : String)
    (st : State) : State :=
  let st := scan_devices (some name) st
  if st.grub_errno ≠ GRUB_ERR_NONE then { st with grub_errno := GRUB_ERR_NONE } else st

/-- Function `grub_diskfilter_open` (lines 463-495), with the calls it makes.
`scan_devices` drives the device layer (`grub_disk_dev_list`, `grub_disk_open`,
the `detect` functions of the drivers), which is not among the sources: its
effect on the state of the module is a parameter, as is the constant
`GRUB_DISK_MAX_MAX_AGGLOMERATE` of `grub/disk.h`. -/
def grub_diskfilter_open (scan_devices : Option String → State → State)
    (GRUB_DISK_MAX_MAX_AGGLOMERATE : Nat) (name : String) (disk : grub_disk) (st : State) :
    grub_err_t × grub_disk × State × List OpenCall :=
  if !is_valid_diskfilter_name name then
    ((grub_error st GRUB_ERR_UNKNOWN_DEVICE).1, disk, (grub_error st GRUB_ERR_UNKNOWN_DEVICE).2, [])
  else
    match find_lv st name with
    | some lv =>
      (GRUB_ERR_NONE,
        { disk with id := lv.number, data := some lv, total_sectors := lv.size,
                    max_agglomerate := GRUB_DISK_MAX_MAX_AGGLOMERATE },
        st, [OpenCall.find_lv name])
    | none =>
      let st := grub_diskfilter_open_scan scan_devices name st
      match find_lv st name with
      | some lv =>
        (GRUB_ERR_NONE,
          { disk with id := lv.number, data := some lv, total_sectors := lv.size,
                      max_agglomerate := GRUB_DISK_MAX_MAX_AGGLOMERATE },
          st, [OpenCall.find_lv name, OpenCall.scan_devices name, OpenCall.find_lv name])
      | none =>
        ((grub_error st GRUB_ERR_UNKNOWN_DEVICE).1, disk,
          (grub_error st GRUB_ERR_UNKNOWN_DEVICE).2,
          [OpenCall.find_lv name, OpenCall.scan_devices name, OpenCall.find_lv name])

/-- Function `grub_diskfilter_write` (lines 948-956): its arguments are unused. -/
def grub_diskfilter_write (st : State) (_disk : grub_disk) (_sector _size : Nat)
    (_buf : List Nat) : grub_err_t × State :=
  grub_error st GRUB_ERR_NOT_IMPLEMENTED_YET

/-- A state with an empty registry. -/
def state_empty : State :=
  { array_list := [], pvs := heap_of (fun _ => false), inscnt := 0, lv_num := 0,
    grub_errno := GRUB_ERR_NONE }

/-- A device handle that is not bound. -/
def disk_unbound : grub_disk := { id := 0, data := none, total_sectors := 0, max_agglomerate := 0 }

/-- A STRIPED volume of 2 members named `md/x`, registered first. -/
def c18_lv_striped : grub_diskfilter_lv :=
  { volume_of [c3_segment] 1 with fullname := some "md/x", number := 0, size := 64 }

/-- A MIRROR volume of 2 members named `md/x` as well, registered second. -/
def c18_lv_mirror : grub_diskfilter_lv :=
  { volume_of [c6_segment] 1 with
    fullname := some "md/x", idname := some "mduuid/00", number := 1, size := 64 }

/-- A state with the two volumes named `md/x` in one group, in which member 0
has no device and member 1 has one. -/
def c18_state : State :=
  { array_list := [{ uuid := [0], name := some "md/x", extent_size := 1, pvs := [0, 1],
                     lvs := [c18_lv_striped, c18_lv_mirror] }],
    pvs := heap_of (fun a => decide (a ≠ 0)), inscnt := 0, lv_num := 2,
    grub_errno := GRUB_ERR_NONE }

/-- A scan that attaches a device to every physical member. -/
def scan_attach_all (_name : Option String) (st : State) : State :=
  { st with pvs := heap_of (fun _ => true) }


/-- A node with neither a member nor a volume reference. -/
def null_node : grub_diskfilter_node := .mk "" 0 none none

/-- A node that references the logical volume `lv`, at offset 0. -/
def lv_node (lv : grub_diskfilter_lv) : grub_diskfilter_node := .mk "" 0 none (some lv)

/-- The segment passes the checks of `validate_segment` that come before the
validation of its nodes (lines 572-607): stripe size and node count are not 0,
the type is one of the six levels, a RAID10 segment has a far-copy count or the
far-offset mode and a near-copy count of at most `node_count`, a RAID4 or RAID5
segment has more than 1 node and a RAID6 segment more than 2. -/
def segment_shape_ok (seg : grub_diskfilter_seg) : Prop :=
  seg.stripe_size ≠ 0 ∧ seg.node_count ≠ 0
  ∧ (seg.type = GRUB_DISKFILTER_STRIPED ∨ seg.type = GRUB_DISKFILTER_MIRROR
    ∨ seg.type = GRUB_DISKFILTER_RAID4 ∨ seg.type = GRUB_DISKFILTER_RAID5
    ∨ seg.type = GRUB_DISKFILTER_RAID6 ∨ seg.type = GRUB_DISKFILTER_RAID10)
  ∧ (seg.type = GRUB_DISKFILTER_RAID10 →
      ¬ (seg.layout >>> 16 = 0 ∧ raid10_far seg.layout = 0)
      ∧ raid10_near seg.layout ≤ seg.node_count)
  ∧ (seg.type = GRUB_DISKFILTER_RAID4 ∨ seg.type = GRUB_DISKFILTER_RAID5 → 1 < seg.node_count)
  ∧ (seg.type = GRUB_DISKFILTER_RAID6 → 2 < seg.node_count)

/-- A segment of the given type and layout over the given nodes, starting at
extent 0. -/
def segment_over (type layout stripe_size : Nat) (nodes : List grub_diskfilter_node) :
    grub_diskfilter_seg :=
  ⟨0, 64, type, layout, 32, nodes, stripe_size⟩


/-! ## Registration (diskfilter.c:970-1049)

The functions `grub_strlen`, `grub_strncmp`, `grub_isdigit`, `grub_strtoul` and
`grub_xasprintf` of `kern/misc.c` are not among the sources; they are embedded
with their C meaning on NUL-terminated strings, a C string being the UTF-8
encoding of a `String` or of a list of characters without NUL: a character
below 128 is one byte, and every byte of another character is 128 or more.
Memory allocation is taken to succeed. The counter `lv_num` is a C `int` and
is exact in `Nat` below `2^31`. The numbers of the name scan are the C values:
`grub_strtoul` returns an `unsigned long` of 64 bits, and for a number that
exceeds it `~0UL` with `end` at the digit that overflows; `cur_num` and
`max_used_number` are `int`s of 32 bits in two's complement. -/

/-- The normalisation of the stripe size of one segment (lines 988-993). -/
def vg_register_stripe_size (seg : grub_diskfilter_seg) : grub_diskfilter_seg :=
  let seg := if seg.type = 1 then { seg with stripe_size := 64 } else seg
  if seg.type = GRUB_DISKFILTER_STRIPED ∧ seg.node_count = 1 ∧ seg.stripe_size = 0 then
    { seg with stripe_size := 64 }
  else seg

/-- The normalisation of the segments of one volume (lines 986-994). -/
def vg_register_normalize (lv : grub_diskfilter_lv) : grub_diskfilter_lv :=
  { lv with segments := lv.segments.map vg_register_stripe_size }

/-- The test `grub_strncmp (s1, s2, n) == 0`: the first `n` characters agree,
the comparison ending at a NUL that both strings reach together. -/
def grub_strncmp_eq : List Char → List Char → Nat → Bool
  | _, _, 0 => true
  | [], [], _ + 1 => true
  | a :: s1, b :: s2, n + 1 => a == b && grub_strncmp_eq s1 s2 n
  | _, _, _ + 1 => false

/-- Function `grub_isdigit`. -/
def grub_isdigit (c : Char) : Bool := decide ('0'.toNat ≤ c.toNat) && decide (c.toNat ≤ '9'.toNat)

/-- The loop of `grub_strtoull` in base 10, entered with the value `num` of the
digits read so far: each decimal digit is added as `num * 10 + digit`, unless
this exceeds `~0ULL`, in which case the function returns `~0ULL` with `end` at
this digit; the loop ends at the first character that is not a digit or at the
end of the string, with `end` there. -/
def grub_strtoul_digits : List Char → Nat → Nat × List Char
  | [], num => (num, [])
  | c :: rest, num =>
    if grub_isdigit c then
      if num > (2 ^ 64 - 1 - (c.toNat - '0'.toNat)) / 10 then (2 ^ 64 - 1, c :: rest)
      else grub_strtoul_digits rest (num * 10 + (c.toNat - '0'.toNat))
    else (num, c :: rest)

/-- Function `grub_strtoul (num, &end, 10)` on a string that starts with a
digit, `unsigned long` having 64 bits: the value that is returned, and the rest
of the string, at which `end` points. -/
def grub_strtoul (num : List Char) : Nat × List Char := grub_strtoul_digits num 0

/-- The value of a C `int` that is given the number `v`: `v` modulo `2^32`, read
in two's complement. -/
def c_int (v : Nat) : Int :=
  if v % 2 ^ 32 < 2 ^ 31 then ((v % 2 ^ 32 : Nat) : Int) else ((v % 2 ^ 32 : Nat) : Int) - 2 ^ 32

/-- The text that `%d` prints for a C `int`. -/
def print_d (i : Int) : List Char :=
  if i < 0 then '-' :: Nat.toDigits 10 i.natAbs else Nat.toDigits 10 i.toNat

/-- One iteration of the scan of the registered names (lines 1013-1032) for
the name `fullname`, on the registered volume `p`, with the current
`max_used_number` and `need_new_name`. The character `s[i]` of a C string is
`s[i]?`, `none` being the terminating NUL. `num = p->fullname + len + 1` skips
one byte: after a character of several bytes `num[0]` is a byte of this
character, which is not a digit. `cur_num` is the `int` that is given the
result of `grub_strtoul`; `max_used_number` starts at 0 and takes only values
of `cur_num` that are larger, so it is never negative and is kept in `Nat`. -/
def vg_register_scan_name (fullname : List Char) (acc : Nat × Bool) (p : grub_diskfilter_lv) :
    Nat × Bool :=
  match p.fullname with
  | none => acc
  | some pname =>
    let len := fullname.length
    if !grub_strncmp_eq pname.toList fullname len then acc
    else
      match pname.toList[len]? with
      | none => (acc.1, true)
      | some sep =>
        if sep.toNat ≥ 128 then acc
        else
          let num := pname.toList.drop (len + 1)
          if !(match num[0]? with
               | some c => grub_isdigit c
               | none => false) then acc
          else
            let r := grub_strtoul num
            if r.2[0]? ≠ none then acc
            else if c_int r.1 > (acc.1 : Int) then ((c_int r.1).toNat, acc.2) else acc

/-- The scan of the names of all registered volumes (lines 1008-1033):
`max_used_number` and `need_new_name`. -/
def vg_register_scan (array_list : List grub_diskfilter_vg) (fullname : List Char) : Nat × Bool :=
  array_list.foldl (fun acc vgp => vgp.lvs.foldl (vg_register_scan_name fullname) acc) (0, false)

/-- The name made by `grub_xasprintf ("%s_%d", fullname, max_used_number + 1)`
(line 1037), `n` being the sum `max_used_number + 1`: the `int` that is printed
is `c_int n`, the sum wrapping from `2^31 - 1` to `-2^31` in two's complement
(in C the overflow of the signed sum is undefined). -/
def vg_register_new_name (fullname : List Char) (n : Nat) : String :=
  String.mk (fullname ++ '_' :: print_d (c_int n))

/-- The body of the second loop of `grub_diskfilter_vg_register` after the
validation (lines 1003-1043): the volume gets its number and, when a registered
volume has its name, a new name; the volume and the next `lv_num`. -/
def vg_register_lv (array_list : List grub_diskfilter_vg) (lv_num : Nat)
    (lv : grub_diskfilter_lv) : grub_diskfilter_lv × Nat :=
  let lv := { lv with number := lv_num }
  let lv_num := lv_num + 1
  match lv.fullname with
  | some fullname =>
    let r := vg_register_scan array_list fullname.toList
    if r.2 then
      ({ lv with fullname := some (vg_register_new_name fullname.toList (r.1 + 1)) }, lv_num)
    else (lv, lv_num)
  | none => (lv, lv_num)

/-- The second loop of `grub_diskfilter_vg_register` (lines 996-1044): the
error of the first volume that fails validation (`GRUB_ERR_NONE` when there is
none), the volumes as the loop leaves them, and `lv_num`. -/
def vg_register_lvs (array_list : List grub_diskfilter_vg) :
    List grub_diskfilter_lv → Nat → grub_err_t × List grub_diskfilter_lv × Nat
  | [], lv_num => (GRUB_ERR_NONE, [], lv_num)
  | lv :: rest, lv_num =>
    if validate_lv lv ≠ GRUB_ERR_NONE then (validate_lv lv, lv :: rest, lv_num)
    else
      let r := vg_register_lv array_list lv_num lv
      let rr := vg_register_lvs array_list rest r.2
      (rr.1, r.1 :: rr.2.1, rr.2.2)

/-- Function `grub_diskfilter_vg_register` (lines 970-1049): the returned error,
the group as the call leaves it, and the state of the module. -/
def grub_diskfilter_vg_register (vg : grub_diskfilter_vg) (st : State) :
    grub_err_t × grub_diskfilter_vg × State :=
  let lvs := vg.lvs.map vg_register_normalize
  let r := vg_register_lvs st.array_list lvs st.lv_num
  let vg := { vg with lvs := r.2.1 }
  if r.1 ≠ GRUB_ERR_NONE then
    (r.1, vg, { st with lv_num := r.2.2, grub_errno := r.1 })
  else
    (GRUB_ERR_NONE, vg, { st with lv_num := r.2.2, array_list := vg :: st.array_list })

/-- A volume named `name` with the given segments, in a group of extent size 1. -/
def lv_named (name : String) (segs : List grub_diskfilter_seg) : grub_diskfilter_lv :=
  { volume_of segs 1 with fullname := some name }

/-- A volume group of extent size 1 over the members at the addresses 0 and 1,
with the given volumes. -/
def vg_of (lvs : List grub_diskfilter_lv) : grub_diskfilter_vg :=
  { uuid := [], name := none, extent_size := 1, pvs := [0, 1], lvs := lvs }

/-- A state whose registry holds one group with one mirror volume for each of
the given names, no member having a device. -/
def state_named (names : List String) : State :=
  { state_empty with array_list := [vg_of (names.map (fun n => lv_named n [c6_segment]))],
                     lv_num := names.length }

/-- The `fullname`s of the volumes of the registry, group by group. -/
def registered_names (array_list : List grub_diskfilter_vg) : List String :=
  array_list.flatMap (fun vg => vg.lvs.filterMap (fun lv => lv.fullname))

/-- The value of a string of decimal digits read from the left, entered with
the value `acc`. -/
def digits_value (num : List Char) (acc : Nat) : Nat :=
  num.foldl (fun a c => a * 10 + (c.toNat - '0'.toNat)) acc

/-- The number that the scan of `grub_diskfilter_vg_register` reads in the
registered name `p` for the name `X`: `p` is `X` followed by one character of
one byte and by decimal digits whose value is below `2^64`, and the number is
the `int` that `cur_num` holds for this value, 0 standing for a `cur_num` that
is not positive; `none` for a name of another form. -/
def name_number (X p : List Char) : Option Nat :=
  if X <+: p then
    match p.drop X.length with
    | [] => none
    | sep :: num =>
      if sep.toNat < 128 ∧ num ≠ [] ∧ num.all grub_isdigit = true
          ∧ digits_value num 0 < 2 ^ 64 then
        some (c_int (digits_value num 0)).toNat
      else none
  else none

/-- The largest number read in the registered names for the name `X`, 0 when
there is none. -/
def max_used_number (array_list : List grub_diskfilter_vg) (X : List Char) : Nat :=
  ((registered_names array_list).filterMap (fun p => name_number X p.toList)).foldl max 0

/-- The first error code of a list that is not `GRUB_ERR_NONE`. -/
def first_error : List grub_err_t → grub_err_t
  | [] => GRUB_ERR_NONE
  | e :: rest => if e ≠ GRUB_ERR_NONE then e else first_error rest

/-- One step of the scan of the registered names, on the name `pn`: the
largest number read so far, and whether the name `X` itself has been met. -/
def scan_step (X : List Char) (acc : Nat × Bool) (pn : String) : Nat × Bool :=
  (max acc.1 ((name_number X pn.toList).getD 0), acc.2 || decide (pn.toList = X))

/-! ## Insertion of a member (diskfilter.c:1239-1304)

The device layer (`grub_disk_open`, `grub_partition_get_start`,
`grub_disk_native_sectors`) is not among the sources: the device `disk` is
the record of what `insert_array` reads of it, and `grub_disk_open` is a
parameter that gives a handle or the error that it leaves in `grub_errno`.
The sector numbers are `grub_uint64_t` and wrap at `2^64`; `inscnt` and
`became_readable_at` are C `int`s and are exact in `Nat` below `2^31`. -/

/-- The device `disk` as `insert_array` reads it: `disk->name`,
`grub_partition_get_start (disk->partition)` and
`grub_disk_native_sectors (disk)`. -/
structure insert_disk where
  name : String
  partition_start : Nat
  native_sectors : Nat
  deriving DecidableEq, Repr

/-- The condition of the loop of `insert_array` (lines 1261-1264); the
conditional operator binds less tightly than `&&`, so that its condition is
`id->uuidlen == pv->id.uuidlen && id->uuidlen`. The test `grub_memcmp (...) == 0`
compares the first `id->uuidlen` bytes of the two uuids. -/
def insert_array_match (id : grub_diskfilter_pv_id) (pv : grub_diskfilter_pv) : Bool :=
  if id.uuidlen = pv.id.uuidlen ∧ id.uuidlen ≠ 0 then
    decide (pv.id.uuid.take id.uuidlen = id.uuid.take id.uuidlen)
  else decide (pv.id.id = id.id)

/-- The loop of `insert_array` over the members of the group (line 1260) up to
the first member that matches, on which its body ends with `return` or
`break`: the address of this member. -/
def insert_array_find (id : grub_diskfilter_pv_id) (pvs : Nat → grub_diskfilter_pv) :
    List Nat → Option Nat
  | [] => none
  | a :: rest =>
    if insert_array_match id (pvs a) then some a else insert_array_find id pvs rest

/-- The loop over the volumes of the group (lines 1297-1299): a volume without
stamp that has a `fullname` and is readable gets the stamp `++inscnt`. -/
def insert_array_stamp (pvs : Nat → grub_diskfilter_pv) :
    List grub_diskfilter_lv → Nat → List grub_diskfilter_lv × Nat
  | [], inscnt => ([], inscnt)
  | lv :: rest, inscnt =>
    if lv.became_readable_at = 0 ∧ lv.fullname ≠ none ∧ is_lv_readable pvs lv false = true then
      ({ lv with became_readable_at := inscnt + 1 } :: (insert_array_stamp pvs rest (inscnt + 1)).1,
        (insert_array_stamp pvs rest (inscnt + 1)).2)
    else (lv :: (insert_array_stamp pvs rest inscnt).1, (insert_array_stamp pvs rest inscnt).2)

/-- The member `pv` after the bookkeeping of lines 1274-1295, with the handle
`h` of the device that was opened. -/
def insert_array_update (disk : insert_disk) (start_sector : Nat) (h : Nat)
    (pv : grub_diskfilter_pv) : grub_diskfilter_pv :=
  let start0 := (pv.start_sector + (2 ^ 64 - pv.part_start % 2 ^ 64)) % 2 ^ 64
  let start1 := if start_sector ≠ 2 ^ 64 - 1 then start_sector else start0
  { pv with disk := some h,
            part_start := disk.partition_start,
            part_size := disk.native_sectors,
            start_sector := (start1 + disk.partition_start) % 2 ^ 64 }

/-- The body of the loop of `insert_array` on the member at the address `a`
that matches (lines 1266-1300): the returned error, the group, the state and
the names passed to `grub_disk_open`. -/
def insert_array_member (grub_disk_open : String → Except grub_err_t Nat) (disk : insert_disk)
    (array : grub_diskfilter_vg) (start_sector : Nat) (a : Nat) (st : State) :
    grub_err_t × grub_diskfilter_vg × State × List String :=
  if (st.pvs a).disk ≠ none ∧ disk.native_sectors ≥ (st.pvs a).part_size then
    (GRUB_ERR_NONE, array, st, [])
  else
    match grub_disk_open disk.name with
    | .error e =>
      (e, array,
        { st with pvs := Function.update st.pvs a { st.pvs a with disk := none },
                  grub_errno := e },
        [disk.name])
    | .ok h =>
      let pvs := Function.update st.pvs a (insert_array_update disk start_sector h (st.pvs a))
      (GRUB_ERR_NONE, { array with lvs := (insert_array_stamp pvs array.lvs st.inscnt).1 },
        { st with pvs := pvs, inscnt := (insert_array_stamp pvs array.lvs st.inscnt).2 },
        [disk.name])

/-- Function `insert_array` (lines 1239-1304) on the group `array`: the
returned error, the group and the state as the call leaves them, and the names
passed to `grub_disk_open`. -/
def insert_array (grub_disk_open : String → Except grub_err_t Nat) (disk : insert_disk)
    (id : grub_diskfilter_pv_id) (array : grub_diskfilter_vg) (start_sector : Nat) (st : State) :
    grub_err_t × grub_diskfilter_vg × State × List String :=
  match insert_array_find id st.pvs array.pvs with
  | some a => insert_array_member grub_disk_open disk array start_sector a st
  | none => (GRUB_ERR_NONE, array, st, [])

/-- A physical member with the ordinal `n` as identity, without uuid, with the
device `disk` and the recorded size `part_size`. -/
def pv_ordinal (n : Nat) (disk : Option Nat) (part_size : Nat) : grub_diskfilter_pv :=
  { id := { uuidlen := 0, uuid := [], id := n }, name := none, disk := disk,
    part_start := 0, part_size := part_size, start_sector := 0 }

/-- A state with an empty registry in which every address holds the member
`pv`. -/
def state_of_pv (pv : grub_diskfilter_pv) : State :=
  { state_empty with pvs := fun _ => pv }

/-- The identity with the ordinal `n`, without uuid. -/
def id_ordinal (n : Nat) : grub_diskfilter_pv_id := { uuidlen := 0, uuid := [], id := n }

/-- A device layer in which the device `bad` cannot be opened and every other
device opens with the handle 7. -/
def open_but (bad : String) (name : String) : Except grub_err_t Nat :=
  if name = bad then .error GRUB_ERR_UNKNOWN_DEVICE else .ok 7

/-- A group over the one member at the address 0, with the volume `md/x` of one
mirror segment. -/
def c27_vg : grub_diskfilter_vg :=
  { uuid := [], name := none, extent_size := 1, pvs := [0],
    lvs := [lv_named "md/x" [c6_segment]] }

/-- An identity that carries the uuid of the two bytes 1 and 2; its field `id`,
which holds no ordinal in an identity that carries a uuid, is 0. -/
def c29_id : grub_diskfilter_pv_id := { uuidlen := 2, uuid := [1, 2], id := 0 }

/-- A physical member without device that carries the uuid of the three bytes
1, 2 and 3; its field `id`, which holds no ordinal, is 0. -/
def c29_pv : grub_diskfilter_pv :=
  { id := { uuidlen := 3, uuid := [1, 2, 3], id := 0 }, name := none, disk := none,
    part_start := 0, part_size := 0, start_sector := 0 }

/-! ## The operations of the engine on the registry

`insert_array` gets the group by pointer: `insert_member` is the call on the
group at the position `k` of the registry, the group of the registry being the
one that the call leaves. The scan of the devices (lines 128-274) changes the
state of the module by the registrations that the drivers make, by the calls
of `insert_array`, by `lv->scanned = 1` and by the writes of `grub_errno`: it
is a sequence of these operations, which the device layer and the drivers,
that are not among the sources, determine. -/

/-- The call of `insert_array` (line 167) on the group at the position `k` of
the registry. -/
def insert_member (grub_disk_open : String → Except grub_err_t Nat) (disk : insert_disk)
    (id : grub_diskfilter_pv_id) (k : Nat) (start_sector : Nat) (st : State) :
    grub_err_t × State :=
  match st.array_list[k]? with
  | none => (GRUB_ERR_NONE, st)
  | some array =>
    ((insert_array grub_disk_open disk id array start_sector st).1,
      { (insert_array grub_disk_open disk id array start_sector st).2.2.1 with
        array_list :=
          st.array_list.set k (insert_array grub_disk_open disk id array start_sector st).2.1 })

/-- The assignment `lv->scanned = 1` (lines 266 and 345) on the volume at the
position `i` of a list of volumes. -/
def lv_set_scanned (lvs : List grub_diskfilter_lv) (i : Nat) : List grub_diskfilter_lv :=
  match lvs[i]? with
  | some lv => lvs.set i { lv with scanned := true }
  | none => lvs

/-- An operation of the engine on the state of the module. -/
inductive EngineOp where
  | register (vg : grub_diskfilter_vg)
  | insert (disk : insert_disk) (id : grub_diskfilter_pv_id) (k : Nat) (start_sector : Nat)
  | scanned (k i : Nat)
  | errno (e : grub_err_t)

/-- The state after one operation of the engine. -/
def apply_op (grub_disk_open : String → Except grub_err_t Nat) : EngineOp → State → State
  | .register vg, st => (grub_diskfilter_vg_register vg st).2.2
  | .insert disk id k start_sector, st =>
    (insert_member grub_disk_open disk id k start_sector st).2
  | .scanned k i, st =>
    match st.array_list[k]? with
    | some vg =>
      { st with array_list := st.array_list.set k { vg with lvs := lv_set_scanned vg.lvs i } }
    | none => st
  | .errno e, st => { st with grub_errno := e }

/-- The state after a sequence of operations of the engine. -/
def apply_ops (grub_disk_open : String → Except grub_err_t Nat) (ops : List EngineOp)
    (st : State) : State :=
  ops.foldl (fun s op => apply_op grub_disk_open op s) st

/-- The stamps `became_readable_at` of a list of volumes. -/
def stamps (lvs : List grub_diskfilter_lv) : List Nat :=
  lvs.map (fun lv => lv.became_readable_at)

/-- The stamp of the volume at the position `i` of the group that was
registered as the `r`-th of the registry (the registry holds the group that was
registered last first). -/
def stamp_at (array_list : List grub_diskfilter_vg) (r i : Nat) : Option Nat :=
  (array_list.reverse[r]?).bind (fun vg => (stamps vg.lvs)[i]?)

/-- The stamps that are not 0 in the list `l` are the same in the list `l2`. -/
def latched (l l2 : List Nat) : Prop :=
  ∀ (i s : Nat), l[i]? = some s → s ≠ 0 → l2[i]? = some s

/-- A scan that inserts the device `hd1` for the member of ordinal 0 of the
group at the position 0 of the registry, and marks its first volume. -/
def c30_scan (grub_disk_open : String → Except grub_err_t Nat) (_name : Option String)
    (st : State) : State :=
  apply_ops grub_disk_open
    [EngineOp.insert ⟨"hd1", 0, 10⟩ (id_ordinal 0) 0 (2 ^ 64 - 1), EngineOp.scanned 0 0] st

/-- A state whose registry holds the group over the member at the address 0
with the striped volume `md/x`, stamped 3, every member having the ordinal 0,
the device 1 and the recorded size 100. -/
def c30_state : State :=
  { state_of_pv (pv_ordinal 0 (some 1) 100) with
    array_list := [{ c27_vg with
      lvs := [{ lv_named "md/x" [c3_segment] with became_readable_at := 3 }] }],
    inscnt := 3 }

/-- The readability of the volumes of the registry, group by group. -/
def readable_volumes (st : State) : List (List Bool) :=
  st.array_list.map (fun vg => vg.lvs.map (fun lv => is_lv_readable st.pvs lv false))

/-! ## Reads cut at the stripe boundaries -/

/-- The pieces of a request read one after the other by independent calls of
the reader `f`, each piece with its first sector, its length and its place in
the buffer: the read stops at the first piece that does not return
`GRUB_ERR_NONE`; the calls made are those of the pieces read, in order. -/
def read_pieces (f : Reader) : List (Nat × Nat × Nat) → Res
  | [] => some (GRUB_ERR_NONE, [])
  | c :: rest =>
    match f c.1 c.2.1 c.2.2 with
    | none => none
    | some (err, tr) =>
      if err ≠ GRUB_ERR_NONE then some (err, tr)
      else
        match read_pieces f rest with
        | none => none
        | some (err2, tr2) => some (err2, tr ++ tr2)

/-- A striped volume over two nodes: the RAID5 volume of `c4_segment`, nested,
and the physical member at the address 4. -/
def c36_volume : grub_diskfilter_lv :=
  volume_of [segment_over GRUB_DISKFILTER_STRIPED 0 4
    [lv_node (volume_of [c4_segment] 1), pv_node 4]] 1

/-- The member index of a recorded member read is below `N`; the other calls
select no member. -/
def Event.index_below (N : Nat) : Event → Prop
  | Event.node_read k _ _ _ _ _ => k < N
  | _ => True

/-- The address translation of `read_segment` for one sector: the member and
the member-relative sector of the first read that `read_segment` makes for the
logical sector `sector`, from the set-up of its two cases (lines 639-666 and
743-777). -/
def segment_address (env : Env) (seg : grub_diskfilter_seg) (sector : Nat) : Option (Nat × Nat) :=
  if seg.type = GRUB_DISKFILTER_STRIPED ∨ seg.type = GRUB_DISKFILTER_MIRROR
      ∨ seg.type = GRUB_DISKFILTER_RAID10 then
    match read_segment_copies_start seg sector with
    | none => none
    | some (_, _, _, _, disknr, read_sector, b) => some (disknr, read_sector + b)
  else if seg.type = GRUB_DISKFILTER_RAID4 ∨ seg.type = GRUB_DISKFILTER_RAID5
      ∨ seg.type = GRUB_DISKFILTER_RAID6 then
    match read_segment_parity_start env seg (seg.type / 3) sector with
    | none => none
    | some (disknr, read_sector, _, b) => some (disknr, read_sector + b)
  else none

/-! ## Definitions used to state the properties of the stamps -/

/-- The volume gets a stamp in the loop of `insert_array`: it has none, it has
a `fullname` and it is readable in the mode `easily = 0`. -/
def stamp_eligible (pvs : Nat → grub_diskfilter_pv) (lv : grub_diskfilter_lv) : Bool :=
  decide (lv.became_readable_at = 0) && lv.fullname.isSome && is_lv_readable pvs lv false

/-- A group over the members at the addresses 0 and 1 with three mirror
volumes: `md/a`, a volume without `fullname`, and `md/b`. -/
def c31_vg : grub_diskfilter_vg :=
  { uuid := [], name := none, extent_size := 1, pvs := [0, 1],
    lvs := [lv_named "md/a" [c6_segment], volume_of [c6_segment] 1,
      lv_named "md/b" [c6_segment]] }

/-! ## Construction of an array (diskfilter.c:437-443, 958-968, 1051-1237)

The uuid of `uuidlen` bytes is the list of its bytes; `nmemb` and `level` are
C `int`s, `disk_size` and `stripe_size` are `grub_uint64_t`, of which the
products wrap at `2^64`, and `nmemb - (unsigned) level / 3U` is an `unsigned`
that wraps at `2^32`; `layout` is taken to be non-negative. The constant
`GRUB_MDRAID_MAX_DISKS` of `grub/diskfilter.h`, the largest value of
`grub_size_t` and the addresses that `grub_zalloc` gives to the members are
parameters. Memory allocation is taken to succeed. -/

/-- Function `hex2ascii` (lines 437-443). -/
def hex2ascii (c : Nat) : Char :=
  if c ≥ 10 then Char.ofNat ('a'.toNat + c - 10) else Char.ofNat (c + '0'.toNat)

/-- The name `idname` built by `grub_diskfilter_make_raid` (lines 1167-1176):
`mduuid/` followed by `hex2ascii ((unsigned char) uuid[j] >> 4)` and
`hex2ascii ((unsigned char) uuid[j] & 0xf)` for each byte of the uuid. -/
def make_raid_idname (uuid : List Nat) : String :=
  String.mk ("mduuid/".toList
    ++ uuid.flatMap (fun u => [hex2ascii ((u % 256) >>> 4), hex2ascii ((u % 256) &&& 0xf)]))

/-- The `switch (level)` of `grub_diskfilter_make_raid` (lines 1071-1103): the
value of `totsize`, `none` where it returns `NULL`. -/
def make_raid_totsize (nmemb : Int) (disk_size layout : Nat) (level : Int) : Option Nat :=
  if level = 1 then some disk_size
  else if level = 10 then
    let n := layout &&& 0xFF
    let n := if n = 1 then (layout >>> 8) &&& 0xFF else n
    if n = 0 then none
    else some ((nmemb % 2 ^ 64).toNat * disk_size % 2 ^ 64 / n)
  else if level = 0 ∨ level = 4 ∨ level = 5 ∨ level = 6 then
    some (((nmemb - (level.toNat / 3 : Nat)) % 2 ^ 32).toNat * disk_size % 2 ^ 64)
  else none

/-- The test of `grub_diskfilter_get_vg_by_uuid` on one group (lines 964-965). -/
def get_vg_by_uuid_match (uuid : List Nat) (p : grub_diskfilter_vg) : Bool :=
  decide (p.uuid.length = uuid.length)
    && decide (p.uuid.take p.uuid.length = uuid.take p.uuid.length)

/-- Function `grub_diskfilter_get_vg_by_uuid` (lines 958-968): the position in
the registry of the first group with the uuid, `none` for `NULL`. -/
def grub_diskfilter_get_vg_by_uuid (array_list : List grub_diskfilter_vg) (uuid : List Nat) :
    Option Nat :=
  let k := array_list.findIdx (get_vg_by_uuid_match uuid)
  if k < array_list.length then some k else none

/-- The update of an array that exists already (lines 1106-1117): the size of
its first volume and the extent count of the first segment of this volume grow
to `totsize`, and the member size of this segment shrinks to `disk_size`. -/
def make_raid_update (totsize disk_size : Nat) (array : grub_diskfilter_vg) :
    grub_diskfilter_vg :=
  match array.lvs with
  | [] => array
  | lv :: rest =>
    let lv :=
      if lv.size < totsize then
        { lv with size := totsize,
                  segments :=
                    match lv.segments with
                    | [] => []
                    | seg :: segs => { seg with extent_count := totsize } :: segs }
      else lv
    let lv :=
      match lv.segments with
      | [] => lv
      | seg :: segs =>
        if seg.raid_member_size > disk_size then
          { lv with segments := { seg with raid_member_size := disk_size } :: segs }
        else lv
    { array with lvs := lv :: rest }

/-- The name of a new array (lines 1132-1141): `md/` followed by the name,
without the homehost and the colon after it when there is one. -/
def make_raid_name (name : String) : String :=
  match name.toList.dropWhile (fun c => c != ':') with
  | [] => "md/" ++ name
  | _ :: rest => "md/" ++ String.mk rest

/-- The new array that `grub_diskfilter_make_raid` builds (lines 1121-1209)
before it registers it, the member `i` being at the address `pv_alloc i`. -/
def make_raid_array (pv_alloc : Nat → Nat) (uuid : List Nat) (nmemb : Nat)
    (name : Option String) (disk_size stripe_size layout level totsize : Nat) :
    grub_diskfilter_vg :=
  { uuid := uuid,
    name := name.map make_raid_name,
    extent_size := 1,
    pvs := ((List.range nmemb).map pv_alloc).reverse,
    lvs := [{ fullname := name.map make_raid_name,
              idname := some (make_raid_idname uuid),
              name := name.map make_raid_name,
              number := 0,
              size := totsize,
              became_readable_at := 0,
              scanned := false,
              visible := true,
              segments := [{ start_extent := 0,
                             extent_count := totsize,
                             type := level,
                             layout := layout,
                             raid_member_size := disk_size,
                             nodes := (List.range nmemb).map
                               (fun i => grub_diskfilter_node.mk "" 0 (some (pv_alloc i)) none),
                             stripe_size := stripe_size }],
              vg := some 1 }] }

/-- The heap after the members of a new array have been written (lines
1196-1206): the member `i` has the identity of ordinal `i` and no device. -/
def make_raid_pvs (pv_alloc : Nat → Nat) (nmemb : Nat) (pvs : Nat → grub_diskfilter_pv) :
    Nat → grub_diskfilter_pv :=
  (List.range nmemb).foldl (fun h i => Function.update h (pv_alloc i) (pv_ordinal i none 0)) pvs

/-- Function `grub_diskfilter_make_raid` (lines 1051-1237): the array returned,
`none` for `NULL`, and the state of the module. -/
def grub_diskfilter_make_raid (GRUB_MDRAID_MAX_DISKS size_max : Nat) (pv_alloc : Nat → Nat)
    (uuid : List Nat) (nmemb : Int) (name : Option String) (disk_size stripe_size layout : Nat)
    (level : Int) (st : State) : Option grub_diskfilter_vg × State :=
  if nmemb < 1 ∨ nmemb > GRUB_MDRAID_MAX_DISKS then (none, st)
  else
    match make_raid_totsize nmemb disk_size layout level with
    | none => (none, st)
    | some totsize =>
      match grub_diskfilter_get_vg_by_uuid st.array_list uuid with
      | some k =>
        match st.array_list[k]? with
        | some array =>
          (some (make_raid_update totsize disk_size array),
            { st with array_list :=
                st.array_list.set k (make_raid_update totsize disk_size array) })
        | none => (none, st)
      | none =>
        if uuid.length * 2 > size_max ∨ uuid.length * 2 + 8 > size_max then (none, st)
        else
          let array := make_raid_array pv_alloc uuid nmemb.toNat name disk_size stripe_size
            layout level.toNat totsize
          let st := { st with pvs := make_raid_pvs pv_alloc nmemb.toNat st.pvs }
          let r := grub_diskfilter_vg_register array st
          if r.1 ≠ GRUB_ERR_NONE then (none, r.2.2) else (some r.2.1, r.2.2)

/-- The value of a hexadecimal digit `0-9a-f`. -/
def hex_value (c : Char) : Nat :=
  if c.toNat ≥ 'a'.toNat then c.toNat - 'a'.toNat + 10 else c.toNat - '0'.toNat

/-- The bytes that a string of hexadecimal digits encodes, two digits a byte,
the high nibble first. -/
def hex_decode : List Char → List Nat
  | hi :: lo :: rest => (16 * hex_value hi + hex_value lo) :: hex_decode rest
  | _ => []

/-- The character is one of `0-9a-f`. -/
def is_hex_digit (c : Char) : Bool :=
  (decide ('0'.toNat ≤ c.toNat) && decide (c.toNat ≤ '9'.toNat))
    || (decide ('a'.toNat ≤ c.toNat) && decide (c.toNat ≤ 'f'.toNat))

/-- The copy count by which `grub_diskfilter_make_raid` divides for the level
10 (lines 1079-1082): the near-copy count, or the far-copy count when the
near-copy count is 1. -/
def make_raid_copies (layout : Nat) : Nat :=
  if raid10_near layout = 1 then raid10_far layout else raid10_near layout

/-- The state after a mirror of 2 members of 10 sectors with the uuid of the
one byte 1 has been built in the empty registry. -/
def c40_state : State :=
  (grub_diskfilter_make_raid 4096 (2 ^ 32 - 1) (fun i => 100 + i) [1] 2 (some "x") 10 8 0 1
    state_empty).2

/-- A RAID10 segment of 2 members with stripe size 4, 2 near copies and 0 far
copies in far-offset mode. -/
def c38_segment : grub_diskfilter_seg := segment_of GRUB_DISKFILTER_RAID10 0x10002 2 4 64 32

/-! ## The rescan loop of `scan_devices` (diskfilter.c:254-273)

The call `scan_disk (lv->fullname, 1)` opens the device of the name and runs
the drivers on it; what it does to the state of the module is a sequence of
operations of the engine, which the device layer and the drivers, that are not
among the sources, determine: it is the parameter `scan_disk`, a function of
the number of calls that the loop made before, of the name and of the state.
A group is linked at the head of `array_list`, and no operation changes the
number of volumes of a registered group: the groups that a round visits are
those of the registry at the beginning of the round, from the head, and a
volume is denoted by the rank `r` of its group in the order of registration
and by its position `i` in the group. -/

/-- The volume at the position `i` of the group that was registered as the
`r`-th of the registry. -/
def lv_at (array_list : List grub_diskfilter_vg) (r i : Nat) : Option grub_diskfilter_lv :=
  (array_list.reverse[r]?).bind (fun vg => vg.lvs[i]?)

/-- The flags `scanned` of a list of volumes. -/
def scanned_flags (lvs : List grub_diskfilter_lv) : List Bool :=
  lvs.map (fun lv => lv.scanned)

/-- The flag `scanned` of the volume at the position `i` of the group that was
registered as the `r`-th of the registry. -/
def scanned_at (array_list : List grub_diskfilter_vg) (r i : Nat) : Option Bool :=
  (array_list.reverse[r]?).bind (fun vg => (scanned_flags vg.lvs)[i]?)

/-- The variables of a round of the rescan loop: the state of the module,
`need_rescan`, the number of calls of `scan_disk` made so far, and the calls of
the round in order, each with the rank of the group, the position of the volume
and the volume as it was found. -/
structure rescan_state where
  st : State
  need_rescan : Bool
  calls : Nat
  scans : List (Nat × Nat × grub_diskfilter_lv)

/-- The body of the loop over the volumes of a group (lines 263-268) on the
volume at the position `i` of the group of rank `r`. -/
def rescan_lv (grub_disk_open : String → Except grub_err_t Nat)
    (scan_disk : Nat → String → State → List EngineOp) (r i : Nat) (s : rescan_state) :
    rescan_state :=
  match lv_at s.st.array_list r i with
  | none => s
  | some lv =>
    match lv.fullname with
    | none => s
    | some fullname =>
      if lv.scanned = false ∧ lv.became_readable_at ≠ 0 then
        let st2 := apply_ops grub_disk_open (scan_disk s.calls fullname s.st) s.st
        { st := apply_op grub_disk_open (EngineOp.scanned (st2.array_list.length - 1 - r) i) st2,
          need_rescan := true,
          calls := s.calls + 1,
          scans := s.scans ++ [(r, i, lv)] }
      else s

/-- The loop over the volumes of the group of rank `r` (lines 261-268). -/
def rescan_group (grub_disk_open : String → Except grub_err_t Nat)
    (scan_disk : Nat → String → State → List EngineOp) (r : Nat) (s : rescan_state) :
    rescan_state :=
  match s.st.array_list.reverse[r]? with
  | none => s
  | some vg =>
    (List.range vg.lvs.length).foldl (fun s i => rescan_lv grub_disk_open scan_disk r i s) s

/-- One round of the rescan loop (lines 258-269): `need_rescan = 0` and the
loop over the groups of the registry, from the head. -/
def rescan_round (grub_disk_open : String → Except grub_err_t Nat)
    (scan_disk : Nat → String → State → List EngineOp) (calls : Nat) (st : State) :
    rescan_state :=
  (List.range st.array_list.length).reverse.foldl
    (fun s r => rescan_group grub_disk_open scan_disk r s)
    { st := st, need_rescan := false, calls := calls, scans := [] }

/-- The flags `l2` are as many as the flags `l`, and those that are set in `l`
are set in `l2`. -/
def scanned_kept (l l2 : List Bool) : Prop :=
  l.length = l2.length ∧ ∀ (i : Nat), l[i]? = some true → l2[i]? = some true

/-- The position of a recorded call of `scan_disk`: the rank of the group and
the position of the volume in it. -/
def scan_position (e : Nat × Nat × grub_diskfilter_lv) : Nat × Nat := (e.1, e.2.1)

/-- The volume of a recorded call of `scan_disk` had a name and a stamp and was
not marked as scanned when the loop found it. -/
def scan_due (e : Nat × Nat × grub_diskfilter_lv) : Prop :=
  e.2.2.scanned = false ∧ e.2.2.fullname ≠ none ∧ e.2.2.became_readable_at ≠ 0

/-- The invariant of a round after the calls `prev` of the rounds before: no
volume was scanned twice, every volume scanned so far is marked as scanned,
every call of the round was due, and `need_rescan` is set exactly when the round
made a call. -/
def rescan_inv (prev : List (Nat × Nat × grub_diskfilter_lv)) (s : rescan_state) : Prop :=
  ((prev ++ s.scans).map scan_position).Nodup
  ∧ (∀ e ∈ prev ++ s.scans, scanned_at s.st.array_list e.1 e.2.1 = some true)
  ∧ (∀ e ∈ s.scans, scan_due e)
  ∧ (s.need_rescan = true ↔ s.scans ≠ [])

/-- A scan that registers, at each call, one more group with a stamped volume
of a new name. -/
def c32_scan (calls : Nat) (_name : String) (_st : State) : List EngineOp :=
  [EngineOp.register (vg_of [{ lv_named (String.mk (List.replicate (calls + 1) 'a'))
      [c6_segment] with became_readable_at := 1 }])]

/-- A scan that changes nothing. -/
def c32_scan_nothing (_calls : Nat) (_name : String) (_st : State) : List EngineOp := []

/-- A state whose registry holds one group with one stamped mirror volume of the
empty name, not yet scanned. -/
def c32_state : State :=
  { state_empty with
    array_list := [vg_of [{ lv_named "" [c6_segment] with became_readable_at := 1 }]] }

/-! ## Reads cut at the stripe boundaries: the parity levels -/

/-- The state `disknr`, `read_sector`, `p` with which `read_segment` enters its
loop for a request that starts in the data block `t` of a RAID4, RAID5 or RAID6
segment with `n` parity blocks (lines 743-777), computed from scratch. -/
def parity_scratch (env : Env) (seg : grub_diskfilter_seg) (n t : Nat) : Nat × Nat × Nat :=
  (if seg.type ≥ 5 then
      read_segment_parity_disknr env seg n
        (read_segment_parity_p env seg (t / (seg.node_count - n) % seg.node_count))
        (t % (seg.node_count - n))
    else t % (seg.node_count - n),
   t / (seg.node_count - n) * seg.stripe_size,
   if seg.type ≥ 5 then
      read_segment_parity_p env seg (t / (seg.node_count - n) % seg.node_count)
    else seg.node_count - n)

/-- The layout is not the left-asymmetric one: the bit of
`GRUB_RAID_LAYOUT_RIGHT_MASK` or the bit of `GRUB_RAID_LAYOUT_SYMMETRIC_MASK`
is set. -/
def layout_not_left_asymmetric (env : Env) (seg : grub_diskfilter_seg) : Prop :=
  seg.layout &&& env.GRUB_RAID_LAYOUT_SYMMETRIC_MASK ≠ 0
  ∨ seg.layout &&& env.GRUB_RAID_LAYOUT_RIGHT_MASK ≠ 0

/-- The read of one chunk by the loop of the parity levels (lines 779-830): the
read of the member and, after a failure with `GRUB_ERR_READ_ERROR` or
`GRUB_ERR_UNKNOWN_DEVICE`, the recovery; the error code is the one with which
the iteration goes on or returns. -/
def parity_chunk (env : Env) (rd : List Reader) (seg : grub_diskfilter_seg)
    (disknr read_sector p b len buf : Nat) : Res :=
  match read_segment_node rd disknr (read_sector + b) len buf with
  | none => none
  | some (err, ev) =>
    if err ≠ GRUB_ERR_NONE ∧ (err ≠ GRUB_ERR_READ_ERROR ∧ err ≠ GRUB_ERR_UNKNOWN_DEVICE) then
      some (err, [ev])
    else if err ≠ GRUB_ERR_NONE then
      some ((read_segment_recover env seg disknr p buf (read_sector + b) len).1,
        ev :: (read_segment_recover env seg disknr p buf (read_sector + b) len).2)
    else some (GRUB_ERR_NONE, [ev])

/-- A RAID6 segment of 4 members with stripe size 2 and the left-symmetric
layout code 2. -/
def c34_segment_symmetric : grub_diskfilter_seg := segment_of GRUB_DISKFILTER_RAID6 2 4 2 64 32

/-! ## Success of a read and the reads made: the chunks -/

/-- The event is a member read or a recovery call for a chunk of `len` sectors
at the place `buf` of the buffer that returned `GRUB_ERR_NONE`. -/
def Event.fills (len buf : Nat) : Event → Prop
  | Event.node_read _ _ size b err _ => size = len ∧ b = buf ∧ err = GRUB_ERR_NONE
  | Event.raid5_recover _ b _ size err => size = len ∧ b = buf ∧ err = GRUB_ERR_NONE
  | Event.raid6_recover _ _ b _ size err => size = len ∧ b = buf ∧ err = GRUB_ERR_NONE
  | _ => False

/-- The chunks in which `read_segment` reads a request: the whole request for a
STRIPED segment of one member (lines 624-626), the request cut at the stripe
boundaries otherwise. -/
def segment_chunks (env : Env) (seg : grub_diskfilter_seg) (sector size buf : Nat) :
    List (Nat × Nat × Nat) :=
  if seg.type = GRUB_DISKFILTER_STRIPED ∧ seg.node_count = 1 then [(sector, size, buf)]
  else request_chunks env.GRUB_DISK_SECTOR_BITS seg.stripe_size size sector size buf

/-! ## The divisor of the far copies in 64 bits -/

/-- The divisor of `grub_divmod64 (seg->raid_member_size, far * seg->stripe_size, 0)`
(lines 654-656) as the code computes it: `far` is a `grub_uint64_t`, and so is
the product, which wraps at `2^64`. (`read_segment_copies_start` takes the
product exact, which is the same below `2^64`.) -/
def read_segment_far_divisor (seg : grub_diskfilter_seg) : Nat :=
  (((seg.layout >>> 8) &&& 0xFF) * seg.stripe_size) % 2 ^ 64

/-- The volume is due for a scan: it is not marked as scanned, it has a
`fullname` and its stamp `became_readable_at` is not 0 (the test of line 263). -/
def lv_due (lv : grub_diskfilter_lv) : Prop :=
  lv.scanned = false ∧ lv.fullname ≠ none ∧ lv.became_readable_at ≠ 0

/-- Some volume of the registry is due for a scan. -/
def registry_due (array_list : List grub_diskfilter_vg) : Prop :=
  ∃ r i lv, lv_at array_list r i = some lv ∧ lv_due lv

/-- What an operation of the engine keeps of a registered volume: the
`fullname`, a stamp that is not 0, and a mark `scanned` that is set. -/
def lv_kept (lv lv2 : grub_diskfilter_lv) : Prop :=
  lv2.fullname = lv.fullname
  ∧ (lv.became_readable_at ≠ 0 → lv2.became_readable_at = lv.became_readable_at)
  ∧ (lv.scanned = true → lv2.scanned = true)

/-- The volumes `lvs2` are as many as the volumes `lvs`, and each keeps of the
one at its position what `lv_kept` says. -/
def lvs_kept (lvs lvs2 : List grub_diskfilter_lv) : Prop :=
  lvs.length = lvs2.length
  ∧ ∀ (i : Nat) (lv : grub_diskfilter_lv), lvs[i]? = some lv →
      ∃ lv2, lvs2[i]? = some lv2 ∧ lv_kept lv lv2

/-- Every group of the registry `al` is at its rank in the registry `al2`, with
its volumes kept. -/
def registry_kept (al al2 : List grub_diskfilter_vg) : Prop :=
  ∀ (r : Nat) (vg : grub_diskfilter_vg), al.reverse[r]? = some vg →
    ∃ vg2, al2.reverse[r]? = some vg2 ∧ lvs_kept vg.lvs vg2.lvs

/-- The invariant of a round that began in the state `st0`: as long as no call
of `scan_disk` was made the state is `st0`, and when a call was made a volume of
the registry of `st0` was due. -/
def rescan_first (st0 : State) (s : rescan_state) : Prop :=
  (s.scans = [] → s.st = st0) ∧ (s.scans ≠ [] → registry_due st0.array_list)

/-- The record of one round of the rescan loop: the state of the module when
the round began, the calls of `scan_disk` of the round in order, and the state
when the round ended. -/
structure rescan_round_log where
  start : State
  scans : List (Nat × Nat × grub_diskfilter_lv)
  finish : State

/-- The outcome of the rescan loop: the state of the module, `need_rescan`, and
the rounds in order. -/
structure rescan_result where
  st : State
  need_rescan : Bool
  rounds : List rescan_round_log

/-- The loop `while (need_rescan && scan_depth++ < 100)` (lines 256-270),
entered with `need_rescan` set and `depth` rounds left, that is with
`scan_depth = 100 - depth`. -/
def rescan_loop (grub_disk_open : String → Except grub_err_t Nat)
    (scan_disk : Nat → String → State → List EngineOp) : Nat → Nat → State → rescan_result
  | 0, _, st => { st := st, need_rescan := true, rounds := [] }
  | depth + 1, calls, st =>
    let s := rescan_round grub_disk_open scan_disk calls st
    if s.need_rescan then
      let r := rescan_loop grub_disk_open scan_disk depth s.calls s.st
      { st := r.st, need_rescan := r.need_rescan,
        rounds := { start := st, scans := s.scans, finish := s.st } :: r.rounds }
    else { st := s.st, need_rescan := false,
           rounds := [{ start := st, scans := s.scans, finish := s.st }] }

/-- The end of `scan_devices` (lines 254-273): the rescan loop from
`scan_depth = 0`, and the error `GRUB_ERR_UNKNOWN_DEVICE` ("DISKFILTER scan
depth exceeded") when it ends with `need_rescan` set. In the result
`need_rescan` tells whether `grub_error` was called. -/
def scan_devices_rescan (grub_disk_open : String → Except grub_err_t Nat)
    (scan_disk : Nat → String → State → List EngineOp) (st : State) : rescan_result :=
  let r := rescan_loop grub_disk_open scan_disk 100 0 st
  if r.need_rescan then { r with st := (grub_error r.st GRUB_ERR_UNKNOWN_DEVICE).2 } else r

/-- The rounds are chained: the first begins in the state `st`, each of the
others begins in the state in which the round before it ended, and the last
ends in the state `fin` (which is `st` when there is no round). -/
def rounds_chained : State → List rescan_round_log → State → Prop
  | st, [], fin => fin = st
  | st, r :: rest, fin => r.start = st ∧ rounds_chained r.finish rest fin

/-- The calls of `scan_disk` of all the rounds, in order. -/
def rounds_scans (rounds : List rescan_round_log) : List (Nat × Nat × grub_diskfilter_lv) :=
  (rounds.map (fun round => round.scans)).flatten

/-- What a round of the rescan loop does to the registry in which it begins:
it calls `scan_disk` exactly when a volume of the registry is due; a round
without a call leaves the state as it is; the groups and volumes of the
registry keep their positions, names, stamps and set marks; every volume that
was due when the round began is marked as scanned when it ends; and every call
is for a volume that was in the registry when the round began, at the recorded
position, and that was due when the loop found it. -/
def round_sound (round : rescan_round_log) : Prop :=
  (round.scans ≠ [] ↔ registry_due round.start.array_list)
  ∧ (round.scans = [] → round.finish = round.start)
  ∧ registry_kept round.start.array_list round.finish.array_list
  ∧ (∀ r i lv, lv_at round.start.array_list r i = some lv → lv_due lv →
      scanned_at round.finish.array_list r i = some true)
  ∧ (∀ e ∈ round.scans, lv_due e.2.2
      ∧ ∃ lv0, lv_at round.start.array_list e.1 e.2.1 = some lv0 ∧ lv_kept lv0 e.2.2)

/-- The group at the head of the registry holds, at its first position, a
volume that is due for a scan. -/
def head_due (array_list : List grub_diskfilter_vg) : Prop :=
  ∃ vg rest lv, array_list = vg :: rest ∧ vg.lvs[0]? = some lv ∧ lv_due lv
/-! # Theorems -/

/-! ## Readability oracle -/

theorem is_lv_readable_eq (pvs : Nat → grub_diskfilter_pv) (lv : grub_diskfilter_lv)
    (easily : Bool) :
    is_lv_readable pvs lv easily = is_lv_readable_segments pvs lv.segments easily := by
  cases lv
  simp [is_lv_readable]

theorem is_node_readable_iff (pvs : Nat → grub_diskfilter_pv) (node : grub_diskfilter_node)
    (easily : Bool) :
    is_node_readable pvs node easily = true ↔
      (∃ a, node.pv = some a ∧ (pvs a).disk ≠ none)
      ∨ (node.pv = none ∧ ∃ l, node.lv = some l ∧ is_lv_readable pvs l easily = true) := by
  rcases node with ⟨nm, st, pv, lv⟩
  cases pv with
  | some a =>
    simp [is_node_readable, grub_diskfilter_node.pv, Option.isSome_iff_ne_none]
  | none =>
    cases lv with
    | some l => simp [is_node_readable, grub_diskfilter_node.pv, grub_diskfilter_node.lv]
    | none => simp [is_node_readable, grub_diskfilter_node.pv, grub_diskfilter_node.lv]

theorem is_lv_readable_have_lt (pvs : Nat → grub_diskfilter_pv) (easily : Bool) (need : Int)
    (nodes : List grub_diskfilter_node) (h : Int) :
    is_lv_readable_have pvs nodes easily need h < need ↔
      h + (nodes.countP (fun node => is_node_readable pvs node easily) : Nat) < need := by
  induction nodes generalizing h with
  | nil => simp [is_lv_readable_have]
  | cons node rest ih =>
    rw [is_lv_readable_have]
    by_cases hl : is_node_readable pvs node easily = true
    · simp only [hl, if_true, List.countP_cons_of_pos]
      by_cases hg : h + 1 ≥ need
      · simp only [hg, if_true]; push_cast; omega
      · simp only [hg, if_false]; rw [ih]; push_cast; omega
    · have hc : List.countP (fun node => is_node_readable pvs node easily) (node :: rest)
          = List.countP (fun node => is_node_readable pvs node easily) rest :=
        List.countP_cons_of_neg _ _ hl
      simp only [hl, hc, Bool.false_eq_true, if_false]
      by_cases hg : h ≥ need
      · simp only [hg, if_true]; omega
      · simp only [hg, if_false]; rw [ih]

theorem is_lv_readable_segments_iff (pvs : Nat → grub_diskfilter_pv) (easily : Bool)
    (segs : List grub_diskfilter_seg) :
    is_lv_readable_segments pvs segs easily = true ↔
      ∀ seg ∈ segs, is_lv_readable_need seg easily ≤ (live_nodes pvs seg easily : Int) := by
  induction segs with
  | nil => simp [is_lv_readable_segments]
  | cons seg rest ih =>
    have hh := is_lv_readable_have_lt pvs easily (is_lv_readable_need seg easily) seg.nodes 0
    rw [is_lv_readable_segments]
    simp only [List.mem_cons, forall_eq_or_imp, live_nodes]
    by_cases hlt : is_lv_readable_have pvs seg.nodes easily (is_lv_readable_need seg easily) 0
        < is_lv_readable_need seg easily
    · simp only [hlt, if_true]
      constructor
      · intro h; cases h
      · intro h; have := hh.1 hlt; omega
    · simp only [hlt, if_false, ih]
      constructor
      · intro h
        refine ⟨?_, h⟩
        by_contra hc
        exact hlt (hh.2 (by omega))
      · intro h; exact h.2

theorem is_lv_readable_need_table (seg : grub_diskfilter_seg) (easily : Bool) :
    (seg.type = GRUB_DISKFILTER_STRIPED → is_lv_readable_need seg easily = seg.node_count)
    ∧ (seg.type = GRUB_DISKFILTER_MIRROR → is_lv_readable_need seg easily = 1)
    ∧ (seg.type = GRUB_DISKFILTER_RAID4 ∨ seg.type = GRUB_DISKFILTER_RAID5 →
        is_lv_readable_need seg easily
          = if easily then (seg.node_count : Int) else (seg.node_count : Int) - 1)
    ∧ (seg.type = GRUB_DISKFILTER_RAID6 →
        is_lv_readable_need seg easily
          = if easily then (seg.node_count : Int) else (seg.node_count : Int) - 2) := by
  refine ⟨?_, ?_, ?_, ?_⟩
  · intro h
    simp [is_lv_readable_need, h, GRUB_DISKFILTER_STRIPED, GRUB_DISKFILTER_RAID6,
      GRUB_DISKFILTER_RAID4, GRUB_DISKFILTER_RAID5]
  · intro h
    simp [is_lv_readable_need, h, GRUB_DISKFILTER_STRIPED, GRUB_DISKFILTER_RAID6,
      GRUB_DISKFILTER_RAID4, GRUB_DISKFILTER_RAID5, GRUB_DISKFILTER_MIRROR]
  · intro h
    rcases h with h | h <;> cases easily <;>
      simp [is_lv_readable_need, h, GRUB_DISKFILTER_RAID6, GRUB_DISKFILTER_RAID4,
        GRUB_DISKFILTER_RAID5]
  · intro h
    cases easily <;> simp [is_lv_readable_need, h, GRUB_DISKFILTER_RAID6]
    omega

theorem live_nodes_eq_attached (pvs : Nat → grub_diskfilter_pv) (seg : grub_diskfilter_seg)
    (easily : Bool) (hpv : ∀ node ∈ seg.nodes, node.pv ≠ none) :
    live_nodes pvs seg easily = attached_nodes pvs seg := by
  unfold live_nodes attached_nodes
  apply List.countP_congr
  intro node hn
  rcases node with ⟨nm, st, pv, lv⟩
  cases pv with
  | some a => simp [is_node_readable, node_attached, grub_diskfilter_node.pv]
  | none => exact absurd rfl (hpv _ hn)

/-- C1: `is_lv_readable (lv, easily)` is true iff every segment has at least
`need` live nodes; a node is live iff it references a physical member with an
attached device, or it references no member and a nested volume readable in the
same mode; `need` is `node_count` for STRIPED, 1 for MIRROR, `node_count` or
`node_count - 1` for RAID4/RAID5 and `node_count` or `node_count - 2` for RAID6
(easily or not); the count with `break` is below `need` exactly when the count
of all live nodes is; and a volume of one RAID5 segment over 4 members is
readable in best-effort mode with 3 or more members attached and unreadable
with 2 or fewer. -/
theorem C1_lv_readable_iff_enough_live_nodes (pvs : Nat → grub_diskfilter_pv)
    (lv : grub_diskfilter_lv) (easily : Bool) :
    (is_lv_readable pvs lv easily = true ↔
      ∀ seg ∈ lv.segments, is_lv_readable_need seg easily ≤ (live_nodes pvs seg easily : Int))
    ∧ (∀ node : grub_diskfilter_node, is_node_readable pvs node easily = true ↔
        (∃ a, node.pv = some a ∧ (pvs a).disk ≠ none)
        ∨ (node.pv = none ∧ ∃ l, node.lv = some l ∧ is_lv_readable pvs l easily = true))
    ∧ (∀ seg : grub_diskfilter_seg,
        (seg.type = GRUB_DISKFILTER_STRIPED → is_lv_readable_need seg easily = seg.node_count)
        ∧ (seg.type = GRUB_DISKFILTER_MIRROR → is_lv_readable_need seg easily = 1)
        ∧ (seg.type = GRUB_DISKFILTER_RAID4 ∨ seg.type = GRUB_DISKFILTER_RAID5 →
            is_lv_readable_need seg easily
              = if easily then (seg.node_count : Int) else (seg.node_count : Int) - 1)
        ∧ (seg.type = GRUB_DISKFILTER_RAID6 →
            is_lv_readable_need seg easily
              = if easily then (seg.node_count : Int) else (seg.node_count : Int) - 2))
    ∧ (∀ seg : grub_diskfilter_seg,
        is_lv_readable_have pvs seg.nodes easily (is_lv_readable_need seg easily) 0
            < is_lv_readable_need seg easily
          ↔ (live_nodes pvs seg easily : Int) < is_lv_readable_need seg easily)
    ∧ (∀ seg : grub_diskfilter_seg, lv.segments = [seg] → seg.type = GRUB_DISKFILTER_RAID5 →
        seg.node_count = 4 → (∀ node ∈ seg.nodes, node.pv ≠ none) →
        (3 ≤ attached_nodes pvs seg → is_lv_readable pvs lv false = true)
        ∧ (attached_nodes pvs seg ≤ 2 → is_lv_readable pvs lv false = false)) := by
  refine ⟨?_, ?_, ?_, ?_, ?_⟩
  · rw [is_lv_readable_eq]; exact is_lv_readable_segments_iff pvs easily lv.segments
  · intro node; exact is_node_readable_iff pvs node easily
  · intro seg; exact is_lv_readable_need_table seg easily
  · intro seg
    have := is_lv_readable_have_lt pvs easily (is_lv_readable_need seg easily) seg.nodes 0
    simpa [live_nodes] using this
  · intro seg hs ht hn hpv
    have hneed : is_lv_readable_need seg false = 3 := by
      have := (is_lv_readable_need_table seg false).2.2.1 (Or.inr ht)
      rw [this, hn]; simp
    have hlive := live_nodes_eq_attached pvs seg false hpv
    have hiff : is_lv_readable pvs lv false = true ↔ (3 : Int) ≤ (attached_nodes pvs seg : Int) := by
      rw [is_lv_readable_eq, is_lv_readable_segments_iff, hs]
      simp [hneed, hlive]
    constructor
    · intro h; exact hiff.2 (by omega)
    · intro h
      cases hr : is_lv_readable pvs lv false with
      | false => rfl
      | true => have := hiff.1 hr; omega

/-- C2 as stated fails: a RAID10 segment of 4 members with 1 near copy and 2
far copies needs 3 live nodes, not `4 - 1 + 1 = 4`, and a volume made of it is
readable with only the members 0, 1 and 2 attached. -/
theorem C2_counterexample :
    c2_segment.type = GRUB_DISKFILTER_RAID10
    ∧ raid10_near c2_segment.layout = 1
    ∧ is_lv_readable_need c2_segment true = 3
    ∧ is_lv_readable_need c2_segment false = 3
    ∧ ¬ (is_lv_readable_need c2_segment true
          = (c2_segment.node_count : Int) - (raid10_near c2_segment.layout : Int) + 1)
    ∧ is_lv_readable (heap_of (fun a => decide (a < 3))) (volume_of [c2_segment] 1) true = true := by
  decide

/-- C2 amended: for every RAID10 segment, in both modes, the oracle requires
`node_count - n + 1` live nodes, where `n` is the near-copy count (the low
byte of the layout code) unless that count is 1, in which case `n` is the
far-copy count (the second byte of the layout code). -/
theorem C2_raid10_need (seg : grub_diskfilter_seg) (easily : Bool)
    (h : seg.type = GRUB_DISKFILTER_RAID10) :
    is_lv_readable_need seg easily
      = (seg.node_count : Int)
        - ((if raid10_near seg.layout = 1 then raid10_far seg.layout
            else raid10_near seg.layout : Nat) : Int) + 1 := by
  simp [is_lv_readable_need, h, GRUB_DISKFILTER_RAID10, GRUB_DISKFILTER_RAID6,
    GRUB_DISKFILTER_RAID4, GRUB_DISKFILTER_RAID5, GRUB_DISKFILTER_STRIPED,
    GRUB_DISKFILTER_MIRROR, raid10_near, raid10_far]

theorem C2_raid10_need_witness :
    c2_segment.type = GRUB_DISKFILTER_RAID10
    ∧ is_lv_readable_need c2_segment false
      = (c2_segment.node_count : Int)
        - ((if raid10_near c2_segment.layout = 1 then raid10_far c2_segment.layout
            else raid10_near c2_segment.layout : Nat) : Int) + 1 :=
  ⟨by decide, C2_raid10_need c2_segment false (by decide)⟩

/-! ## The loops over the copies -/

theorem try_candidates_append (rd : List Reader) (read_size buf : Nat)
    (c : Nat × Nat) (rest l2 : List (Nat × Nat)) (e0 : grub_err_t) :
    try_candidates rd read_size buf (c :: rest ++ l2) e0 =
      match try_candidates rd read_size buf (c :: rest) e0 with
      | none => none
      | some (e, tr) =>
        if e = GRUB_ERR_READ_ERROR ∨ e = GRUB_ERR_UNKNOWN_DEVICE then
          match try_candidates rd read_size buf l2 e with
          | none => none
          | some (e2, tr2) => some (e2, tr ++ tr2)
        else some (e, tr) := by
  induction rest generalizing c e0 with
  | nil =>
    show try_candidates rd read_size buf (c :: l2) e0 = _
    simp only [try_candidates]
    cases hr : read_segment_node rd c.1 c.2 read_size buf with
    | none => rfl
    | some r =>
      obtain ⟨err, ev⟩ := r
      by_cases hret : err = GRUB_ERR_READ_ERROR ∨ err = GRUB_ERR_UNKNOWN_DEVICE
      · simp only [hret, if_true]
        cases h2 : try_candidates rd read_size buf l2 err with
        | none => rfl
        | some r2 => rfl
      · simp only [hret, if_false]
  | cons c2 rest ih =>
    have ih2 := ih c2
    show try_candidates rd read_size buf (c :: (c2 :: rest ++ l2)) e0 = _
    rw [try_candidates]
    conv_rhs => rw [try_candidates]
    cases hr : read_segment_node rd c.1 c.2 read_size buf with
    | none => rfl
    | some r =>
      obtain ⟨err, ev⟩ := r
      by_cases hret : err = GRUB_ERR_READ_ERROR ∨ err = GRUB_ERR_UNKNOWN_DEVICE
      · simp only [hret, if_true]
        rw [ih2 err]
        cases h1r : try_candidates rd read_size buf (c2 :: rest) err with
        | none => rfl
        | some r1 =>
          obtain ⟨e1, tr1⟩ := r1
          by_cases h1 : e1 = GRUB_ERR_READ_ERROR ∨ e1 = GRUB_ERR_UNKNOWN_DEVICE
          · simp only [h1, if_true]
            cases h2 : try_candidates rd read_size buf l2 e1 with
            | none => rfl
            | some r2 => rfl
          · simp only [h1, if_false]
      · simp only [hret, if_false]

theorem wrap_succ_mod (N k t : Nat) (_hk : k < N) :
    ((if k + 1 = N then 0 else k + 1) + t) % N = (k + (t + 1)) % N := by
  by_cases h : k + 1 = N
  · simp only [h, if_true]
    have : k + (t + 1) = N + t := by omega
    rw [this, Nat.add_mod_left, Nat.zero_add]
  · simp only [h, if_false]
    congr 1; omega

theorem wrap_succ_lt (N k : Nat) (_hk : k < N) : (if k + 1 = N then 0 else k + 1) < N := by
  by_cases h : k + 1 = N
  · simp only [h, if_true]; omega
  · simp only [h, if_false]; omega

theorem read_segment_far_loop_eq (rd : List Reader) (N rs far_ofs b rsz buf : Nat)
    (n j k : Nat) (e0 : grub_err_t) (hk : k < N)
    (he0 : e0 = GRUB_ERR_NONE ∨ e0 = GRUB_ERR_READ_ERROR ∨ e0 = GRUB_ERR_UNKNOWN_DEVICE) :
    read_segment_far_loop rd N rs far_ofs b rsz buf n j k e0 =
      match try_candidates rd rsz buf
          ((List.range n).map (fun t => ((k + t) % N, rs + (j + t) * far_ofs + b))) e0 with
      | none => none
      | some (e, tr) =>
        some (if e = GRUB_ERR_NONE ∨ e = GRUB_ERR_READ_ERROR ∨ e = GRUB_ERR_UNKNOWN_DEVICE
          then Flow.next e else Flow.ret e, tr) := by
  induction n generalizing j k e0 with
  | zero =>
    simp only [read_segment_far_loop, List.range_zero, List.map_nil, try_candidates, he0, if_true]
  | succ n ih =>
    rw [read_segment_far_loop, List.range_succ_eq_map, List.map_cons, List.map_map, try_candidates]
    simp only [Nat.add_zero, Nat.mod_eq_of_lt hk]
    cases hr : read_segment_node rd k (rs + j * far_ofs + b) rsz buf with
    | none => rfl
    | some r =>
      obtain ⟨err, ev⟩ := r
      by_cases hnone : err = GRUB_ERR_NONE
      · subst hnone
        simp
      · by_cases hret : err = GRUB_ERR_READ_ERROR ∨ err = GRUB_ERR_UNKNOWN_DEVICE
        · have hhard : ¬ (err ≠ GRUB_ERR_READ_ERROR ∧ err ≠ GRUB_ERR_UNKNOWN_DEVICE) := by
            rcases hret with h | h <;> simp [h]
          simp only [hnone, if_false, hhard, hret, if_true]
          rw [ih (j + 1) _ err (wrap_succ_lt N k hk) (Or.inr hret)]
          have hl : (List.range n).map (fun t => (((if k + 1 = N then 0 else k + 1) + t) % N,
                rs + (j + 1 + t) * far_ofs + b))
              = (List.range n).map ((fun t => ((k + t) % N, rs + (j + t) * far_ofs + b)) ∘ Nat.succ) := by
            apply List.map_congr_left
            intro t _
            simp only [Function.comp, Nat.succ_eq_add_one, wrap_succ_mod N k t hk]
            have hj : j + 1 + t = j + (t + 1) := by omega
            rw [hj]
          rw [hl]
          cases try_candidates rd rsz buf ((List.range n).map
              ((fun t => ((k + t) % N, rs + (j + t) * far_ofs + b)) ∘ Nat.succ)) err with
          | none => rfl
          | some r2 => rfl
        · have hhard : err ≠ GRUB_ERR_READ_ERROR ∧ err ≠ GRUB_ERR_UNKNOWN_DEVICE := by
            constructor
            · intro h; exact hret (Or.inl h)
            · intro h; exact hret (Or.inr h)
          simp [hnone, hhard, hret]

theorem wrap_succ_div (N ofs rs d t : Nat) (_hd : d < N) :
    (if d + 1 = N then rs + ofs else rs) + ((if d + 1 = N then 0 else d + 1) + t) / N * ofs
      = rs + (d + (t + 1)) / N * ofs := by
  by_cases h : d + 1 = N
  · simp only [h, if_true, Nat.zero_add]
    have h1 : d + (t + 1) = N + t := by omega
    have hN : 0 < N := by omega
    rw [h1, Nat.add_div_left t hN, Nat.succ_mul]
    omega
  · simp only [h, if_false]
    have h1 : d + 1 + t = d + (t + 1) := by omega
    rw [h1]

theorem far_candidates_eq (N far far_ofs b d rs : Nat) :
    far_candidates N far far_ofs b d rs
      = (List.range far).map (fun t => ((d + t) % N, rs + (0 + t) * far_ofs + b)) := by
  simp [far_candidates]

theorem far_candidates_ne_nil (N far far_ofs b d rs : Nat) (hfar : 0 < far) :
    ∃ c rest, far_candidates N far far_ofs b d rs = c :: rest := by
  cases h : far_candidates N far far_ofs b d rs with
  | nil =>
    have hl : (far_candidates N far far_ofs b d rs).length = far := by simp [far_candidates]
    rw [h] at hl
    simp at hl
    omega
  | cons c rest => exact ⟨c, rest, rfl⟩

theorem copies_candidates_succ (N n far ofs far_ofs b d rs : Nat) (hd : d < N) :
    copies_candidates N (n + 1) far ofs far_ofs b d rs
      = far_candidates N far far_ofs b d rs
        ++ copies_candidates N n far ofs far_ofs b (if d + 1 = N then 0 else d + 1)
            (if d + 1 = N then rs + ofs else rs) := by
  unfold copies_candidates
  rw [List.range_succ_eq_map, List.flatMap_cons, List.flatMap_map]
  congr 1
  · simp [Nat.mod_eq_of_lt hd, Nat.div_eq_of_lt hd]
  · apply List.flatMap_congr
    intro t _
    simp only [Nat.succ_eq_add_one]
    rw [wrap_succ_mod N d t hd, wrap_succ_div N ofs rs d t hd]

theorem read_segment_near_loop_eq (rd : List Reader) (N far ofs far_ofs b rsz buf : Nat)
    (hfar : 0 < far) (n i d rs : Nat) (e0 : grub_err_t) (hd : d < N)
    (he0 : e0 = GRUB_ERR_NONE ∨ e0 = GRUB_ERR_READ_ERROR ∨ e0 = GRUB_ERR_UNKNOWN_DEVICE) :
    (try_candidates rd rsz buf (copies_candidates N n far ofs far_ofs b d rs) e0 = none →
      read_segment_near_loop rd N far ofs far_ofs b rsz buf n i d rs e0 = none)
    ∧ (∀ e tr, try_candidates rd rsz buf (copies_candidates N n far ofs far_ofs b d rs) e0
          = some (e, tr) →
        ∃ t, t ≤ n ∧ (e = GRUB_ERR_NONE → n ≠ 0 → t < n)
          ∧ (e = GRUB_ERR_READ_ERROR ∨ e = GRUB_ERR_UNKNOWN_DEVICE → t = n)
          ∧ read_segment_near_loop rd N far ofs far_ofs b rsz buf n i d rs e0
            = some (if e = GRUB_ERR_NONE ∨ e = GRUB_ERR_READ_ERROR ∨ e = GRUB_ERR_UNKNOWN_DEVICE
                then Flow.next ⟨i + t, (d + t) % N, rs + (d + t) / N * ofs, e⟩
                else Flow.ret e, tr)) := by
  induction n generalizing i d rs e0 with
  | zero =>
    constructor
    · intro h; simp [copies_candidates, try_candidates] at h
    · intro e tr h
      simp only [copies_candidates, List.range_zero, List.flatMap_nil, try_candidates,
        Option.some.injEq, Prod.mk.injEq] at h
      obtain ⟨rfl, rfl⟩ := h
      refine ⟨0, le_refl _, fun _ h => absurd rfl h, fun _ => rfl, ?_⟩
      simp [read_segment_near_loop, he0, Nat.mod_eq_of_lt hd, Nat.div_eq_of_lt hd]
  | succ n ih =>
    obtain ⟨c, rest, hcr⟩ := far_candidates_ne_nil N far far_ofs b d rs hfar
    have hfl := read_segment_far_loop_eq rd N rs far_ofs b rsz buf far 0 d GRUB_ERR_NONE hd
      (Or.inl rfl)
    rw [← far_candidates_eq, hcr] at hfl
    have happ := try_candidates_append rd rsz buf c rest
      (copies_candidates N n far ofs far_ofs b (if d + 1 = N then 0 else d + 1)
        (if d + 1 = N then rs + ofs else rs)) e0
    have hfirst : try_candidates rd rsz buf (c :: rest) e0
        = try_candidates rd rsz buf (c :: rest) GRUB_ERR_NONE := by
      simp only [try_candidates]
    rw [hfirst] at happ
    rw [copies_candidates_succ N n far ofs far_ofs b d rs hd, hcr, happ]
    rw [read_segment_near_loop, hfl]
    cases h1 : try_candidates rd rsz buf (c :: rest) GRUB_ERR_NONE with
    | none => simp
    | some r1 =>
      obtain ⟨e1, tr1⟩ := r1
      by_cases hnone : e1 = GRUB_ERR_NONE
      · subst hnone
        simp only [true_or, if_true, reduceCtorEq, false_or, if_false]
        constructor
        · intro h; cases h
        · intro e tr h
          simp only [Option.some.injEq, Prod.mk.injEq] at h
          obtain ⟨rfl, rfl⟩ := h
          refine ⟨0, Nat.zero_le _, fun _ _ => Nat.succ_pos n, ?_, ?_⟩
          · intro h; rcases h with h | h <;> cases h
          · simp [Nat.mod_eq_of_lt hd, Nat.div_eq_of_lt hd]
      · by_cases hret : e1 = GRUB_ERR_READ_ERROR ∨ e1 = GRUB_ERR_UNKNOWN_DEVICE
        · have hor : e1 = GRUB_ERR_NONE ∨ e1 = GRUB_ERR_READ_ERROR ∨ e1 = GRUB_ERR_UNKNOWN_DEVICE :=
            Or.inr hret
          have ih2 := ih (i + 1) (if d + 1 = N then 0 else d + 1)
            (if d + 1 = N then rs + ofs else rs) e1 (wrap_succ_lt N d hd) hor
          dsimp only
          rw [if_pos hor]
          simp only [hret, if_true, hnone, if_false]
          have hdec : (decide (d + 1 = N) = true) = (d + 1 = N) := by simp
          simp only [hdec]
          cases h2 : try_candidates rd rsz buf
              (copies_candidates N n far ofs far_ofs b (if d + 1 = N then 0 else d + 1)
                (if d + 1 = N then rs + ofs else rs)) e1 with
          | none =>
            rw [ih2.1 h2]
            simp
          | some r2 =>
            obtain ⟨e2, tr2⟩ := r2
            obtain ⟨t, ht1, ht2, ht3, ht4⟩ := ih2.2 e2 tr2 h2
            rw [ht4]
            constructor
            · intro h; cases h
            · intro e tr h
              simp only [Option.some.injEq, Prod.mk.injEq] at h
              obtain ⟨rfl, rfl⟩ := h
              refine ⟨t + 1, by omega, ?_, ?_, ?_⟩
              · intro he _
                by_cases hn : n = 0
                · subst hn
                  simp only [copies_candidates, List.range_zero, List.flatMap_nil, try_candidates,
                    Option.some.injEq, Prod.mk.injEq] at h2
                  exact absurd (h2.1.trans he) hnone
                · have := ht2 he hn; omega
              · intro he; have := ht3 he; omega
              · rw [wrap_succ_mod N d t hd, wrap_succ_div N ofs rs d t hd]
                have : i + 1 + t = i + (t + 1) := by omega
                rw [this]
        · have hor : ¬ (e1 = GRUB_ERR_NONE ∨ e1 = GRUB_ERR_READ_ERROR ∨ e1 = GRUB_ERR_UNKNOWN_DEVICE) := by
            intro h; rcases h with h | h
            · exact hnone h
            · exact hret h
          dsimp only
          rw [if_neg hor]
          simp only [hret, if_false]
          constructor
          · intro h; cases h
          · intro e tr h
            simp only [Option.some.injEq, Prod.mk.injEq] at h
            obtain ⟨rfl, rfl⟩ := h
            refine ⟨0, Nat.zero_le _, fun h => absurd h hnone, fun h => absurd h hret, ?_⟩
            rw [if_neg hor]

theorem read_segment_wrap_loop_eq (N ofs : Nat) (hN : 0 < N) (fuel d rs : Nat) (hf : d ≤ fuel) :
    read_segment_wrap_loop N ofs fuel d rs = (d % N, rs + d / N * ofs) := by
  induction fuel generalizing d rs with
  | zero =>
    have : d = 0 := by omega
    subst this
    simp [read_segment_wrap_loop]
  | succ fuel ih =>
    rw [read_segment_wrap_loop]
    by_cases h : d ≥ N
    · simp only [h, if_true]
      rw [ih (d - N) (rs + ofs) (by omega)]
      have h1 : d = (d - N) + N := by omega
      have h2 : d % N = (d - N) % N := by
        conv_lhs => rw [h1]
        exact Nat.add_mod_right _ _
      have h3 : d / N = (d - N) / N + 1 := by
        conv_lhs => rw [h1]
        exact Nat.add_div_right _ hN
      rw [h2, h3, Nat.add_mul, Nat.one_mul]
      congr 1
      omega
    · simp only [h, if_false]
      have hlt : d < N := by omega
      rw [Nat.mod_eq_of_lt hlt, Nat.div_eq_of_lt hlt]
      simp

theorem next_stripe (x S : Nat) (hS : 0 < S) :
    (x + (S - x % S)) / S = x / S + 1 ∧ (x + (S - x % S)) % S = 0 := by
  have hm : x % S < S := Nat.mod_lt _ hS
  have hx : S * (x / S) + x % S = x := Nat.div_add_mod x S
  have h1 : x + (S - x % S) = S * (x / S + 1) := by
    rw [Nat.mul_succ]; omega
  rw [h1]
  exact ⟨Nat.mul_div_cancel_left _ hS, Nat.mul_mod_right _ _⟩

theorem succ_div_mod (B N : Nat) (hN : 0 < N) :
    (B % N + 1) % N = (B + 1) % N ∧ B / N + (B % N + 1) / N = (B + 1) / N := by
  constructor
  · rw [Nat.add_mod B 1 N, Nat.add_mod (B % N) 1 N, Nat.mod_mod]
  · have hB : N * (B / N) + B % N = B := Nat.div_add_mod B N
    have h1 : B + 1 = N * (B / N) + (B % N + 1) := by omega
    conv_rhs => rw [h1]
    rw [Nat.mul_add_div hN]

theorem read_segment_node_healthy (rd : List Reader) (N : Nat) (h : all_healthy rd N)
    (k s z b : Nat) (hk : k < N) :
    ∃ sub, read_segment_node rd k s z b
      = some (GRUB_ERR_NONE, Event.node_read k s z b GRUB_ERR_NONE sub) := by
  obtain ⟨f, hf, hs⟩ := h k hk
  obtain ⟨sub, hsub⟩ := hs s z b
  exact ⟨sub, by simp [read_segment_node, hf, hsub]⟩

theorem striped_copies_candidates (N S b d rs : Nat) (hd : d < N) :
    copies_candidates N 1 1 S 0 b d rs = [(d, rs + b)] := by
  unfold copies_candidates far_candidates
  rw [show List.range 1 = [0] from rfl]
  simp [Nat.mod_eq_of_lt hd, Nat.div_eq_of_lt hd]

theorem node_calls_cons_node_read (k s z b : Nat) (e : grub_err_t) (sub tr : List Event) :
    node_calls (Event.node_read k s z b e sub :: tr) = (k, s, z, b, e) :: node_calls tr := by
  simp [node_calls, Event.node_call]

theorem read_segment_near_loop_striped (rd : List Reader) (N S : Nat) (h : all_healthy rd N)
    (b len buf d rs : Nat) (hd : d < N) :
    ∃ sub, read_segment_near_loop rd N 1 S 0 b len buf 1 0 d rs GRUB_ERR_NONE
      = some (Flow.next ⟨0, d, rs, GRUB_ERR_NONE⟩,
          [Event.node_read d (rs + b) len buf GRUB_ERR_NONE sub]) := by
  obtain ⟨sub, hsub⟩ := read_segment_node_healthy rd N h d (rs + b) len buf hd
  have htry : try_candidates rd len buf (copies_candidates N 1 1 S 0 b d rs) GRUB_ERR_NONE
      = some (GRUB_ERR_NONE, [Event.node_read d (rs + b) len buf GRUB_ERR_NONE sub]) := by
    rw [striped_copies_candidates N S _ _ _ hd]
    simp [try_candidates, hsub]
  obtain ⟨t, _, ht2, _, ht4⟩ := (read_segment_near_loop_eq rd N 1 S 0 b len buf
    (by omega) 1 0 d rs GRUB_ERR_NONE hd (Or.inl rfl)).2 _ _ htry
  have ht0 : t = 0 := by have := ht2 rfl (by omega); omega
  subst ht0
  refine ⟨sub, ?_⟩
  rw [ht4]
  simp [Nat.mod_eq_of_lt hd, Nat.div_eq_of_lt hd]

theorem read_segment_copies_loop_striped (bits : Nat) (rd : List Reader) (N S : Nat)
    (hN : 0 < N) (hS : 0 < S) (h : all_healthy rd N) (fuel x size buf : Nat)
    (hf : size ≤ fuel) :
    res_calls (read_segment_copies_loop bits rd N S 1 1 S 0 fuel (x / S % N) (x / S / N * S)
        (x % S) size buf)
      = some (GRUB_ERR_NONE, striped_calls bits S N fuel x size buf) := by
  induction fuel generalizing x size buf with
  | zero =>
    have hs : size = 0 := by omega
    subst hs
    have hd : x / S % N < N := Nat.mod_lt _ hN
    obtain ⟨sub, hsub⟩ := read_segment_near_loop_striped rd N S h (x % S)
      (if S - x % S > 0 then 0 else S - x % S) buf (x / S % N) (x / S / N * S) hd
    rw [read_segment_copies_loop, striped_calls]
    simp only [hsub]
    simp [res_calls, node_calls, Event.node_call, List.filterMap]
  | succ fuel ih =>
    have hd : x / S % N < N := Nat.mod_lt _ hN
    have hb : x % S < S := Nat.mod_lt _ hS
    obtain ⟨sub, hsub⟩ := read_segment_near_loop_striped rd N S h (x % S)
      (if S - x % S > size then size else S - x % S) buf (x / S % N) (x / S / N * S) hd
    rw [read_segment_copies_loop, striped_calls]
    simp only [hsub]
    by_cases hrem : size - (if S - x % S > size then size else S - x % S) = 0
    · simp [hrem, res_calls, node_calls, Event.node_call, List.filterMap]
    · have hgt : S - x % S < size := by
        by_contra hc
        have : (if S - x % S > size then size else S - x % S) = size := by
          by_cases h1 : S - x % S > size
          · simp [h1]
          · simp only [h1, if_false]; omega
        rw [this] at hrem
        omega
      have hlen : (if S - x % S > size then size else S - x % S) = S - x % S := by
        have : ¬ (S - x % S > size) := by omega
        simp only [this, if_false]
      rw [hlen] at hrem ⊢
      have hw := read_segment_wrap_loop_eq N S hN (x / S % N + (1 - 0)) (x / S % N + (1 - 0))
        (x / S / N * S) (le_refl _)
      obtain ⟨hns1, hns2⟩ := next_stripe x S hS
      obtain ⟨hsd1, hsd2⟩ := succ_div_mod (x / S) N hN
      have hw1 : (x / S % N + (1 - 0)) % N = (x + (S - x % S)) / S % N := by
        rw [hns1]; exact hsd1
      have hw2 : x / S / N * S + (x / S % N + (1 - 0)) / N * S = (x + (S - x % S)) / S / N * S := by
        rw [hns1, ← hsd2, Nat.add_mul]
      have ih2 := ih (x + (S - x % S)) (size - (S - x % S)) (buf + ((S - x % S) <<< bits))
        (by omega)
      rw [hns2] at ih2
      simp only [hrem, if_false, reduceCtorEq, not_false_eq_true, ne_eq, not_true_eq_false, hw,
        hw1, hw2]
      revert ih2
      cases read_segment_copies_loop bits rd N S 1 1 S 0 fuel ((x + (S - x % S)) / S % N)
          ((x + (S - x % S)) / S / N * S) 0 (size - (S - x % S))
          (buf + ((S - x % S) <<< bits)) with
      | none => intro ih2; simp [res_calls] at ih2
      | some r =>
        intro ih2
        simp only [res_calls, Option.map_some', Option.some.injEq, Prod.mk.injEq] at ih2 ⊢
        obtain ⟨h1, h2⟩ := ih2
        refine ⟨h1, ?_⟩
        rw [← h2]
        simp [node_calls, Event.node_call]

/-! ## The readers of the nodes -/

theorem read_segment_readers_eq (env : Env) (nodes : List grub_diskfilter_node) :
    read_segment_readers env nodes = nodes.map (grub_diskfilter_read_node env) := by
  induction nodes with
  | nil => simp [read_segment_readers]
  | cons node rest ih => simp [read_segment_readers, ih]

theorem read_segment_readers_get (env : Env) (nodes : List grub_diskfilter_node) (k : Nat) :
    (read_segment_readers env nodes)[k]? = (nodes[k]?).map (grub_diskfilter_read_node env) := by
  rw [read_segment_readers_eq, List.getElem?_map]

theorem read_node_attached (env : Env) (node : grub_diskfilter_node) (a d : Nat)
    (hpv : node.pv = some a) (hd : (env.pvs a).disk = some d) (s z b : Nat) :
    grub_diskfilter_read_node env node s z b
      = some (env.grub_disk_read d (s + node.start + (env.pvs a).start_sector) 0
              (z <<< env.GRUB_DISK_SECTOR_BITS) b,
            [Event.disk_read d (s + node.start + (env.pvs a).start_sector) 0
              (z <<< env.GRUB_DISK_SECTOR_BITS) b
              (env.grub_disk_read d (s + node.start + (env.pvs a).start_sector) 0
                (z <<< env.GRUB_DISK_SECTOR_BITS) b)]) := by
  rcases node with ⟨nm, st, pv, lv⟩
  simp only [grub_diskfilter_node.pv] at hpv
  subst hpv
  simp [grub_diskfilter_read_node, hd, grub_diskfilter_node.start]

theorem read_node_unattached (env : Env) (node : grub_diskfilter_node) (a : Nat)
    (hpv : node.pv = some a) (hd : (env.pvs a).disk = none) (s z b : Nat) :
    grub_diskfilter_read_node env node s z b = some (GRUB_ERR_UNKNOWN_DEVICE, []) := by
  rcases node with ⟨nm, st, pv, lv⟩
  simp only [grub_diskfilter_node.pv] at hpv
  subst hpv
  simp [grub_diskfilter_read_node, hd]

theorem all_healthy_of_members (env : Env) (seg : grub_diskfilter_seg)
    (h : members_read_successfully env seg) :
    all_healthy (read_segment_readers env seg.nodes) seg.node_count := by
  intro k hk
  have hk2 : k < seg.nodes.length := hk
  refine ⟨grub_diskfilter_read_node env seg.nodes[k], ?_, ?_⟩
  · rw [read_segment_readers_get, List.getElem?_eq_getElem hk2]; rfl
  · intro s z b
    obtain ⟨a, d, hpv, hd, hr⟩ := h seg.nodes[k] (List.getElem_mem _)
    rw [read_node_attached env _ a d hpv hd, hr]
    exact ⟨_, rfl⟩

/-! ## Striped segments -/

theorem read_segment_copies_start_striped (seg : grub_diskfilter_seg) (sector : Nat)
    (ht : seg.type = GRUB_DISKFILTER_STRIPED) (hS : 0 < seg.stripe_size)
    (hN : 0 < seg.node_count) :
    read_segment_copies_start seg sector
      = some (1, 1, seg.stripe_size, 0, sector / seg.stripe_size % seg.node_count,
          sector / seg.stripe_size / seg.node_count * seg.stripe_size,
          sector % seg.stripe_size) := by
  have h1 : seg.stripe_size ≠ 0 := by omega
  have h2 : seg.node_count ≠ 0 := by omega
  simp [read_segment_copies_start, grub_divmod64, ht, GRUB_DISKFILTER_STRIPED, h1, h2]

theorem read_segment_striped (env : Env) (seg : grub_diskfilter_seg) (sector size buf : Nat)
    (ht : seg.type = GRUB_DISKFILTER_STRIPED) (hS : 0 < seg.stripe_size)
    (hN : 2 ≤ seg.node_count)
    (h : all_healthy (read_segment_readers env seg.nodes) seg.node_count) :
    res_calls (read_segment env seg sector size buf)
      = some (GRUB_ERR_NONE, striped_calls env.GRUB_DISK_SECTOR_BITS seg.stripe_size
          seg.node_count size sector size buf) := by
  have h1 : ¬ (seg.node_count = 1) := by omega
  rw [read_segment, read_segment_with]
  simp only [ht, h1, and_false, if_false, true_or, if_true]
  rw [read_segment_copies_start_striped seg sector ht hS (by omega)]
  exact read_segment_copies_loop_striped _ _ _ _ (by omega) hS h size sector size buf (le_refl _)

theorem read_segment_striped_single (env : Env) (seg : grub_diskfilter_seg)
    (node : grub_diskfilter_node) (sector size buf : Nat)
    (ht : seg.type = GRUB_DISKFILTER_STRIPED) (hn : seg.nodes = [node]) :
    read_segment env seg sector size buf
      = match grub_diskfilter_read_node env node sector size buf with
        | none => none
        | some (err, sub) => some (err, [Event.node_read 0 sector size buf err sub]) := by
  have h1 : seg.node_count = 1 := by simp [grub_diskfilter_segment.node_count, hn]
  rw [read_segment, read_segment_with]
  simp only [ht, h1, and_self, if_true, read_segment_node, hn, read_segment_readers,
    List.getElem?_cons_zero]
  cases grub_diskfilter_read_node env node sector size buf with
  | none => rfl
  | some r => rfl

theorem members_read_successfully_ok (type layout n stripe_size extent_count rms : Nat) :
    members_read_successfully env_ok (segment_of type layout n stripe_size extent_count rms) := by
  intro node hn
  simp only [segment_of, List.mem_map, List.mem_range] at hn
  obtain ⟨a, _, rfl⟩ := hn
  exact ⟨a, a, rfl, rfl, fun _ _ _ _ => rfl⟩

/-- C3: in a STRIPED segment with stripe size `S > 0` whose `N >= 1` nodes are
physical members that all read successfully, the read of the logical sector
`s` is one read of member `(s div S) mod N` at member-relative sector
`((s div S) div N) * S + s mod S`; with `N >= 2` a request is cut at the stripe
boundaries and each piece is read at the address of its first sector; with
`N = 1` the request is passed unchanged to member 0 (whatever that read
returns); with `N = 2` and `S = 1` the sectors 0, 1, 2, 3 are read from
member 0 sector 0, member 1 sector 0, member 0 sector 1, member 1 sector 1. -/
theorem C3_striped_address_mapping (env : Env) (seg : grub_diskfilter_seg)
    (sector size buf : Nat)
    (ht : seg.type = GRUB_DISKFILTER_STRIPED) (hS : 0 < seg.stripe_size)
    (hN : 1 ≤ seg.node_count) (hm : members_read_successfully env seg) :
    res_calls (read_segment env seg sector 1 buf)
        = some (GRUB_ERR_NONE,
            [(sector / seg.stripe_size % seg.node_count,
              sector / seg.stripe_size / seg.node_count * seg.stripe_size
                + sector % seg.stripe_size, 1, buf, GRUB_ERR_NONE)])
    ∧ (2 ≤ seg.node_count →
        res_calls (read_segment env seg sector size buf)
          = some (GRUB_ERR_NONE, striped_calls env.GRUB_DISK_SECTOR_BITS seg.stripe_size
              seg.node_count size sector size buf))
    ∧ (∀ node, seg.nodes = [node] →
        read_segment env seg sector size buf
          = match grub_diskfilter_read_node env node sector size buf with
            | none => none
            | some (err, sub) => some (err, [Event.node_read 0 sector size buf err sub]))
    ∧ (seg.node_count = 2 → seg.stripe_size = 1 →
        res_calls (read_segment env seg 0 4 buf)
          = some (GRUB_ERR_NONE,
              [(0, 0, 1, buf, GRUB_ERR_NONE),
               (1, 0, 1, buf + (1 <<< env.GRUB_DISK_SECTOR_BITS), GRUB_ERR_NONE),
               (0, 1, 1, buf + (1 <<< env.GRUB_DISK_SECTOR_BITS)
                  + (1 <<< env.GRUB_DISK_SECTOR_BITS), GRUB_ERR_NONE),
               (1, 1, 1, buf + (1 <<< env.GRUB_DISK_SECTOR_BITS)
                  + (1 <<< env.GRUB_DISK_SECTOR_BITS)
                  + (1 <<< env.GRUB_DISK_SECTOR_BITS), GRUB_ERR_NONE)])) := by
  have hh := all_healthy_of_members env seg hm
  refine ⟨?_, ?_, ?_, ?_⟩
  · by_cases h1 : seg.node_count = 1
    · obtain ⟨node, hnode⟩ : ∃ node, seg.nodes = [node] := by
        have : seg.nodes.length = 1 := h1
        exact List.length_eq_one.mp this
      rw [read_segment_striped_single env seg node sector 1 buf ht hnode]
      obtain ⟨a, d, hpv, hd, hr⟩ := hm node (by simp [hnode])
      rw [read_node_attached env node a d hpv hd, hr]
      have hx : sector / seg.stripe_size * seg.stripe_size + sector % seg.stripe_size = sector :=
        Nat.div_add_mod' sector seg.stripe_size
      simp [res_calls, node_calls, Event.node_call, h1, Nat.mod_one, hx]
    · rw [read_segment_striped env seg sector 1 buf ht hS (by omega) hh, striped_calls]
      have hb : sector % seg.stripe_size < seg.stripe_size := Nat.mod_lt _ hS
      have hlen : (if seg.stripe_size - sector % seg.stripe_size > 1 then 1
          else seg.stripe_size - sector % seg.stripe_size) = 1 := by
        by_cases h2 : seg.stripe_size - sector % seg.stripe_size > 1
        · simp [h2]
        · simp only [h2, if_false]; omega
      simp [hlen]
  · intro h2
    exact read_segment_striped env seg sector size buf ht hS h2 hh
  · intro node hnode
    exact read_segment_striped_single env seg node sector size buf ht hnode
  · intro h2 h1
    rw [read_segment_striped env seg 0 4 buf ht hS (by omega) hh, h2, h1]
    simp [striped_calls]

/-- Witness of C3: the STRIPED segment of 2 attached members with stripe size 1. -/
theorem C3_striped_address_mapping_witness :
    c3_segment.type = GRUB_DISKFILTER_STRIPED ∧ 0 < c3_segment.stripe_size
    ∧ 1 ≤ c3_segment.node_count ∧ members_read_successfully env_ok c3_segment
    ∧ res_calls (read_segment env_ok c3_segment 0 4 0)
        = some (GRUB_ERR_NONE,
            [(0, 0, 1, 0, GRUB_ERR_NONE), (1, 0, 1, 512, GRUB_ERR_NONE),
             (0, 1, 1, 1024, GRUB_ERR_NONE), (1, 1, 1, 1536, GRUB_ERR_NONE)]) :=
  ⟨by decide, by decide, by decide, members_read_successfully_ok _ _ _ _ _ _,
    (C3_striped_address_mapping env_ok c3_segment 0 4 0 (by decide) (by decide) (by decide)
      (members_read_successfully_ok _ _ _ _ _ _)).2.2.2 (by decide) (by decide)⟩

/-! ## Validation -/

theorem validate_segment_ok (seg : grub_diskfilter_seg)
    (h : validate_segment seg = GRUB_ERR_NONE) :
    0 < seg.stripe_size ∧ 0 < seg.node_count
    ∧ (seg.type = GRUB_DISKFILTER_RAID10 →
        ¬ (seg.layout >>> 16 = 0 ∧ raid10_far seg.layout = 0)
        ∧ raid10_near seg.layout ≤ seg.node_count)
    ∧ (seg.type = GRUB_DISKFILTER_RAID4 ∨ seg.type = GRUB_DISKFILTER_RAID5 → 1 < seg.node_count)
    ∧ (seg.type = GRUB_DISKFILTER_RAID6 → 2 < seg.node_count)
    ∧ (seg.type = GRUB_DISKFILTER_STRIPED ∨ seg.type = GRUB_DISKFILTER_MIRROR
        ∨ seg.type = GRUB_DISKFILTER_RAID4 ∨ seg.type = GRUB_DISKFILTER_RAID5
        ∨ seg.type = GRUB_DISKFILTER_RAID6 ∨ seg.type = GRUB_DISKFILTER_RAID10)
    ∧ validate_segment_nodes seg.nodes = GRUB_ERR_NONE := by
  rcases seg with ⟨se, ec, type, layout, rms, nodes, ss⟩
  simp only [validate_segment] at h
  simp only [grub_diskfilter_segment.node_count, raid10_far, raid10_near]
  by_cases h0 : ss = 0 ∨ nodes.length = 0
  · rw [if_pos h0] at h; cases h
  · simp only [h0, if_false] at h
    have hss : 0 < ss := by omega
    have hnn : 0 < nodes.length := by omega
    refine ⟨hss, hnn, ?_⟩
    by_cases h10 : type = GRUB_DISKFILTER_RAID10
    · simp only [h10, if_true] at h
      by_cases ha : layout >>> 16 = 0 ∧ (layout >>> 8) &&& 0xFF = 0
      · rw [if_pos ha] at h; cases h
      · simp only [ha, if_false] at h
        by_cases hb : layout &&& 0xFF > nodes.length
        · rw [if_pos hb] at h; cases h
        · simp only [hb, if_false] at h
          subst h10
          simp [GRUB_DISKFILTER_RAID10, GRUB_DISKFILTER_RAID4, GRUB_DISKFILTER_RAID5,
            GRUB_DISKFILTER_RAID6, h, Nat.not_lt.mp hb]
          exact fun h1 h2 => ha ⟨h1, h2⟩
    · simp only [h10, if_false] at h
      by_cases h01 : type = GRUB_DISKFILTER_STRIPED ∨ type = GRUB_DISKFILTER_MIRROR
      · simp only [h01, if_true] at h
        rcases h01 with h01 | h01 <;> subst h01 <;>
          simp [GRUB_DISKFILTER_RAID10, GRUB_DISKFILTER_RAID4, GRUB_DISKFILTER_RAID5,
            GRUB_DISKFILTER_RAID6, GRUB_DISKFILTER_STRIPED, GRUB_DISKFILTER_MIRROR, h]
      · simp only [h01, if_false] at h
        by_cases h45 : type = GRUB_DISKFILTER_RAID4 ∨ type = GRUB_DISKFILTER_RAID5
        · simp only [h45, if_true] at h
          by_cases hc : nodes.length ≤ 1
          · rw [if_pos hc] at h; cases h
          · simp only [hc, if_false] at h
            rcases h45 with h45 | h45 <;> subst h45 <;>
              simp [GRUB_DISKFILTER_RAID10, GRUB_DISKFILTER_RAID4, GRUB_DISKFILTER_RAID5,
                GRUB_DISKFILTER_RAID6, GRUB_DISKFILTER_STRIPED, GRUB_DISKFILTER_MIRROR, h] <;>
              omega
        · simp only [h45, if_false] at h
          by_cases h6 : type = GRUB_DISKFILTER_RAID6
          · simp only [h6, if_true] at h
            by_cases hc : nodes.length ≤ 2
            · rw [if_pos hc] at h; cases h
            · simp only [hc, if_false] at h
              subst h6
              simp [GRUB_DISKFILTER_RAID10, GRUB_DISKFILTER_RAID4, GRUB_DISKFILTER_RAID5,
                GRUB_DISKFILTER_RAID6, GRUB_DISKFILTER_STRIPED, GRUB_DISKFILTER_MIRROR, h]
              omega
          · rw [if_neg h6] at h; cases h

/-! ## The parity levels -/

theorem read_segment_parity_start_eq (env : Env) (seg : grub_diskfilter_seg) (n sector : Nat)
    (hS : 0 < seg.stripe_size) (hD : n < seg.node_count) :
    read_segment_parity_start env seg n sector
      = some
          (if seg.type ≥ 5 then
              read_segment_parity_disknr env seg n
                (read_segment_parity_p env seg
                  (sector / seg.stripe_size / (seg.node_count - n) % seg.node_count))
                (sector / seg.stripe_size % (seg.node_count - n))
            else sector / seg.stripe_size % (seg.node_count - n),
           sector / seg.stripe_size / (seg.node_count - n) * seg.stripe_size,
           if seg.type ≥ 5 then
              read_segment_parity_p env seg
                (sector / seg.stripe_size / (seg.node_count - n) % seg.node_count)
            else seg.node_count - n,
           sector % seg.stripe_size) := by
  have h1 : seg.stripe_size ≠ 0 := by omega
  have h2 : seg.node_count - n ≠ 0 := by omega
  have h3 : seg.node_count ≠ 0 := by omega
  by_cases h5 : seg.type ≥ 5
  · simp [read_segment_parity_start, grub_divmod64, h1, h2, h3, h5]
  · simp [read_segment_parity_start, grub_divmod64, h1, h2, h5]

theorem read_segment_parity_p_lt (env : Env) (seg : grub_diskfilter_seg) (pm : Nat)
    (hpm : pm < seg.node_count) :
    read_segment_parity_p env seg pm < seg.node_count := by
  unfold read_segment_parity_p
  split_ifs <;> omega

theorem succ_mod_eq_ite (N p : Nat) (hp : p < N) :
    (p + 1) % N = if p + 1 = N then 0 else p + 1 := by
  by_cases h : p + 1 = N
  · simp [h]
  · simp only [h, if_false]
    exact Nat.mod_eq_of_lt (by omega)

theorem read_segment_parity_disknr_eq (env : Env) (seg : grub_diskfilter_seg)
    (n p d : Nat) (hn : n = 1 ∨ n = 2) (hN : n < seg.node_count) (hp : p < seg.node_count)
    (hd : d < seg.node_count - n) :
    read_segment_parity_disknr env seg n p d
      = if seg.layout &&& env.GRUB_RAID_LAYOUT_SYMMETRIC_MASK ≠ 0 then
          (if d + p + n ≥ seg.node_count then d + p + n - seg.node_count else d + p + n)
        else if n = 2 ∧ p + 1 = seg.node_count then d + 1
        else if d ≥ p then d + n else d := by
  unfold read_segment_parity_disknr
  by_cases hs : seg.layout &&& env.GRUB_RAID_LAYOUT_SYMMETRIC_MASK ≠ 0
  · simp only [hs, if_true]
    split_ifs <;> omega
  · simp only [hs, if_false]
    rcases hn with hn | hn <;> subst hn
    · have h1 : ¬ (p + (1 - 1) ≥ seg.node_count) := by omega
      simp only [h1, if_false]
      split_ifs <;> omega
    · by_cases hq : p + (2 - 1) ≥ seg.node_count
      · simp only [hq, if_true]
        have h2 : p + 1 = seg.node_count := by omega
        simp only [h2, and_self, if_true]
        split_ifs <;> omega
      · simp only [hq, if_false]
        have h2 : ¬ (p + 1 = seg.node_count) := by omega
        simp only [h2, and_false, if_false]
        split_ifs <;> omega

theorem read_segment_parity_disknr_props (env : Env) (seg : grub_diskfilter_seg)
    (n p d : Nat) (hn : n = 1 ∨ n = 2) (hN : n < seg.node_count) (hp : p < seg.node_count)
    (hd : d < seg.node_count - n) :
    read_segment_parity_disknr env seg n p d < seg.node_count
    ∧ read_segment_parity_disknr env seg n p d ≠ p
    ∧ (n = 2 → read_segment_parity_disknr env seg n p d ≠ (p + 1) % seg.node_count)
    ∧ (∀ d2, d2 < seg.node_count - n → d2 ≠ d →
        read_segment_parity_disknr env seg n p d2 ≠ read_segment_parity_disknr env seg n p d) := by
  rw [succ_mod_eq_ite _ _ hp, read_segment_parity_disknr_eq env seg n p d hn hN hp hd]
  refine ⟨?_, ?_, ?_, ?_⟩
  · split_ifs <;> omega
  · split_ifs <;> omega
  · intro _; split_ifs <;> omega
  · intro d2 hd2 hne
    rw [read_segment_parity_disknr_eq env seg n p d2 hn hN hp hd2]
    by_cases hs : seg.layout &&& env.GRUB_RAID_LAYOUT_SYMMETRIC_MASK ≠ 0
    · rw [if_pos hs, if_pos hs]
      split_ifs <;> omega
    · rw [if_neg hs, if_neg hs]
      by_cases h2 : n = 2 ∧ p + 1 = seg.node_count
      · rw [if_pos h2, if_pos h2]; omega
      · rw [if_neg h2, if_neg h2]
        split_ifs <;> omega

theorem read_size_of_le (S b size : Nat) (h : size ≤ S - b) :
    (if S - b > size then size else S - b) = size := by
  split_ifs <;> omega

theorem read_segment_parity_loop_single (env : Env) (rd : List Reader)
    (seg : grub_diskfilter_seg) (n fuel disknr rs p b size buf : Nat) (ev : Event)
    (hlen : size ≤ seg.stripe_size - b)
    (hr : read_segment_node rd disknr (rs + b) size buf = some (GRUB_ERR_NONE, ev)) :
    read_segment_parity_loop env rd seg n fuel disknr rs p b size buf
      = some (GRUB_ERR_NONE, [ev]) := by
  rw [read_segment_parity_loop]
  simp only [read_size_of_le _ _ _ hlen, hr]
  simp

theorem read_segment_parity_eq_loop (env : Env) (rd : List Reader) (seg : grub_diskfilter_seg)
    (sector size buf : Nat)
    (ht : seg.type = GRUB_DISKFILTER_RAID4 ∨ seg.type = GRUB_DISKFILTER_RAID5
      ∨ seg.type = GRUB_DISKFILTER_RAID6)
    (m rs p b : Nat)
    (hst : read_segment_parity_start env seg (seg.type / 3) sector = some (m, rs, p, b)) :
    read_segment_with env rd seg sector size buf
      = read_segment_parity_loop env rd seg (seg.type / 3) size m rs p b size buf := by
  rw [read_segment_with]
  have h0 : ¬ (seg.type = GRUB_DISKFILTER_STRIPED ∧ seg.node_count = 1) := by
    rcases ht with h | h | h <;> simp [h, GRUB_DISKFILTER_STRIPED, GRUB_DISKFILTER_RAID4,
      GRUB_DISKFILTER_RAID5, GRUB_DISKFILTER_RAID6]
  have h1 : ¬ (seg.type = GRUB_DISKFILTER_STRIPED ∨ seg.type = GRUB_DISKFILTER_MIRROR
      ∨ seg.type = GRUB_DISKFILTER_RAID10) := by
    rcases ht with h | h | h <;> simp [h, GRUB_DISKFILTER_STRIPED, GRUB_DISKFILTER_RAID4,
      GRUB_DISKFILTER_RAID5, GRUB_DISKFILTER_RAID6, GRUB_DISKFILTER_MIRROR,
      GRUB_DISKFILTER_RAID10]
  rw [if_neg h0, if_neg h1, if_pos ht, hst]

/-- C4: for a RAID5 or RAID6 segment that passes validation, with `n` parity
blocks, `N` members and stripe row `r = (sector div stripe_size) div (N - n)`,
`read_segment` enters its loop with the parity position `p = r mod N` for a
right-rotating layout and `N - 1 - r mod N` for a left-rotating one, and with a
member `m < N` that is never `p` and, for RAID6, never `(p + 1) mod N`; a
sector of the same row with another data index gets another member; and with
healthy members the read of the sector is the one read of member `m` at
member-relative sector `r * stripe_size + sector mod stripe_size`. -/
theorem C4_parity_rotation (env : Env) (seg : grub_diskfilter_seg) (sector : Nat)
    (hv : validate_segment seg = GRUB_ERR_NONE)
    (ht : seg.type = GRUB_DISKFILTER_RAID5 ∨ seg.type = GRUB_DISKFILTER_RAID6) :
    ∃ m p,
      read_segment_parity_start env seg (seg.type / 3) sector
        = some (m, sector / seg.stripe_size / (seg.node_count - seg.type / 3) * seg.stripe_size,
            p, sector % seg.stripe_size)
      ∧ (seg.layout &&& env.GRUB_RAID_LAYOUT_RIGHT_MASK ≠ 0 →
          p = sector / seg.stripe_size / (seg.node_count - seg.type / 3) % seg.node_count)
      ∧ (seg.layout &&& env.GRUB_RAID_LAYOUT_RIGHT_MASK = 0 →
          p = seg.node_count - 1
            - sector / seg.stripe_size / (seg.node_count - seg.type / 3) % seg.node_count)
      ∧ p < seg.node_count ∧ m < seg.node_count ∧ m ≠ p
      ∧ (seg.type = GRUB_DISKFILTER_RAID6 → m ≠ (p + 1) % seg.node_count)
      ∧ (∀ sector2 m2 rs2 p2 b2,
          sector2 / seg.stripe_size / (seg.node_count - seg.type / 3)
            = sector / seg.stripe_size / (seg.node_count - seg.type / 3) →
          sector2 / seg.stripe_size % (seg.node_count - seg.type / 3)
            ≠ sector / seg.stripe_size % (seg.node_count - seg.type / 3) →
          read_segment_parity_start env seg (seg.type / 3) sector2 = some (m2, rs2, p2, b2) →
          p2 = p ∧ m2 ≠ m)
      ∧ (∀ rd size buf, read_segment_with env rd seg sector size buf
          = read_segment_parity_loop env rd seg (seg.type / 3) size m
              (sector / seg.stripe_size / (seg.node_count - seg.type / 3) * seg.stripe_size)
              p (sector % seg.stripe_size) size buf)
      ∧ (members_read_successfully env seg → ∀ buf,
          res_calls (read_segment env seg sector 1 buf)
            = some (GRUB_ERR_NONE,
                [(m, sector / seg.stripe_size / (seg.node_count - seg.type / 3) * seg.stripe_size
                      + sector % seg.stripe_size, 1, buf, GRUB_ERR_NONE)])) := by
  obtain ⟨hS, hN0, _, h45, h6, _, _⟩ := validate_segment_ok seg hv
  have hn : seg.type / 3 = 1 ∨ seg.type / 3 = 2 := by
    rcases ht with h | h <;> simp [h, GRUB_DISKFILTER_RAID5, GRUB_DISKFILTER_RAID6]
  have hnN : seg.type / 3 < seg.node_count := by
    rcases ht with h | h
    · have := h45 (Or.inr h); simp [h, GRUB_DISKFILTER_RAID5]; omega
    · have := h6 h; simp [h, GRUB_DISKFILTER_RAID6]; omega
  have h5 : seg.type ≥ 5 := by
    rcases ht with h | h <;> simp [h, GRUB_DISKFILTER_RAID5, GRUB_DISKFILTER_RAID6]
  have h62 : seg.type = GRUB_DISKFILTER_RAID6 → seg.type / 3 = 2 := by
    intro h; simp [h, GRUB_DISKFILTER_RAID6]
  have hpm : ∀ x : Nat, x % seg.node_count < seg.node_count := fun x => Nat.mod_lt _ hN0
  have hdd : ∀ x : Nat, x % (seg.node_count - seg.type / 3) < seg.node_count - seg.type / 3 :=
    fun x => Nat.mod_lt _ (by omega)
  have hst := fun s => read_segment_parity_start_eq env seg (seg.type / 3) s hS hnN
  simp only [h5, if_true] at hst
  have hp := read_segment_parity_p_lt env seg _
    (hpm (sector / seg.stripe_size / (seg.node_count - seg.type / 3)))
  obtain ⟨hm1, hm2, hm3, hm4⟩ := read_segment_parity_disknr_props env seg (seg.type / 3) _
    _ hn hnN hp (hdd (sector / seg.stripe_size))
  refine ⟨_, _, hst sector, ?_, ?_, hp, hm1, hm2, fun h => hm3 (h62 h), ?_, ?_, ?_⟩
  · intro hr; simp [read_segment_parity_p, hr]
  · intro hr; simp [read_segment_parity_p, hr]
  · intro sector2 m2 rs2 p2 b2 hrow hdat hst2
    rw [hst sector2, hrow] at hst2
    simp only [Option.some.injEq, Prod.mk.injEq] at hst2
    obtain ⟨rfl, _, rfl, _⟩ := hst2
    exact ⟨rfl, hm4 _ (hdd (sector2 / seg.stripe_size)) hdat⟩
  · intro rd size buf
    exact read_segment_parity_eq_loop env rd seg sector size buf
      (by rcases ht with h | h <;> simp [h]) _ _ _ _ (hst sector)
  · intro hm buf
    have hh := all_healthy_of_members env seg hm
    obtain ⟨sub, hsub⟩ := read_segment_node_healthy _ _ hh _
      (sector / seg.stripe_size / (seg.node_count - seg.type / 3) * seg.stripe_size
        + sector % seg.stripe_size) 1 buf hm1
    rw [read_segment, read_segment_parity_eq_loop env _ seg sector 1 buf
      (by rcases ht with h | h <;> simp [h]) _ _ _ _ (hst sector),
      read_segment_parity_loop_single env _ seg _ _ _ _ _ _ _ _ _ _ hsub]
    · simp [res_calls, node_calls, Event.node_call]
    · have := Nat.mod_lt sector hS
      omega

/-- Witness of C4: sector 7 of the RAID5 segment of 4 members with stripe size
2 and a left-asymmetric layout lies in row 1, whose parity member is 2, and is
read from member 0. -/
theorem C4_parity_rotation_witness :
    validate_segment c4_segment = GRUB_ERR_NONE
    ∧ (c4_segment.type = GRUB_DISKFILTER_RAID5 ∨ c4_segment.type = GRUB_DISKFILTER_RAID6)
    ∧ read_segment_parity_start env_ok c4_segment (c4_segment.type / 3) 7 = some (0, 2, 2, 1)
    ∧ ∃ m p,
      read_segment_parity_start env_ok c4_segment (c4_segment.type / 3) 7
        = some (m, 7 / c4_segment.stripe_size / (c4_segment.node_count - c4_segment.type / 3)
              * c4_segment.stripe_size, p, 7 % c4_segment.stripe_size)
      ∧ p < c4_segment.node_count ∧ m < c4_segment.node_count ∧ m ≠ p :=
  ⟨by decide, by decide, by decide,
    let ⟨m, p, h1, _, _, h4, h5, h6, _⟩ :=
      C4_parity_rotation env_ok c4_segment 7 (by decide) (by decide)
    ⟨m, p, h1, h4, h5, h6⟩⟩

theorem succ_div_mod_ite (B D S : Nat) (hD : 0 < D) :
    (B + 1) % D = (if B % D + 1 = D then 0 else B % D + 1)
    ∧ (B + 1) / D * S = (if B % D + 1 = D then B / D * S + S else B / D * S) := by
  obtain ⟨h1, h2⟩ := succ_div_mod B D hD
  have hlt : B % D < D := Nat.mod_lt _ hD
  by_cases h : B % D + 1 = D
  · simp only [h, if_true]
    rw [← h1, ← h2, h, Nat.mod_self, Nat.div_self hD, Nat.add_mul, Nat.one_mul]
    exact ⟨rfl, rfl⟩
  · simp only [h, if_false]
    have hlt2 : B % D + 1 < D := by omega
    rw [← h1, ← h2, Nat.mod_eq_of_lt hlt2, Nat.div_eq_of_lt hlt2]
    exact ⟨rfl, by simp⟩

theorem read_segment_parity_next_raid4 (env : Env) (seg : grub_diskfilter_seg)
    (d rs : Nat) (ht : seg.type = GRUB_DISKFILTER_RAID4) (hd : d + 1 < seg.node_count) :
    read_segment_parity_next env seg 1 d rs (seg.node_count - 1)
      = (if d + 1 = seg.node_count - 1 then 0 else d + 1,
         if d + 1 = seg.node_count - 1 then rs + seg.stripe_size else rs,
         seg.node_count - 1) := by
  have h5 : ¬ (seg.type ≥ 5) := by simp [ht, GRUB_DISKFILTER_RAID4]
  have hne : ¬ (d + 1 = seg.node_count) := by omega
  unfold read_segment_parity_next
  by_cases hs : seg.layout &&& env.GRUB_RAID_LAYOUT_SYMMETRIC_MASK ≠ 0
  · by_cases hp : d + 1 = seg.node_count - 1
    · simp [hs, hp, h5, hne]
      omega
    · simp [hs, hp, h5, hne]
  · by_cases hp : d + 1 = seg.node_count - 1
    · simp [hs, hp, h5, hne]
      omega
    · simp [hs, hp, h5, hne]
      omega

theorem read_segment_parity_loop_raid4 (env : Env) (rd : List Reader)
    (seg : grub_diskfilter_seg) (ht : seg.type = GRUB_DISKFILTER_RAID4)
    (hN : 2 ≤ seg.node_count) (hS : 0 < seg.stripe_size)
    (h : all_healthy rd seg.node_count) (fuel x size buf : Nat) (hf : size ≤ fuel) :
    res_calls (read_segment_parity_loop env rd seg 1 fuel
        (x / seg.stripe_size % (seg.node_count - 1))
        (x / seg.stripe_size / (seg.node_count - 1) * seg.stripe_size)
        (seg.node_count - 1) (x % seg.stripe_size) size buf)
      = some (GRUB_ERR_NONE, striped_calls env.GRUB_DISK_SECTOR_BITS seg.stripe_size
          (seg.node_count - 1) fuel x size buf) := by
  have hD : 0 < seg.node_count - 1 := by omega
  induction fuel generalizing x size buf with
  | zero =>
    have hs : size = 0 := by omega
    subst hs
    have hd : x / seg.stripe_size % (seg.node_count - 1) < seg.node_count - 1 := Nat.mod_lt _ hD
    obtain ⟨sub, hsub⟩ := read_segment_node_healthy rd _ h
      (x / seg.stripe_size % (seg.node_count - 1))
      (x / seg.stripe_size / (seg.node_count - 1) * seg.stripe_size + x % seg.stripe_size)
      0 buf (by omega)
    rw [read_segment_parity_loop_single env rd seg 1 0 _ _ _ _ 0 buf _ (Nat.zero_le _) hsub,
      striped_calls]
    have hb : x % seg.stripe_size < seg.stripe_size := Nat.mod_lt _ hS
    simp [res_calls, node_calls, Event.node_call, List.filterMap, hb]
  | succ fuel ih =>
    have hd : x / seg.stripe_size % (seg.node_count - 1) < seg.node_count - 1 := Nat.mod_lt _ hD
    have hb : x % seg.stripe_size < seg.stripe_size := Nat.mod_lt _ hS
    obtain ⟨sub, hsub⟩ := read_segment_node_healthy rd _ h
      (x / seg.stripe_size % (seg.node_count - 1))
      (x / seg.stripe_size / (seg.node_count - 1) * seg.stripe_size + x % seg.stripe_size)
      (if seg.stripe_size - x % seg.stripe_size > size then size
        else seg.stripe_size - x % seg.stripe_size) buf (by omega)
    rw [read_segment_parity_loop, striped_calls]
    simp only [hsub]
    by_cases hrem : size - (if seg.stripe_size - x % seg.stripe_size > size then size
        else seg.stripe_size - x % seg.stripe_size) = 0
    · simp [hrem, res_calls, node_calls, Event.node_call, List.filterMap]
    · have hlen : (if seg.stripe_size - x % seg.stripe_size > size then size
          else seg.stripe_size - x % seg.stripe_size) = seg.stripe_size - x % seg.stripe_size := by
        split_ifs at hrem ⊢ <;> omega
      rw [hlen] at hrem ⊢
      obtain ⟨hns1, hns2⟩ := next_stripe x seg.stripe_size hS
      obtain ⟨hsd1, hsd2⟩ := succ_div_mod_ite (x / seg.stripe_size) (seg.node_count - 1)
        seg.stripe_size hD
      have ih2 := ih (x + (seg.stripe_size - x % seg.stripe_size))
        (size - (seg.stripe_size - x % seg.stripe_size))
        (buf + ((seg.stripe_size - x % seg.stripe_size) <<< env.GRUB_DISK_SECTOR_BITS))
        (by omega)
      rw [hns1, hns2, hsd1, hsd2] at ih2
      rw [read_segment_parity_next_raid4 env seg _ _ ht (by omega)]
      simp only [hrem, if_false, reduceCtorEq, not_false_eq_true, ne_eq, not_true_eq_false,
        and_false, and_self]
      revert ih2
      cases read_segment_parity_loop env rd seg 1 fuel
          (if x / seg.stripe_size % (seg.node_count - 1) + 1 = seg.node_count - 1 then 0
            else x / seg.stripe_size % (seg.node_count - 1) + 1)
          (if x / seg.stripe_size % (seg.node_count - 1) + 1 = seg.node_count - 1 then
              x / seg.stripe_size / (seg.node_count - 1) * seg.stripe_size + seg.stripe_size
            else x / seg.stripe_size / (seg.node_count - 1) * seg.stripe_size)
          (seg.node_count - 1) 0 (size - (seg.stripe_size - x % seg.stripe_size))
          (buf + ((seg.stripe_size - x % seg.stripe_size) <<< env.GRUB_DISK_SECTOR_BITS)) with
      | none => intro ih2; simp [res_calls] at ih2
      | some r =>
        intro ih2
        simp only [res_calls, Option.map_some', Option.some.injEq, Prod.mk.injEq] at ih2
        obtain ⟨h1, h2⟩ := ih2
        simp [res_calls, h1, ← h2, node_calls, Event.node_call]

theorem striped_calls_member_lt (bits S D : Nat) (hD : 0 < D) (fuel x size buf : Nat) :
    ∀ c ∈ striped_calls bits S D fuel x size buf, c.1 < D := by
  induction fuel generalizing x size buf with
  | zero =>
    intro c hc
    rw [striped_calls] at hc
    simp only [List.mem_cons] at hc
    rcases hc with hc | hc
    · rw [hc]; exact Nat.mod_lt _ hD
    · split_ifs at hc <;> simp at hc
  | succ fuel ih =>
    intro c hc
    rw [striped_calls] at hc
    simp only [List.mem_cons] at hc
    rcases hc with hc | hc
    · rw [hc]; exact Nat.mod_lt _ hD
    · split_ifs at hc
      all_goals first
        | exact ih _ _ _ c hc
        | simp at hc

theorem read_segment_node_event (rd : List Reader) (k s z b : Nat) (err : grub_err_t)
    (ev : Event) (h : read_segment_node rd k s z b = some (err, ev)) :
    ∃ sub, ev = Event.node_read k s z b err sub := by
  unfold read_segment_node at h
  cases hk : rd[k]? with
  | none => simp [hk] at h
  | some f =>
    simp only [hk] at h
    cases hf : f s z b with
    | none => simp [hf] at h
    | some r =>
      simp only [hf, Option.some.injEq, Prod.mk.injEq] at h
      exact ⟨r.2, by rw [← h.2, ← h.1]⟩

theorem node_calls_recover (env : Env) (seg : grub_diskfilter_seg) (d p buf s z : Nat)
    (tr : List Event) :
    node_calls ((read_segment_recover env seg d p buf s z).2 ++ tr) = node_calls tr := by
  unfold read_segment_recover
  split_ifs
  · cases env.grub_raid6_recover_func with
    | none => rfl
    | some f => simp [node_calls, Event.node_call]
  · cases env.grub_raid5_recover_func with
    | none => rfl
    | some f => simp [node_calls, Event.node_call]

theorem read_segment_parity_loop_step (env : Env) (rd : List Reader)
    (seg : grub_diskfilter_seg) (n fuel d rs p b size buf : Nat)
    (r : grub_err_t × List Event)
    (hr : read_segment_parity_loop env rd seg n fuel d rs p b size buf = some r) :
    ∀ c ∈ node_calls r.2, c.1 = d ∨ ∃ fuel2 r2, fuel = fuel2 + 1
      ∧ read_segment_parity_loop env rd seg n fuel2
          (read_segment_parity_next env seg n d rs p).1
          (read_segment_parity_next env seg n d rs p).2.1
          (read_segment_parity_next env seg n d rs p).2.2 0
          (size - (if seg.stripe_size - b > size then size else seg.stripe_size - b))
          (buf + ((if seg.stripe_size - b > size then size else seg.stripe_size - b)
            <<< env.GRUB_DISK_SECTOR_BITS)) = some r2
      ∧ c ∈ node_calls r2.2 := by
  rw [read_segment_parity_loop] at hr
  generalize (if seg.stripe_size - b > size then size else seg.stripe_size - b) = len at hr ⊢
  cases hn : read_segment_node rd d (rs + b) len buf with
  | none => simp [hn] at hr
  | some re =>
    obtain ⟨err, ev⟩ := re
    obtain ⟨sub, rfl⟩ := read_segment_node_event _ _ _ _ _ _ _ hn
    simp only [hn] at hr
    by_cases hhard : err ≠ GRUB_ERR_NONE ∧ (err ≠ GRUB_ERR_READ_ERROR ∧ err ≠ GRUB_ERR_UNKNOWN_DEVICE)
    · rw [if_pos hhard] at hr
      simp only [Option.some.injEq] at hr
      subst hr
      intro c hc
      simp [node_calls, Event.node_call] at hc
      left; rw [hc]
    · rw [if_neg hhard] at hr
      generalize hrc : (if err ≠ GRUB_ERR_NONE then
          read_segment_recover env seg d p buf (rs + b) len else (err, [])) = rc at hr
      have hcalls : ∀ tr, node_calls (rc.2 ++ tr) = node_calls tr := by
        intro tr
        rw [← hrc]
        split_ifs
        · exact node_calls_recover env seg d p buf (rs + b) len tr
        · rfl
      by_cases h1 : rc.1 ≠ GRUB_ERR_NONE
      · rw [if_pos h1] at hr
        simp only [Option.some.injEq] at hr
        subst hr
        intro c hc
        have h2 := hcalls []
        simp only [List.append_nil] at h2
        simp only [node_calls_cons_node_read, h2, List.mem_cons] at hc
        rcases hc with hc | hc
        · left; rw [hc]
        · simp [node_calls] at hc
      · rw [if_neg h1] at hr
        by_cases h2 : size - len = 0
        · rw [if_pos h2] at hr
          simp only [Option.some.injEq] at hr
          subst hr
          intro c hc
          have h3 := hcalls []
          simp only [List.append_nil] at h3
          simp only [node_calls_cons_node_read, h3, List.mem_cons] at hc
          rcases hc with hc | hc
          · left; rw [hc]
          · simp [node_calls] at hc
        · rw [if_neg h2] at hr
          cases fuel with
          | zero => simp at hr
          | succ fuel2 =>
            simp only at hr
            cases hrec : read_segment_parity_loop env rd seg n fuel2
                (read_segment_parity_next env seg n d rs p).1
                (read_segment_parity_next env seg n d rs p).2.1
                (read_segment_parity_next env seg n d rs p).2.2 0 (size - len)
                (buf + (len <<< env.GRUB_DISK_SECTOR_BITS)) with
            | none => simp [hrec] at hr
            | some r2 =>
              simp only [hrec, Option.some.injEq] at hr
              subst hr
              intro c hc
              have h3 : node_calls (Event.node_read d (rs + b) len buf err sub :: rc.2 ++ r2.2)
                  = (d, rs + b, len, buf, err) :: node_calls r2.2 := by
                show node_calls (Event.node_read d (rs + b) len buf err sub :: (rc.2 ++ r2.2)) = _
                rw [node_calls_cons_node_read, hcalls]
              rw [h3] at hc
              simp only [List.mem_cons] at hc
              rcases hc with hc | hc
              · left; rw [hc]
              · right; exact ⟨fuel2, r2, rfl, hrec, hc⟩

theorem read_segment_parity_loop_raid4_members (env : Env) (rd : List Reader)
    (seg : grub_diskfilter_seg) (ht : seg.type = GRUB_DISKFILTER_RAID4)
    (fuel d rs b size buf : Nat) (hd : d < seg.node_count - 1)
    (r : grub_err_t × List Event)
    (hr : read_segment_parity_loop env rd seg 1 fuel d rs (seg.node_count - 1) b size buf
      = some r) :
    ∀ c ∈ node_calls r.2, c.1 < seg.node_count - 1 := by
  induction fuel generalizing d rs b size buf r with
  | zero =>
    intro c hc
    rcases read_segment_parity_loop_step env rd seg 1 0 d rs _ b size buf r hr c hc with h | h
    · rw [h]; exact hd
    · obtain ⟨f2, _, hf, _⟩ := h; omega
  | succ fuel ih =>
    intro c hc
    rcases read_segment_parity_loop_step env rd seg 1 _ d rs _ b size buf r hr c hc with h | h
    · rw [h]; exact hd
    · obtain ⟨f2, r2, hf, hr2, hc2⟩ := h
      have hf2 : f2 = fuel := by omega
      subst hf2
      rw [read_segment_parity_next_raid4 env seg d rs ht (by omega)] at hr2
      refine ih _ _ _ _ _ ?_ r2 hr2 c hc2
      show (if d + 1 = seg.node_count - 1 then 0 else d + 1) < seg.node_count - 1
      split_ifs <;> omega

theorem read_segment_raid4 (env : Env) (seg : grub_diskfilter_seg) (sector size buf : Nat)
    (ht : seg.type = GRUB_DISKFILTER_RAID4) (hS : 0 < seg.stripe_size)
    (hN : 2 ≤ seg.node_count)
    (h : all_healthy (read_segment_readers env seg.nodes) seg.node_count) :
    res_calls (read_segment env seg sector size buf)
      = some (GRUB_ERR_NONE, striped_calls env.GRUB_DISK_SECTOR_BITS seg.stripe_size
          (seg.node_count - 1) size sector size buf) := by
  have hn : seg.type / 3 = 1 := by simp [ht, GRUB_DISKFILTER_RAID4]
  have h5 : ¬ (seg.type ≥ 5) := by simp [ht, GRUB_DISKFILTER_RAID4]
  have hst := read_segment_parity_start_eq env seg (seg.type / 3) sector hS (by omega)
  simp only [h5, if_false] at hst
  rw [read_segment, read_segment_parity_eq_loop env _ seg sector size buf (Or.inl ht) _ _ _ _ hst,
    hn]
  exact read_segment_parity_loop_raid4 env _ seg ht hN hS h size sector size buf (le_refl _)

/-- C5: the parity count `seg->type / 3` is 1 for RAID4 and RAID5 and 2 for
RAID6. For a RAID4 segment that passes validation (`N >= 2` members, stripe
size `S`) whose members are all healthy, the read of the logical sector `s` is
one read of member `(s div S) mod (N - 1)` at member-relative sector
`((s div S) div (N - 1)) * S + s mod S`, a whole request is cut at the stripe
boundaries and read in the same way, and no read of the request is on member
`N - 1`; whatever the members return, `read_segment` issues no read of member
`N - 1`. For a RAID5 or RAID6 segment that passes validation the loop is
entered at member-relative sector `((s div S) div (N - n)) * S` with offset
`s mod S`, and with healthy members the sector is read at their sum. -/
theorem C5_raid4_address_mapping (env : Env) (seg : grub_diskfilter_seg)
    (sector size buf : Nat) (hv : validate_segment seg = GRUB_ERR_NONE) :
    (GRUB_DISKFILTER_RAID4 / 3 = 1 ∧ GRUB_DISKFILTER_RAID5 / 3 = 1
      ∧ GRUB_DISKFILTER_RAID6 / 3 = 2)
    ∧ (seg.type = GRUB_DISKFILTER_RAID4 →
        2 ≤ seg.node_count
        ∧ (∀ r, read_segment env seg sector size buf = some r →
            ∀ c ∈ node_calls r.2, c.1 < seg.node_count - 1)
        ∧ (members_read_successfully env seg →
            res_calls (read_segment env seg sector 1 buf)
              = some (GRUB_ERR_NONE,
                  [(sector / seg.stripe_size % (seg.node_count - 1),
                    sector / seg.stripe_size / (seg.node_count - 1) * seg.stripe_size
                      + sector % seg.stripe_size, 1, buf, GRUB_ERR_NONE)])
            ∧ res_calls (read_segment env seg sector size buf)
              = some (GRUB_ERR_NONE, striped_calls env.GRUB_DISK_SECTOR_BITS seg.stripe_size
                  (seg.node_count - 1) size sector size buf)
            ∧ ∀ c ∈ striped_calls env.GRUB_DISK_SECTOR_BITS seg.stripe_size
                  (seg.node_count - 1) size sector size buf, c.1 < seg.node_count - 1))
    ∧ (seg.type = GRUB_DISKFILTER_RAID5 ∨ seg.type = GRUB_DISKFILTER_RAID6 →
        ∃ m p, m < seg.node_count
          ∧ read_segment_parity_start env seg (seg.type / 3) sector
            = some (m,
                sector / seg.stripe_size / (seg.node_count - seg.type / 3) * seg.stripe_size,
                p, sector % seg.stripe_size)
          ∧ (members_read_successfully env seg →
              res_calls (read_segment env seg sector 1 buf)
                = some (GRUB_ERR_NONE,
                    [(m, sector / seg.stripe_size / (seg.node_count - seg.type / 3)
                          * seg.stripe_size + sector % seg.stripe_size,
                      1, buf, GRUB_ERR_NONE)]))) := by
  obtain ⟨hS, hN0, _, h45, h6, _, _⟩ := validate_segment_ok seg hv
  refine ⟨by decide, ?_, ?_⟩
  · intro ht
    have hN : 2 ≤ seg.node_count := by have := h45 (Or.inl ht); omega
    have hn : seg.type / 3 = 1 := by simp [ht, GRUB_DISKFILTER_RAID4]
    have h5 : ¬ (seg.type ≥ 5) := by simp [ht, GRUB_DISKFILTER_RAID4]
    refine ⟨hN, ?_, ?_⟩
    · intro r hr
      have hst := read_segment_parity_start_eq env seg (seg.type / 3) sector hS (by omega)
      simp only [h5, if_false] at hst
      rw [read_segment, read_segment_parity_eq_loop env _ seg sector size buf (Or.inl ht)
        _ _ _ _ hst, hn] at hr
      exact read_segment_parity_loop_raid4_members env _ seg ht _ _ _ _ _ _
        (Nat.mod_lt _ (by omega)) r hr
    · intro hm
      have hh := all_healthy_of_members env seg hm
      refine ⟨?_, read_segment_raid4 env seg sector size buf ht hS hN hh,
        striped_calls_member_lt _ _ _ (by omega) _ _ _ _⟩
      rw [read_segment_raid4 env seg sector 1 buf ht hS hN hh, striped_calls]
      have hb : sector % seg.stripe_size < seg.stripe_size := Nat.mod_lt _ hS
      have hlen : (if seg.stripe_size - sector % seg.stripe_size > 1 then 1
          else seg.stripe_size - sector % seg.stripe_size) = 1 := by
        split_ifs <;> omega
      simp [hlen]
  · intro ht
    have hn : seg.type / 3 = 1 ∨ seg.type / 3 = 2 := by
      rcases ht with h | h <;> simp [h, GRUB_DISKFILTER_RAID5, GRUB_DISKFILTER_RAID6]
    have hnN : seg.type / 3 < seg.node_count := by
      rcases ht with h | h
      · have := h45 (Or.inr h); simp [h, GRUB_DISKFILTER_RAID5]; omega
      · have := h6 h; simp [h, GRUB_DISKFILTER_RAID6]; omega
    have h5 : seg.type ≥ 5 := by
      rcases ht with h | h <;> simp [h, GRUB_DISKFILTER_RAID5, GRUB_DISKFILTER_RAID6]
    have hst := read_segment_parity_start_eq env seg (seg.type / 3) sector hS hnN
    simp only [h5, if_true] at hst
    have hp := read_segment_parity_p_lt env seg _
      (Nat.mod_lt (sector / seg.stripe_size / (seg.node_count - seg.type / 3)) hN0)
    obtain ⟨hm1, _, _, _⟩ := read_segment_parity_disknr_props env seg (seg.type / 3) _
      (sector / seg.stripe_size % (seg.node_count - seg.type / 3)) hn hnN hp
      (Nat.mod_lt _ (by omega))
    refine ⟨_, _, hm1, hst, ?_⟩
    intro hm
    have hh := all_healthy_of_members env seg hm
    obtain ⟨sub, hsub⟩ := read_segment_node_healthy _ _ hh _
      (sector / seg.stripe_size / (seg.node_count - seg.type / 3) * seg.stripe_size
        + sector % seg.stripe_size) 1 buf hm1
    rw [read_segment, read_segment_parity_eq_loop env _ seg sector 1 buf
      (by rcases ht with h | h <;> simp [h]) _ _ _ _ hst,
      read_segment_parity_loop_single env _ seg _ _ _ _ _ _ _ _ _ _ hsub]
    · simp [res_calls, node_calls, Event.node_call]
    · have := Nat.mod_lt sector hS
      omega

/-- Witness of C5: the RAID4 segment of 3 attached members with stripe size 2;
the sectors 3 to 7 are read from member 1, member 0 and member 1. -/
theorem C5_raid4_address_mapping_witness :
    validate_segment c5_segment = GRUB_ERR_NONE
    ∧ c5_segment.type = GRUB_DISKFILTER_RAID4
    ∧ members_read_successfully env_ok c5_segment
    ∧ res_calls (read_segment env_ok c5_segment 3 5 0)
        = some (GRUB_ERR_NONE,
            [(1, 1, 1, 0, GRUB_ERR_NONE), (0, 2, 2, 512, GRUB_ERR_NONE),
             (1, 2, 2, 1536, GRUB_ERR_NONE)]) :=
  ⟨by decide, by decide, members_read_successfully_ok _ _ _ _ _ _,
    ((C5_raid4_address_mapping env_ok c5_segment 3 5 0 (by decide)).2.1 (by decide)).2.2
      (members_read_successfully_ok _ _ _ _ _ _) |>.2.1⟩

/-- C10 as stated fails for RAID5: sector 7 of the RAID5 segment of 4 members
lies in the row with parity member 2 and on member 0; with member 0 missing the
registered strategy is called with the failed member 0, the buffer 0, the
sector 3 and the length 1, and with no parity member index. -/
theorem C10_counterexample :
    read_segment_parity_start (env_recover (fun a => decide (a ≠ 0)) (fun _ => GRUB_ERR_NONE))
        c4_segment (c4_segment.type / 3) 7 = some (0, 2, 2, 1)
    ∧ (read_segment (env_recover (fun a => decide (a ≠ 0)) (fun _ => GRUB_ERR_NONE))
        c4_segment 7 1 0).map (fun r => (r.1, r.2.map Event.parity_index))
        = some (GRUB_ERR_NONE, [none, none])
    ∧ ∃ ev, read_segment (env_recover (fun a => decide (a ≠ 0)) (fun _ => GRUB_ERR_NONE))
        c4_segment 7 1 0
        = some (GRUB_ERR_NONE, [ev, Event.raid5_recover 0 0 3 1 GRUB_ERR_NONE])
      ∧ ev.node_call = some (0, 3, 1, 0, GRUB_ERR_UNKNOWN_DEVICE) :=
  ⟨by decide, by decide, ⟨_, rfl, by decide⟩⟩

/-- C10 amended: in every iteration of the loop of `read_segment` for RAID4,
RAID5 and RAID6 in which the read of the computed member `disknr` fails with
`GRUB_ERR_READ_ERROR` or `GRUB_ERR_UNKNOWN_DEVICE`, a registered strategy of
the level is called: for RAID6 with the segment, `disknr`, the parity member
index `p` of the current row, the buffer, and the sector and length of the
chunk that failed; for RAID4 and RAID5 with the same arguments except the
parity member index, which the RAID5 strategy does not take. When the strategy
fails its error is returned as the error of the read; when it succeeds the
chunk has succeeded and the read goes on with the next chunk. -/
theorem C10_recovery_invocation (env : Env) (rd : List Reader) (seg : grub_diskfilter_seg)
    (n fuel disknr rs p b size buf : Nat) (err : grub_err_t) (ev : Event)
    (hn : read_segment_node rd disknr (rs + b)
        (if seg.stripe_size - b > size then size else seg.stripe_size - b) buf = some (err, ev))
    (herr : err = GRUB_ERR_READ_ERROR ∨ err = GRUB_ERR_UNKNOWN_DEVICE) :
    (seg.type = GRUB_DISKFILTER_RAID6 → ∀ f, env.grub_raid6_recover_func = some f →
      read_segment_parity_loop env rd seg n fuel disknr rs p b size buf =
        if f seg disknr p buf (rs + b)
            (if seg.stripe_size - b > size then size else seg.stripe_size - b) ≠ GRUB_ERR_NONE then
          some (f seg disknr p buf (rs + b)
              (if seg.stripe_size - b > size then size else seg.stripe_size - b),
            [ev, Event.raid6_recover disknr p buf (rs + b)
              (if seg.stripe_size - b > size then size else seg.stripe_size - b)
              (f seg disknr p buf (rs + b)
                (if seg.stripe_size - b > size then size else seg.stripe_size - b))])
        else if size - (if seg.stripe_size - b > size then size else seg.stripe_size - b) = 0 then
          some (GRUB_ERR_NONE,
            [ev, Event.raid6_recover disknr p buf (rs + b)
              (if seg.stripe_size - b > size then size else seg.stripe_size - b) GRUB_ERR_NONE])
        else
          match fuel with
          | 0 => none
          | fuel2 + 1 =>
            match read_segment_parity_loop env rd seg n fuel2
                (read_segment_parity_next env seg n disknr rs p).1
                (read_segment_parity_next env seg n disknr rs p).2.1
                (read_segment_parity_next env seg n disknr rs p).2.2 0
                (size - (if seg.stripe_size - b > size then size else seg.stripe_size - b))
                (buf + ((if seg.stripe_size - b > size then size else seg.stripe_size - b)
                  <<< env.GRUB_DISK_SECTOR_BITS)) with
            | none => none
            | some (err2, tr2) =>
              some (err2, ev :: Event.raid6_recover disknr p buf (rs + b)
                (if seg.stripe_size - b > size then size else seg.stripe_size - b)
                GRUB_ERR_NONE :: tr2))
    ∧ (seg.type ≠ GRUB_DISKFILTER_RAID6 → ∀ f, env.grub_raid5_recover_func = some f →
      read_segment_parity_loop env rd seg n fuel disknr rs p b size buf =
        if f seg disknr buf (rs + b)
            (if seg.stripe_size - b > size then size else seg.stripe_size - b) ≠ GRUB_ERR_NONE then
          some (f seg disknr buf (rs + b)
              (if seg.stripe_size - b > size then size else seg.stripe_size - b),
            [ev, Event.raid5_recover disknr buf (rs + b)
              (if seg.stripe_size - b > size then size else seg.stripe_size - b)
              (f seg disknr buf (rs + b)
                (if seg.stripe_size - b > size then size else seg.stripe_size - b))])
        else if size - (if seg.stripe_size - b > size then size else seg.stripe_size - b) = 0 then
          some (GRUB_ERR_NONE,
            [ev, Event.raid5_recover disknr buf (rs + b)
              (if seg.stripe_size - b > size then size else seg.stripe_size - b) GRUB_ERR_NONE])
        else
          match fuel with
          | 0 => none
          | fuel2 + 1 =>
            match read_segment_parity_loop env rd seg n fuel2
                (read_segment_parity_next env seg n disknr rs p).1
                (read_segment_parity_next env seg n disknr rs p).2.1
                (read_segment_parity_next env seg n disknr rs p).2.2 0
                (size - (if seg.stripe_size - b > size then size else seg.stripe_size - b))
                (buf + ((if seg.stripe_size - b > size then size else seg.stripe_size - b)
                  <<< env.GRUB_DISK_SECTOR_BITS)) with
            | none => none
            | some (err2, tr2) =>
              some (err2, ev :: Event.raid5_recover disknr buf (rs + b)
                (if seg.stripe_size - b > size then size else seg.stripe_size - b)
                GRUB_ERR_NONE :: tr2)) := by
  have hne : err ≠ GRUB_ERR_NONE := by rcases herr with h | h <;> simp [h]
  have hhard : ¬ (err ≠ GRUB_ERR_NONE
      ∧ (err ≠ GRUB_ERR_READ_ERROR ∧ err ≠ GRUB_ERR_UNKNOWN_DEVICE)) := by
    rcases herr with h | h <;> simp [h]
  generalize hlen : (if seg.stripe_size - b > size then size else seg.stripe_size - b) = len
    at hn ⊢
  constructor
  · intro ht f hf
    rw [read_segment_parity_loop]
    simp only [hlen, hn, if_neg hhard, if_pos hne, read_segment_recover, if_pos ht, hf]
    by_cases h1 : f seg disknr p buf (rs + b) len ≠ GRUB_ERR_NONE
    · rw [if_pos h1, if_pos h1]
    · rw [if_neg h1, if_neg h1]
      have h1' : f seg disknr p buf (rs + b) len = GRUB_ERR_NONE := by
        by_contra hc; exact h1 hc
      by_cases h2 : size - len = 0
      · rw [if_pos h2, if_pos h2, h1']
      · rw [if_neg h2, if_neg h2, h1']
        cases fuel with
        | zero => rfl
        | succ fuel2 =>
          simp only
          cases read_segment_parity_loop env rd seg n fuel2
              (read_segment_parity_next env seg n disknr rs p).1
              (read_segment_parity_next env seg n disknr rs p).2.1
              (read_segment_parity_next env seg n disknr rs p).2.2 0 (size - len)
              (buf + (len <<< env.GRUB_DISK_SECTOR_BITS)) with
          | none => rfl
          | some r2 => rfl
  · intro ht f hf
    rw [read_segment_parity_loop]
    simp only [hlen, hn, if_neg hhard, if_pos hne, read_segment_recover, if_neg ht, hf]
    by_cases h1 : f seg disknr buf (rs + b) len ≠ GRUB_ERR_NONE
    · rw [if_pos h1, if_pos h1]
    · rw [if_neg h1, if_neg h1]
      have h1' : f seg disknr buf (rs + b) len = GRUB_ERR_NONE := by
        by_contra hc; exact h1 hc
      by_cases h2 : size - len = 0
      · rw [if_pos h2, if_pos h2, h1']
      · rw [if_neg h2, if_neg h2, h1']
        cases fuel with
        | zero => rfl
        | succ fuel2 =>
          simp only
          cases read_segment_parity_loop env rd seg n fuel2
              (read_segment_parity_next env seg n disknr rs p).1
              (read_segment_parity_next env seg n disknr rs p).2.1
              (read_segment_parity_next env seg n disknr rs p).2.2 0 (size - len)
              (buf + (len <<< env.GRUB_DISK_SECTOR_BITS)) with
          | none => rfl
          | some r2 => rfl

/-- Witness of C10: sector 0 of the RAID6 segment of 4 members lies in the row
with parity member 3 and on member 1; with member 1 missing the RAID6 strategy
is called with the failed member 1, the parity member 3, the buffer 0, the
sector 0 and the length 1, and its success is that of the read. -/
theorem C10_recovery_invocation_witness :
    read_segment_node
        (read_segment_readers (env_recover (fun a => decide (a ≠ 1)) (fun _ => GRUB_ERR_NONE))
          c10_segment.nodes) 1 (0 + 0)
        (if c10_segment.stripe_size - 0 > 1 then 1 else c10_segment.stripe_size - 0) 0
      = some (GRUB_ERR_UNKNOWN_DEVICE, Event.node_read 1 0 1 0 GRUB_ERR_UNKNOWN_DEVICE [])
    ∧ (GRUB_ERR_UNKNOWN_DEVICE = GRUB_ERR_READ_ERROR
        ∨ GRUB_ERR_UNKNOWN_DEVICE = GRUB_ERR_UNKNOWN_DEVICE)
    ∧ read_segment_parity_start (env_recover (fun a => decide (a ≠ 1)) (fun _ => GRUB_ERR_NONE))
        c10_segment (c10_segment.type / 3) 0 = some (1, 0, 3, 0)
    ∧ read_segment_parity_loop (env_recover (fun a => decide (a ≠ 1)) (fun _ => GRUB_ERR_NONE))
        (read_segment_readers (env_recover (fun a => decide (a ≠ 1)) (fun _ => GRUB_ERR_NONE))
          c10_segment.nodes) c10_segment 2 1 1 0 3 0 1 0
      = some (GRUB_ERR_NONE,
          [Event.node_read 1 0 1 0 GRUB_ERR_UNKNOWN_DEVICE [],
           Event.raid6_recover 1 3 0 0 1 GRUB_ERR_NONE]) :=
  ⟨rfl, Or.inr rfl, by decide,
    (C10_recovery_invocation (env_recover (fun a => decide (a ≠ 1)) (fun _ => GRUB_ERR_NONE))
      (read_segment_readers (env_recover (fun a => decide (a ≠ 1)) (fun _ => GRUB_ERR_NONE))
        c10_segment.nodes) c10_segment 2 1 1 0 3 0 1 0 GRUB_ERR_UNKNOWN_DEVICE
      (Event.node_read 1 0 1 0 GRUB_ERR_UNKNOWN_DEVICE []) rfl (Or.inr rfl)).1 rfl
      (fun _ _ _ _ _ _ => GRUB_ERR_NONE) rfl⟩

/-! ## One chunk of the striped, mirror and RAID10 case -/

theorem read_segment_near_loop_far_zero (rd : List Reader) (N ofs far_ofs b rsz buf : Nat)
    (n i d rs : Nat) :
    read_segment_near_loop rd N 0 ofs far_ofs b rsz buf n i d rs GRUB_ERR_NONE
      = some (Flow.next ⟨i, d, rs, GRUB_ERR_NONE⟩, []) := by
  cases n with
  | zero => rfl
  | succ n => simp [read_segment_near_loop, read_segment_far_loop]

theorem copies_candidates_far_zero (N near ofs far_ofs b d rs : Nat) :
    copies_candidates N near 0 ofs far_ofs b d rs = [] := by
  simp [copies_candidates, far_candidates]

theorem read_segment_copies_start_raid10 (seg : grub_diskfilter_seg) (sector : Nat)
    (hv : validate_segment seg = GRUB_ERR_NONE) (ht : seg.type = GRUB_DISKFILTER_RAID10) :
    read_segment_copies_start seg sector
      = some (raid10_near seg.layout, raid10_far seg.layout, raid10_ofs seg, raid10_far_ofs seg,
          sector / seg.stripe_size * raid10_near seg.layout % seg.node_count,
          sector / seg.stripe_size * raid10_near seg.layout / seg.node_count * raid10_ofs seg,
          sector % seg.stripe_size) := by
  obtain ⟨hS, hN0, h10, _, _, _, _⟩ := validate_segment_ok seg hv
  obtain ⟨hfar, _⟩ := h10 ht
  have h1 : seg.stripe_size ≠ 0 := by omega
  have h2 : seg.node_count ≠ 0 := by omega
  have ht1 : ¬ (seg.type = 1) := by simp [ht, GRUB_DISKFILTER_RAID10]
  have ht10 : seg.type = 10 := ht
  unfold read_segment_copies_start
  simp only [grub_divmod64, h1, if_false, ht1, ht10, if_true]
  by_cases hofs : seg.layout >>> 16 ≠ 0
  · simp [hofs, h2, raid10_near, raid10_far, raid10_ofs, raid10_far_ofs]
  · have hofs0 : seg.layout >>> 16 = 0 := by
      by_contra hc; exact hofs hc
    have hf : raid10_far seg.layout ≠ 0 := fun hc => hfar ⟨hofs0, hc⟩
    have hf2 : (seg.layout >>> 8 &&& 255) * seg.stripe_size ≠ 0 := by
      simp only [raid10_far] at hf
      exact Nat.mul_ne_zero hf h1
    simp [hofs0, h2, hf2, raid10_near, raid10_far, raid10_ofs, raid10_far_ofs]

theorem read_segment_copies_start_mirror (seg : grub_diskfilter_seg) (sector : Nat)
    (ht : seg.type = GRUB_DISKFILTER_MIRROR) (hS : 0 < seg.stripe_size)
    (hN : 0 < seg.node_count) :
    read_segment_copies_start seg sector
      = some (seg.node_count, 1, seg.stripe_size, 0, 0,
          sector / seg.stripe_size * seg.stripe_size, sector % seg.stripe_size) := by
  have h1 : seg.stripe_size ≠ 0 := by omega
  have h2 : seg.node_count ≠ 0 := by omega
  have ht1 : seg.type = 1 := ht
  simp [read_segment_copies_start, grub_divmod64, ht1, h1, h2, Nat.mul_div_cancel _ hN]

theorem try_candidates_total (rd : List Reader) (z b : Nat) (cands : List (Nat × Nat))
    (e0 : grub_err_t)
    (h : ∀ c ∈ cands, ∃ r, read_segment_node rd c.1 c.2 z b = some r) :
    ∃ r, try_candidates rd z b cands e0 = some r := by
  induction cands generalizing e0 with
  | nil => exact ⟨_, rfl⟩
  | cons c rest ih =>
    obtain ⟨⟨e, ev⟩, hr⟩ := h c (List.mem_cons_self _ _)
    rw [try_candidates, hr]
    by_cases hret : e = GRUB_ERR_READ_ERROR ∨ e = GRUB_ERR_UNKNOWN_DEVICE
    · obtain ⟨⟨e2, tr2⟩, hr2⟩ := ih e (fun c2 hc2 => h c2 (List.mem_cons_of_mem _ hc2))
      simp only [hret, if_true, hr2]
      exact ⟨_, rfl⟩
    · simp only [hret, if_false]
      exact ⟨_, rfl⟩

theorem no_read_faults_of_physical (env : Env) (seg : grub_diskfilter_seg)
    (hpv : ∀ node ∈ seg.nodes, node.pv ≠ none) :
    no_read_faults (read_segment_readers env seg.nodes) seg.node_count := by
  intro k hk s z b
  have hk2 : k < seg.nodes.length := hk
  have hget : (read_segment_readers env seg.nodes)[k]?
      = some (grub_diskfilter_read_node env seg.nodes[k]) := by
    rw [read_segment_readers_get, List.getElem?_eq_getElem hk2]; rfl
  have hne := hpv seg.nodes[k] (List.getElem_mem _)
  obtain ⟨a, ha⟩ := Option.ne_none_iff_exists'.mp hne
  cases hd : (env.pvs a).disk with
  | none =>
    simp only [read_segment_node, hget, read_node_unattached env _ a ha hd]
    exact ⟨_, rfl⟩
  | some d =>
    simp only [read_segment_node, hget, read_node_attached env _ a d ha hd]
    exact ⟨_, rfl⟩

/-- C9 at the failing input: the volume of one RAID10 segment of 2 members
with 1 near copy and 3 far copies passes validation; with no member attached
the oracle needs `2 - 3 + 1 = 0` live nodes and reports the volume readable in
best-effort mode, and the read of sector 0, which lies in the segment, tries
the three far copies on members 0, 1, 0 and fails with `GRUB_ERR_UNKNOWN_DEVICE`. -/
theorem C9_oracle_readable_read_fails :
    validate_lv c9_volume = GRUB_ERR_NONE
    ∧ c9_segment.type = GRUB_DISKFILTER_RAID10
    ∧ c9_segment.node_count = 2 ∧ raid10_near c9_segment.layout = 1
    ∧ raid10_far c9_segment.layout = 3
    ∧ is_lv_readable_need c9_segment false = 0
    ∧ is_lv_readable (heap_of (fun _ => false)) c9_volume false = true
    ∧ read_lv_find_segment 0 c9_volume.segments 0 = some 0
    ∧ (read_lv (env_of (fun _ => false) (fun _ => GRUB_ERR_NONE)) c9_volume 0 1 0).map
        (fun r => r.1) = some GRUB_ERR_UNKNOWN_DEVICE
    ∧ res_calls (read_segment (env_of (fun _ => false) (fun _ => GRUB_ERR_NONE)) c9_segment 0 1 0)
      = some (GRUB_ERR_UNKNOWN_DEVICE,
          [(0, 0, 1, 0, GRUB_ERR_UNKNOWN_DEVICE), (1, 8, 1, 0, GRUB_ERR_UNKNOWN_DEVICE),
           (0, 16, 1, 0, GRUB_ERR_UNKNOWN_DEVICE)]) :=
  ⟨by decide, by decide, by decide, by decide, by decide, by decide, by decide, by decide,
    rfl, rfl⟩

/-! ## Readable volumes without a far-copy count above the member count -/

theorem window_has_live {α : Type} (l : List α) (p : α → Bool) (w d : Nat)
    (hw : w ≤ l.length) (hc : l.length < l.countP p + w) :
    ∃ t, t < w ∧ ∃ a, l[(d + t) % l.length]? = some a ∧ p a = true := by
  have hperm : (l.rotate d).countP p = l.countP p := (List.rotate_perm l d).countP_eq p
  have hlen : (l.rotate d).length = l.length := List.length_rotate l d
  have hsplit : (l.rotate d).countP p
      = ((l.rotate d).take w).countP p + ((l.rotate d).drop w).countP p := by
    conv_lhs => rw [← List.take_append_drop w (l.rotate d)]
    exact List.countP_append _ _ _
  have hdrop : ((l.rotate d).drop w).countP p ≤ l.length - w := by
    have := @List.countP_le_length _ p ((l.rotate d).drop w)
    rw [List.length_drop, hlen] at this
    exact this
  have hpos : 0 < ((l.rotate d).take w).countP p := by omega
  obtain ⟨a, ha, hpa⟩ := List.countP_pos_iff.mp hpos
  obtain ⟨t, ht, hta⟩ := List.getElem_of_mem ha
  have htw : t < w := by
    rw [List.length_take] at ht; omega
  have htl : t < (l.rotate d).length := by rw [hlen]; omega
  refine ⟨t, htw, a, ?_, hpa⟩
  rw [List.getElem_take] at hta
  rw [List.getElem_rotate l d t htl] at hta
  have hidx : (d + t) % l.length < l.length := Nat.mod_lt _ (by omega)
  rw [List.getElem?_eq_getElem hidx, ← hta]
  congr 2
  rw [Nat.add_comm]

theorem read_segment_node_physical (env : Env) (seg : grub_diskfilter_seg)
    (hpv : ∀ node ∈ seg.nodes, node.pv ≠ none) (hok : device_reads_succeed env)
    (k s z b : Nat) (hk : k < seg.node_count) :
    ∃ node ev, seg.nodes[k]? = some node
      ∧ read_segment_node (read_segment_readers env seg.nodes) k s z b
        = some (if node_attached env.pvs node then GRUB_ERR_NONE
            else GRUB_ERR_UNKNOWN_DEVICE, ev) := by
  have hk2 : k < seg.nodes.length := hk
  have hget : (read_segment_readers env seg.nodes)[k]?
      = some (grub_diskfilter_read_node env seg.nodes[k]) := by
    rw [read_segment_readers_get, List.getElem?_eq_getElem hk2]; rfl
  have hne := hpv seg.nodes[k] (List.getElem_mem _)
  obtain ⟨a, ha⟩ := Option.ne_none_iff_exists'.mp hne
  refine ⟨seg.nodes[k], ?_⟩
  cases hd : (env.pvs a).disk with
  | none =>
    simp only [read_segment_node, hget, read_node_unattached env _ a ha hd, node_attached, ha, hd]
    exact ⟨_, List.getElem?_eq_getElem hk2, rfl⟩
  | some d =>
    simp only [read_segment_node, hget, read_node_attached env _ a d ha hd, node_attached, ha, hd,
      hok d]
    exact ⟨_, List.getElem?_eq_getElem hk2, rfl⟩

theorem try_candidates_success (rd : List Reader) (z b : Nat) (cands : List (Nat × Nat))
    (e0 : grub_err_t)
    (hall : ∀ c ∈ cands, ∃ e ev, read_segment_node rd c.1 c.2 z b = some (e, ev)
      ∧ (e = GRUB_ERR_NONE ∨ e = GRUB_ERR_READ_ERROR ∨ e = GRUB_ERR_UNKNOWN_DEVICE))
    (hone : ∃ c ∈ cands, ∃ ev, read_segment_node rd c.1 c.2 z b = some (GRUB_ERR_NONE, ev)) :
    ∃ tr, try_candidates rd z b cands e0 = some (GRUB_ERR_NONE, tr) := by
  induction cands generalizing e0 with
  | nil =>
    obtain ⟨c, hc, _⟩ := hone
    cases hc
  | cons c rest ih =>
    obtain ⟨e, ev, hr, he⟩ := hall c (List.mem_cons_self _ _)
    rw [try_candidates, hr]
    by_cases hret : e = GRUB_ERR_READ_ERROR ∨ e = GRUB_ERR_UNKNOWN_DEVICE
    · have hone2 : ∃ c2 ∈ rest, ∃ ev2,
          read_segment_node rd c2.1 c2.2 z b = some (GRUB_ERR_NONE, ev2) := by
        obtain ⟨c2, hc2, ev2, hr2⟩ := hone
        rcases List.mem_cons.mp hc2 with h | h
        · subst h
          rw [hr] at hr2
          simp only [Option.some.injEq, Prod.mk.injEq] at hr2
          rw [hr2.1] at hret
          rcases hret with h | h <;> cases h
        · exact ⟨c2, h, ev2, hr2⟩
      obtain ⟨tr, htr⟩ := ih e (fun c2 hc2 => hall c2 (List.mem_cons_of_mem _ hc2)) hone2
      simp only [hret, if_true, htr]
      exact ⟨_, rfl⟩
    · have hnone : e = GRUB_ERR_NONE := by
        rcases he with h | h
        · exact h
        · exact absurd h hret
      simp only [hret, if_false, hnone]
      exact ⟨_, rfl⟩

theorem read_segment_near_loop_ok (rd : List Reader) (N near far ofs far_ofs b z buf d rs : Nat)
    (hd : d < N)
    (hchunk : ∃ tr, try_candidates rd z buf (copies_candidates N near far ofs far_ofs b d rs)
      GRUB_ERR_NONE = some (GRUB_ERR_NONE, tr)) :
    ∃ st tr, read_segment_near_loop rd N far ofs far_ofs b z buf near 0 d rs GRUB_ERR_NONE
        = some (Flow.next st, tr) ∧ st.err = GRUB_ERR_NONE := by
  by_cases hfar : far = 0
  · subst hfar
    exact ⟨_, _, read_segment_near_loop_far_zero rd N ofs far_ofs b z buf near 0 d rs, rfl⟩
  · obtain ⟨tr, htr⟩ := hchunk
    obtain ⟨t, _, _, _, h⟩ := (read_segment_near_loop_eq rd N far ofs far_ofs b z buf
      (by omega) near 0 d rs GRUB_ERR_NONE hd (Or.inl rfl)).2 _ _ htr
    rw [if_pos (Or.inl rfl)] at h
    exact ⟨_, _, h, rfl⟩

theorem read_segment_copies_loop_ok (bits : Nat) (rd : List Reader)
    (N S near far ofs far_ofs : Nat) (hN : 0 < N) (hS : 0 < S)
    (hchunk : ∀ d rs b z buf, d < N →
      ∃ tr, try_candidates rd z buf (copies_candidates N near far ofs far_ofs b d rs)
        GRUB_ERR_NONE = some (GRUB_ERR_NONE, tr))
    (fuel d rs b size buf : Nat) (hd : d < N) (hb : b < S) (hf : size ≤ fuel) :
    ∃ tr, read_segment_copies_loop bits rd N S near far ofs far_ofs fuel d rs b size buf
      = some (GRUB_ERR_NONE, tr) := by
  induction fuel generalizing d rs b size buf with
  | zero =>
    have hs : size = 0 := by omega
    subst hs
    rw [read_segment_copies_loop]
    obtain ⟨st, tr, hnl, hst⟩ := read_segment_near_loop_ok rd N near far ofs far_ofs b
      (if S - b > 0 then 0 else S - b) buf d rs hd (hchunk d rs b _ buf hd)
    simp only [hnl, hst]
    exact ⟨tr, by simp⟩
  | succ fuel ih =>
    rw [read_segment_copies_loop]
    obtain ⟨st, tr, hnl, hst⟩ := read_segment_near_loop_ok rd N near far ofs far_ofs b
      (if S - b > size then size else S - b) buf d rs hd (hchunk d rs b _ buf hd)
    simp only [hnl, hst]
    by_cases hrem : size - (if S - b > size then size else S - b) = 0
    · exact ⟨tr, by simp [hrem]⟩
    · have hw := read_segment_wrap_loop_eq N ofs hN (st.disknr + (near - st.i))
        (st.disknr + (near - st.i)) st.read_sector (le_refl _)
      have hlt : (st.disknr + (near - st.i)) % N < N := Nat.mod_lt _ hN
      have hprog : size - (if S - b > size then size else S - b) ≤ fuel := by
        split_ifs at hrem ⊢ <;> omega
      obtain ⟨tr2, htr2⟩ := ih ((st.disknr + (near - st.i)) % N)
        (st.read_sector + (st.disknr + (near - st.i)) / N * ofs) 0
        (size - (if S - b > size then size else S - b))
        (buf + ((if S - b > size then size else S - b) <<< bits)) hlt hS hprog
      refine ⟨tr ++ tr2, ?_⟩
      simp [hrem, hw, htr2]

theorem copies_candidates_member_lt (N near far ofs far_ofs b d rs : Nat) (hN : 0 < N) :
    ∀ c ∈ copies_candidates N near far ofs far_ofs b d rs, c.1 < N := by
  intro c hc
  simp only [copies_candidates, far_candidates, List.mem_flatMap, List.mem_map,
    List.mem_range] at hc
  obtain ⟨i, _, j, _, rfl⟩ := hc
  exact Nat.mod_lt _ hN

theorem chunk_ok_of_window (env : Env) (seg : grub_diskfilter_seg)
    (hpv : ∀ node ∈ seg.nodes, node.pv ≠ none) (hok : device_reads_succeed env)
    (hN : 0 < seg.node_count) (near far ofs far_ofs : Nat)
    (hwin : far = 0 ∨ near = 0
      ∨ (near ≤ seg.node_count ∧ seg.node_count < attached_nodes env.pvs seg + near)
      ∨ (near = 1 ∧ far ≤ seg.node_count
          ∧ seg.node_count < attached_nodes env.pvs seg + far))
    (d rs b z buf : Nat) (_hd : d < seg.node_count) :
    ∃ tr, try_candidates (read_segment_readers env seg.nodes) z buf
        (copies_candidates seg.node_count near far ofs far_ofs b d rs) GRUB_ERR_NONE
      = some (GRUB_ERR_NONE, tr) := by
  by_cases hfar : far = 0
  · subst hfar
    rw [copies_candidates_far_zero]
    exact ⟨[], rfl⟩
  by_cases hnear : near = 0
  · subst hnear
    exact ⟨[], by simp [copies_candidates, try_candidates]⟩
  have hall : ∀ c ∈ copies_candidates seg.node_count near far ofs far_ofs b d rs,
      ∃ e ev, read_segment_node (read_segment_readers env seg.nodes) c.1 c.2 z buf = some (e, ev)
        ∧ (e = GRUB_ERR_NONE ∨ e = GRUB_ERR_READ_ERROR ∨ e = GRUB_ERR_UNKNOWN_DEVICE) := by
    intro c hc
    have hlt := copies_candidates_member_lt _ _ _ _ _ _ _ _ hN c hc
    obtain ⟨node, ev, _, hr⟩ := read_segment_node_physical env seg hpv hok c.1 c.2 z buf hlt
    refine ⟨_, ev, hr, ?_⟩
    split_ifs
    · exact Or.inl rfl
    · exact Or.inr (Or.inr rfl)
  apply try_candidates_success _ _ _ _ _ hall
  have hlive : ∀ k, k < seg.node_count → ∀ node, seg.nodes[k]? = some node →
      node_attached env.pvs node = true → ∀ s,
      ∃ ev, read_segment_node (read_segment_readers env seg.nodes) k s z buf
        = some (GRUB_ERR_NONE, ev) := by
    intro k hk node hnode hatt s
    obtain ⟨node2, ev, hnode2, hr⟩ := read_segment_node_physical env seg hpv hok k s z buf hk
    rw [hnode] at hnode2
    simp only [Option.some.injEq] at hnode2
    subst hnode2
    rw [hatt] at hr
    exact ⟨ev, hr⟩
  rcases hwin with h | h | h | h
  · exact absurd h hfar
  · exact absurd h hnear
  · obtain ⟨hw, hc⟩ := h
    obtain ⟨t, ht, node, hnode, hatt⟩ := window_has_live seg.nodes (node_attached env.pvs)
      near d hw hc
    have hk : (d + t) % seg.node_count < seg.node_count := Nat.mod_lt _ hN
    obtain ⟨ev, hev⟩ := hlive _ hk node hnode hatt
      (rs + (d + t) / seg.node_count * ofs + 0 * far_ofs + b)
    refine ⟨((d + t) % seg.node_count,
      rs + (d + t) / seg.node_count * ofs + 0 * far_ofs + b), ?_, ev, hev⟩
    simp only [copies_candidates, far_candidates, List.mem_flatMap, List.mem_map,
      List.mem_range]
    refine ⟨t, ht, 0, by omega, ?_⟩
    simp [Nat.mod_mod]
  · obtain ⟨hn1, hw, hc⟩ := h
    subst hn1
    obtain ⟨t, ht, node, hnode, hatt⟩ := window_has_live seg.nodes (node_attached env.pvs)
      far d hw hc
    have hk : (d + t) % seg.node_count < seg.node_count := Nat.mod_lt _ hN
    obtain ⟨ev, hev⟩ := hlive _ hk node hnode hatt
      (rs + (d + 0) / seg.node_count * ofs + t * far_ofs + b)
    refine ⟨((d + t) % seg.node_count,
      rs + (d + 0) / seg.node_count * ofs + t * far_ofs + b), ?_, ev, hev⟩
    simp only [copies_candidates, far_candidates, List.mem_flatMap, List.mem_map,
      List.mem_range]
    refine ⟨0, by omega, t, ht, ?_⟩
    simp [Nat.mod_add_mod]

theorem attached_nodes_le (pvs : Nat → grub_diskfilter_pv) (seg : grub_diskfilter_seg) :
    attached_nodes pvs seg ≤ seg.node_count :=
  List.countP_le_length _

theorem read_segment_ok_of_readable (env : Env) (seg : grub_diskfilter_seg)
    (hv : validate_segment seg = GRUB_ERR_NONE)
    (ht : seg.type = GRUB_DISKFILTER_STRIPED ∨ seg.type = GRUB_DISKFILTER_MIRROR
      ∨ seg.type = GRUB_DISKFILTER_RAID10)
    (hpv : ∀ node ∈ seg.nodes, node.pv ≠ none) (hok : device_reads_succeed env)
    (hfarN : seg.type = GRUB_DISKFILTER_RAID10 → raid10_near seg.layout = 1 →
      raid10_far seg.layout ≤ seg.node_count)
    (hneed : is_lv_readable_need seg false ≤ (live_nodes env.pvs seg false : Int))
    (sector size buf : Nat) :
    ∃ tr, read_segment env seg sector size buf = some (GRUB_ERR_NONE, tr) := by
  obtain ⟨hS, hN0, h10, _, _, _, _⟩ := validate_segment_ok seg hv
  rw [live_nodes_eq_attached env.pvs seg false hpv] at hneed
  have hle := attached_nodes_le env.pvs seg
  have hb : sector % seg.stripe_size < seg.stripe_size := Nat.mod_lt _ hS
  rcases ht with ht | ht | ht
  · -- STRIPED
    rw [(is_lv_readable_need_table seg false).1 ht] at hneed
    have hall : seg.node_count < attached_nodes env.pvs seg + 1 := by omega
    by_cases h1 : seg.node_count = 1
    · obtain ⟨t, ht1, node, hnode, hatt⟩ := window_has_live seg.nodes (node_attached env.pvs)
        1 0 (by exact hN0) hall
      obtain ⟨node2, ev, hnode2, hr⟩ := read_segment_node_physical env seg hpv hok 0 sector size
        buf hN0
      have ht0 : t = 0 := by omega
      subst ht0
      have hidx : (0 + 0) % seg.nodes.length = 0 := by simp
      rw [hidx, hnode2] at hnode
      simp only [Option.some.injEq] at hnode
      subst hnode
      rw [hatt] at hr
      rw [read_segment, read_segment_with, if_pos ⟨ht, h1⟩, hr]
      exact ⟨_, rfl⟩
    · have h0 : ¬ (seg.type = GRUB_DISKFILTER_STRIPED ∧ seg.node_count = 1) := fun h => h1 h.2
      rw [read_segment, read_segment_with, if_neg h0, if_pos (Or.inl ht),
        read_segment_copies_start_striped seg sector ht hS hN0]
      exact read_segment_copies_loop_ok _ _ _ _ _ _ _ _ hN0 hS
        (fun d rs b z buf hd => chunk_ok_of_window env seg hpv hok hN0 1 1 _ _
          (Or.inr (Or.inr (Or.inl ⟨by omega, hall⟩))) d rs b z buf hd)
        _ _ _ _ _ _ (Nat.mod_lt _ hN0) hb (le_refl _)
  · -- MIRROR
    rw [(is_lv_readable_need_table seg false).2.1 ht] at hneed
    have h0 : ¬ (seg.type = GRUB_DISKFILTER_STRIPED ∧ seg.node_count = 1) := by
      simp [ht, GRUB_DISKFILTER_MIRROR, GRUB_DISKFILTER_STRIPED]
    rw [read_segment, read_segment_with, if_neg h0, if_pos (Or.inr (Or.inl ht)),
      read_segment_copies_start_mirror seg sector ht hS hN0]
    exact read_segment_copies_loop_ok _ _ _ _ _ _ _ _ hN0 hS
      (fun d rs b z buf hd => chunk_ok_of_window env seg hpv hok hN0 seg.node_count 1 _ _
        (Or.inr (Or.inr (Or.inl ⟨le_refl _, by omega⟩))) d rs b z buf hd)
      _ _ _ _ _ _ hN0 hb (le_refl _)
  · -- RAID10
    obtain ⟨_, hnearN⟩ := h10 ht
    have hneed2 : is_lv_readable_need seg false
        = (seg.node_count : Int)
          - ((if raid10_near seg.layout = 1 then raid10_far seg.layout
              else raid10_near seg.layout : Nat) : Int) + 1 := by
      simp [is_lv_readable_need, ht, GRUB_DISKFILTER_RAID10, GRUB_DISKFILTER_RAID6,
        GRUB_DISKFILTER_RAID4, GRUB_DISKFILTER_RAID5, GRUB_DISKFILTER_STRIPED,
        GRUB_DISKFILTER_MIRROR, raid10_near, raid10_far]
    rw [hneed2] at hneed
    have h0 : ¬ (seg.type = GRUB_DISKFILTER_STRIPED ∧ seg.node_count = 1) := by
      simp [ht, GRUB_DISKFILTER_RAID10, GRUB_DISKFILTER_STRIPED]
    rw [read_segment, read_segment_with, if_neg h0, if_pos (Or.inr (Or.inr ht)),
      read_segment_copies_start_raid10 seg sector hv ht]
    refine read_segment_copies_loop_ok _ _ _ _ _ _ _ _ hN0 hS
      (fun d rs b z buf hd => chunk_ok_of_window env seg hpv hok hN0 _ _ _ _ ?_ d rs b z buf hd)
      _ _ _ _ _ _ (Nat.mod_lt _ hN0) hb (le_refl _)
    by_cases hn1 : raid10_near seg.layout = 1
    · rw [if_pos hn1] at hneed
      exact Or.inr (Or.inr (Or.inr ⟨hn1, hfarN ht hn1, by omega⟩))
    · rw [if_neg hn1] at hneed
      exact Or.inr (Or.inr (Or.inl ⟨hnearN, by omega⟩))

theorem read_lv_readers_eq (env : Env) (segs : List grub_diskfilter_seg) :
    read_lv_readers env segs = segs.map (read_segment env) := by
  induction segs with
  | nil => simp [read_lv_readers]
  | cons seg rest ih => simp [read_lv_readers, ih, read_segment]

theorem read_lv_eq (env : Env) (lv : grub_diskfilter_lv) (sector size buf : Nat) :
    read_lv env lv sector size buf
      = read_lv_loop env.GRUB_DISK_SECTOR_BITS lv.segments (lv.segments.map (read_segment env))
          lv.vg size sector size buf := by
  cases lv
  simp [read_lv, read_lv_readers_eq]

theorem read_lv_find_segment_some (extent : Nat) (segs : List grub_diskfilter_seg) (j : Nat)
    (h : ∃ seg ∈ segs, seg.start_extent ≤ extent ∧ seg.start_extent + seg.extent_count > extent) :
    ∃ i seg, read_lv_find_segment extent segs j = some (j + i) ∧ segs[i]? = some seg
      ∧ seg.start_extent ≤ extent ∧ seg.start_extent + seg.extent_count > extent := by
  induction segs generalizing j with
  | nil =>
    obtain ⟨seg, hs, _⟩ := h
    cases hs
  | cons seg rest ih =>
    rw [read_lv_find_segment]
    by_cases hc : seg.start_extent ≤ extent ∧ seg.start_extent + seg.extent_count > extent
    · rw [if_pos hc]
      exact ⟨0, seg, rfl, by simp, hc.1, hc.2⟩
    · rw [if_neg hc]
      have h2 : ∃ seg2 ∈ rest, seg2.start_extent ≤ extent
          ∧ seg2.start_extent + seg2.extent_count > extent := by
        obtain ⟨seg2, hs, hc2⟩ := h
        rcases List.mem_cons.mp hs with h3 | h3
        · subst h3; exact absurd hc2 hc
        · exact ⟨seg2, h3, hc2⟩
      obtain ⟨i, seg2, hf, hg, hc2⟩ := ih (j + 1) h2
      refine ⟨i + 1, seg2, ?_, ?_, hc2⟩
      · rw [hf]; congr 1; omega
      · simpa using hg

theorem read_lv_loop_ok (env : Env) (segs : List grub_diskfilter_seg) (E : Nat) (hE : 0 < E)
    (hseg : ∀ seg ∈ segs, ∀ s z b,
      ∃ tr, read_segment env seg s z b = some (GRUB_ERR_NONE, tr))
    (fuel sector size buf : Nat) (hf : size ≤ fuel)
    (hin : request_in_segments segs E sector size) :
    ∃ tr, read_lv_loop env.GRUB_DISK_SECTOR_BITS segs (segs.map (read_segment env)) (some E)
        fuel sector size buf = some (GRUB_ERR_NONE, tr) := by
  induction fuel generalizing sector size buf with
  | zero =>
    have hs : size = 0 := by omega
    subst hs
    rw [read_lv_loop]
    exact ⟨[], by simp⟩
  | succ fuel ih =>
    rw [read_lv_loop]
    by_cases hs : size = 0
    · exact ⟨[], by simp [hs]⟩
    · rw [if_neg hs]
      have hE0 : E ≠ 0 := by omega
      obtain ⟨seg0, hmem0, hlo0, hhi0⟩ := hin sector (le_refl _) (by omega)
      have hex : ∃ seg ∈ segs, seg.start_extent ≤ sector / E
          ∧ seg.start_extent + seg.extent_count > sector / E :=
        ⟨seg0, hmem0, (Nat.le_div_iff_mul_le hE).mpr hlo0, (Nat.div_lt_iff_lt_mul hE).mpr hhi0⟩
      obtain ⟨i, seg, hfind, hget, hlo, hhi⟩ := read_lv_find_segment_some (sector / E) segs 0 hex
      rw [Nat.zero_add] at hfind
      have hhi2 : sector < (seg.start_extent + seg.extent_count) * E :=
        (Nat.div_lt_iff_lt_mul hE).mp hhi
      have hmem : seg ∈ segs := by
        obtain ⟨hlt, hge⟩ := List.getElem?_eq_some.mp hget
        rw [← hge]; exact List.getElem_mem _
      generalize hto : (if (seg.start_extent + seg.extent_count) * E - sector > size then size
        else (seg.start_extent + seg.extent_count) * E - sector) = to_read
      have hto1 : 1 ≤ to_read ∧ to_read ≤ size
          ∧ sector + to_read ≤ (seg.start_extent + seg.extent_count) * E := by
        rw [← hto]; split_ifs <;> omega
      obtain ⟨tr, htr⟩ := hseg seg hmem (sector - seg.start_extent * E) to_read buf
      have hin2 : request_in_segments segs E (sector + to_read) (size - to_read) := by
        intro t ht1 ht2
        exact hin t (by omega) (by omega)
      obtain ⟨tr2, htr2⟩ := ih (sector + to_read) (size - to_read)
        (buf + (to_read <<< env.GRUB_DISK_SECTOR_BITS)) (by omega) hin2
      refine ⟨Event.segment_read i (sector - seg.start_extent * E) to_read buf GRUB_ERR_NONE tr
        :: tr2, ?_⟩
      simp only [grub_divmod64, hE0, if_false, hfind, hget, List.getElem?_map, Option.map_some',
        hto, htr, htr2]
      simp

theorem validate_lv_ok (lv : grub_diskfilter_lv) (h : validate_lv lv = GRUB_ERR_NONE) :
    (∃ E, lv.vg = some E ∧ 0 < E) ∧ ∀ seg ∈ lv.segments, validate_segment seg = GRUB_ERR_NONE := by
  cases lv with
  | mk fullname idname name number size bra scanned visible segments vg =>
    simp only [validate_lv] at h
    by_cases hvg : vg = none ∨ vg = some 0
    · rw [if_pos hvg] at h; cases h
    · rw [if_neg hvg] at h
      constructor
      · cases vg with
        | none => exact absurd (Or.inl rfl) hvg
        | some E =>
          refine ⟨E, rfl, ?_⟩
          by_contra hc
          have : E = 0 := by omega
          subst this
          exact hvg (Or.inr rfl)
      · show ∀ seg ∈ segments, validate_segment seg = GRUB_ERR_NONE
        clear hvg
        induction segments with
        | nil => intro seg hs; cases hs
        | cons seg rest ih =>
          rw [validate_lv_segments] at h
          by_cases hc : validate_segment seg ≠ GRUB_ERR_NONE
          · rw [if_pos hc] at h; exact absurd h hc
          · rw [if_neg hc] at h
            intro seg2 hs
            rcases List.mem_cons.mp hs with h2 | h2
            · subst h2
              by_contra hc2; exact hc hc2
            · exact ih h seg2 h2

/-- Soundness of the oracle on the read path: a validated volume whose segments
are STRIPED, MIRROR or RAID10 over physical members, every RAID10 segment with
one near copy having at most as many far copies as members, and which the
oracle reports readable in best-effort mode, is read successfully at every
request inside its segments when the reads of the attached devices succeed. -/
theorem read_lv_ok_of_readable (env : Env) (lv : grub_diskfilter_lv)
    (hv : validate_lv lv = GRUB_ERR_NONE)
    (hsegs : ∀ seg ∈ lv.segments,
      (seg.type = GRUB_DISKFILTER_STRIPED ∨ seg.type = GRUB_DISKFILTER_MIRROR
        ∨ seg.type = GRUB_DISKFILTER_RAID10)
      ∧ (∀ node ∈ seg.nodes, node.pv ≠ none)
      ∧ (seg.type = GRUB_DISKFILTER_RAID10 → raid10_near seg.layout = 1 →
          raid10_far seg.layout ≤ seg.node_count))
    (hok : device_reads_succeed env)
    (hr : is_lv_readable env.pvs lv false = true)
    (sector size buf E : Nat) (hE : lv.vg = some E)
    (hin : request_in_segments lv.segments E sector size) :
    ∃ tr, read_lv env lv sector size buf = some (GRUB_ERR_NONE, tr) := by
  obtain ⟨⟨E2, hE2, hEpos⟩, hvs⟩ := validate_lv_ok lv hv
  rw [hE] at hE2
  simp only [Option.some.injEq] at hE2
  subst hE2
  rw [is_lv_readable_eq, is_lv_readable_segments_iff] at hr
  rw [read_lv_eq, hE]
  refine read_lv_loop_ok env lv.segments E hEpos ?_ size sector size buf (le_refl _) hin
  intro seg hmem s z b
  obtain ⟨ht, hpv, hfar⟩ := hsegs seg hmem
  exact read_segment_ok_of_readable env seg (hvs seg hmem) ht hpv hok hfar (hr seg hmem) s z b

/-- The mirror of 2 members with member 0 missing, as a volume in a group of
extent size 1, is reported readable and the read of sectors 5 to 7 succeeds. -/
theorem read_lv_ok_of_readable_witness :
    is_lv_readable (heap_of (fun a => decide (a ≠ 0))) (volume_of [c6_segment] 1) false = true
    ∧ ∃ tr, read_lv (env_of (fun a => decide (a ≠ 0)) (fun _ => GRUB_ERR_NONE))
        (volume_of [c6_segment] 1) 5 3 0 = some (GRUB_ERR_NONE, tr) :=
  ⟨by decide,
    read_lv_ok_of_readable (env_of (fun a => decide (a ≠ 0)) (fun _ => GRUB_ERR_NONE))
      (volume_of [c6_segment] 1) (by decide)
      (by
        intro seg hseg
        have h : seg = c6_segment := by simpa [volume_of] using hseg
        subst h
        refine ⟨Or.inr (Or.inl (by decide)), ?_, fun h => absurd h (by decide)⟩
        intro node hnode
        simp only [c6_segment, segment_of, List.mem_map, List.mem_range] at hnode
        obtain ⟨k, _, rfl⟩ := hnode
        simp [pv_node, grub_diskfilter_node.pv])
      (fun _ _ _ _ _ => rfl) (by decide) 5 3 0 1 rfl
      (by
        intro t h1 h2
        refine ⟨c6_segment, by simp [volume_of], ?_, ?_⟩
        · simp [c6_segment, segment_of]
        · simp only [c6_segment, segment_of]; omega)⟩

/-! ## Member errors in the parity levels -/

theorem read_segment_recover_none (env : Env) (seg : grub_diskfilter_seg)
    (h : no_recovery_strategy env seg) (d p buf s z : Nat) :
    read_segment_recover env seg d p buf s z = (GRUB_ERR_BAD_DEVICE, []) := by
  unfold read_segment_recover
  by_cases ht : seg.type = GRUB_DISKFILTER_RAID6
  · rw [if_pos ht, h.1 ht]
  · rw [if_neg ht, h.2 ht]

theorem read_segment_recover_events (env : Env) (seg : grub_diskfilter_seg)
    (d p buf s z : Nat) (k s2 z2 b2 : Nat) (err : grub_err_t) (sub : List Event) :
    Event.node_read k s2 z2 b2 err sub ∉ (read_segment_recover env seg d p buf s z).2 := by
  unfold read_segment_recover
  split_ifs
  · cases env.grub_raid6_recover_func with
    | none => simp
    | some f => simp
  · cases env.grub_raid5_recover_func with
    | none => simp
    | some f => simp

theorem read_segment_parity_loop_inv (env : Env) (rd : List Reader)
    (seg : grub_diskfilter_seg) (n fuel d rs p b size buf : Nat) (e : grub_err_t)
    (tr : List Event) (len : Nat)
    (hlen : len = if seg.stripe_size - b > size then size else seg.stripe_size - b)
    (h : read_segment_parity_loop env rd seg n fuel d rs p b size buf = some (e, tr)) :
    ∃ err0 sub0 rc,
      read_segment_node rd d (rs + b) len buf
        = some (err0, Event.node_read d (rs + b) len buf err0 sub0)
      ∧ rc = (if err0 ≠ GRUB_ERR_NONE then read_segment_recover env seg d p buf (rs + b) len
          else (err0, []))
      ∧ ((err0 ≠ GRUB_ERR_NONE ∧ err0 ≠ GRUB_ERR_READ_ERROR ∧ err0 ≠ GRUB_ERR_UNKNOWN_DEVICE
            ∧ e = err0 ∧ tr = [Event.node_read d (rs + b) len buf err0 sub0])
        ∨ (¬ (err0 ≠ GRUB_ERR_NONE ∧ err0 ≠ GRUB_ERR_READ_ERROR
              ∧ err0 ≠ GRUB_ERR_UNKNOWN_DEVICE)
            ∧ ((rc.1 ≠ GRUB_ERR_NONE ∧ e = rc.1
                ∧ tr = Event.node_read d (rs + b) len buf err0 sub0 :: rc.2)
              ∨ (rc.1 = GRUB_ERR_NONE ∧ size - len = 0 ∧ e = GRUB_ERR_NONE
                ∧ tr = Event.node_read d (rs + b) len buf err0 sub0 :: rc.2)
              ∨ (rc.1 = GRUB_ERR_NONE ∧ size - len ≠ 0 ∧ ∃ fuel2 tr2, fuel = fuel2 + 1
                ∧ read_segment_parity_loop env rd seg n fuel2
                    (read_segment_parity_next env seg n d rs p).1
                    (read_segment_parity_next env seg n d rs p).2.1
                    (read_segment_parity_next env seg n d rs p).2.2 0 (size - len)
                    (buf + (len <<< env.GRUB_DISK_SECTOR_BITS)) = some (e, tr2)
                ∧ tr = Event.node_read d (rs + b) len buf err0 sub0 :: rc.2 ++ tr2)))) := by
  rw [read_segment_parity_loop] at h
  rw [← hlen] at h
  cases hn : read_segment_node rd d (rs + b) len buf with
  | none => simp [hn] at h
  | some re =>
    obtain ⟨err0, ev⟩ := re
    obtain ⟨sub0, rfl⟩ := read_segment_node_event _ _ _ _ _ _ _ hn
    simp only [hn] at h
    refine ⟨err0, sub0, _, rfl, rfl, ?_⟩
    by_cases hhard : err0 ≠ GRUB_ERR_NONE
        ∧ (err0 ≠ GRUB_ERR_READ_ERROR ∧ err0 ≠ GRUB_ERR_UNKNOWN_DEVICE)
    · rw [if_pos hhard] at h
      simp only [Option.some.injEq, Prod.mk.injEq] at h
      exact Or.inl ⟨hhard.1, hhard.2.1, hhard.2.2, h.1.symm, h.2.symm⟩
    · rw [if_neg hhard] at h
      refine Or.inr ⟨hhard, ?_⟩
      generalize (if err0 ≠ GRUB_ERR_NONE then
          read_segment_recover env seg d p buf (rs + b) len else (err0, [])) = rc at h ⊢
      by_cases h1 : rc.1 ≠ GRUB_ERR_NONE
      · rw [if_pos h1] at h
        simp only [Option.some.injEq, Prod.mk.injEq] at h
        exact Or.inl ⟨h1, h.1.symm, h.2.symm⟩
      · rw [if_neg h1] at h
        have h1e : rc.1 = GRUB_ERR_NONE := by
          by_contra hc; exact h1 hc
        by_cases h2 : size - len = 0
        · rw [if_pos h2] at h
          simp only [Option.some.injEq, Prod.mk.injEq] at h
          exact Or.inr (Or.inl ⟨h1e, h2, h.1.symm, h.2.symm⟩)
        · rw [if_neg h2] at h
          refine Or.inr (Or.inr ⟨h1e, h2, ?_⟩)
          cases fuel with
          | zero => simp at h
          | succ fuel2 =>
            simp only at h
            cases hrec : read_segment_parity_loop env rd seg n fuel2
                (read_segment_parity_next env seg n d rs p).1
                (read_segment_parity_next env seg n d rs p).2.1
                (read_segment_parity_next env seg n d rs p).2.2 0 (size - len)
                (buf + (len <<< env.GRUB_DISK_SECTOR_BITS)) with
            | none => simp [hrec] at h
            | some r2 =>
              obtain ⟨e2, tr2⟩ := r2
              simp only [hrec, Option.some.injEq, Prod.mk.injEq] at h
              exact ⟨fuel2, tr2, rfl, by rw [← h.1]; exact hrec, h.2.symm⟩

theorem read_segment_parity_loop_errors (env : Env) (rd : List Reader)
    (seg : grub_diskfilter_seg) (n fuel d rs p b size buf : Nat) (e : grub_err_t)
    (tr : List Event)
    (h : read_segment_parity_loop env rd seg n fuel d rs p b size buf = some (e, tr))
    (k s z bf : Nat) (err : grub_err_t) (sub : List Event)
    (hmem : Event.node_read k s z bf err sub ∈ tr) :
    (err ≠ GRUB_ERR_NONE → err ≠ GRUB_ERR_READ_ERROR → err ≠ GRUB_ERR_UNKNOWN_DEVICE →
      e = err ∧ tr.getLast? = some (Event.node_read k s z bf err sub))
    ∧ (no_recovery_strategy env seg →
        err = GRUB_ERR_READ_ERROR ∨ err = GRUB_ERR_UNKNOWN_DEVICE →
        e = GRUB_ERR_BAD_DEVICE ∧ tr.getLast? = some (Event.node_read k s z bf err sub)) := by
  induction fuel using Nat.strong_induction_on generalizing d rs p b size buf e tr with
  | _ fuel ih =>
    obtain ⟨len, hlen⟩ : ∃ len, len
        = if seg.stripe_size - b > size then size else seg.stripe_size - b := ⟨_, rfl⟩
    obtain ⟨err0, sub0, rc, hn, hrc, hcases⟩ :=
      read_segment_parity_loop_inv env rd seg n fuel d rs p b size buf e tr len hlen h
    have hrcmem : Event.node_read k s z bf err sub ∉ rc.2 := by
      by_cases he0 : err0 ≠ GRUB_ERR_NONE
      · rw [hrc, if_pos he0]
        exact read_segment_recover_events env seg d p buf (rs + b) len k s z bf err sub
      · rw [hrc, if_neg he0]; simp
    rcases hcases with ⟨h1, h2, h3, he, htr⟩ | ⟨hsoft, hc⟩
    · subst htr
      simp only [List.mem_singleton, Event.node_read.injEq] at hmem
      obtain ⟨rfl, rfl, rfl, rfl, rfl, rfl⟩ := hmem
      refine ⟨fun _ _ _ => ⟨he, rfl⟩, fun _ hs => ?_⟩
      rcases hs with hs | hs
      · exact absurd hs h2
      · exact absurd hs h3
    · have hhead : Event.node_read k s z bf err sub = Event.node_read d (rs + b) len buf err0 sub0 →
          (err ≠ GRUB_ERR_NONE → err ≠ GRUB_ERR_READ_ERROR → err ≠ GRUB_ERR_UNKNOWN_DEVICE →
            False)
          ∧ (no_recovery_strategy env seg →
              err = GRUB_ERR_READ_ERROR ∨ err = GRUB_ERR_UNKNOWN_DEVICE →
              rc = (GRUB_ERR_BAD_DEVICE, [])) := by
        intro heq
        simp only [Event.node_read.injEq] at heq
        obtain ⟨_, _, _, _, rfl, _⟩ := heq
        refine ⟨fun a b c => hsoft ⟨a, b, c⟩, fun hno hs => ?_⟩
        have he0 : err ≠ GRUB_ERR_NONE := by rcases hs with hs | hs <;> simp [hs]
        rw [hrc, if_pos he0]
        exact read_segment_recover_none env seg hno _ _ _ _ _
      rcases hc with ⟨h1, he, htr⟩ | ⟨h1, h2, he, htr⟩ | ⟨h1, h2, fuel2, tr2, hf, hrec, htr⟩
      · subst htr
        rcases List.mem_cons.mp hmem with hm | hm
        · obtain ⟨hh1, hh2⟩ := hhead hm
          refine ⟨fun a b c => (hh1 a b c).elim, fun hno hs => ?_⟩
          have hrc2 := hh2 hno hs
          rw [he, hrc2, hm]
          exact ⟨rfl, rfl⟩
        · exact absurd hm hrcmem
      · subst htr
        rcases List.mem_cons.mp hmem with hm | hm
        · obtain ⟨hh1, hh2⟩ := hhead hm
          refine ⟨fun a b c => (hh1 a b c).elim, fun hno hs => ?_⟩
          have hrc2 := hh2 hno hs
          rw [hrc2] at h1
          cases h1
        · exact absurd hm hrcmem
      · subst htr
        have hmem2 : Event.node_read k s z bf err sub
            ∈ Event.node_read d (rs + b) len buf err0 sub0 :: (rc.2 ++ tr2) := hmem
        rcases List.mem_cons.mp hmem2 with hm | hm
        · obtain ⟨hh1, hh2⟩ := hhead hm
          refine ⟨fun a b c => (hh1 a b c).elim, fun hno hs => ?_⟩
          have hrc2 := hh2 hno hs
          rw [hrc2] at h1
          cases h1
        · rcases List.mem_append.mp hm with hm2 | hm2
          · exact absurd hm2 hrcmem
          · obtain ⟨ih1, ih2⟩ := ih fuel2 (by omega) _ _ _ _ _ _ _ _ hrec hm2
            have hne : tr2 ≠ [] := List.ne_nil_of_mem hm2
            have hlast : ∀ x, tr2.getLast? = some x →
                (Event.node_read d (rs + b) len buf err0 sub0 :: rc.2 ++ tr2).getLast?
                  = some x := by
              intro x hx
              show (Event.node_read d (rs + b) len buf err0 sub0 :: (rc.2 ++ tr2)).getLast? = _
              rw [← List.singleton_append, ← List.append_assoc, List.getLast?_append, hx]
              rfl
            refine ⟨fun a b c => ?_, fun hno hs => ?_⟩
            · exact ⟨(ih1 a b c).1, hlast _ (ih1 a b c).2⟩
            · exact ⟨(ih2 hno hs).1, hlast _ (ih2 hno hs).2⟩

theorem read_segment_parity_next_lt (env : Env) (seg : grub_diskfilter_seg) (n d rs p : Nat)
    (hnN : n < seg.node_count) (hd : d < seg.node_count) (hp : p < seg.node_count) :
    (read_segment_parity_next env seg n d rs p).1 < seg.node_count
    ∧ (read_segment_parity_next env seg n d rs p).2.2 < seg.node_count := by
  unfold read_segment_parity_next
  generalize seg.node_count = N at *
  generalize seg.layout &&& env.GRUB_RAID_LAYOUT_RIGHT_MASK = r
  generalize seg.stripe_size = S
  generalize seg.type = ty
  generalize decide (seg.layout &&& env.GRUB_RAID_LAYOUT_SYMMETRIC_MASK ≠ 0) = sym
  cases sym
  · simp only [Bool.false_eq_true, if_false, decide_eq_true_eq]
    by_cases h1 : d + 1 = p
    · simp only [h1, if_true]
      by_cases h2 : p + n ≥ N
      · simp only [h2, if_true]
        by_cases h5 : ty ≥ 5
        · simp only [h5, if_true]
          split_ifs <;> omega
        · simp only [h5, if_false]
          omega
      · simp only [h2, if_false]
        omega
    · simp only [h1, if_false]
      by_cases h2 : d + 1 ≥ N
      · simp only [h2, if_true]
        by_cases h5 : ty ≥ 5
        · simp only [h5, if_true]
          split_ifs <;> omega
        · simp only [h5, if_false]
          omega
      · simp only [h2, if_false]
        omega
  · simp only [if_true, decide_eq_true_eq]
    by_cases h1 : d + 1 = N
    · simp only [h1, if_true]
      by_cases h2 : 0 = p
      · simp only [h2, if_true]
        by_cases h5 : ty ≥ 5
        · simp only [h5, if_true]
          split_ifs <;> omega
        · simp only [h5, if_false]
          omega
      · simp only [h2, if_false]
        omega
    · simp only [h1, if_false]
      by_cases h2 : d + 1 = p
      · simp only [h2, if_true]
        by_cases h5 : ty ≥ 5
        · simp only [h5, if_true]
          split_ifs <;> omega
        · simp only [h5, if_false]
          omega
      · simp only [h2, if_false]
        omega

theorem read_segment_parity_loop_total (env : Env) (rd : List Reader)
    (seg : grub_diskfilter_seg) (n : Nat) (hnN : n < seg.node_count)
    (hS : 0 < seg.stripe_size) (hnf : no_read_faults rd seg.node_count)
    (fuel d rs p b size buf : Nat) (hd : d < seg.node_count) (hp : p < seg.node_count)
    (hb : b < seg.stripe_size) (hf : size ≤ fuel) :
    ∃ r, read_segment_parity_loop env rd seg n fuel d rs p b size buf = some r := by
  induction fuel generalizing d rs p b size buf with
  | zero =>
    have hsz : size = 0 := by omega
    subst hsz
    rw [read_segment_parity_loop]
    generalize (if seg.stripe_size - b > 0 then 0 else seg.stripe_size - b) = len
    obtain ⟨⟨err, ev⟩, hr⟩ := hnf d hd (rs + b) len buf
    simp only [hr]
    by_cases hhard : err ≠ GRUB_ERR_NONE
        ∧ (err ≠ GRUB_ERR_READ_ERROR ∧ err ≠ GRUB_ERR_UNKNOWN_DEVICE)
    · rw [if_pos hhard]; exact ⟨_, rfl⟩
    · rw [if_neg hhard]
      generalize (if err ≠ GRUB_ERR_NONE then
          read_segment_recover env seg d p buf (rs + b) len else (err, [])) = rc
      by_cases h1 : rc.1 ≠ GRUB_ERR_NONE
      · rw [if_pos h1]; exact ⟨_, rfl⟩
      · rw [if_neg h1, if_pos (by omega)]; exact ⟨_, rfl⟩
  | succ fuel ih =>
    rw [read_segment_parity_loop]
    generalize hlen : (if seg.stripe_size - b > size then size else seg.stripe_size - b) = len
    have hlen2 : size - len ≠ 0 → size - len ≤ fuel := by
      intro h0
      have : 1 ≤ len := by rw [← hlen]; split_ifs <;> omega
      omega
    obtain ⟨⟨err, ev⟩, hr⟩ := hnf d hd (rs + b) len buf
    simp only [hr]
    by_cases hhard : err ≠ GRUB_ERR_NONE
        ∧ (err ≠ GRUB_ERR_READ_ERROR ∧ err ≠ GRUB_ERR_UNKNOWN_DEVICE)
    · rw [if_pos hhard]; exact ⟨_, rfl⟩
    · rw [if_neg hhard]
      generalize (if err ≠ GRUB_ERR_NONE then
          read_segment_recover env seg d p buf (rs + b) len else (err, [])) = rc
      by_cases h1 : rc.1 ≠ GRUB_ERR_NONE
      · rw [if_pos h1]; exact ⟨_, rfl⟩
      · rw [if_neg h1]
        by_cases h2 : size - len = 0
        · rw [if_pos h2]; exact ⟨_, rfl⟩
        · rw [if_neg h2]
          obtain ⟨hd2, hp2⟩ := read_segment_parity_next_lt env seg n d rs p hnN hd hp
          obtain ⟨⟨e2, tr2⟩, hr2⟩ := ih _ (read_segment_parity_next env seg n d rs p).2.1 _ 0
            (size - len) (buf + (len <<< env.GRUB_DISK_SECTOR_BITS)) hd2 hp2 hS (hlen2 h2)
          simp only [hr2]
          exact ⟨_, rfl⟩

theorem read_segment_parity_total (env : Env) (seg : grub_diskfilter_seg)
    (hv : validate_segment seg = GRUB_ERR_NONE)
    (ht : seg.type = GRUB_DISKFILTER_RAID4 ∨ seg.type = GRUB_DISKFILTER_RAID5
      ∨ seg.type = GRUB_DISKFILTER_RAID6)
    (hnf : no_read_faults (read_segment_readers env seg.nodes) seg.node_count)
    (sector size buf : Nat) :
    ∃ r, read_segment env seg sector size buf = some r := by
  obtain ⟨hS, hN0, _, h45, h6, _, _⟩ := validate_segment_ok seg hv
  have hnN : seg.type / 3 < seg.node_count := by
    rcases ht with h | h | h
    · have := h45 (Or.inl h); simp [h, GRUB_DISKFILTER_RAID4]; omega
    · have := h45 (Or.inr h); simp [h, GRUB_DISKFILTER_RAID5]; omega
    · have := h6 h; simp [h, GRUB_DISKFILTER_RAID6]; omega
  have hn : seg.type / 3 = 1 ∨ seg.type / 3 = 2 := by
    rcases ht with h | h | h <;>
      simp [h, GRUB_DISKFILTER_RAID4, GRUB_DISKFILTER_RAID5, GRUB_DISKFILTER_RAID6]
  have hst := read_segment_parity_start_eq env seg (seg.type / 3) sector hS hnN
  rw [read_segment, read_segment_parity_eq_loop env _ seg sector size buf ht _ _ _ _ hst]
  have hD : sector / seg.stripe_size % (seg.node_count - seg.type / 3)
      < seg.node_count - seg.type / 3 := Nat.mod_lt _ (by omega)
  apply read_segment_parity_loop_total env _ seg _ hnN hS hnf
  · by_cases h5 : seg.type ≥ 5
    · rw [if_pos h5]
      exact (read_segment_parity_disknr_props env seg (seg.type / 3) _ _ hn hnN
        (read_segment_parity_p_lt env seg _ (Nat.mod_lt _ hN0)) hD).1
    · rw [if_neg h5]; omega
  · by_cases h5 : seg.type ≥ 5
    · rw [if_pos h5]
      exact read_segment_parity_p_lt env seg _ (Nat.mod_lt _ hN0)
    · rw [if_neg h5]; omega
  · exact Nat.mod_lt _ hS
  · exact le_refl _

/-- C11: in a read of a RAID4, RAID5 or RAID6 segment, a member read that fails
with `GRUB_ERR_READ_ERROR` or `GRUB_ERR_UNKNOWN_DEVICE` while no recovery
strategy is registered for the level ends the read with `GRUB_ERR_BAD_DEVICE`
(the error of "module isn't loaded"), which is neither of the two; a member
read that fails with any other error ends the read with that error, and it is
the last call of the read, so no recovery strategy is called for it. The read
of a segment that passes validation returns when no member read faults. -/
theorem C11_missing_recovery_module (env : Env) (seg : grub_diskfilter_seg)
    (sector size buf : Nat)
    (ht : seg.type = GRUB_DISKFILTER_RAID4 ∨ seg.type = GRUB_DISKFILTER_RAID5
      ∨ seg.type = GRUB_DISKFILTER_RAID6) :
    (∀ e tr, read_segment env seg sector size buf = some (e, tr) →
      ∀ k s z bf err sub, Event.node_read k s z bf err sub ∈ tr →
        (no_recovery_strategy env seg →
          err = GRUB_ERR_READ_ERROR ∨ err = GRUB_ERR_UNKNOWN_DEVICE →
          e = GRUB_ERR_BAD_DEVICE ∧ e ≠ GRUB_ERR_READ_ERROR ∧ e ≠ GRUB_ERR_UNKNOWN_DEVICE
            ∧ tr.getLast? = some (Event.node_read k s z bf err sub))
        ∧ (err ≠ GRUB_ERR_NONE → err ≠ GRUB_ERR_READ_ERROR → err ≠ GRUB_ERR_UNKNOWN_DEVICE →
            e = err ∧ tr.getLast? = some (Event.node_read k s z bf err sub)))
    ∧ (validate_segment seg = GRUB_ERR_NONE →
        no_read_faults (read_segment_readers env seg.nodes) seg.node_count →
        ∃ e tr, read_segment env seg sector size buf = some (e, tr)) := by
  constructor
  · intro e tr h k s z bf err sub hmem
    cases hst : read_segment_parity_start env seg (seg.type / 3) sector with
    | none =>
      rw [read_segment, read_segment_with] at h
      have h0 : ¬ (seg.type = GRUB_DISKFILTER_STRIPED ∧ seg.node_count = 1) := by
        rcases ht with h | h | h <;> simp [h, GRUB_DISKFILTER_STRIPED, GRUB_DISKFILTER_RAID4,
          GRUB_DISKFILTER_RAID5, GRUB_DISKFILTER_RAID6]
      have h1 : ¬ (seg.type = GRUB_DISKFILTER_STRIPED ∨ seg.type = GRUB_DISKFILTER_MIRROR
          ∨ seg.type = GRUB_DISKFILTER_RAID10) := by
        rcases ht with h | h | h <;> simp [h, GRUB_DISKFILTER_STRIPED, GRUB_DISKFILTER_RAID4,
          GRUB_DISKFILTER_RAID5, GRUB_DISKFILTER_RAID6, GRUB_DISKFILTER_MIRROR,
          GRUB_DISKFILTER_RAID10]
      rw [if_neg h0, if_neg h1, if_pos ht, hst] at h
      cases h
    | some st =>
      obtain ⟨m, rs, p, b⟩ := st
      rw [read_segment, read_segment_parity_eq_loop env _ seg sector size buf ht _ _ _ _ hst] at h
      obtain ⟨h1, h2⟩ := read_segment_parity_loop_errors env _ seg _ _ _ _ _ _ _ _ e tr h
        k s z bf err sub hmem
      refine ⟨fun hno hs => ?_, h1⟩
      obtain ⟨he, hl⟩ := h2 hno hs
      exact ⟨he, by rw [he]; simp, by rw [he]; simp, hl⟩
  · intro hv hnf
    obtain ⟨⟨e, tr⟩, hr⟩ := read_segment_parity_total env seg hv ht hnf sector size buf
    exact ⟨e, tr, hr⟩

/-- Witness of C11: sector 7 of the RAID5 segment of 4 members lies on member
0; with member 0 missing and no strategy registered the read fails with
`GRUB_ERR_BAD_DEVICE` after the one read of member 0. -/
theorem C11_missing_recovery_module_witness :
    (c4_segment.type = GRUB_DISKFILTER_RAID4 ∨ c4_segment.type = GRUB_DISKFILTER_RAID5
      ∨ c4_segment.type = GRUB_DISKFILTER_RAID6)
    ∧ read_segment (env_of (fun a => decide (a ≠ 0)) (fun _ => GRUB_ERR_NONE)) c4_segment 7 1 0
      = some (GRUB_ERR_BAD_DEVICE, [Event.node_read 0 3 1 0 GRUB_ERR_UNKNOWN_DEVICE []])
    ∧ (GRUB_ERR_BAD_DEVICE = GRUB_ERR_BAD_DEVICE
      ∧ GRUB_ERR_BAD_DEVICE ≠ GRUB_ERR_READ_ERROR
      ∧ GRUB_ERR_BAD_DEVICE ≠ GRUB_ERR_UNKNOWN_DEVICE
      ∧ [Event.node_read 0 3 1 0 GRUB_ERR_UNKNOWN_DEVICE []].getLast?
          = some (Event.node_read 0 3 1 0 GRUB_ERR_UNKNOWN_DEVICE [])) :=
  ⟨by decide, rfl,
    ((C11_missing_recovery_module (env_of (fun a => decide (a ≠ 0)) (fun _ => GRUB_ERR_NONE))
      c4_segment 7 1 0 (by decide)).1 GRUB_ERR_BAD_DEVICE
        [Event.node_read 0 3 1 0 GRUB_ERR_UNKNOWN_DEVICE []] rfl
        0 3 1 0 GRUB_ERR_UNKNOWN_DEVICE [] (List.mem_singleton.mpr rfl)).1
      ⟨fun _ => rfl, fun _ => rfl⟩ (Or.inr rfl)⟩

/-! ## The search among the copies of a chunk -/

theorem mod_add_div_split (D m N : Nat) (hN : 0 < N) :
    (D % N + m) % N = (D + m) % N ∧ D / N + (D % N + m) / N = (D + m) / N := by
  constructor
  · exact Nat.mod_add_mod _ _ _
  · have hB : N * (D / N) + D % N = D := Nat.div_add_mod D N
    have h3 : D + m = N * (D / N) + (D % N + m) := by omega
    conv_rhs => rw [h3, Nat.mul_add_div hN]

theorem read_segment_copies_loop_step (bits : Nat) (rd : List Reader)
    (N S near far ofs far_ofs : Nat) (hN : 0 < N) (fuel d rs b size buf : Nat) (hd : d < N) :
    read_segment_copies_loop bits rd N S near far ofs far_ofs fuel d rs b size buf
      = match try_candidates rd (if S - b > size then size else S - b) buf
            (copies_candidates N near far ofs far_ofs b d rs) GRUB_ERR_NONE with
        | none => none
        | some (err, tr) =>
          if err ≠ GRUB_ERR_NONE then some (err, tr)
          else if size - (if S - b > size then size else S - b) = 0 then
            some (GRUB_ERR_NONE, tr)
          else
            match fuel with
            | 0 => none
            | fuel2 + 1 =>
              match read_segment_copies_loop bits rd N S near far ofs far_ofs fuel2
                  ((d + near) % N) (rs + (d + near) / N * ofs) 0
                  (size - (if S - b > size then size else S - b))
                  (buf + ((if S - b > size then size else S - b) <<< bits)) with
              | none => none
              | some (err2, tr2) => some (err2, tr ++ tr2) := by
  rw [read_segment_copies_loop]
  generalize (if S - b > size then size else S - b) = len
  have hstate : ∀ t, t ≤ near →
      read_segment_wrap_loop N ofs ((d + t) % N + (near - t)) ((d + t) % N + (near - t))
        (rs + (d + t) / N * ofs) = ((d + near) % N, rs + (d + near) / N * ofs) := by
    intro t ht
    rw [read_segment_wrap_loop_eq N ofs hN _ _ _ (le_refl _)]
    obtain ⟨h1, h2⟩ := mod_add_div_split (d + t) (near - t) N hN
    have h3 : d + t + (near - t) = d + near := by omega
    rw [h3] at h1 h2
    rw [h1, Nat.add_assoc, ← Nat.add_mul, h2]
  by_cases hfar : far = 0
  · subst hfar
    rw [read_segment_near_loop_far_zero, copies_candidates_far_zero]
    have h0 := hstate 0 (Nat.zero_le _)
    simp only [Nat.add_zero, Nat.sub_zero, Nat.mod_eq_of_lt hd, Nat.div_eq_of_lt hd,
      Nat.zero_mul] at h0
    simp only [try_candidates, ne_eq, not_true_eq_false, if_false, Nat.sub_zero, h0,
      List.nil_append]
  · obtain ⟨h1, h2⟩ := read_segment_near_loop_eq rd N far ofs far_ofs b len buf (by omega) near 0
      d rs GRUB_ERR_NONE hd (Or.inl rfl)
    cases hT : try_candidates rd len buf (copies_candidates N near far ofs far_ofs b d rs)
        GRUB_ERR_NONE with
    | none => rw [h1 hT]
    | some r =>
      obtain ⟨e, tr⟩ := r
      obtain ⟨t, ht, _, _, h⟩ := h2 e tr hT
      rw [h]
      by_cases hok : e = GRUB_ERR_NONE ∨ e = GRUB_ERR_READ_ERROR ∨ e = GRUB_ERR_UNKNOWN_DEVICE
      · rw [if_pos hok]
        by_cases hnone : e = GRUB_ERR_NONE
        · subst hnone
          have h0 := hstate t ht
          simp only [ne_eq, not_true_eq_false, if_false, Nat.zero_add, h0]
        · simp [hnone]
      · rw [if_neg hok]
        have hnone : e ≠ GRUB_ERR_NONE := fun hc => hok (Or.inl hc)
        simp [hnone]

theorem read_segment_copies_loop_eq (bits : Nat) (rd : List Reader)
    (N S near far ofs far_ofs : Nat) (hN : 0 < N) (fuel d rs b size buf : Nat) (hd : d < N) :
    read_segment_copies_loop bits rd N S near far ofs far_ofs fuel d rs b size buf
      = copies_read bits rd N S near far ofs far_ofs fuel d rs b size buf := by
  induction fuel generalizing d rs b size buf with
  | zero =>
    rw [read_segment_copies_loop_step bits rd N S near far ofs far_ofs hN 0 d rs b size buf hd,
      copies_read]
  | succ fuel ih =>
    rw [read_segment_copies_loop_step bits rd N S near far ofs far_ofs hN _ d rs b size buf hd,
      copies_read]
    simp only [ih _ _ _ _ _ (Nat.mod_lt _ hN)]

theorem try_candidates_search (rd : List Reader) (z b : Nat) (cands : List (Nat × Nat))
    (e0 e : grub_err_t) (tr : List Event)
    (h : try_candidates rd z b cands e0 = some (e, tr)) :
    tr.length ≤ cands.length
    ∧ (cands ≠ [] → tr ≠ [])
    ∧ (cands = [] → e = e0)
    ∧ (e = GRUB_ERR_READ_ERROR ∨ e = GRUB_ERR_UNKNOWN_DEVICE → cands ≠ [] →
        tr.length = cands.length)
    ∧ ∀ i c, cands[i]? = some c → i < tr.length →
        ∃ err sub, tr[i]? = some (Event.node_read c.1 c.2 z b err sub)
          ∧ read_segment_node rd c.1 c.2 z b = some (err, Event.node_read c.1 c.2 z b err sub)
          ∧ (i + 1 < tr.length → err = GRUB_ERR_READ_ERROR ∨ err = GRUB_ERR_UNKNOWN_DEVICE)
          ∧ (i + 1 = tr.length → err = e) := by
  induction cands generalizing e0 tr with
  | nil =>
    simp only [try_candidates, Option.some.injEq, Prod.mk.injEq] at h
    obtain ⟨rfl, rfl⟩ := h
    simp
  | cons c rest ih =>
    rw [try_candidates] at h
    cases hn : read_segment_node rd c.1 c.2 z b with
    | none => simp [hn] at h
    | some re =>
      obtain ⟨err0, ev⟩ := re
      obtain ⟨sub0, rfl⟩ := read_segment_node_event _ _ _ _ _ _ _ hn
      simp only [hn] at h
      by_cases hs : err0 = GRUB_ERR_READ_ERROR ∨ err0 = GRUB_ERR_UNKNOWN_DEVICE
      · rw [if_pos hs] at h
        cases hrec : try_candidates rd z b rest err0 with
        | none => simp [hrec] at h
        | some r2 =>
          obtain ⟨e2, tr2⟩ := r2
          simp only [hrec, Option.some.injEq, Prod.mk.injEq] at h
          obtain ⟨rfl, rfl⟩ := h
          obtain ⟨i1, i2, i3, i4, i5⟩ := ih err0 tr2 hrec
          refine ⟨by simp; omega, by simp, by simp, ?_, ?_⟩
          · intro he _
            by_cases hr : rest = []
            · subst hr
              simp only [try_candidates, Option.some.injEq, Prod.mk.injEq] at hrec
              obtain ⟨_, rfl⟩ := hrec
              rfl
            · simp only [List.length_cons]
              rw [i4 he hr]
          · intro i c2 hc2 hi
            cases i with
            | zero =>
              simp only [List.getElem?_cons_zero, Option.some.injEq] at hc2
              subst hc2
              refine ⟨err0, sub0, by simp, hn, fun _ => hs, ?_⟩
              intro hlen
              simp only [List.length_cons, Nat.zero_add] at hlen
              have htr2 : tr2 = [] := List.length_eq_zero.mp (by omega)
              by_cases hr : rest = []
              · exact (i3 hr).symm
              · exact absurd htr2 (i2 hr)
            | succ i =>
              simp only [List.getElem?_cons_succ] at hc2
              simp only [List.length_cons, Nat.add_lt_add_iff_right] at hi
              obtain ⟨err, sub, h1, h2, h3, h4⟩ := i5 i c2 hc2 hi
              refine ⟨err, sub, by simpa using h1, h2, ?_, ?_⟩
              · intro hlt; apply h3
                simp only [List.length_cons, Nat.add_lt_add_iff_right] at hlt
                exact hlt
              · intro hlt; apply h4
                simp only [List.length_cons, Nat.add_right_cancel_iff] at hlt
                exact hlt
      · rw [if_neg hs] at h
        simp only [Option.some.injEq, Prod.mk.injEq] at h
        obtain ⟨rfl, rfl⟩ := h
        refine ⟨by simp, by simp, by simp, fun he _ => absurd he hs, ?_⟩
        intro i c2 hc2 hi
        simp only [List.length_singleton, Nat.lt_one_iff] at hi
        subst hi
        simp only [List.getElem?_cons_zero, Option.some.injEq] at hc2
        subst hc2
        exact ⟨err0, sub0, by simp, hn, by simp, fun _ => rfl⟩

theorem read_segment_copies_start_inv (seg : grub_diskfilter_seg) (sector : Nat)
    (near far ofs far_ofs d rs b : Nat)
    (h : read_segment_copies_start seg sector = some (near, far, ofs, far_ofs, d, rs, b)) :
    0 < seg.stripe_size ∧ 0 < seg.node_count ∧ d < seg.node_count ∧ b < seg.stripe_size
    ∧ (near, far) =
        (if seg.type = GRUB_DISKFILTER_MIRROR then (seg.node_count, 1)
         else if seg.type = GRUB_DISKFILTER_RAID10 then
           (raid10_near seg.layout, raid10_far seg.layout)
         else (1, 1)) := by
  unfold read_segment_copies_start at h
  by_cases hS : seg.stripe_size = 0
  · simp [grub_divmod64, hS] at h
  · by_cases hN : seg.node_count = 0
    · simp only [grub_divmod64, hS, hN, if_false, if_true] at h
      split at h
      · cases h
      · cases h
    · have hS2 : 0 < seg.stripe_size := by omega
      have hN2 : 0 < seg.node_count := by omega
      simp only [grub_divmod64, hS, hN, if_false] at h
      by_cases h1 : seg.type = 1
      · simp only [h1, if_true, Option.some.injEq, Prod.mk.injEq] at h
        obtain ⟨rfl, rfl, _, _, rfl, _, rfl⟩ := h
        refine ⟨hS2, hN2, Nat.mod_lt _ hN2, Nat.mod_lt _ hS2, ?_⟩
        simp [GRUB_DISKFILTER_MIRROR, h1]
      · by_cases h10 : seg.type = 10
        · have hm : ¬ (seg.type = GRUB_DISKFILTER_MIRROR) := h1
          have hr : seg.type = GRUB_DISKFILTER_RAID10 := h10
          simp only [h1, h10, if_false, if_true] at h
          rw [if_neg hm, if_pos hr]
          by_cases hofs : seg.layout >>> 16 ≠ 0
          · simp only [hofs, not_false_eq_true, if_true, Option.some.injEq, Prod.mk.injEq,
              ne_eq] at h
            obtain ⟨rfl, rfl, _, _, rfl, _, rfl⟩ := h
            exact ⟨hS2, hN2, Nat.mod_lt _ hN2, Nat.mod_lt _ hS2, rfl⟩
          · simp only [hofs, if_false] at h
            by_cases hz : (seg.layout >>> 8 &&& 255) * seg.stripe_size = 0
            · simp [hz] at h
            · simp only [hz, if_false, Option.some.injEq, Prod.mk.injEq] at h
              obtain ⟨rfl, rfl, _, _, rfl, _, rfl⟩ := h
              exact ⟨hS2, hN2, Nat.mod_lt _ hN2, Nat.mod_lt _ hS2, rfl⟩
        · have hm : ¬ (seg.type = GRUB_DISKFILTER_MIRROR) := h1
          have hr : ¬ (seg.type = GRUB_DISKFILTER_RAID10) := h10
          simp only [h1, h10, if_false, Option.some.injEq, Prod.mk.injEq] at h
          obtain ⟨rfl, rfl, _, _, rfl, _, rfl⟩ := h
          rw [if_neg hm, if_neg hr]
          exact ⟨hS2, hN2, Nat.mod_lt _ hN2, Nat.mod_lt _ hS2, rfl⟩

theorem copies_read_total (bits : Nat) (rd : List Reader) (N S near far ofs far_ofs : Nat)
    (hN : 0 < N) (hS : 0 < S) (hnf : no_read_faults rd N)
    (fuel d rs b size buf : Nat) (hb : b < S) (hf : size ≤ fuel) :
    ∃ r, copies_read bits rd N S near far ofs far_ofs fuel d rs b size buf = some r := by
  induction fuel generalizing d rs b size buf with
  | zero =>
    have hs : size = 0 := by omega
    subst hs
    rw [copies_read]
    generalize (if S - b > 0 then 0 else S - b) = len
    obtain ⟨⟨e, tr⟩, hr⟩ := try_candidates_total rd len buf
      (copies_candidates N near far ofs far_ofs b d rs) GRUB_ERR_NONE
      (fun c hc => hnf c.1 (copies_candidates_member_lt N near far ofs far_ofs b d rs hN c hc)
        c.2 len buf)
    simp only [hr]
    by_cases he : e ≠ GRUB_ERR_NONE
    · rw [if_pos he]; exact ⟨_, rfl⟩
    · rw [if_neg he, if_pos (by omega)]; exact ⟨_, rfl⟩
  | succ fuel ih =>
    rw [copies_read]
    generalize hlen : (if S - b > size then size else S - b) = len
    have hlen2 : size - len ≠ 0 → size - len ≤ fuel := by
      intro h0
      have : 1 ≤ len := by rw [← hlen]; split_ifs <;> omega
      omega
    obtain ⟨⟨e, tr⟩, hr⟩ := try_candidates_total rd len buf
      (copies_candidates N near far ofs far_ofs b d rs) GRUB_ERR_NONE
      (fun c hc => hnf c.1 (copies_candidates_member_lt N near far ofs far_ofs b d rs hN c hc)
        c.2 len buf)
    simp only [hr]
    by_cases he : e ≠ GRUB_ERR_NONE
    · rw [if_pos he]; exact ⟨_, rfl⟩
    · rw [if_neg he]
      by_cases h2 : size - len = 0
      · rw [if_pos h2]; exact ⟨_, rfl⟩
      · rw [if_neg h2]
        obtain ⟨⟨e2, tr2⟩, hr2⟩ := ih ((d + near) % N) (rs + (d + near) / N * ofs) 0
          (size - len) (buf + (len <<< bits)) hS (hlen2 h2)
        simp only [hr2]
        exact ⟨_, rfl⟩

theorem read_segment_copies_start_some (seg : grub_diskfilter_seg) (sector : Nat)
    (hv : validate_segment seg = GRUB_ERR_NONE)
    (ht : seg.type = GRUB_DISKFILTER_STRIPED ∨ seg.type = GRUB_DISKFILTER_MIRROR
      ∨ seg.type = GRUB_DISKFILTER_RAID10) :
    ∃ st, read_segment_copies_start seg sector = some st := by
  obtain ⟨hS, hN0, _, _, _, _, _⟩ := validate_segment_ok seg hv
  rcases ht with h | h | h
  · exact ⟨_, read_segment_copies_start_striped seg sector h hS hN0⟩
  · exact ⟨_, read_segment_copies_start_mirror seg sector h hS hN0⟩
  · exact ⟨_, read_segment_copies_start_raid10 seg sector hv h⟩

/-- C12: the read of a STRIPED, MIRROR or RAID10 segment is the read chunk by
chunk of `copies_read` (for a STRIPED segment of one member, the one read of
member 0 with the whole request). The candidates of a chunk are listed near
copy by near copy and within each far copy by far copy, `near * far` in all.
They are read in this order: a read that fails with `GRUB_ERR_READ_ERROR` or
`GRUB_ERR_UNKNOWN_DEVICE` is followed by the read of the next candidate; a read
that succeeds or fails with another error is the last read of the search and
gives its result; a search that ends with `GRUB_ERR_READ_ERROR` or
`GRUB_ERR_UNKNOWN_DEVICE` has read all the candidates. A chunk whose search
ends with an error ends the read of the segment with that error. The read of a
segment that passes validation returns when no member read faults. -/
theorem C12_copy_search (env : Env) (seg : grub_diskfilter_seg) (sector size buf : Nat)
    (ht : seg.type = GRUB_DISKFILTER_STRIPED ∨ seg.type = GRUB_DISKFILTER_MIRROR
      ∨ seg.type = GRUB_DISKFILTER_RAID10) :
    (seg.type = GRUB_DISKFILTER_STRIPED ∧ seg.node_count = 1 →
      read_segment env seg sector size buf
        = try_candidates (read_segment_readers env seg.nodes) size buf [(0, sector)]
            GRUB_ERR_NONE)
    ∧ (¬ (seg.type = GRUB_DISKFILTER_STRIPED ∧ seg.node_count = 1) →
        ∀ near far ofs far_ofs d rs b,
          read_segment_copies_start seg sector = some (near, far, ofs, far_ofs, d, rs, b) →
          (near, far) =
            (if seg.type = GRUB_DISKFILTER_MIRROR then (seg.node_count, 1)
             else if seg.type = GRUB_DISKFILTER_RAID10 then
               (raid10_near seg.layout, raid10_far seg.layout)
             else (1, 1))
          ∧ read_segment env seg sector size buf
            = copies_read env.GRUB_DISK_SECTOR_BITS (read_segment_readers env seg.nodes)
                seg.node_count seg.stripe_size near far ofs far_ofs size d rs b size buf)
    ∧ (∀ N near far ofs far_ofs b d rs,
        copies_candidates N near far ofs far_ofs b d rs
          = (List.range near).flatMap (fun i => (List.range far).map (fun j =>
              (((d + i) % N + j) % N, rs + (d + i) / N * ofs + j * far_ofs + b)))
        ∧ (copies_candidates N near far ofs far_ofs b d rs).length = near * far)
    ∧ (∀ (rd : List Reader) (z b : Nat) (cands : List (Nat × Nat)) (e0 e : grub_err_t)
        (tr : List Event), try_candidates rd z b cands e0 = some (e, tr) →
        tr.length ≤ cands.length
        ∧ (cands ≠ [] → tr ≠ [])
        ∧ (e = GRUB_ERR_READ_ERROR ∨ e = GRUB_ERR_UNKNOWN_DEVICE → cands ≠ [] →
            tr.length = cands.length)
        ∧ ∀ i c, cands[i]? = some c → i < tr.length →
            ∃ err sub, tr[i]? = some (Event.node_read c.1 c.2 z b err sub)
              ∧ read_segment_node rd c.1 c.2 z b
                = some (err, Event.node_read c.1 c.2 z b err sub)
              ∧ (i + 1 < tr.length →
                  err = GRUB_ERR_READ_ERROR ∨ err = GRUB_ERR_UNKNOWN_DEVICE)
              ∧ (i + 1 = tr.length → err = e))
    ∧ (∀ (bits : Nat) (rd : List Reader) (N S near far ofs far_ofs fuel d rs b sz bf : Nat)
        (err : grub_err_t) (tr : List Event),
        try_candidates rd (if S - b > sz then sz else S - b) bf
          (copies_candidates N near far ofs far_ofs b d rs) GRUB_ERR_NONE = some (err, tr) →
        err ≠ GRUB_ERR_NONE →
        copies_read bits rd N S near far ofs far_ofs fuel d rs b sz bf = some (err, tr))
    ∧ (validate_segment seg = GRUB_ERR_NONE →
        no_read_faults (read_segment_readers env seg.nodes) seg.node_count →
        ∃ e tr, read_segment env seg sector size buf = some (e, tr)) := by
  have hpass : seg.type = GRUB_DISKFILTER_STRIPED ∧ seg.node_count = 1 →
      read_segment env seg sector size buf
        = try_candidates (read_segment_readers env seg.nodes) size buf [(0, sector)]
            GRUB_ERR_NONE := by
    intro h1
    rw [read_segment, read_segment_with, if_pos h1, try_candidates]
    cases hr : read_segment_node (read_segment_readers env seg.nodes) 0 sector size buf with
    | none => rfl
    | some r =>
      obtain ⟨e, ev⟩ := r
      simp only [try_candidates]
      by_cases hs : e = GRUB_ERR_READ_ERROR ∨ e = GRUB_ERR_UNKNOWN_DEVICE
      · rw [if_pos hs]
      · rw [if_neg hs]
  have hchunked : ¬ (seg.type = GRUB_DISKFILTER_STRIPED ∧ seg.node_count = 1) →
      ∀ near far ofs far_ofs d rs b,
        read_segment_copies_start seg sector = some (near, far, ofs, far_ofs, d, rs, b) →
        read_segment env seg sector size buf
          = copies_read env.GRUB_DISK_SECTOR_BITS (read_segment_readers env seg.nodes)
              seg.node_count seg.stripe_size near far ofs far_ofs size d rs b size buf := by
    intro h1 near far ofs far_ofs d rs b hst
    obtain ⟨_, hN, hd, _, _⟩ := read_segment_copies_start_inv seg sector _ _ _ _ _ _ _ hst
    rw [read_segment, read_segment_with, if_neg h1, if_pos ht, hst]
    exact read_segment_copies_loop_eq _ _ _ _ _ _ _ _ hN _ _ _ _ _ _ hd
  refine ⟨hpass, ?_, ?_, ?_, ?_, ?_⟩
  · intro h1 near far ofs far_ofs d rs b hst
    exact ⟨(read_segment_copies_start_inv seg sector _ _ _ _ _ _ _ hst).2.2.2.2,
      hchunked h1 near far ofs far_ofs d rs b hst⟩
  · intro N near far ofs far_ofs b d rs
    constructor
    · rfl
    · simp [copies_candidates, far_candidates, List.length_flatMap, Function.comp_def]
  · intro rd z b cands e0 e tr h
    obtain ⟨h1, h2, _, h4, h5⟩ := try_candidates_search rd z b cands e0 e tr h
    exact ⟨h1, h2, h4, h5⟩
  · intro bits rd N S near far ofs far_ofs fuel d rs b sz bf err tr h he
    rw [copies_read]
    simp only [h, if_pos he]
  · intro hv hnf
    obtain ⟨hS, hN0, _, _, _, _, _⟩ := validate_segment_ok seg hv
    by_cases h1 : seg.type = GRUB_DISKFILTER_STRIPED ∧ seg.node_count = 1
    · rw [hpass h1]
      obtain ⟨⟨e, tr⟩, hr⟩ := try_candidates_total (read_segment_readers env seg.nodes) size buf
        [(0, sector)] GRUB_ERR_NONE
        (fun c hc => by
          rw [List.mem_singleton.mp hc]
          exact hnf 0 hN0 sector size buf)
      exact ⟨e, tr, hr⟩
    · obtain ⟨⟨near, far, ofs, far_ofs, d, rs, b⟩, hst⟩ :=
        read_segment_copies_start_some seg sector hv ht
      obtain ⟨_, _, _, hb, _⟩ := read_segment_copies_start_inv seg sector _ _ _ _ _ _ _ hst
      rw [hchunked h1 near far ofs far_ofs d rs b hst]
      obtain ⟨⟨e, tr⟩, hr⟩ := copies_read_total env.GRUB_DISK_SECTOR_BITS
        (read_segment_readers env seg.nodes) seg.node_count seg.stripe_size near far ofs far_ofs
        hN0 hS hnf size d rs b size buf hb (le_refl _)
      exact ⟨e, tr, hr⟩

/-- Witness of C12: sector 0 of the RAID10 segment of 2 members with 1 near copy
and 2 far copies, with member 0 missing: the first far copy, on member 0, fails
with `GRUB_ERR_UNKNOWN_DEVICE`, the second, on member 1 at sector 16, succeeds
and ends the search. -/
theorem C12_copy_search_witness :
    (c8_segment_far.type = GRUB_DISKFILTER_STRIPED ∨ c8_segment_far.type = GRUB_DISKFILTER_MIRROR
      ∨ c8_segment_far.type = GRUB_DISKFILTER_RAID10)
    ∧ read_segment_copies_start c8_segment_far 0 = some (1, 2, 4, 16, 0, 0, 0)
    ∧ res_calls (read_segment (env_of (fun a => decide (a ≠ 0)) (fun _ => GRUB_ERR_NONE))
        c8_segment_far 0 1 0)
      = some (GRUB_ERR_NONE,
          [(0, 0, 1, 0, GRUB_ERR_UNKNOWN_DEVICE), (1, 16, 1, 0, GRUB_ERR_NONE)])
    ∧ read_segment (env_of (fun a => decide (a ≠ 0)) (fun _ => GRUB_ERR_NONE))
        c8_segment_far 0 1 0
      = copies_read 9
          (read_segment_readers (env_of (fun a => decide (a ≠ 0)) (fun _ => GRUB_ERR_NONE))
            c8_segment_far.nodes)
          c8_segment_far.node_count c8_segment_far.stripe_size 1 2 4 16 1 0 0 0 1 0 :=
  ⟨by decide, rfl, rfl,
    ((C12_copy_search (env_of (fun a => decide (a ≠ 0)) (fun _ => GRUB_ERR_NONE))
      c8_segment_far 0 1 0 (by decide)).2.1 (by decide) 1 2 4 16 0 0 0 rfl).2⟩

/-! ## The split of a request among the segments of a volume -/

theorem read_lv_find_segment_first (extent : Nat) (segs : List grub_diskfilter_seg) (j i : Nat)
    (h : read_lv_find_segment extent segs j = some i) :
    j ≤ i ∧ ∃ seg, segs[i - j]? = some seg ∧ segment_has_extent seg extent
      ∧ ∀ k seg2, k < i - j → segs[k]? = some seg2 → ¬ segment_has_extent seg2 extent := by
  induction segs generalizing j with
  | nil => simp [read_lv_find_segment] at h
  | cons seg rest ih =>
    rw [read_lv_find_segment] at h
    by_cases hc : seg.start_extent ≤ extent ∧ seg.start_extent + seg.extent_count > extent
    · rw [if_pos hc] at h
      simp only [Option.some.injEq] at h
      subst h
      refine ⟨le_refl _, seg, by simp, ⟨hc.1, hc.2⟩, ?_⟩
      intro k seg2 hk
      omega
    · rw [if_neg hc] at h
      obtain ⟨h1, seg1, h2, h3, h4⟩ := ih (j + 1) h
      have hij : i - j = (i - (j + 1)) + 1 := by omega
      refine ⟨by omega, seg1, ?_, h3, ?_⟩
      · rw [hij, List.getElem?_cons_succ]; exact h2
      · intro k seg2 hk hget
        cases k with
        | zero =>
          simp only [List.getElem?_cons_zero, Option.some.injEq] at hget
          subst hget
          intro hx
          exact hc ⟨hx.1, hx.2⟩
        | succ k =>
          rw [List.getElem?_cons_succ] at hget
          exact h4 k seg2 (by omega) hget

theorem read_lv_loop_split (env : Env) (segs : List grub_diskfilter_seg) (E : Nat)
    (hE : 0 < E)
    (hnf : ∀ seg ∈ segs, ∀ s z b, ∃ r, read_segment env seg s z b = some r)
    (fuel sector size buf : Nat) (hf : size ≤ fuel)
    (hin : request_in_segments segs E sector size) :
    ∃ e tr, read_lv_loop env.GRUB_DISK_SECTOR_BITS segs (segs.map (read_segment env)) (some E)
        fuel sector size buf = some (e, tr)
      ∧ lv_split env.GRUB_DISK_SECTOR_BITS segs E sector size buf tr
      ∧ (∀ i rel len b err sub, Event.segment_read i rel len b err sub ∈ tr →
          ∃ seg, segs[i]? = some seg ∧ read_segment env seg rel len b = some (err, sub))
      ∧ (tr = [] ↔ size = 0)
      ∧ (tr = [] → e = GRUB_ERR_NONE)
      ∧ (∀ ev, tr.getLast? = some ev → ev.err = e)
      ∧ (e = GRUB_ERR_NONE → (tr.map Event.read_size).sum = size) := by
  induction fuel generalizing sector size buf with
  | zero =>
    have hs : size = 0 := by omega
    subst hs
    rw [read_lv_loop]
    refine ⟨GRUB_ERR_NONE, [], by simp, ?_⟩
    simp [lv_split]
  | succ fuel ih =>
    rw [read_lv_loop]
    by_cases hs : size = 0
    · subst hs
      refine ⟨GRUB_ERR_NONE, [], by simp, ?_⟩
      simp [lv_split]
    · rw [if_neg hs]
      have hE0 : E ≠ 0 := by omega
      obtain ⟨seg0, hmem0, hlo0, hhi0⟩ := hin sector (le_refl _) (by omega)
      have hex : ∃ seg ∈ segs, seg.start_extent ≤ sector / E
          ∧ seg.start_extent + seg.extent_count > sector / E :=
        ⟨seg0, hmem0, (Nat.le_div_iff_mul_le hE).mpr hlo0, (Nat.div_lt_iff_lt_mul hE).mpr hhi0⟩
      obtain ⟨i, _, hfind, _, _, _⟩ := read_lv_find_segment_some (sector / E) segs 0 hex
      rw [Nat.zero_add] at hfind
      obtain ⟨_, seg, hget, hhas, hfirst⟩ := read_lv_find_segment_first _ _ _ _ hfind
      rw [Nat.sub_zero] at hget hfirst
      have hlo : seg.start_extent * E ≤ sector := (Nat.le_div_iff_mul_le hE).mp hhas.1
      have hhi : sector < (seg.start_extent + seg.extent_count) * E :=
        (Nat.div_lt_iff_lt_mul hE).mp hhas.2
      have hmem : seg ∈ segs := by
        obtain ⟨hlt, hge⟩ := List.getElem?_eq_some.mp hget
        rw [← hge]; exact List.getElem_mem _
      generalize hto : (if (seg.start_extent + seg.extent_count) * E - sector > size then size
        else (seg.start_extent + seg.extent_count) * E - sector) = to_read
      have hto1 : 1 ≤ to_read ∧ to_read ≤ size
          ∧ sector + to_read ≤ (seg.start_extent + seg.extent_count) * E
          ∧ (sector + to_read = (seg.start_extent + seg.extent_count) * E ∨ to_read = size) := by
        rw [← hto]; split_ifs <;> omega
      obtain ⟨⟨err, sub⟩, hrd⟩ := hnf seg hmem (sector - seg.start_extent * E) to_read buf
      have hsplit1 : ∀ rest, (rest ≠ [] → err = GRUB_ERR_NONE) →
          lv_split env.GRUB_DISK_SECTOR_BITS segs E (sector + to_read) (size - to_read)
            (buf + (to_read <<< env.GRUB_DISK_SECTOR_BITS)) rest →
          lv_split env.GRUB_DISK_SECTOR_BITS segs E sector size buf
            (Event.segment_read i (sector - seg.start_extent * E) to_read buf err sub :: rest) := by
        intro rest h1 h2
        exact ⟨hto1.1, hto1.2.1, rfl,
          ⟨seg, hget, hhas, hfirst, hlo, hto1.2.2.1, hto1.2.2.2, rfl⟩, h1, h2⟩
      simp only [grub_divmod64, hE0, if_false, hfind, hget, List.getElem?_map, Option.map_some',
        hto, hrd]
      by_cases herr : err ≠ GRUB_ERR_NONE
      · rw [if_pos herr]
        refine ⟨err, _, rfl, hsplit1 [] (fun h => absurd rfl h) trivial, ?_, by simp [hs],
          by simp, ?_, fun h => absurd h herr⟩
        · intro i2 rel len b2 err2 sub2 hm
          simp only [List.mem_singleton, Event.segment_read.injEq] at hm
          obtain ⟨rfl, rfl, rfl, rfl, rfl, rfl⟩ := hm
          exact ⟨seg, hget, hrd⟩
        · intro ev hev
          simp only [List.getLast?_singleton, Option.some.injEq] at hev
          subst hev; rfl
      · rw [if_neg herr]
        have herr0 : err = GRUB_ERR_NONE := by
          by_contra hc; exact herr hc
        have hin2 : request_in_segments segs E (sector + to_read) (size - to_read) := by
          intro t ht1 ht2
          exact hin t (by omega) (by omega)
        obtain ⟨e2, tr2, hr2, hs2, hc2, hnil2, he2, hlast2, hsum2⟩ := ih (sector + to_read)
          (size - to_read) (buf + (to_read <<< env.GRUB_DISK_SECTOR_BITS)) (by omega) hin2
        simp only [hr2]
        refine ⟨e2, _, rfl, hsplit1 tr2 (fun _ => herr0) hs2, ?_, by simp [hs], by simp, ?_, ?_⟩
        · intro i2 rel len b2 err2 sub2 hm
          rcases List.mem_cons.mp hm with hm | hm
          · simp only [Event.segment_read.injEq] at hm
            obtain ⟨rfl, rfl, rfl, rfl, rfl, rfl⟩ := hm
            exact ⟨seg, hget, hrd⟩
          · exact hc2 _ _ _ _ _ _ hm
        · intro ev hev
          by_cases hnil : tr2 = []
          · subst hnil
            simp only [List.getLast?_singleton, Option.some.injEq] at hev
            subst hev
            show err = e2
            rw [herr0, he2 rfl]
          · obtain ⟨ev2, rest2, rfl⟩ := List.exists_cons_of_ne_nil hnil
            rw [List.getLast?_cons_cons] at hev
            exact hlast2 ev hev
        · intro he
          simp only [List.map_cons, List.sum_cons, Event.read_size, hsum2 he]
          omega

theorem read_segment_total_of_valid (env : Env) (seg : grub_diskfilter_seg)
    (hv : validate_segment seg = GRUB_ERR_NONE)
    (hnf : no_read_faults (read_segment_readers env seg.nodes) seg.node_count)
    (sector size buf : Nat) :
    ∃ r, read_segment env seg sector size buf = some r := by
  obtain ⟨hS, hN0, _, _, _, hty, _⟩ := validate_segment_ok seg hv
  have hcopies : seg.type = GRUB_DISKFILTER_STRIPED ∨ seg.type = GRUB_DISKFILTER_MIRROR
      ∨ seg.type = GRUB_DISKFILTER_RAID10 → ∃ r, read_segment env seg sector size buf = some r := by
    intro ht
    by_cases h1 : seg.type = GRUB_DISKFILTER_STRIPED ∧ seg.node_count = 1
    · rw [read_segment, read_segment_with, if_pos h1]
      obtain ⟨⟨e, ev⟩, hr⟩ := hnf 0 hN0 sector size buf
      rw [hr]
      exact ⟨_, rfl⟩
    · obtain ⟨⟨near, far, ofs, far_ofs, d, rs, b⟩, hst⟩ :=
        read_segment_copies_start_some seg sector hv ht
      obtain ⟨_, _, hd, hb, _⟩ := read_segment_copies_start_inv seg sector _ _ _ _ _ _ _ hst
      rw [read_segment, read_segment_with, if_neg h1, if_pos ht, hst]
      simp only
      rw [read_segment_copies_loop_eq _ _ _ _ _ _ _ _ hN0 _ _ _ _ _ _ hd]
      exact copies_read_total env.GRUB_DISK_SECTOR_BITS
        (read_segment_readers env seg.nodes) seg.node_count seg.stripe_size near far ofs far_ofs
        hN0 hS hnf size d rs b size buf hb (le_refl _)
  rcases hty with h | h | h | h | h | h
  · exact hcopies (Or.inl h)
  · exact hcopies (Or.inr (Or.inl h))
  · exact read_segment_parity_total env seg hv (Or.inl h) hnf sector size buf
  · exact read_segment_parity_total env seg hv (Or.inr (Or.inl h)) hnf sector size buf
  · exact read_segment_parity_total env seg hv (Or.inr (Or.inr h)) hnf sector size buf
  · exact hcopies (Or.inr (Or.inr h))

/-- C13: for a volume with extent size `E > 0` and a request `(sector, size)`
inside its segments, `read_lv` returns, and the calls it makes are reads of
segments that split the request from its start: each sub-request starts where
the one before ended, has a positive length, is passed to the first segment
whose extent range contains the extent of its first sector, with the sector
relative to the start of that segment (`sector - start_extent * E`), lies
inside that segment, and ends at the end of the segment or of the request. A
segment read that fails ends the read with its error; when `read_lv` succeeds
the lengths of the sub-requests sum to `size`. -/
theorem C13_read_lv_split (env : Env) (lv : grub_diskfilter_lv) (sector size buf E : Nat)
    (hvg : lv.vg = some E) (hE : 0 < E)
    (hin : request_in_segments lv.segments E sector size)
    (hnf : ∀ seg ∈ lv.segments, ∀ s z b, ∃ r, read_segment env seg s z b = some r) :
    ∃ e tr, read_lv env lv sector size buf = some (e, tr)
      ∧ lv_split env.GRUB_DISK_SECTOR_BITS lv.segments E sector size buf tr
      ∧ (∀ i rel len b err sub, Event.segment_read i rel len b err sub ∈ tr →
          ∃ seg, lv.segments[i]? = some seg
            ∧ read_segment env seg rel len b = some (err, sub))
      ∧ (tr = [] ↔ size = 0)
      ∧ (tr = [] → e = GRUB_ERR_NONE)
      ∧ (∀ ev, tr.getLast? = some ev → ev.err = e)
      ∧ (e = GRUB_ERR_NONE → (tr.map Event.read_size).sum = size) := by
  rw [read_lv_eq, hvg]
  exact read_lv_loop_split env lv.segments E hE hnf size sector size buf (le_refl _) hin

/-- Witness of C13: the request of the sectors 6 to 9 of the volume of two
segments of 8 sectors each is split into the sectors 6 and 7 of the first
segment and the sectors 0 and 1 of the second. -/
theorem C13_read_lv_split_witness :
    c13_volume.vg = some 4
    ∧ (read_lv env_ok c13_volume 6 4 0).map (fun r => (r.1, r.2.map Event.segment_call))
      = some (GRUB_ERR_NONE,
          [some (0, 6, 2, 0, GRUB_ERR_NONE), some (1, 0, 2, 1024, GRUB_ERR_NONE)])
    ∧ ∃ e tr, read_lv env_ok c13_volume 6 4 0 = some (e, tr)
      ∧ lv_split env_ok.GRUB_DISK_SECTOR_BITS c13_volume.segments 4 6 4 0 tr
      ∧ (∀ i rel len b err sub, Event.segment_read i rel len b err sub ∈ tr →
          ∃ seg, c13_volume.segments[i]? = some seg
            ∧ read_segment env_ok seg rel len b = some (err, sub))
      ∧ (tr = [] ↔ 4 = 0)
      ∧ (tr = [] → e = GRUB_ERR_NONE)
      ∧ (∀ ev, tr.getLast? = some ev → ev.err = e)
      ∧ (e = GRUB_ERR_NONE → (tr.map Event.read_size).sum = 4) :=
  ⟨rfl, rfl,
    C13_read_lv_split env_ok c13_volume 6 4 0 4 rfl (by decide)
      (by
        intro t h1 h2
        by_cases ht : t < 8
        · exact ⟨{ c6_segment with extent_count := 2 }, by simp [c13_volume, volume_of],
            by simp [c6_segment, segment_of], by simp [c6_segment, segment_of]; omega⟩
        · exact ⟨{ c6_segment with start_extent := 2, extent_count := 2 },
            by simp [c13_volume, volume_of],
            by simp only [c6_segment, segment_of]; omega,
            by simp only [c6_segment, segment_of]; omega⟩)
      (by
        intro seg hseg s z b
        have hpv : ∀ node ∈ c6_segment.nodes, node.pv ≠ none := by
          intro node hnode
          simp only [c6_segment, segment_of, List.mem_map, List.mem_range] at hnode
          obtain ⟨k, _, rfl⟩ := hnode
          simp [pv_node, grub_diskfilter_node.pv]
        simp only [c13_volume, volume_of, List.mem_cons, List.mem_singleton,
          List.not_mem_nil, or_false] at hseg
        rcases hseg with h | h
        · subst h
          exact read_segment_total_of_valid env_ok _ (by decide)
            (no_read_faults_of_physical env_ok _ hpv) s z b
        · subst h
          exact read_segment_total_of_valid env_ok _ (by decide)
            (no_read_faults_of_physical env_ok _ hpv) s z b)⟩

/-! ## The read of a node -/

/-- C14: `grub_diskfilter_read_node (node, sector, size, buf)`: when the node
references a physical member with an attached device, it is the read of
`size << GRUB_DISK_SECTOR_BITS` bytes (`size * 512` for sectors of `2^9` bytes)
at offset 0 of the sector `sector + node->start + pv->start_sector` of that
device, with the result of that read; when the member has no attached device it
fails with `GRUB_ERR_UNKNOWN_DEVICE` without a read; when the node references
no member but a logical volume it is `read_lv` of that volume at
`sector + node->start`; a node with neither reference fails with
`GRUB_ERR_UNKNOWN_DEVICE`. -/
theorem C14_read_node (env : Env) (node : grub_diskfilter_node) (sector size buf : Nat) :
    (∀ a d, node.pv = some a → (env.pvs a).disk = some d →
      grub_diskfilter_read_node env node sector size buf
        = some (env.grub_disk_read d (sector + node.start + (env.pvs a).start_sector) 0
                  (size * 2 ^ env.GRUB_DISK_SECTOR_BITS) buf,
                [Event.disk_read d (sector + node.start + (env.pvs a).start_sector) 0
                  (size * 2 ^ env.GRUB_DISK_SECTOR_BITS) buf
                  (env.grub_disk_read d (sector + node.start + (env.pvs a).start_sector) 0
                    (size * 2 ^ env.GRUB_DISK_SECTOR_BITS) buf)])
      ∧ (env.GRUB_DISK_SECTOR_BITS = 9 → size * 2 ^ env.GRUB_DISK_SECTOR_BITS = size * 512))
    ∧ (∀ a, node.pv = some a → (env.pvs a).disk = none →
        grub_diskfilter_read_node env node sector size buf = some (GRUB_ERR_UNKNOWN_DEVICE, []))
    ∧ (∀ lv, node.pv = none → node.lv = some lv →
        grub_diskfilter_read_node env node sector size buf
          = read_lv env lv (sector + node.start) size buf)
    ∧ (node.pv = none → node.lv = none →
        grub_diskfilter_read_node env node sector size buf = some (GRUB_ERR_UNKNOWN_DEVICE, [])) := by
  refine ⟨?_, ?_, ?_, ?_⟩
  · intro a d ha hd
    constructor
    · rw [read_node_attached env node a d ha hd, Nat.shiftLeft_eq]
    · intro h9; rw [h9]; norm_num
  · intro a ha hd
    exact read_node_unattached env node a ha hd _ _ _
  · intro lv hpv hlv
    cases node with
    | mk name start pv lv2 =>
      simp only [grub_diskfilter_node.pv, grub_diskfilter_node.lv] at hpv hlv
      subst hpv hlv
      rw [grub_diskfilter_read_node]
      rfl
  · intro hpv hlv
    cases node with
    | mk name start pv lv2 =>
      simp only [grub_diskfilter_node.pv, grub_diskfilter_node.lv] at hpv hlv
      subst hpv hlv
      rw [grub_diskfilter_read_node]

/-- Witness of C14: the node at offset 0 of the member at address 3, which
carries the device 3: the read of 2 sectors from sector 5 is one read of 1024
bytes at sector 5 of the device 3. -/
theorem C14_read_node_witness :
    grub_diskfilter_read_node env_ok (pv_node 3) 5 2 0
      = some (GRUB_ERR_NONE, [Event.disk_read 3 5 0 1024 0 GRUB_ERR_NONE])
    ∧ grub_diskfilter_read_node env_ok (pv_node 3) 5 2 0
      = some (env_ok.grub_disk_read 3 (5 + (pv_node 3).start + (env_ok.pvs 3).start_sector) 0
                (2 * 2 ^ env_ok.GRUB_DISK_SECTOR_BITS) 0,
              [Event.disk_read 3 (5 + (pv_node 3).start + (env_ok.pvs 3).start_sector) 0
                (2 * 2 ^ env_ok.GRUB_DISK_SECTOR_BITS) 0
                (env_ok.grub_disk_read 3 (5 + (pv_node 3).start + (env_ok.pvs 3).start_sector) 0
                  (2 * 2 ^ env_ok.GRUB_DISK_SECTOR_BITS) 0)]) :=
  ⟨rfl, ((C14_read_node env_ok (pv_node 3) 5 2 0).1 3 3 rfl rfl).1⟩

/-! ## The disk device: names, lookup, open and write -/

/-- C15: `grub_diskfilter_write` fails with `GRUB_ERR_NOT_IMPLEMENTED_YET` for
every device, sector, size and buffer, and leaves the registry, the counters
and the physical members as they are: its only effect is the error recorded by
`grub_error`. -/
theorem C15_write_not_implemented (st : State) (disk : grub_disk) (sector size : Nat)
    (buf : List Nat) :
    (grub_diskfilter_write st disk sector size buf).1 = GRUB_ERR_NOT_IMPLEMENTED_YET
    ∧ (grub_diskfilter_write st disk sector size buf).2.array_list = st.array_list
    ∧ (grub_diskfilter_write st disk sector size buf).2.pvs = st.pvs
    ∧ (grub_diskfilter_write st disk sector size buf).2.inscnt = st.inscnt
    ∧ (grub_diskfilter_write st disk sector size buf).2.lv_num = st.lv_num
    ∧ (grub_diskfilter_write st disk sector size buf).2.grub_errno
        = GRUB_ERR_NOT_IMPLEMENTED_YET
    ∧ (grub_diskfilter_write st disk sector size buf).2
        = { st with grub_errno := GRUB_ERR_NOT_IMPLEMENTED_YET } :=
  ⟨rfl, rfl, rfl, rfl, rfl, rfl, rfl⟩

theorem grub_memcmp_eq_cons (a b : Char) (s lit : List Char) (n : Nat) :
    grub_memcmp_eq (a :: s) (b :: lit) (n + 1) = (a == b && grub_memcmp_eq s lit n) := by
  unfold grub_memcmp_eq
  rw [List.range_succ_eq_map, List.all_cons, List.all_map]
  rfl

theorem grub_memcmp_eq_nil (b : Char) (lit : List Char) (n : Nat) (hb : b ≠ Char.ofNat 0) :
    grub_memcmp_eq [] (b :: lit) (n + 1) = false := by
  unfold grub_memcmp_eq
  rw [List.range_succ_eq_map, List.all_cons]
  have h : (([] : List Char).getD 0 (Char.ofNat 0) == (b :: lit).getD 0 (Char.ofNat 0)) = false := by
    simp [Ne.symm hb]
  rw [h, Bool.false_and]

theorem grub_memcmp_eq_iff (s lit : List Char) (h : ∀ c ∈ lit, c ≠ Char.ofNat 0) :
    grub_memcmp_eq s lit lit.length = true ↔ lit <+: s := by
  induction lit generalizing s with
  | nil => simp [grub_memcmp_eq]
  | cons b lit ih =>
    cases s with
    | nil =>
      rw [List.length_cons, grub_memcmp_eq_nil b lit _ (h b (List.mem_cons_self _ _))]
      simp
    | cons a s =>
      rw [List.length_cons, grub_memcmp_eq_cons, Bool.and_eq_true,
        ih s (fun c hc => h c (List.mem_cons_of_mem _ hc)), List.cons_prefix_cons]
      simp only [beq_iff_eq]
      exact ⟨fun hx => ⟨hx.1.symm, hx.2⟩, fun hx => ⟨hx.1.symm, hx.2⟩⟩

theorem is_valid_diskfilter_name_iff (name : String) :
    is_valid_diskfilter_name name = true ↔
      ("md".toList <+: name.toList ∨ "lvm/".toList <+: name.toList
        ∨ "lvmid/".toList <+: name.toList ∨ "ldm/".toList <+: name.toList) := by
  unfold is_valid_diskfilter_name
  have h1 : grub_memcmp_eq name.toList "md".toList "md".length = true
      ↔ "md".toList <+: name.toList := grub_memcmp_eq_iff name.toList "md".toList (by decide)
  have h2 : grub_memcmp_eq name.toList "lvm/".toList "lvm/".length = true
      ↔ "lvm/".toList <+: name.toList := grub_memcmp_eq_iff name.toList "lvm/".toList (by decide)
  have h3 : grub_memcmp_eq name.toList "lvmid/".toList "lvmid/".length = true
      ↔ "lvmid/".toList <+: name.toList :=
    grub_memcmp_eq_iff name.toList "lvmid/".toList (by decide)
  have h4 : grub_memcmp_eq name.toList "ldm/".toList "ldm/".length = true
      ↔ "ldm/".toList <+: name.toList := grub_memcmp_eq_iff name.toList "ldm/".toList (by decide)
  simp only [Bool.or_eq_true, h1, h2, h3, h4, or_assoc]

/-- C16: `is_valid_diskfilter_name` accepts a name iff it begins with `md`,
`lvm/`, `lvmid/` or `ldm/`; for every other name `grub_diskfilter_open` fails
with `GRUB_ERR_UNKNOWN_DEVICE` without a call of `find_lv` or `scan_devices`,
the device is not bound, and nothing but `grub_errno` changes. -/
theorem C16_name_grammar (name : String) :
    (is_valid_diskfilter_name name = true ↔
      ("md".toList <+: name.toList ∨ "lvm/".toList <+: name.toList
        ∨ "lvmid/".toList <+: name.toList ∨ "ldm/".toList <+: name.toList))
    ∧ (is_valid_diskfilter_name name = false →
        ∀ (scan_devices : Option String → State → State) (M : Nat) (disk : grub_disk)
          (st : State),
          grub_diskfilter_open scan_devices M name disk st
            = (GRUB_ERR_UNKNOWN_DEVICE, disk,
                { st with grub_errno := GRUB_ERR_UNKNOWN_DEVICE }, [])) := by
  refine ⟨is_valid_diskfilter_name_iff name, ?_⟩
  intro h scan_devices M disk st
  unfold grub_diskfilter_open
  simp [h, grub_error]

/-- Witness of C16: `md0`, `mduuid/ab`, `lvm/vg-lv`, `lvmid/x/y` and `ldm/d/v`
are accepted; `hd0`, `m`, `lvm` and `ldmx` are not, and the opening of `hd0`
fails with `GRUB_ERR_UNKNOWN_DEVICE` without a call. -/
theorem C16_name_grammar_witness :
    is_valid_diskfilter_name "md0" = true ∧ is_valid_diskfilter_name "mduuid/ab" = true
    ∧ is_valid_diskfilter_name "lvm/vg-lv" = true ∧ is_valid_diskfilter_name "lvmid/x/y" = true
    ∧ is_valid_diskfilter_name "ldm/d/v" = true
    ∧ is_valid_diskfilter_name "hd0" = false ∧ is_valid_diskfilter_name "m" = false
    ∧ is_valid_diskfilter_name "lvm" = false ∧ is_valid_diskfilter_name "ldmx" = false
    ∧ grub_diskfilter_open (fun _ st => st) 0 "hd0" disk_unbound state_empty
      = (GRUB_ERR_UNKNOWN_DEVICE, disk_unbound,
          { state_empty with grub_errno := GRUB_ERR_UNKNOWN_DEVICE }, []) :=
  ⟨by decide, by decide, by decide, by decide, by decide, by decide, by decide, by decide,
    by decide,
    (C16_name_grammar "hd0").2 (by decide) (fun _ st => st) 0 disk_unbound state_empty⟩

theorem find_lv_match_iff (pvs : Nat → grub_diskfilter_pv) (name : String)
    (lv : grub_diskfilter_lv) :
    find_lv_match pvs name lv = true ↔
      (lv.fullname = some name ∨ lv.idname = some name) ∧ is_lv_readable pvs lv false = true := by
  unfold find_lv_match
  cases hf : lv.fullname <;> cases hi : lv.idname <;> simp

theorem find_lv_lvs_some (pvs : Nat → grub_diskfilter_pv) (name : String)
    (lvs : List grub_diskfilter_lv) (lv : grub_diskfilter_lv)
    (h : find_lv_lvs pvs name lvs = some lv) :
    lv ∈ lvs ∧ find_lv_match pvs name lv = true := by
  induction lvs with
  | nil => simp [find_lv_lvs] at h
  | cons lv0 rest ih =>
    rw [find_lv_lvs] at h
    by_cases hm : find_lv_match pvs name lv0 = true
    · rw [if_pos hm] at h
      simp only [Option.some.injEq] at h
      subst h
      exact ⟨List.mem_cons_self _ _, hm⟩
    · rw [if_neg hm] at h
      exact ⟨List.mem_cons_of_mem _ (ih h).1, (ih h).2⟩

theorem find_lv_lvs_none (pvs : Nat → grub_diskfilter_pv) (name : String)
    (lvs : List grub_diskfilter_lv) (h : find_lv_lvs pvs name lvs = none) :
    ∀ lv ∈ lvs, find_lv_match pvs name lv = false := by
  induction lvs with
  | nil => intro lv hlv; cases hlv
  | cons lv0 rest ih =>
    rw [find_lv_lvs] at h
    by_cases hm : find_lv_match pvs name lv0 = true
    · rw [if_pos hm] at h; cases h
    · rw [if_neg hm] at h
      intro lv hlv
      rcases List.mem_cons.mp hlv with h1 | h1
      · subst h1; simpa using hm
      · exact ih h lv h1

theorem find_lv_vgs_some (pvs : Nat → grub_diskfilter_pv) (name : String)
    (vgs : List grub_diskfilter_vg) (lv : grub_diskfilter_lv)
    (h : find_lv_vgs pvs name vgs = some lv) :
    (∃ vg ∈ vgs, lv ∈ vg.lvs) ∧ find_lv_match pvs name lv = true := by
  induction vgs with
  | nil => simp [find_lv_vgs] at h
  | cons vg rest ih =>
    rw [find_lv_vgs] at h
    cases hl : find_lv_lvs pvs name vg.lvs with
    | some lv0 =>
      simp only [hl, Option.some.injEq] at h
      subst h
      obtain ⟨h1, h2⟩ := find_lv_lvs_some pvs name vg.lvs lv0 hl
      exact ⟨⟨vg, List.mem_cons_self _ _, h1⟩, h2⟩
    | none =>
      simp only [hl] at h
      obtain ⟨⟨vg2, h1, h2⟩, h3⟩ := ih h
      exact ⟨⟨vg2, List.mem_cons_of_mem _ h1, h2⟩, h3⟩

theorem find_lv_vgs_none (pvs : Nat → grub_diskfilter_pv) (name : String)
    (vgs : List grub_diskfilter_vg) (h : find_lv_vgs pvs name vgs = none) :
    ∀ vg ∈ vgs, ∀ lv ∈ vg.lvs, find_lv_match pvs name lv = false := by
  induction vgs with
  | nil => intro vg hvg; cases hvg
  | cons vg0 rest ih =>
    rw [find_lv_vgs] at h
    cases hl : find_lv_lvs pvs name vg0.lvs with
    | some lv0 => simp [hl] at h
    | none =>
      simp only [hl] at h
      intro vg hvg lv hlv
      rcases List.mem_cons.mp hvg with h1 | h1
      · subst h1
        exact find_lv_lvs_none pvs name _ hl lv hlv
      · exact ih h vg h1 lv hlv

/-- C18: `find_lv (name)` returns a volume iff some volume of some registered
group has `name` as its `fullname` or its `idname` and is readable according to
`is_lv_readable (lv, 0)`; the volume it returns is a registered volume with
`name` as its `fullname` or `idname` that is readable, so a volume with a
matching name that is not readable is never returned. -/
theorem C18_find_lv (st : State) (name : String) :
    ((find_lv st name).isSome = true ↔
      ∃ vg ∈ st.array_list, ∃ lv ∈ vg.lvs,
        (lv.fullname = some name ∨ lv.idname = some name)
        ∧ is_lv_readable st.pvs lv false = true)
    ∧ (∀ lv, find_lv st name = some lv →
        (∃ vg ∈ st.array_list, lv ∈ vg.lvs)
        ∧ (lv.fullname = some name ∨ lv.idname = some name)
        ∧ is_lv_readable st.pvs lv false = true)
    ∧ (∀ lv, (lv.fullname = some name ∨ lv.idname = some name) →
        is_lv_readable st.pvs lv false = false → find_lv st name ≠ some lv) := by
  have hsome : ∀ lv, find_lv st name = some lv →
      (∃ vg ∈ st.array_list, lv ∈ vg.lvs)
      ∧ (lv.fullname = some name ∨ lv.idname = some name)
      ∧ is_lv_readable st.pvs lv false = true := by
    intro lv h
    obtain ⟨h1, h2⟩ := find_lv_vgs_some st.pvs name st.array_list lv h
    exact ⟨h1, (find_lv_match_iff st.pvs name lv).mp h2⟩
  refine ⟨⟨?_, ?_⟩, hsome, ?_⟩
  · intro h
    obtain ⟨lv, hlv⟩ := Option.isSome_iff_exists.mp h
    obtain ⟨⟨vg, h1, h2⟩, h3⟩ := hsome lv hlv
    exact ⟨vg, h1, lv, h2, h3⟩
  · intro ⟨vg, hvg, lv, hlv, hm⟩
    cases hf : find_lv st name with
    | some lv2 => rfl
    | none =>
      have := find_lv_vgs_none st.pvs name st.array_list hf vg hvg lv hlv
      rw [(find_lv_match_iff st.pvs name lv).mpr hm] at this
      cases this
  · intro lv _ hnr hf
    have := (hsome lv hf).2.2
    rw [hnr] at this
    cases this

/-- Witness of C18: of the two volumes named `md/x`, the striped one, which
lacks member 0, is not readable, and the lookup returns the mirror. -/
theorem C18_find_lv_witness :
    find_lv c18_state "md/x" = some c18_lv_mirror
    ∧ is_lv_readable c18_state.pvs c18_lv_striped false = false
    ∧ c18_lv_striped.fullname = some "md/x"
    ∧ ((∃ vg ∈ c18_state.array_list, c18_lv_mirror ∈ vg.lvs)
      ∧ (c18_lv_mirror.fullname = some "md/x" ∨ c18_lv_mirror.idname = some "md/x")
      ∧ is_lv_readable c18_state.pvs c18_lv_mirror false = true) :=
  ⟨rfl, by decide, rfl, (C18_find_lv c18_state "md/x").2.1 c18_lv_mirror rfl⟩

theorem find_lv_open_scan (scan_devices : Option String → State → State) (name : String)
    (st : State) (name2 : String) :
    find_lv (grub_diskfilter_open_scan scan_devices name st) name2
      = find_lv (scan_devices (some name) st) name2 := by
  unfold grub_diskfilter_open_scan find_lv
  by_cases h : (scan_devices (some name) st).grub_errno ≠ GRUB_ERR_NONE
  · simp only [if_pos h]
  · simp only [if_neg h]

/-- C17: for a name that `is_valid_diskfilter_name` accepts,
`grub_diskfilter_open` calls `find_lv`; when it finds a volume the device is
bound to it without a scan; when it finds none, `scan_devices` is called once
and `find_lv` is called once more, on the state after the scan. In both cases a
volume found gives success, with `disk->id` the number of the volume,
`disk->data` the volume and `disk->total_sectors` its size; when both lookups
find nothing the opening fails with `GRUB_ERR_UNKNOWN_DEVICE` and the device is
not bound. So the opening succeeds iff the lookup finds a volume at once or
after the one scan, and it fails with no other error. -/
theorem C17_open (scan_devices : Option String → State → State) (M : Nat) (name : String)
    (disk : grub_disk) (st : State) (hname : is_valid_diskfilter_name name = true) :
    (∀ lv, find_lv st name = some lv →
      grub_diskfilter_open scan_devices M name disk st
        = (GRUB_ERR_NONE,
            { id := lv.number, data := some lv, total_sectors := lv.size, max_agglomerate := M },
            st, [OpenCall.find_lv name]))
    ∧ (find_lv st name = none →
        ∀ lv, find_lv (scan_devices (some name) st) name = some lv →
        grub_diskfilter_open scan_devices M name disk st
          = (GRUB_ERR_NONE,
              { id := lv.number, data := some lv, total_sectors := lv.size,
                max_agglomerate := M },
              grub_diskfilter_open_scan scan_devices name st,
              [OpenCall.find_lv name, OpenCall.scan_devices name, OpenCall.find_lv name]))
    ∧ (find_lv st name = none → find_lv (scan_devices (some name) st) name = none →
        grub_diskfilter_open scan_devices M name disk st
          = (GRUB_ERR_UNKNOWN_DEVICE, disk,
              { grub_diskfilter_open_scan scan_devices name st with
                grub_errno := GRUB_ERR_UNKNOWN_DEVICE },
              [OpenCall.find_lv name, OpenCall.scan_devices name, OpenCall.find_lv name]))
    ∧ ((grub_diskfilter_open scan_devices M name disk st).1 = GRUB_ERR_NONE ↔
        (find_lv st name).isSome = true
        ∨ (find_lv (scan_devices (some name) st) name).isSome = true)
    ∧ ((grub_diskfilter_open scan_devices M name disk st).1 ≠ GRUB_ERR_NONE →
        (grub_diskfilter_open scan_devices M name disk st).1 = GRUB_ERR_UNKNOWN_DEVICE
        ∧ (grub_diskfilter_open scan_devices M name disk st).2.1 = disk) := by
  have h1 : ∀ lv, find_lv st name = some lv →
      grub_diskfilter_open scan_devices M name disk st
        = (GRUB_ERR_NONE,
            { id := lv.number, data := some lv, total_sectors := lv.size, max_agglomerate := M },
            st, [OpenCall.find_lv name]) := by
    intro lv hlv
    unfold grub_diskfilter_open
    simp [hname, hlv]
  have h2 : find_lv st name = none →
      ∀ lv, find_lv (scan_devices (some name) st) name = some lv →
      grub_diskfilter_open scan_devices M name disk st
        = (GRUB_ERR_NONE,
            { id := lv.number, data := some lv, total_sectors := lv.size, max_agglomerate := M },
            grub_diskfilter_open_scan scan_devices name st,
            [OpenCall.find_lv name, OpenCall.scan_devices name, OpenCall.find_lv name]) := by
    intro hnone lv hlv
    unfold grub_diskfilter_open
    simp [hname, hnone, find_lv_open_scan, hlv]
  have h3 : find_lv st name = none → find_lv (scan_devices (some name) st) name = none →
      grub_diskfilter_open scan_devices M name disk st
        = (GRUB_ERR_UNKNOWN_DEVICE, disk,
            { grub_diskfilter_open_scan scan_devices name st with
              grub_errno := GRUB_ERR_UNKNOWN_DEVICE },
            [OpenCall.find_lv name, OpenCall.scan_devices name, OpenCall.find_lv name]) := by
    intro hnone hnone2
    unfold grub_diskfilter_open
    simp [hname, hnone, find_lv_open_scan, hnone2, grub_error]
  refine ⟨h1, h2, h3, ?_, ?_⟩
  · cases hf : find_lv st name with
    | some lv => simp [h1 lv hf]
    | none =>
      cases hf2 : find_lv (scan_devices (some name) st) name with
      | some lv => simp [h2 hf lv hf2]
      | none => simp [h3 hf hf2]
  · cases hf : find_lv st name with
    | some lv => simp [h1 lv hf]
    | none =>
      cases hf2 : find_lv (scan_devices (some name) st) name with
      | some lv => simp [h2 hf lv hf2]
      | none => simp [h3 hf hf2]

/-- Witness of C17: for the name `md/y`, which no volume carries, the opening
fails after the one scan; for `md/x` the mirror is found at once and the device
is bound to it: its id is 1 and its size 64 sectors. -/
theorem C17_open_witness :
    is_valid_diskfilter_name "md/x" = true
    ∧ (grub_diskfilter_open scan_attach_all 1024 "md/y" disk_unbound c18_state).1
        = GRUB_ERR_UNKNOWN_DEVICE
    ∧ (grub_diskfilter_open scan_attach_all 1024 "md/y" disk_unbound c18_state).2.2.2
        = [OpenCall.find_lv "md/y", OpenCall.scan_devices "md/y", OpenCall.find_lv "md/y"]
    ∧ grub_diskfilter_open scan_attach_all 1024 "md/x" disk_unbound c18_state
      = (GRUB_ERR_NONE,
          { id := c18_lv_mirror.number, data := some c18_lv_mirror,
            total_sectors := c18_lv_mirror.size, max_agglomerate := 1024 },
          c18_state, [OpenCall.find_lv "md/x"]) :=
  ⟨by decide, rfl, rfl,
    (C17_open scan_attach_all 1024 "md/x" disk_unbound c18_state (by decide)).1
      c18_lv_mirror rfl⟩

/-! ## The checks of segment validation -/

theorem validate_segment_shape (seg : grub_diskfilter_seg) (h : segment_shape_ok seg) :
    validate_segment seg = validate_segment_nodes seg.nodes := by
  obtain ⟨hS, hN, hty, h10, h45, h6⟩ := h
  rcases seg with ⟨se, ec, type, layout, rms, nodes, ss⟩
  simp only [grub_diskfilter_segment.node_count, raid10_far, raid10_near] at hS hN hty h10 h45 h6
  simp only [validate_segment]
  have h0 : ¬ (ss = 0 ∨ nodes.length = 0) := by
    intro hc; rcases hc with hc | hc
    · exact hS hc
    · exact hN hc
  rw [if_neg h0]
  by_cases ht10 : type = GRUB_DISKFILTER_RAID10
  · obtain ⟨ha, hb⟩ := h10 ht10
    rw [if_pos ht10, if_neg ha, if_neg (by omega)]
  · rw [if_neg ht10]
    by_cases hsm : type = GRUB_DISKFILTER_STRIPED ∨ type = GRUB_DISKFILTER_MIRROR
    · rw [if_pos hsm]
    · rw [if_neg hsm]
      by_cases ht45 : type = GRUB_DISKFILTER_RAID4 ∨ type = GRUB_DISKFILTER_RAID5
      · have := h45 ht45
        rw [if_pos ht45, if_neg (by omega)]
      · rw [if_neg ht45]
        by_cases ht6 : type = GRUB_DISKFILTER_RAID6
        · have := h6 ht6
          rw [if_pos ht6, if_neg (by omega)]
        · exfalso
          rcases hty with h | h | h | h | h | h
          · exact hsm (Or.inl h)
          · exact hsm (Or.inr h)
          · exact ht45 (Or.inl h)
          · exact ht45 (Or.inr h)
          · exact ht6 h
          · exact ht10 h

theorem validate_segment_not_shape (seg : grub_diskfilter_seg) (h : ¬ segment_shape_ok seg) :
    validate_segment seg = GRUB_ERR_BAD_FS
    ∨ validate_segment seg = GRUB_ERR_NOT_IMPLEMENTED_YET := by
  rcases seg with ⟨se, ec, type, layout, rms, nodes, ss⟩
  simp only [segment_shape_ok, grub_diskfilter_segment.node_count, raid10_far, raid10_near] at h
  simp only [validate_segment]
  by_cases h0 : ss = 0 ∨ nodes.length = 0
  · rw [if_pos h0]; exact Or.inl rfl
  · rw [if_neg h0]
    have hS : ss ≠ 0 := fun hc => h0 (Or.inl hc)
    have hN : nodes.length ≠ 0 := fun hc => h0 (Or.inr hc)
    by_cases ht10 : type = GRUB_DISKFILTER_RAID10
    · rw [if_pos ht10]
      by_cases ha : layout >>> 16 = 0 ∧ (layout >>> 8) &&& 0xFF = 0
      · rw [if_pos ha]; exact Or.inl rfl
      · rw [if_neg ha]
        by_cases hb : layout &&& 0xFF > nodes.length
        · rw [if_pos hb]; exact Or.inl rfl
        · exfalso
          apply h
          refine ⟨hS, hN, Or.inr (Or.inr (Or.inr (Or.inr (Or.inr ht10)))),
            fun _ => ⟨ha, by omega⟩, ?_, ?_⟩
          · intro hc; rcases hc with hc | hc <;>
              simp [ht10, GRUB_DISKFILTER_RAID10, GRUB_DISKFILTER_RAID4,
                GRUB_DISKFILTER_RAID5] at hc
          · intro hc; simp [ht10, GRUB_DISKFILTER_RAID10, GRUB_DISKFILTER_RAID6] at hc
    · rw [if_neg ht10]
      by_cases hsm : type = GRUB_DISKFILTER_STRIPED ∨ type = GRUB_DISKFILTER_MIRROR
      · exfalso
        apply h
        refine ⟨hS, hN, ?_, fun hc => absurd hc ht10, ?_, ?_⟩
        · rcases hsm with hc | hc
          · exact Or.inl hc
          · exact Or.inr (Or.inl hc)
        · intro hc
          rcases hsm with h1 | h1 <;> rcases hc with hc | hc <;>
            simp [h1, GRUB_DISKFILTER_STRIPED, GRUB_DISKFILTER_MIRROR, GRUB_DISKFILTER_RAID4,
              GRUB_DISKFILTER_RAID5] at hc
        · intro hc
          rcases hsm with h1 | h1 <;>
            simp [h1, GRUB_DISKFILTER_STRIPED, GRUB_DISKFILTER_MIRROR,
              GRUB_DISKFILTER_RAID6] at hc
      · rw [if_neg hsm]
        by_cases ht45 : type = GRUB_DISKFILTER_RAID4 ∨ type = GRUB_DISKFILTER_RAID5
        · rw [if_pos ht45]
          by_cases hn : nodes.length ≤ 1
          · rw [if_pos hn]; exact Or.inl rfl
          · exfalso
            apply h
            refine ⟨hS, hN, ?_, fun hc => absurd hc ht10, fun _ => by omega, ?_⟩
            · rcases ht45 with hc | hc
              · exact Or.inr (Or.inr (Or.inl hc))
              · exact Or.inr (Or.inr (Or.inr (Or.inl hc)))
            · intro hc
              rcases ht45 with h1 | h1 <;>
                simp [h1, GRUB_DISKFILTER_RAID4, GRUB_DISKFILTER_RAID5,
                  GRUB_DISKFILTER_RAID6] at hc
        · rw [if_neg ht45]
          by_cases ht6 : type = GRUB_DISKFILTER_RAID6
          · rw [if_pos ht6]
            by_cases hn : nodes.length ≤ 2
            · rw [if_pos hn]; exact Or.inl rfl
            · exfalso
              apply h
              exact ⟨hS, hN, Or.inr (Or.inr (Or.inr (Or.inr (Or.inl ht6)))),
                fun hc => absurd hc ht10, fun hc => absurd hc ht45, fun _ => by omega⟩
          · rw [if_neg ht6]; exact Or.inr rfl

theorem validate_node_pv (node : grub_diskfilter_node) (h : node.pv ≠ none) :
    validate_node node = GRUB_ERR_NONE := by
  rcases node with ⟨nm, st, pv, lv⟩
  cases pv with
  | none => exact absurd rfl h
  | some a => rw [validate_node]

theorem validate_node_null (node : grub_diskfilter_node) (hpv : node.pv = none)
    (hlv : node.lv = none) : validate_node node = GRUB_ERR_UNKNOWN_DEVICE := by
  rcases node with ⟨nm, st, pv, lv⟩
  simp only [grub_diskfilter_node.pv, grub_diskfilter_node.lv] at hpv hlv
  subst hpv hlv
  rw [validate_node]

theorem validate_segment_nodes_first (pre : List grub_diskfilter_node)
    (node : grub_diskfilter_node) (post : List grub_diskfilter_node)
    (hpre : ∀ n ∈ pre, validate_node n = GRUB_ERR_NONE)
    (hnode : validate_node node ≠ GRUB_ERR_NONE) :
    validate_segment_nodes (pre ++ node :: post) = validate_node node := by
  induction pre with
  | nil =>
    rw [List.nil_append, validate_segment_nodes, if_pos hnode]
  | cons n rest ih =>
    have hn : ¬ (validate_node n ≠ GRUB_ERR_NONE) := by
      rw [hpre n (List.mem_cons_self _ _)]; simp
    rw [List.cons_append, validate_segment_nodes, if_neg hn]
    exact ih (fun m hm => hpre m (List.mem_cons_of_mem _ hm))

theorem validate_segment_nodes_none_iff (nodes : List grub_diskfilter_node) :
    validate_segment_nodes nodes = GRUB_ERR_NONE
      ↔ ∀ node ∈ nodes, validate_node node = GRUB_ERR_NONE := by
  induction nodes with
  | nil => simp [validate_segment_nodes]
  | cons n rest ih =>
    rw [validate_segment_nodes]
    by_cases hn : validate_node n ≠ GRUB_ERR_NONE
    · rw [if_pos hn]
      constructor
      · intro h; exact absurd h hn
      · intro h; exact h n (List.mem_cons_self _ _)
    · rw [if_neg hn, ih]
      have hn2 : validate_node n = GRUB_ERR_NONE := by
        by_contra hc; exact hn hc
      constructor
      · intro h node hnode
        rcases List.mem_cons.mp hnode with h1 | h1
        · rw [h1]; exact hn2
        · exact h node h1
      · intro h node hnode
        exact h node (List.mem_cons_of_mem _ hnode)

/-- C19 as stated fails: a RAID5 segment with stripe size 8 whose one node has
neither a member nor a volume reference is rejected with `GRUB_ERR_BAD_FS`, and
a STRIPED segment with stripe size 8 whose first node references a volume of
extent size 0 and whose second node has neither reference is rejected with
`GRUB_ERR_READ_ERROR`, the error of the first node; neither is rejected with
`GRUB_ERR_UNKNOWN_DEVICE`. -/
theorem C19_counterexample :
    null_node.pv = none ∧ null_node.lv = none
    ∧ null_node ∈ (segment_over GRUB_DISKFILTER_RAID5 0 8 [null_node]).nodes
    ∧ validate_segment (segment_over GRUB_DISKFILTER_RAID5 0 8 [null_node]) = GRUB_ERR_BAD_FS
    ∧ null_node ∈ (segment_over GRUB_DISKFILTER_STRIPED 0 8
        [lv_node (volume_of [] 0), null_node]).nodes
    ∧ validate_segment (segment_over GRUB_DISKFILTER_STRIPED 0 8
        [lv_node (volume_of [] 0), null_node]) = GRUB_ERR_READ_ERROR :=
  ⟨rfl, rfl, List.mem_cons_self _ _, by decide,
    List.mem_cons_of_mem _ (List.mem_cons_self _ _), by decide⟩

/-- C19 amended: `validate_segment` rejects with `GRUB_ERR_BAD_FS` every
segment with stripe size 0 or without nodes, every RAID4 or RAID5 segment with
at most 1 node, every RAID6 segment with at most 2 nodes and every RAID10
segment whose near-copy count exceeds `node_count`; it accepts every STRIPED or
MIRROR segment with a stripe size other than 0 and at least 1 node whose nodes
all reference a physical member. A segment that contains a node with neither a
member nor a volume reference is rejected: with the error of the checks on
stripe size, node count and level (`GRUB_ERR_BAD_FS` or
`GRUB_ERR_NOT_IMPLEMENTED_YET`) when it does not pass them, and otherwise with
the error of the first node that fails validation, which is
`GRUB_ERR_UNKNOWN_DEVICE` when that node is one with neither reference. -/
theorem C19_validate_segment (seg : grub_diskfilter_seg) :
    (seg.stripe_size = 0 ∨ seg.node_count = 0 → validate_segment seg = GRUB_ERR_BAD_FS)
    ∧ (seg.type = GRUB_DISKFILTER_RAID4 ∨ seg.type = GRUB_DISKFILTER_RAID5 →
        seg.node_count ≤ 1 → validate_segment seg = GRUB_ERR_BAD_FS)
    ∧ (seg.type = GRUB_DISKFILTER_RAID6 → seg.node_count ≤ 2 →
        validate_segment seg = GRUB_ERR_BAD_FS)
    ∧ (seg.type = GRUB_DISKFILTER_RAID10 → raid10_near seg.layout > seg.node_count →
        validate_segment seg = GRUB_ERR_BAD_FS)
    ∧ (seg.type = GRUB_DISKFILTER_STRIPED ∨ seg.type = GRUB_DISKFILTER_MIRROR →
        seg.stripe_size ≠ 0 → 1 ≤ seg.node_count → (∀ node ∈ seg.nodes, node.pv ≠ none) →
        validate_segment seg = GRUB_ERR_NONE)
    ∧ ((∃ node ∈ seg.nodes, node.pv = none ∧ node.lv = none) →
        validate_segment seg ≠ GRUB_ERR_NONE)
    ∧ (¬ segment_shape_ok seg →
        validate_segment seg = GRUB_ERR_BAD_FS
        ∨ validate_segment seg = GRUB_ERR_NOT_IMPLEMENTED_YET)
    ∧ (segment_shape_ok seg → ∀ pre node post, seg.nodes = pre ++ node :: post →
        (∀ n ∈ pre, validate_node n = GRUB_ERR_NONE) →
        (validate_node node ≠ GRUB_ERR_NONE → validate_segment seg = validate_node node)
        ∧ (node.pv = none → node.lv = none →
            validate_segment seg = GRUB_ERR_UNKNOWN_DEVICE)) := by
  have hfirst : segment_shape_ok seg → ∀ pre node post, seg.nodes = pre ++ node :: post →
      (∀ n ∈ pre, validate_node n = GRUB_ERR_NONE) →
      validate_node node ≠ GRUB_ERR_NONE → validate_segment seg = validate_node node := by
    intro hs pre node post hnodes hpre hnode
    rw [validate_segment_shape seg hs, hnodes]
    exact validate_segment_nodes_first pre node post hpre hnode
  refine ⟨?_, ?_, ?_, ?_, ?_, ?_, validate_segment_not_shape seg, ?_⟩
  · intro h0
    rcases seg with ⟨se, ec, type, layout, rms, nodes, ss⟩
    simp only [grub_diskfilter_segment.node_count] at h0
    simp only [validate_segment]
    rw [if_pos h0]
  · intro ht hn
    rcases seg with ⟨se, ec, type, layout, rms, nodes, ss⟩
    simp only [grub_diskfilter_segment.node_count] at hn ht
    simp only [validate_segment]
    by_cases h0 : ss = 0 ∨ nodes.length = 0
    · rw [if_pos h0]
    · have h10 : ¬ (type = GRUB_DISKFILTER_RAID10) := by
        rcases ht with h | h <;> simp [h, GRUB_DISKFILTER_RAID10, GRUB_DISKFILTER_RAID4,
          GRUB_DISKFILTER_RAID5]
      have hsm : ¬ (type = GRUB_DISKFILTER_STRIPED ∨ type = GRUB_DISKFILTER_MIRROR) := by
        rcases ht with h | h <;> simp [h, GRUB_DISKFILTER_STRIPED, GRUB_DISKFILTER_MIRROR,
          GRUB_DISKFILTER_RAID4, GRUB_DISKFILTER_RAID5]
      rw [if_neg h0, if_neg h10, if_neg hsm, if_pos ht, if_pos hn]
  · intro ht hn
    rcases seg with ⟨se, ec, type, layout, rms, nodes, ss⟩
    simp only [grub_diskfilter_segment.node_count] at hn ht
    simp only [validate_segment]
    by_cases h0 : ss = 0 ∨ nodes.length = 0
    · rw [if_pos h0]
    · have h10 : ¬ (type = GRUB_DISKFILTER_RAID10) := by
        simp [ht, GRUB_DISKFILTER_RAID10, GRUB_DISKFILTER_RAID6]
      have hsm : ¬ (type = GRUB_DISKFILTER_STRIPED ∨ type = GRUB_DISKFILTER_MIRROR) := by
        simp [ht, GRUB_DISKFILTER_STRIPED, GRUB_DISKFILTER_MIRROR, GRUB_DISKFILTER_RAID6]
      have h45 : ¬ (type = GRUB_DISKFILTER_RAID4 ∨ type = GRUB_DISKFILTER_RAID5) := by
        simp [ht, GRUB_DISKFILTER_RAID4, GRUB_DISKFILTER_RAID5, GRUB_DISKFILTER_RAID6]
      rw [if_neg h0, if_neg h10, if_neg hsm, if_neg h45, if_pos ht, if_pos hn]
  · intro ht hn
    rcases seg with ⟨se, ec, type, layout, rms, nodes, ss⟩
    simp only [grub_diskfilter_segment.node_count, raid10_near] at hn ht
    simp only [validate_segment]
    by_cases h0 : ss = 0 ∨ nodes.length = 0
    · rw [if_pos h0]
    · rw [if_neg h0, if_pos ht]
      by_cases ha : layout >>> 16 = 0 ∧ (layout >>> 8) &&& 0xFF = 0
      · rw [if_pos ha]
      · rw [if_neg ha, if_pos hn]
  · intro ht hS hN hpv
    have hshape : segment_shape_ok seg := by
      refine ⟨hS, by omega, ?_, ?_, ?_, ?_⟩
      · rcases ht with h | h
        · exact Or.inl h
        · exact Or.inr (Or.inl h)
      · intro hc
        rcases ht with h | h <;>
          simp [h, GRUB_DISKFILTER_STRIPED, GRUB_DISKFILTER_MIRROR,
            GRUB_DISKFILTER_RAID10] at hc
      · intro hc
        rcases ht with h | h <;> rcases hc with hc | hc <;>
          simp [h, GRUB_DISKFILTER_STRIPED, GRUB_DISKFILTER_MIRROR, GRUB_DISKFILTER_RAID4,
            GRUB_DISKFILTER_RAID5] at hc
      · intro hc
        rcases ht with h | h <;>
          simp [h, GRUB_DISKFILTER_STRIPED, GRUB_DISKFILTER_MIRROR,
            GRUB_DISKFILTER_RAID6] at hc
    rw [validate_segment_shape seg hshape, validate_segment_nodes_none_iff]
    intro node hnode
    exact validate_node_pv node (hpv node hnode)
  · intro ⟨node, hnode, hpv, hlv⟩ hv
    have hn := (validate_segment_nodes_none_iff seg.nodes).mp
      (validate_segment_ok seg hv).2.2.2.2.2.2 node hnode
    rw [validate_node_null node hpv hlv] at hn
    cases hn
  · intro hs pre node post hnodes hpre
    refine ⟨hfirst hs pre node post hnodes hpre, ?_⟩
    intro hpv hlv
    have hnull := validate_node_null node hpv hlv
    rw [hfirst hs pre node post hnodes hpre (by rw [hnull]; simp), hnull]

/-- Witness of C19: the STRIPED segment with stripe size 8 whose first node
references a member and whose second node has neither reference passes the
checks on stripe size, node count and level and is rejected with
`GRUB_ERR_UNKNOWN_DEVICE`. -/
theorem C19_validate_segment_witness :
    segment_shape_ok (segment_over GRUB_DISKFILTER_STRIPED 0 8 [pv_node 0, null_node])
    ∧ validate_node (pv_node 0) = GRUB_ERR_NONE
    ∧ validate_segment (segment_over GRUB_DISKFILTER_STRIPED 0 8 [pv_node 0, null_node])
      = GRUB_ERR_UNKNOWN_DEVICE :=
  ⟨by unfold segment_shape_ok; decide, rfl,
    ((C19_validate_segment
        (segment_over GRUB_DISKFILTER_STRIPED 0 8 [pv_node 0, null_node])).2.2.2.2.2.2.2
      (by unfold segment_shape_ok; decide) [pv_node 0] null_node [] rfl
      (by intro n hn; rw [List.mem_singleton.mp hn]; rfl)).2 rfl rfl⟩

/-- C20 as stated fails: a segment of the unsupported type 7 with stripe size 0
is rejected by `validate_segment` with `GRUB_ERR_BAD_FS`, not with
`GRUB_ERR_NOT_IMPLEMENTED_YET`. -/
theorem C20_counterexample :
    (segment_over 7 0 0 [pv_node 0]).type ≠ GRUB_DISKFILTER_STRIPED
    ∧ (segment_over 7 0 0 [pv_node 0]).type ≠ GRUB_DISKFILTER_MIRROR
    ∧ (segment_over 7 0 0 [pv_node 0]).type ≠ GRUB_DISKFILTER_RAID4
    ∧ (segment_over 7 0 0 [pv_node 0]).type ≠ GRUB_DISKFILTER_RAID5
    ∧ (segment_over 7 0 0 [pv_node 0]).type ≠ GRUB_DISKFILTER_RAID6
    ∧ (segment_over 7 0 0 [pv_node 0]).type ≠ GRUB_DISKFILTER_RAID10
    ∧ validate_segment (segment_over 7 0 0 [pv_node 0]) = GRUB_ERR_BAD_FS
    ∧ validate_segment (segment_over 7 0 0 [pv_node 0]) ≠ GRUB_ERR_NOT_IMPLEMENTED_YET :=
  ⟨by decide, by decide, by decide, by decide, by decide, by decide, by decide, by decide⟩

/-- C20 amended: a segment whose type is none of STRIPED, MIRROR, RAID4, RAID5,
RAID6 and RAID10 fails validation: with `GRUB_ERR_BAD_FS` when its stripe size
is 0 or it has no node, and with `GRUB_ERR_NOT_IMPLEMENTED_YET` otherwise;
`read_segment` on it fails with `GRUB_ERR_NOT_IMPLEMENTED_YET` without a call. -/
theorem C20_unsupported_level (seg : grub_diskfilter_seg)
    (ht : seg.type ≠ GRUB_DISKFILTER_STRIPED ∧ seg.type ≠ GRUB_DISKFILTER_MIRROR
      ∧ seg.type ≠ GRUB_DISKFILTER_RAID4 ∧ seg.type ≠ GRUB_DISKFILTER_RAID5
      ∧ seg.type ≠ GRUB_DISKFILTER_RAID6 ∧ seg.type ≠ GRUB_DISKFILTER_RAID10) :
    (seg.stripe_size = 0 ∨ seg.node_count = 0 → validate_segment seg = GRUB_ERR_BAD_FS)
    ∧ (seg.stripe_size ≠ 0 → seg.node_count ≠ 0 →
        validate_segment seg = GRUB_ERR_NOT_IMPLEMENTED_YET)
    ∧ validate_segment seg ≠ GRUB_ERR_NONE
    ∧ ∀ (env : Env) (sector size buf : Nat),
        read_segment env seg sector size buf = some (GRUB_ERR_NOT_IMPLEMENTED_YET, []) := by
  obtain ⟨h0, h1, h4, h5, h6, h10⟩ := ht
  have hbad : seg.stripe_size = 0 ∨ seg.node_count = 0 →
      validate_segment seg = GRUB_ERR_BAD_FS := by
    intro hz
    rcases seg with ⟨se, ec, type, layout, rms, nodes, ss⟩
    simp only [grub_diskfilter_segment.node_count] at hz
    simp only [validate_segment]
    rw [if_pos hz]
  have hni : seg.stripe_size ≠ 0 → seg.node_count ≠ 0 →
      validate_segment seg = GRUB_ERR_NOT_IMPLEMENTED_YET := by
    intro hS hN
    rcases seg with ⟨se, ec, type, layout, rms, nodes, ss⟩
    simp only [grub_diskfilter_segment.node_count] at hS hN h0 h1 h4 h5 h6 h10
    simp only [validate_segment]
    have hz : ¬ (ss = 0 ∨ nodes.length = 0) := by
      intro hc; rcases hc with hc | hc
      · exact hS hc
      · exact hN hc
    rw [if_neg hz, if_neg h10, if_neg (fun hc => hc.elim h0 h1),
      if_neg (fun hc => hc.elim h4 h5), if_neg h6]
  refine ⟨hbad, hni, ?_, ?_⟩
  · by_cases hz : seg.stripe_size = 0 ∨ seg.node_count = 0
    · rw [hbad hz]; simp
    · rw [hni (fun hc => hz (Or.inl hc)) (fun hc => hz (Or.inr hc))]; simp
  · intro env sector size buf
    rw [read_segment, read_segment_with]
    rw [if_neg (fun hc => h0 hc.1), if_neg (fun hc => hc.elim h0 (fun hc => hc.elim h1 h10)),
      if_neg (fun hc => hc.elim h4 (fun hc => hc.elim h5 h6))]

/-- Witness of C20: the segment of type 7 with stripe size 8 over one member
fails validation with `GRUB_ERR_NOT_IMPLEMENTED_YET`, and so does its read,
without a call. -/
theorem C20_unsupported_level_witness :
    validate_segment (segment_over 7 0 8 [pv_node 0]) = GRUB_ERR_NOT_IMPLEMENTED_YET
    ∧ read_segment env_ok (segment_over 7 0 8 [pv_node 0]) 0 1 0
      = some (GRUB_ERR_NOT_IMPLEMENTED_YET, []) :=
  ⟨(C20_unsupported_level (segment_over 7 0 8 [pv_node 0])
      ⟨by decide, by decide, by decide, by decide, by decide, by decide⟩).2.1
      (by decide) (by decide),
    (C20_unsupported_level (segment_over 7 0 8 [pv_node 0])
      ⟨by decide, by decide, by decide, by decide, by decide, by decide⟩).2.2.2 env_ok 0 1 0⟩

/-! ## Registration -/

theorem vg_register_lv_fields (al : List grub_diskfilter_vg) (n : Nat)
    (lv : grub_diskfilter_lv) :
    (vg_register_lv al n lv).1.segments = lv.segments
    ∧ (vg_register_lv al n lv).1.vg = lv.vg
    ∧ (vg_register_lv al n lv).1.number = n
    ∧ (vg_register_lv al n lv).1.became_readable_at = lv.became_readable_at
    ∧ (vg_register_lv al n lv).1.idname = lv.idname
    ∧ (vg_register_lv al n lv).1.name = lv.name
    ∧ (vg_register_lv al n lv).1.size = lv.size
    ∧ (vg_register_lv al n lv).1.scanned = lv.scanned
    ∧ (vg_register_lv al n lv).1.visible = lv.visible
    ∧ (vg_register_lv al n lv).2 = n + 1 := by
  unfold vg_register_lv
  cases hf : lv.fullname with
  | none => simp [hf]
  | some X =>
    simp only [hf]
    split_ifs <;> simp

theorem vg_register_lv_fullname (al : List grub_diskfilter_vg) (n : Nat)
    (lv : grub_diskfilter_lv) :
    (vg_register_lv al n lv).1.fullname
      = match lv.fullname with
        | none => none
        | some X =>
          if (vg_register_scan al X.toList).2 = true then
            some (vg_register_new_name X.toList ((vg_register_scan al X.toList).1 + 1))
          else some X := by
  unfold vg_register_lv
  cases hf : lv.fullname with
  | none => simp [hf]
  | some X =>
    simp only [hf]
    split_ifs <;> simp [hf]

theorem vg_register_lvs_all_valid (al : List grub_diskfilter_vg)
    (lvs : List grub_diskfilter_lv) (n : Nat)
    (h : ∀ lv ∈ lvs, validate_lv lv = GRUB_ERR_NONE) :
    (vg_register_lvs al lvs n).1 = GRUB_ERR_NONE
    ∧ (vg_register_lvs al lvs n).2.2 = n + lvs.length
    ∧ (vg_register_lvs al lvs n).2.1.length = lvs.length
    ∧ ∀ i lv, lvs[i]? = some lv →
        (vg_register_lvs al lvs n).2.1[i]? = some (vg_register_lv al (n + i) lv).1 := by
  induction lvs generalizing n with
  | nil => simp [vg_register_lvs]
  | cons lv rest ih =>
    have hv : ¬ (validate_lv lv ≠ GRUB_ERR_NONE) := by
      rw [h lv (List.mem_cons_self _ _)]; simp
    obtain ⟨h1, h2, h3, h4⟩ := ih (n + 1) (fun l hl => h l (List.mem_cons_of_mem _ hl))
    have hn : (vg_register_lv al n lv).2 = n + 1 := (vg_register_lv_fields al n lv).2.2.2.2.2.2.2.2.2
    rw [vg_register_lvs, if_neg hv]
    simp only [hn]
    refine ⟨h1, ?_, ?_, ?_⟩
    · rw [h2, List.length_cons]; omega
    · simp only [List.length_cons, h3]
    · intro i l hl
      cases i with
      | zero =>
        simp only [List.getElem?_cons_zero, Option.some.injEq] at hl
        subst hl
        simp
      | succ i =>
        simp only [List.getElem?_cons_succ] at hl ⊢
        rw [h4 i l hl]
        congr 3
        omega

theorem vg_register_lvs_first_invalid (al : List grub_diskfilter_vg)
    (pre : List grub_diskfilter_lv) (lv : grub_diskfilter_lv) (post : List grub_diskfilter_lv)
    (n : Nat) (hpre : ∀ l ∈ pre, validate_lv l = GRUB_ERR_NONE)
    (hlv : validate_lv lv ≠ GRUB_ERR_NONE) :
    vg_register_lvs al (pre ++ lv :: post) n
      = (validate_lv lv, (vg_register_lvs al pre n).2.1 ++ lv :: post, n + pre.length) := by
  induction pre generalizing n with
  | nil =>
    simp only [List.nil_append, vg_register_lvs, if_pos hlv, List.length_nil, Nat.add_zero]
  | cons l rest ih =>
    have hv : ¬ (validate_lv l ≠ GRUB_ERR_NONE) := by
      rw [hpre l (List.mem_cons_self _ _)]; simp
    have hn : (vg_register_lv al n l).2 = n + 1 := (vg_register_lv_fields al n l).2.2.2.2.2.2.2.2.2
    have hi := ih (n + 1) (fun x hx => hpre x (List.mem_cons_of_mem _ hx))
    have hadd : n + 1 + rest.length = n + (rest.length + 1) := by omega
    rw [List.cons_append, vg_register_lvs, if_neg hv]
    simp only [hn]
    rw [hi, vg_register_lvs, if_neg hv]
    simp only [hn, hadd, List.cons_append, List.length_cons]

theorem first_invalid_split (lvs : List grub_diskfilter_lv)
    (h : ¬ ∀ lv ∈ lvs, validate_lv lv = GRUB_ERR_NONE) :
    ∃ pre lv post, lvs = pre ++ lv :: post ∧ (∀ l ∈ pre, validate_lv l = GRUB_ERR_NONE)
      ∧ validate_lv lv ≠ GRUB_ERR_NONE := by
  induction lvs with
  | nil => exact absurd (fun lv hlv => by cases hlv) h
  | cons l rest ih =>
    by_cases hl : validate_lv l = GRUB_ERR_NONE
    · have hrest : ¬ ∀ lv ∈ rest, validate_lv lv = GRUB_ERR_NONE := by
        intro hc
        apply h
        intro lv hlv
        rcases List.mem_cons.mp hlv with h1 | h1
        · rw [h1]; exact hl
        · exact hc lv h1
      obtain ⟨pre, lv, post, h1, h2, h3⟩ := ih hrest
      refine ⟨l :: pre, lv, post, by rw [h1]; rfl, ?_, h3⟩
      intro x hx
      rcases List.mem_cons.mp hx with h4 | h4
      · rw [h4]; exact hl
      · exact h2 x h4
    · exact ⟨[], l, rest, rfl, fun x hx => (by cases hx), hl⟩

theorem vg_register_lvs_ok_iff (al : List grub_diskfilter_vg)
    (lvs : List grub_diskfilter_lv) (n : Nat) :
    (vg_register_lvs al lvs n).1 = GRUB_ERR_NONE ↔ ∀ lv ∈ lvs, validate_lv lv = GRUB_ERR_NONE := by
  constructor
  · intro h
    by_contra hc
    obtain ⟨pre, lv, post, h1, h2, h3⟩ := first_invalid_split lvs hc
    rw [h1, vg_register_lvs_first_invalid al pre lv post n h2 h3] at h
    exact h3 h
  · intro h
    exact (vg_register_lvs_all_valid al lvs n h).1

theorem vg_register_lvs_error (al : List grub_diskfilter_vg) (lvs : List grub_diskfilter_lv)
    (n : Nat) : (vg_register_lvs al lvs n).1 = first_error (lvs.map validate_lv) := by
  induction lvs generalizing n with
  | nil => rfl
  | cons lv rest ih =>
    rw [vg_register_lvs, List.map_cons, first_error]
    by_cases hv : validate_lv lv ≠ GRUB_ERR_NONE
    · rw [if_pos hv, if_pos hv]
    · rw [if_neg hv, if_neg hv]
      exact ih _

theorem ite_err_fst {α : Type} (e : grub_err_t) (a b : α) :
    (if e ≠ GRUB_ERR_NONE then (e, a) else (GRUB_ERR_NONE, b)).1 = e := by
  by_cases h : e = GRUB_ERR_NONE
  · simp [h]
  · simp [h]

theorem vg_register_error (vg : grub_diskfilter_vg) (st : State) :
    (grub_diskfilter_vg_register vg st).1
      = first_error (vg.lvs.map (fun lv => validate_lv (vg_register_normalize lv))) := by
  have h := vg_register_lvs_error st.array_list (vg.lvs.map vg_register_normalize) st.lv_num
  rw [List.map_map] at h
  unfold grub_diskfilter_vg_register
  simp only []
  rw [ite_err_fst]
  exact h

theorem vg_register_ok_iff (vg : grub_diskfilter_vg) (st : State) :
    (grub_diskfilter_vg_register vg st).1 = GRUB_ERR_NONE
      ↔ ∀ lv ∈ vg.lvs, validate_lv (vg_register_normalize lv) = GRUB_ERR_NONE := by
  have h : (grub_diskfilter_vg_register vg st).1
      = (vg_register_lvs st.array_list (vg.lvs.map vg_register_normalize) st.lv_num).1 := by
    rw [vg_register_error, vg_register_lvs_error, List.map_map]
    rfl
  rw [h, vg_register_lvs_ok_iff]
  simp

theorem vg_register_stripe_size_eq (seg : grub_diskfilter_seg) :
    vg_register_stripe_size seg
      = { seg with stripe_size :=
            if seg.type = GRUB_DISKFILTER_MIRROR then 64
            else if seg.type = GRUB_DISKFILTER_STRIPED ∧ seg.node_count = 1
                ∧ seg.stripe_size = 0 then 64
            else seg.stripe_size } := by
  rcases seg with ⟨se, ec, type, layout, rms, nodes, ss⟩
  unfold vg_register_stripe_size
  by_cases h1 : type = 1
  · subst h1
    simp [GRUB_DISKFILTER_MIRROR, GRUB_DISKFILTER_STRIPED]
  · have h1m : ¬ (type = GRUB_DISKFILTER_MIRROR) := h1
    simp only [h1, h1m, if_false]
    by_cases h2 : type = GRUB_DISKFILTER_STRIPED
        ∧ grub_diskfilter_segment.node_count ⟨se, ec, type, layout, rms, nodes, ss⟩ = 1 ∧ ss = 0
    · rw [if_pos h2, if_pos h2]
    · rw [if_neg h2, if_neg h2]

theorem vg_register_ok (vg : grub_diskfilter_vg) (st : State)
    (h : (grub_diskfilter_vg_register vg st).1 = GRUB_ERR_NONE) :
    grub_diskfilter_vg_register vg st
      = (GRUB_ERR_NONE, (grub_diskfilter_vg_register vg st).2.1,
          { st with lv_num := st.lv_num + vg.lvs.length,
                    array_list := (grub_diskfilter_vg_register vg st).2.1 :: st.array_list })
    ∧ (grub_diskfilter_vg_register vg st).2.1.uuid = vg.uuid
    ∧ (grub_diskfilter_vg_register vg st).2.1.name = vg.name
    ∧ (grub_diskfilter_vg_register vg st).2.1.extent_size = vg.extent_size
    ∧ (grub_diskfilter_vg_register vg st).2.1.pvs = vg.pvs
    ∧ (grub_diskfilter_vg_register vg st).2.1.lvs.length = vg.lvs.length
    ∧ ∀ i lv, vg.lvs[i]? = some lv →
        (grub_diskfilter_vg_register vg st).2.1.lvs[i]?
          = some (vg_register_lv st.array_list (st.lv_num + i) (vg_register_normalize lv)).1 := by
  have hv := (vg_register_ok_iff vg st).mp h
  have hv2 : ∀ lv ∈ vg.lvs.map vg_register_normalize, validate_lv lv = GRUB_ERR_NONE := by
    intro lv hlv
    obtain ⟨l, hl, rfl⟩ := List.mem_map.mp hlv
    exact hv l hl
  obtain ⟨h1, h2, h3, h4⟩ := vg_register_lvs_all_valid st.array_list
    (vg.lvs.map vg_register_normalize) st.lv_num hv2
  have hne : ¬ ((vg_register_lvs st.array_list (vg.lvs.map vg_register_normalize) st.lv_num).1
      ≠ GRUB_ERR_NONE) := by
    rw [h1]; simp
  have hreg : grub_diskfilter_vg_register vg st
      = (GRUB_ERR_NONE,
          { vg with lvs := (vg_register_lvs st.array_list (vg.lvs.map vg_register_normalize)
              st.lv_num).2.1 },
          { st with lv_num := st.lv_num + vg.lvs.length,
                    array_list :=
                      { vg with lvs := (vg_register_lvs st.array_list
                          (vg.lvs.map vg_register_normalize) st.lv_num).2.1 } :: st.array_list }) := by
    unfold grub_diskfilter_vg_register
    simp only []
    rw [if_neg hne, h2, List.length_map]
  rw [hreg]
  refine ⟨rfl, rfl, rfl, rfl, rfl, ?_, ?_⟩
  · simp only [h3, List.length_map]
  · intro i lv hlv
    exact h4 i (vg_register_normalize lv) (by rw [List.getElem?_map, hlv]; rfl)

theorem insert_array_some (grub_disk_open : String → Except grub_err_t Nat) (disk : insert_disk)
    (id : grub_diskfilter_pv_id) (array : grub_diskfilter_vg) (start_sector : Nat) (st : State)
    (a : Nat) (hfind : insert_array_find id st.pvs array.pvs = some a) :
    insert_array grub_disk_open disk id array start_sector st
      = insert_array_member grub_disk_open disk array start_sector a st := by
  unfold insert_array
  rw [hfind]

theorem insert_array_none (grub_disk_open : String → Except grub_err_t Nat) (disk : insert_disk)
    (id : grub_diskfilter_pv_id) (array : grub_diskfilter_vg) (start_sector : Nat) (st : State)
    (hfind : insert_array_find id st.pvs array.pvs = none) :
    insert_array grub_disk_open disk id array start_sector st = (GRUB_ERR_NONE, array, st, []) := by
  unfold insert_array
  rw [hfind]

theorem insert_array_member_noop (grub_disk_open : String → Except grub_err_t Nat)
    (disk : insert_disk) (array : grub_diskfilter_vg) (start_sector : Nat) (a : Nat) (st : State)
    (h : (st.pvs a).disk ≠ none ∧ disk.native_sectors ≥ (st.pvs a).part_size) :
    insert_array_member grub_disk_open disk array start_sector a st
      = (GRUB_ERR_NONE, array, st, []) := by
  unfold insert_array_member
  rw [if_pos h]

theorem insert_array_member_ok (grub_disk_open : String → Except grub_err_t Nat)
    (disk : insert_disk) (array : grub_diskfilter_vg) (start_sector : Nat) (a : Nat) (st : State)
    (h : ¬ ((st.pvs a).disk ≠ none ∧ disk.native_sectors ≥ (st.pvs a).part_size))
    (hd : Nat) (hopen : grub_disk_open disk.name = .ok hd) :
    insert_array_member grub_disk_open disk array start_sector a st
      = (GRUB_ERR_NONE,
          { array with lvs := (insert_array_stamp
              (Function.update st.pvs a (insert_array_update disk start_sector hd (st.pvs a)))
              array.lvs st.inscnt).1 },
          { st with pvs := Function.update st.pvs a
                      (insert_array_update disk start_sector hd (st.pvs a)),
                    inscnt := (insert_array_stamp
                      (Function.update st.pvs a
                        (insert_array_update disk start_sector hd (st.pvs a)))
                      array.lvs st.inscnt).2 },
          [disk.name]) := by
  unfold insert_array_member
  rw [if_neg h, hopen]

theorem insert_array_member_error (grub_disk_open : String → Except grub_err_t Nat)
    (disk : insert_disk) (array : grub_diskfilter_vg) (start_sector : Nat) (a : Nat) (st : State)
    (h : ¬ ((st.pvs a).disk ≠ none ∧ disk.native_sectors ≥ (st.pvs a).part_size))
    (e : grub_err_t) (hopen : grub_disk_open disk.name = .error e) :
    insert_array_member grub_disk_open disk array start_sector a st
      = (e, array,
          { st with pvs := Function.update st.pvs a { st.pvs a with disk := none },
                    grub_errno := e },
          [disk.name]) := by
  unfold insert_array_member
  rw [if_neg h, hopen]

/-- C27 as stated fails. A member that has a device and the recorded size 100
is not left alone by the insertion of a device of 50 sectors: the device is
opened and the recorded size becomes 50. A member that has a device and the
recorded size 50 is left alone by the insertion of a device of 100 sectors. A
member without device is left without device, with its recorded partition start
and size, when the device cannot be opened, and the error is returned. -/
theorem C27_counterexample :
    insert_array_find (id_ordinal 0) (state_of_pv (pv_ordinal 0 (some 1) 100)).pvs c27_vg.pvs
      = some 0
    ∧ (insert_array (open_but "bad") ⟨"hd0", 2048, 50⟩ (id_ordinal 0) c27_vg (2 ^ 64 - 1)
        (state_of_pv (pv_ordinal 0 (some 1) 100))).2.2.2 = ["hd0"]
    ∧ ((insert_array (open_but "bad") ⟨"hd0", 2048, 50⟩ (id_ordinal 0) c27_vg (2 ^ 64 - 1)
        (state_of_pv (pv_ordinal 0 (some 1) 100))).2.2.1.pvs 0).part_size = 50
    ∧ insert_array (open_but "bad") ⟨"hd0", 2048, 100⟩ (id_ordinal 0) c27_vg (2 ^ 64 - 1)
        (state_of_pv (pv_ordinal 0 (some 1) 50))
      = (GRUB_ERR_NONE, c27_vg, state_of_pv (pv_ordinal 0 (some 1) 50), [])
    ∧ (insert_array (open_but "bad") ⟨"bad", 2048, 50⟩ (id_ordinal 0) c27_vg (2 ^ 64 - 1)
        (state_of_pv (pv_ordinal 0 none 100))).1 = GRUB_ERR_UNKNOWN_DEVICE
    ∧ (insert_array (open_but "bad") ⟨"bad", 2048, 50⟩ (id_ordinal 0) c27_vg (2 ^ 64 - 1)
        (state_of_pv (pv_ordinal 0 none 100))).2.2.1.pvs 0 = pv_ordinal 0 none 100 :=
  ⟨by decide, by decide, by decide, rfl, by decide, by decide⟩

/-- C27 amended: for every volume group and matching member identity, with the
first member that matches, the insertion is a no-op (no device opened, no field
changed) exactly when the member already has an attached device and the newly
observed device size is greater than or equal to its recorded size; in every
other case the newly observed device is opened: when it opens, the member gets
its handle and the member's recorded partition start and size are set to those
of the newly observed device; when it does not open, the member is left without
device, its other fields and the group are unchanged, and the error is
returned. -/
theorem C27_insert_noop (grub_disk_open : String → Except grub_err_t Nat) (disk : insert_disk)
    (id : grub_diskfilter_pv_id) (array : grub_diskfilter_vg) (start_sector : Nat) (st : State)
    (a : Nat) (hfind : insert_array_find id st.pvs array.pvs = some a) :
    ((insert_array grub_disk_open disk id array start_sector st).2.2.2 = []
      ↔ ((st.pvs a).disk ≠ none ∧ disk.native_sectors ≥ (st.pvs a).part_size))
    ∧ (((st.pvs a).disk ≠ none ∧ disk.native_sectors ≥ (st.pvs a).part_size) →
        insert_array grub_disk_open disk id array start_sector st
          = (GRUB_ERR_NONE, array, st, []))
    ∧ (¬ ((st.pvs a).disk ≠ none ∧ disk.native_sectors ≥ (st.pvs a).part_size) →
        (insert_array grub_disk_open disk id array start_sector st).2.2.2 = [disk.name]
        ∧ (∀ hd : Nat, grub_disk_open disk.name = .ok hd →
            (insert_array grub_disk_open disk id array start_sector st).1 = GRUB_ERR_NONE
            ∧ ((insert_array grub_disk_open disk id array start_sector st).2.2.1.pvs a).disk
                = some hd
            ∧ ((insert_array grub_disk_open disk id array start_sector st).2.2.1.pvs a).part_start
                = disk.partition_start
            ∧ ((insert_array grub_disk_open disk id array start_sector st).2.2.1.pvs a).part_size
                = disk.native_sectors)
        ∧ (∀ e : grub_err_t, grub_disk_open disk.name = .error e →
            (insert_array grub_disk_open disk id array start_sector st).1 = e
            ∧ (insert_array grub_disk_open disk id array start_sector st).2.1 = array
            ∧ (insert_array grub_disk_open disk id array start_sector st).2.2.1.pvs a
                = { st.pvs a with disk := none })) := by
  rw [insert_array_some grub_disk_open disk id array start_sector st a hfind]
  have hcalls : ¬ ((st.pvs a).disk ≠ none ∧ disk.native_sectors ≥ (st.pvs a).part_size) →
      (insert_array_member grub_disk_open disk array start_sector a st).2.2.2 = [disk.name] := by
    intro h
    cases hopen : grub_disk_open disk.name with
    | error e => rw [insert_array_member_error _ _ _ _ _ _ h e hopen]
    | ok hd => rw [insert_array_member_ok _ _ _ _ _ _ h hd hopen]
  refine ⟨⟨?_, ?_⟩, ?_, ?_⟩
  · intro h
    by_contra hc
    rw [hcalls hc] at h
    simp at h
  · intro h
    rw [insert_array_member_noop _ _ _ _ _ _ h]
  · intro h
    exact insert_array_member_noop _ _ _ _ _ _ h
  · intro h
    refine ⟨hcalls h, ?_, ?_⟩
    · intro hd hopen
      rw [insert_array_member_ok _ _ _ _ _ _ h hd hopen]
      simp [insert_array_update]
    · intro e hopen
      rw [insert_array_member_error _ _ _ _ _ _ h e hopen]
      simp

/-- Witness of C27: the member with a device and the recorded size 100, and the
insertion of a device of 50 sectors that opens with the handle 7. -/
theorem C27_insert_noop_witness :
    (insert_array (open_but "bad") ⟨"hd0", 2048, 50⟩ (id_ordinal 0) c27_vg (2 ^ 64 - 1)
        (state_of_pv (pv_ordinal 0 (some 1) 100))).2.2.2 = ["hd0"]
    ∧ ((insert_array (open_but "bad") ⟨"hd0", 2048, 50⟩ (id_ordinal 0) c27_vg (2 ^ 64 - 1)
        (state_of_pv (pv_ordinal 0 (some 1) 100))).2.2.1.pvs 0).disk = some 7
    ∧ ((insert_array (open_but "bad") ⟨"hd0", 2048, 50⟩ (id_ordinal 0) c27_vg (2 ^ 64 - 1)
        (state_of_pv (pv_ordinal 0 (some 1) 100))).2.2.1.pvs 0).part_start = 2048
    ∧ ((insert_array (open_but "bad") ⟨"hd0", 2048, 50⟩ (id_ordinal 0) c27_vg (2 ^ 64 - 1)
        (state_of_pv (pv_ordinal 0 (some 1) 100))).2.2.1.pvs 0).part_size = 50 := by
  have h := (C27_insert_noop (open_but "bad") ⟨"hd0", 2048, 50⟩ (id_ordinal 0) c27_vg
    (2 ^ 64 - 1) (state_of_pv (pv_ordinal 0 (some 1) 100)) 0 (by decide)).2.2 (by decide)
  have h2 := h.2.1 7 rfl
  exact ⟨h.1, h2.2.1, h2.2.2.1, h2.2.2.2⟩

theorem insert_array_find_congr (id : grub_diskfilter_pv_id) (pvs pvs2 : Nat → grub_diskfilter_pv)
    (h : ∀ b, (pvs2 b).id = (pvs b).id) (l : List Nat) :
    insert_array_find id pvs2 l = insert_array_find id pvs l := by
  induction l with
  | nil => rfl
  | cons a rest ih =>
    have hm : insert_array_match id (pvs2 a) = insert_array_match id (pvs a) := by
      unfold insert_array_match
      rw [h a]
    rw [insert_array_find, insert_array_find, hm, ih]

theorem insert_array_update_id (disk : insert_disk) (start_sector hd : Nat)
    (pv : grub_diskfilter_pv) :
    (insert_array_update disk start_sector hd pv).id = pv.id
    ∧ (insert_array_update disk start_sector hd pv).disk = some hd
    ∧ (insert_array_update disk start_sector hd pv).part_start = disk.partition_start
    ∧ (insert_array_update disk start_sector hd pv).part_size = disk.native_sectors
    ∧ (insert_array_update disk start_sector hd pv).name = pv.name :=
  ⟨rfl, rfl, rfl, rfl, rfl⟩

theorem update_id (pvs : Nat → grub_diskfilter_pv) (a : Nat) (pv : grub_diskfilter_pv)
    (h : pv.id = (pvs a).id) (b : Nat) : (Function.update pvs a pv b).id = (pvs b).id := by
  by_cases hb : b = a
  · subst hb; rw [Function.update_same]; exact h
  · rw [Function.update_noteq hb]

theorem insert_array_pvs (grub_disk_open : String → Except grub_err_t Nat) (disk : insert_disk)
    (id : grub_diskfilter_pv_id) (array : grub_diskfilter_vg) (start_sector : Nat) (st : State) :
    (insert_array grub_disk_open disk id array start_sector st).2.1.pvs = array.pvs
    ∧ (insert_array grub_disk_open disk id array start_sector st).2.1.uuid = array.uuid
    ∧ (insert_array grub_disk_open disk id array start_sector st).2.1.name = array.name
    ∧ (insert_array grub_disk_open disk id array start_sector st).2.1.extent_size
        = array.extent_size
    ∧ (insert_array grub_disk_open disk id array start_sector st).2.2.1.array_list
        = st.array_list
    ∧ (insert_array grub_disk_open disk id array start_sector st).2.2.1.lv_num = st.lv_num
    ∧ ∀ b, ((insert_array grub_disk_open disk id array start_sector st).2.2.1.pvs b).id
        = (st.pvs b).id := by
  cases hfind : insert_array_find id st.pvs array.pvs with
  | none =>
    rw [insert_array_none _ _ _ _ _ _ hfind]
    exact ⟨rfl, rfl, rfl, rfl, rfl, rfl, fun _ => rfl⟩
  | some a =>
    rw [insert_array_some _ _ _ _ _ _ a hfind]
    by_cases h : (st.pvs a).disk ≠ none ∧ disk.native_sectors ≥ (st.pvs a).part_size
    · rw [insert_array_member_noop _ _ _ _ _ _ h]
      exact ⟨rfl, rfl, rfl, rfl, rfl, rfl, fun _ => rfl⟩
    · cases hopen : grub_disk_open disk.name with
      | error e =>
        rw [insert_array_member_error _ _ _ _ _ _ h e hopen]
        exact ⟨rfl, rfl, rfl, rfl, rfl, rfl,
          fun b => update_id st.pvs a { st.pvs a with disk := none } rfl b⟩
      | ok hd =>
        rw [insert_array_member_ok _ _ _ _ _ _ h hd hopen]
        exact ⟨rfl, rfl, rfl, rfl, rfl, rfl,
          fun b => update_id st.pvs a (insert_array_update disk start_sector hd (st.pvs a)) rfl b⟩

/-- C28 as stated fails. The member has a device and the recorded size 100. The
first insertion, of a device of 50 sectors that cannot be opened, leaves the
member without device; the second insertion of the same identity, of a device
of 60 sectors, gives the member a device and the recorded size 60: the state
after the second insertion is not the state after the first, and the recorded
size has decreased from 100 to 60. -/
theorem C28_counterexample :
    (50 : Nat) ≤ 60
    ∧ ((insert_array (open_but "bad") ⟨"bad", 0, 50⟩ (id_ordinal 0) c27_vg (2 ^ 64 - 1)
        (state_of_pv (pv_ordinal 0 (some 1) 100))).2.2.1.pvs 0) = pv_ordinal 0 none 100
    ∧ ((insert_array (open_but "bad") ⟨"hd0", 0, 60⟩ (id_ordinal 0)
        (insert_array (open_but "bad") ⟨"bad", 0, 50⟩ (id_ordinal 0) c27_vg (2 ^ 64 - 1)
          (state_of_pv (pv_ordinal 0 (some 1) 100))).2.1 (2 ^ 64 - 1)
        (insert_array (open_but "bad") ⟨"bad", 0, 50⟩ (id_ordinal 0) c27_vg (2 ^ 64 - 1)
          (state_of_pv (pv_ordinal 0 (some 1) 100))).2.2.1).2.2.1.pvs 0)
      = pv_ordinal 0 (some 7) 60
    ∧ (insert_array (open_but "bad") ⟨"hd0", 0, 60⟩ (id_ordinal 0)
        (insert_array (open_but "bad") ⟨"bad", 0, 50⟩ (id_ordinal 0) c27_vg (2 ^ 64 - 1)
          (state_of_pv (pv_ordinal 0 (some 1) 100))).2.1 (2 ^ 64 - 1)
        (insert_array (open_but "bad") ⟨"bad", 0, 50⟩ (id_ordinal 0) c27_vg (2 ^ 64 - 1)
          (state_of_pv (pv_ordinal 0 (some 1) 100))).2.2.1).2.2.1
      ≠ (insert_array (open_but "bad") ⟨"bad", 0, 50⟩ (id_ordinal 0) c27_vg (2 ^ 64 - 1)
          (state_of_pv (pv_ordinal 0 (some 1) 100))).2.2.1 := by
  refine ⟨by decide, by decide, by decide, ?_⟩
  intro h
  have h2 := congrArg (fun s : State => (s.pvs 0).part_size) h
  revert h2
  decide

/-- C28 amended: for every volume group, inserting the same member identity
twice, the first time with a device that can be opened and the second time with
an observed device size greater than or equal to the first, leaves the state
after the second insertion equal to the state after the first, the second
insertion opening no device and returning success; no insertion ever changes
the list of the physical members of the volume group; and under these
conditions no member has a smaller recorded size after the second insertion
than after the first. -/
theorem C28_insert_twice (grub_disk_open : String → Except grub_err_t Nat)
    (disk disk2 : insert_disk) (id : grub_diskfilter_pv_id) (array : grub_diskfilter_vg)
    (start_sector start_sector2 : Nat) (st : State)
    (hopen : ∀ e : grub_err_t, grub_disk_open disk.name ≠ .error e)
    (hsize : disk.native_sectors ≤ disk2.native_sectors) :
    insert_array grub_disk_open disk2 id
        (insert_array grub_disk_open disk id array start_sector st).2.1 start_sector2
        (insert_array grub_disk_open disk id array start_sector st).2.2.1
      = (GRUB_ERR_NONE, (insert_array grub_disk_open disk id array start_sector st).2.1,
          (insert_array grub_disk_open disk id array start_sector st).2.2.1, [])
    ∧ (∀ (o : String → Except grub_err_t Nat) (d : insert_disk) (i : grub_diskfilter_pv_id)
        (v : grub_diskfilter_vg) (s : Nat) (t : State),
        (insert_array o d i v s t).2.1.pvs = v.pvs)
    ∧ (∀ b : Nat,
        ((insert_array grub_disk_open disk id array start_sector st).2.2.1.pvs b).part_size
        ≤ ((insert_array grub_disk_open disk2 id
            (insert_array grub_disk_open disk id array start_sector st).2.1 start_sector2
            (insert_array grub_disk_open disk id array start_sector st).2.2.1).2.2.1.pvs
              b).part_size) := by
  have hidem : insert_array grub_disk_open disk2 id
        (insert_array grub_disk_open disk id array start_sector st).2.1 start_sector2
        (insert_array grub_disk_open disk id array start_sector st).2.2.1
      = (GRUB_ERR_NONE, (insert_array grub_disk_open disk id array start_sector st).2.1,
          (insert_array grub_disk_open disk id array start_sector st).2.2.1, []) := by
    obtain ⟨hpvs, _, _, _, _, _, hids⟩ :=
      insert_array_pvs grub_disk_open disk id array start_sector st
    have hfind2 : insert_array_find id
        (insert_array grub_disk_open disk id array start_sector st).2.2.1.pvs
        (insert_array grub_disk_open disk id array start_sector st).2.1.pvs
        = insert_array_find id st.pvs array.pvs := by
      rw [hpvs]
      exact insert_array_find_congr id _ _ hids _
    cases hfind : insert_array_find id st.pvs array.pvs with
    | none =>
      rw [hfind] at hfind2
      exact insert_array_none _ _ _ _ _ _ hfind2
    | some a =>
      rw [hfind] at hfind2
      rw [insert_array_some _ _ _ _ _ _ a hfind2]
      apply insert_array_member_noop
      rw [insert_array_some _ _ _ _ _ _ a hfind]
      by_cases h : (st.pvs a).disk ≠ none ∧ disk.native_sectors ≥ (st.pvs a).part_size
      · rw [insert_array_member_noop _ _ _ _ _ _ h]
        exact ⟨h.1, Nat.le_trans h.2 hsize⟩
      · cases ho : grub_disk_open disk.name with
        | error e => exact absurd ho (hopen e)
        | ok hd =>
          rw [insert_array_member_ok _ _ _ _ _ _ h hd ho]
          simp only [Function.update_same]
          exact ⟨by simp [insert_array_update], hsize⟩
  refine ⟨hidem, ?_, ?_⟩
  · intro o d i v s t
    exact (insert_array_pvs o d i v s t).1
  · intro b
    rw [hidem]

/-- Witness of C28: the member without device, and two insertions of the same
identity, of a device of 50 sectors and then of a device of 60 sectors. -/
theorem C28_insert_twice_witness :
    insert_array (open_but "bad") ⟨"hd1", 0, 60⟩ (id_ordinal 0)
        (insert_array (open_but "bad") ⟨"hd0", 0, 50⟩ (id_ordinal 0) c27_vg (2 ^ 64 - 1)
          (state_of_pv (pv_ordinal 0 none 0))).2.1 (2 ^ 64 - 1)
        (insert_array (open_but "bad") ⟨"hd0", 0, 50⟩ (id_ordinal 0) c27_vg (2 ^ 64 - 1)
          (state_of_pv (pv_ordinal 0 none 0))).2.2.1
      = (GRUB_ERR_NONE,
          (insert_array (open_but "bad") ⟨"hd0", 0, 50⟩ (id_ordinal 0) c27_vg (2 ^ 64 - 1)
            (state_of_pv (pv_ordinal 0 none 0))).2.1,
          (insert_array (open_but "bad") ⟨"hd0", 0, 50⟩ (id_ordinal 0) c27_vg (2 ^ 64 - 1)
            (state_of_pv (pv_ordinal 0 none 0))).2.2.1, [])
    ∧ ((insert_array (open_but "bad") ⟨"hd0", 0, 50⟩ (id_ordinal 0) c27_vg (2 ^ 64 - 1)
          (state_of_pv (pv_ordinal 0 none 0))).2.2.1.pvs 0).part_size = 50 :=
  ⟨(C28_insert_twice (open_but "bad") ⟨"hd0", 0, 50⟩ ⟨"hd1", 0, 60⟩ (id_ordinal 0) c27_vg
      (2 ^ 64 - 1) (2 ^ 64 - 1) (state_of_pv (pv_ordinal 0 none 0))
      (fun e he => by cases he) (by decide)).1, by decide⟩

theorem insert_array_find_some (id : grub_diskfilter_pv_id) (pvs : Nat → grub_diskfilter_pv)
    (l : List Nat) (a : Nat) (h : insert_array_find id pvs l = some a) :
    ∃ pre post, l = pre ++ a :: post ∧ (∀ b ∈ pre, insert_array_match id (pvs b) = false)
      ∧ insert_array_match id (pvs a) = true := by
  induction l with
  | nil => simp [insert_array_find] at h
  | cons c rest ih =>
    rw [insert_array_find] at h
    by_cases hm : insert_array_match id (pvs c) = true
    · rw [if_pos hm] at h
      simp only [Option.some.injEq] at h
      subst h
      exact ⟨[], rest, rfl, fun b hb => (by cases hb), hm⟩
    · rw [if_neg hm] at h
      obtain ⟨pre, post, h1, h2, h3⟩ := ih h
      refine ⟨c :: pre, post, by rw [h1]; rfl, ?_, h3⟩
      intro b hb
      rcases List.mem_cons.mp hb with rfl | hb
      · simpa using hm
      · exact h2 b hb

theorem insert_array_find_none (id : grub_diskfilter_pv_id) (pvs : Nat → grub_diskfilter_pv)
    (l : List Nat) :
    insert_array_find id pvs l = none ↔ ∀ b ∈ l, insert_array_match id (pvs b) = false := by
  induction l with
  | nil => simp [insert_array_find]
  | cons c rest ih =>
    rw [insert_array_find]
    by_cases hm : insert_array_match id (pvs c) = true
    · rw [if_pos hm]
      simp only [reduceCtorEq, false_iff]
      intro h
      have := h c (List.mem_cons_self _ _)
      rw [hm] at this
      cases this
    · rw [if_neg hm, ih]
      simp only [List.mem_cons, forall_eq_or_imp]
      constructor
      · intro h; exact ⟨by simpa using hm, h⟩
      · intro h; exact h.2

theorem insert_array_others (grub_disk_open : String → Except grub_err_t Nat) (disk : insert_disk)
    (id : grub_diskfilter_pv_id) (array : grub_diskfilter_vg) (start_sector : Nat) (st : State)
    (a : Nat) (hfind : insert_array_find id st.pvs array.pvs = some a) (b : Nat) (hb : b ≠ a) :
    (insert_array grub_disk_open disk id array start_sector st).2.2.1.pvs b = st.pvs b := by
  rw [insert_array_some _ _ _ _ _ _ a hfind]
  by_cases h : (st.pvs a).disk ≠ none ∧ disk.native_sectors ≥ (st.pvs a).part_size
  · rw [insert_array_member_noop _ _ _ _ _ _ h]
  · cases hopen : grub_disk_open disk.name with
    | error e =>
      rw [insert_array_member_error _ _ _ _ _ _ h e hopen]
      exact Function.update_noteq hb _ _
    | ok hd =>
      rw [insert_array_member_ok _ _ _ _ _ _ h hd hopen]
      exact Function.update_noteq hb _ _

/-- The rule by which `insert_array` matches: the insertion updates at most one
physical member, the first in the member list of the group that matches the
identity. An identity that carries a uuid (length > 0) matches a member that
carries a uuid of the same length exactly when the bytes are equal, and an
identity with uuid length 0 matches a member exactly when the field `id`, the
ordinal, is equal; against a member whose uuid length is another, an identity
that carries a uuid is matched by the fields `id`. An identity that matches no
member leaves the group and the state unchanged and returns success. -/
theorem insert_array_match_rule (grub_disk_open : String → Except grub_err_t Nat) (disk : insert_disk)
    (id : grub_diskfilter_pv_id) (array : grub_diskfilter_vg) (start_sector : Nat) (st : State) :
    (∀ pv : grub_diskfilter_pv,
      (id.uuidlen ≠ 0 → pv.id.uuidlen = id.uuidlen →
        (insert_array_match id pv = true
          ↔ pv.id.uuid.take id.uuidlen = id.uuid.take id.uuidlen))
      ∧ (id.uuidlen ≠ 0 → pv.id.uuidlen ≠ id.uuidlen →
        (insert_array_match id pv = true ↔ pv.id.id = id.id))
      ∧ (id.uuidlen = 0 → (insert_array_match id pv = true ↔ pv.id.id = id.id)))
    ∧ ((∀ b ∈ array.pvs, insert_array_match id (st.pvs b) = false) →
        insert_array grub_disk_open disk id array start_sector st
          = (GRUB_ERR_NONE, array, st, []))
    ∧ ((∃ b ∈ array.pvs, insert_array_match id (st.pvs b) = true) →
        ∃ a pre post, array.pvs = pre ++ a :: post
          ∧ (∀ b ∈ pre, insert_array_match id (st.pvs b) = false)
          ∧ insert_array_match id (st.pvs a) = true
          ∧ ∀ b, b ≠ a →
              (insert_array grub_disk_open disk id array start_sector st).2.2.1.pvs b
                = st.pvs b) := by
  refine ⟨?_, ?_, ?_⟩
  · intro pv
    refine ⟨?_, ?_, ?_⟩
    · intro h0 hlen
      unfold insert_array_match
      rw [if_pos ⟨hlen.symm, h0⟩]
      simp
    · intro h0 hlen
      unfold insert_array_match
      rw [if_neg (fun hc => hlen hc.1.symm)]
      simp
    · intro h0
      unfold insert_array_match
      rw [if_neg (fun hc => hc.2 h0)]
      simp
  · intro h
    exact insert_array_none _ _ _ _ _ _ ((insert_array_find_none id st.pvs array.pvs).mpr h)
  · rintro ⟨b, hb, hm⟩
    cases hfind : insert_array_find id st.pvs array.pvs with
    | none =>
      have := (insert_array_find_none id st.pvs array.pvs).mp hfind b hb
      rw [hm] at this
      cases this
    | some a =>
      obtain ⟨pre, post, h1, h2, h3⟩ := insert_array_find_some id st.pvs array.pvs a hfind
      exact ⟨a, pre, post, h1, h2, h3,
        fun c hc => insert_array_others _ _ _ _ _ _ a hfind c hc⟩

/-- The rule at work: a group over the members at the addresses 0 and 1, of the
ordinals 0 and 1, and the insertion of the identity of the ordinal 1: the
member at the address 1 gets the device, the member at the address 0 is
unchanged. -/
theorem insert_array_match_rule_example :
    ∃ a pre post, (vg_of []).pvs = pre ++ a :: post
      ∧ (∀ b ∈ pre, insert_array_match (id_ordinal 1)
          ((({ state_empty with pvs := fun n => pv_ordinal n none 0 } : State)).pvs b) = false)
      ∧ insert_array_match (id_ordinal 1)
          ((({ state_empty with pvs := fun n => pv_ordinal n none 0 } : State)).pvs a) = true
      ∧ ∀ b, b ≠ a →
          (insert_array (open_but "bad") ⟨"hd0", 0, 50⟩ (id_ordinal 1) (vg_of []) (2 ^ 64 - 1)
            { state_empty with pvs := fun n => pv_ordinal n none 0 }).2.2.1.pvs b
            = (({ state_empty with pvs := fun n => pv_ordinal n none 0 } : State)).pvs b :=
  (insert_array_match_rule (open_but "bad") ⟨"hd0", 0, 50⟩ (id_ordinal 1) (vg_of []) (2 ^ 64 - 1)
    { state_empty with pvs := fun n => pv_ordinal n none 0 }).2.2
    ⟨1, by decide, by decide⟩

/-! ## The stamp `became_readable_at` -/

theorem latched_refl (l : List Nat) : latched l l := fun _ _ h _ => h

theorem insert_array_stamp_latched (pvs : Nat → grub_diskfilter_pv)
    (lvs : List grub_diskfilter_lv) (n : Nat) :
    latched (stamps lvs) (stamps (insert_array_stamp pvs lvs n).1) := by
  induction lvs generalizing n with
  | nil => exact fun _ _ h _ => h
  | cons lv rest ih =>
    intro i s hi hs
    rw [insert_array_stamp]
    by_cases hc : lv.became_readable_at = 0 ∧ lv.fullname ≠ none
        ∧ is_lv_readable pvs lv false = true
    · rw [if_pos hc]
      cases i with
      | zero =>
        simp only [stamps, List.map_cons, List.getElem?_cons_zero, Option.some.injEq] at hi
        exact absurd (hi ▸ hc.1) hs
      | succ j =>
        simp only [stamps, List.map_cons, List.getElem?_cons_succ] at hi ⊢
        exact ih (n + 1) j s hi hs
    · rw [if_neg hc]
      cases i with
      | zero =>
        simp only [stamps, List.map_cons, List.getElem?_cons_zero] at hi ⊢
        exact hi
      | succ j =>
        simp only [stamps, List.map_cons, List.getElem?_cons_succ] at hi ⊢
        exact ih n j s hi hs

theorem insert_array_latched (grub_disk_open : String → Except grub_err_t Nat) (disk : insert_disk)
    (id : grub_diskfilter_pv_id) (array : grub_diskfilter_vg) (start_sector : Nat) (st : State) :
    latched (stamps array.lvs)
      (stamps (insert_array grub_disk_open disk id array start_sector st).2.1.lvs) := by
  cases hfind : insert_array_find id st.pvs array.pvs with
  | none =>
    rw [insert_array_none _ _ _ _ _ _ hfind]
    exact latched_refl _
  | some a =>
    rw [insert_array_some _ _ _ _ _ _ a hfind]
    by_cases h : (st.pvs a).disk ≠ none ∧ disk.native_sectors ≥ (st.pvs a).part_size
    · rw [insert_array_member_noop _ _ _ _ _ _ h]
      exact latched_refl _
    · cases hopen : grub_disk_open disk.name with
      | error e =>
        rw [insert_array_member_error _ _ _ _ _ _ h e hopen]
        exact latched_refl _
      | ok hd =>
        rw [insert_array_member_ok _ _ _ _ _ _ h hd hopen]
        exact insert_array_stamp_latched _ _ _

theorem lv_set_scanned_stamps (lvs : List grub_diskfilter_lv) (i : Nat) :
    stamps (lv_set_scanned lvs i) = stamps lvs := by
  unfold lv_set_scanned
  cases h : lvs[i]? with
  | none => rfl
  | some lv =>
    simp only [stamps]
    apply List.ext_getElem?
    intro j
    rw [List.getElem?_map, List.getElem?_map, List.getElem?_set]
    by_cases hij : i = j
    · subst hij
      rw [if_pos rfl, h]
      have hlt : i < lvs.length := by
        rcases Nat.lt_or_ge i lvs.length with hlt | hge
        · exact hlt
        · rw [List.getElem?_eq_none hge] at h; cases h
      rw [if_pos hlt]
      rfl
    · rw [if_neg hij]

theorem vg_register_lvs_stamps (al : List grub_diskfilter_vg) (lvs : List grub_diskfilter_lv)
    (n : Nat) : stamps (vg_register_lvs al lvs n).2.1 = stamps lvs := by
  induction lvs generalizing n with
  | nil => rfl
  | cons lv rest ih =>
    rw [vg_register_lvs]
    by_cases hv : validate_lv lv ≠ GRUB_ERR_NONE
    · rw [if_pos hv]
    · rw [if_neg hv]
      simp only [stamps, List.map_cons]
      have h1 := (vg_register_lv_fields al n lv).2.2.2.1
      have h2 := ih (vg_register_lv al n lv).2
      simp only [stamps] at h2
      rw [h1, h2]

theorem vg_register_stamps (vg : grub_diskfilter_vg) (st : State) :
    stamps (grub_diskfilter_vg_register vg st).2.1.lvs = stamps vg.lvs := by
  have h : (grub_diskfilter_vg_register vg st).2.1.lvs
      = (vg_register_lvs st.array_list (vg.lvs.map vg_register_normalize) st.lv_num).2.1 := by
    unfold grub_diskfilter_vg_register
    simp only []
    split_ifs <;> rfl
  rw [h, vg_register_lvs_stamps]
  simp only [stamps, List.map_map]
  rfl

theorem vg_register_array_list (vg : grub_diskfilter_vg) (st : State) :
    (grub_diskfilter_vg_register vg st).2.2.array_list = st.array_list
    ∨ (grub_diskfilter_vg_register vg st).2.2.array_list
        = (grub_diskfilter_vg_register vg st).2.1 :: st.array_list := by
  unfold grub_diskfilter_vg_register
  simp only []
  split_ifs
  · left; rfl
  · right; rfl

theorem stamp_at_lt (al : List grub_diskfilter_vg) (r i s : Nat)
    (h : stamp_at al r i = some s) : r < al.length := by
  rcases Nat.lt_or_ge r al.length with hlt | hge
  · exact hlt
  · unfold stamp_at at h
    rw [List.getElem?_eq_none (by rw [List.length_reverse]; exact hge)] at h
    cases h

theorem stamp_at_eq (al : List grub_diskfilter_vg) (r i : Nat) (hr : r < al.length) :
    stamp_at al r i = (al[al.length - 1 - r]?).bind (fun vg => (stamps vg.lvs)[i]?) := by
  unfold stamp_at
  rw [List.getElem?_reverse hr]

theorem stamp_at_cons (al : List grub_diskfilter_vg) (vg : grub_diskfilter_vg) (r i s : Nat)
    (h : stamp_at al r i = some s) : stamp_at (vg :: al) r i = some s := by
  have hr := stamp_at_lt al r i s h
  unfold stamp_at at h ⊢
  rw [List.reverse_cons, List.getElem?_append_left (by rw [List.length_reverse]; exact hr)]
  exact h

theorem stamp_at_set (al : List grub_diskfilter_vg) (k : Nat) (vg vg2 : grub_diskfilter_vg)
    (hk : al[k]? = some vg) (hl : latched (stamps vg.lvs) (stamps vg2.lvs)) (r i s : Nat)
    (h : stamp_at al r i = some s) (hs : s ≠ 0) : stamp_at (al.set k vg2) r i = some s := by
  have hr := stamp_at_lt al r i s h
  rw [stamp_at_eq al r i hr] at h
  rw [stamp_at_eq (al.set k vg2) r i (by rw [List.length_set]; exact hr), List.length_set,
    List.getElem?_set]
  by_cases hkr : k = al.length - 1 - r
  · rw [if_pos hkr]
    have hklt : k < al.length := by omega
    rw [if_pos hklt]
    rw [← hkr, hk] at h
    exact hl i s h hs
  · rw [if_neg hkr]
    exact h

theorem insert_member_latched (grub_disk_open : String → Except grub_err_t Nat)
    (disk : insert_disk) (id : grub_diskfilter_pv_id) (k : Nat) (start_sector : Nat) (st : State)
    (r i s : Nat) (h : stamp_at st.array_list r i = some s) (hs : s ≠ 0) :
    stamp_at (insert_member grub_disk_open disk id k start_sector st).2.array_list r i
      = some s := by
  unfold insert_member
  cases hk : st.array_list[k]? with
  | none => exact h
  | some array =>
    exact stamp_at_set st.array_list k array _ hk
      (insert_array_latched grub_disk_open disk id array start_sector st) r i s h hs

theorem apply_op_latched (grub_disk_open : String → Except grub_err_t Nat) (op : EngineOp)
    (st : State) (r i s : Nat) (h : stamp_at st.array_list r i = some s) (hs : s ≠ 0) :
    stamp_at (apply_op grub_disk_open op st).array_list r i = some s := by
  cases op with
  | register vg =>
    rcases vg_register_array_list vg st with hal | hal
    · unfold apply_op; rw [hal]; exact h
    · unfold apply_op; rw [hal]; exact stamp_at_cons _ _ r i s h
  | insert disk id k start_sector =>
    exact insert_member_latched grub_disk_open disk id k start_sector st r i s h hs
  | scanned k j =>
    cases hk : st.array_list[k]? with
    | none =>
      have he : apply_op grub_disk_open (EngineOp.scanned k j) st = st := by
        simp only [apply_op, hk]
      rw [he]; exact h
    | some vg =>
      have he : (apply_op grub_disk_open (EngineOp.scanned k j) st).array_list
          = st.array_list.set k { vg with lvs := lv_set_scanned vg.lvs j } := by
        simp only [apply_op, hk]
      rw [he]
      refine stamp_at_set st.array_list k vg _ hk ?_ r i s h hs
      show latched (stamps vg.lvs) (stamps (lv_set_scanned vg.lvs j))
      rw [lv_set_scanned_stamps]
      exact latched_refl _
  | errno e => exact h

theorem apply_ops_latched (grub_disk_open : String → Except grub_err_t Nat) (ops : List EngineOp)
    (st : State) (r i s : Nat) (h : stamp_at st.array_list r i = some s) (hs : s ≠ 0) :
    stamp_at (apply_ops grub_disk_open ops st).array_list r i = some s := by
  induction ops generalizing st with
  | nil => exact h
  | cons op rest ih =>
    unfold apply_ops
    rw [List.foldl_cons]
    exact ih (apply_op grub_disk_open op st) (apply_op_latched grub_disk_open op st r i s h hs)

theorem open_array_list (scan_devices : Option String → State → State) (M : Nat) (name : String)
    (disk : grub_disk) (st : State) :
    (grub_diskfilter_open scan_devices M name disk st).2.2.1.array_list = st.array_list
    ∨ (grub_diskfilter_open scan_devices M name disk st).2.2.1.array_list
        = (scan_devices (some name) st).array_list := by
  have hscan : (grub_diskfilter_open_scan scan_devices name st).array_list
      = (scan_devices (some name) st).array_list := by
    unfold grub_diskfilter_open_scan
    simp only []
    split_ifs <;> rfl
  unfold grub_diskfilter_open
  by_cases hv : (!is_valid_diskfilter_name name) = true
  · rw [if_pos hv]; left; rfl
  · rw [if_neg hv]
    cases h1 : find_lv st name with
    | some lv => left; rfl
    | none =>
      simp only []
      cases h2 : find_lv (grub_diskfilter_open_scan scan_devices name st) name with
      | some lv => right; exact hscan
      | none => right; exact hscan

/-- C30: the stamp `became_readable_at` is a write-once latch. For every volume
of the registry, at the position `i` of the group registered as the `r`-th,
whose stamp `s` is not 0, the stamp is `s` after a registration (that succeeds
or not), after the insertion of a member in any group, after any sequence of
operations of the engine, after a discovery scan, after `grub_diskfilter_open`
and after `grub_diskfilter_write`, whatever the readability of the volume; the
volumes of a group that is registered keep their stamps; the read path is a
function of the state and returns no state. -/
theorem C30_stamp_latch (grub_disk_open : String → Except grub_err_t Nat)
    (scan_devices : Option String → State → State) (M : Nat) (name : String) (d : grub_disk)
    (sector size : Nat) (buf : List Nat) (ops : List EngineOp) (vg : grub_diskfilter_vg)
    (disk : insert_disk) (id : grub_diskfilter_pv_id) (k start_sector : Nat) (st : State)
    (r i s : Nat)
    (hscan : ∀ arname t, ∃ l, scan_devices arname t = apply_ops grub_disk_open l t)
    (h : stamp_at st.array_list r i = some s) (hs : s ≠ 0) :
    stamp_at (grub_diskfilter_vg_register vg st).2.2.array_list r i = some s
    ∧ stamps (grub_diskfilter_vg_register vg st).2.1.lvs = stamps vg.lvs
    ∧ stamp_at (insert_member grub_disk_open disk id k start_sector st).2.array_list r i = some s
    ∧ stamp_at (apply_ops grub_disk_open ops st).array_list r i = some s
    ∧ stamp_at (scan_devices (some name) st).array_list r i = some s
    ∧ stamp_at (grub_diskfilter_open scan_devices M name d st).2.2.1.array_list r i = some s
    ∧ stamp_at (grub_diskfilter_write st d sector size buf).2.array_list r i = some s := by
  have hsc : stamp_at (scan_devices (some name) st).array_list r i = some s := by
    obtain ⟨l, hl⟩ := hscan (some name) st
    rw [hl]
    exact apply_ops_latched grub_disk_open l st r i s h hs
  refine ⟨apply_op_latched grub_disk_open (EngineOp.register vg) st r i s h hs,
    vg_register_stamps vg st,
    insert_member_latched grub_disk_open disk id k start_sector st r i s h hs,
    apply_ops_latched grub_disk_open ops st r i s h hs, hsc, ?_, h⟩
  rcases open_array_list scan_devices M name d st with ho | ho
  · rw [ho]; exact h
  · rw [ho]; exact hsc

/-- Witness of C30: the striped volume `md/x` is readable and has the stamp 3;
the insertion of a smaller device that cannot be opened leaves its member
without device, so that the volume is no longer readable, and the stamp is
still 3. -/
theorem C30_stamp_latch_witness :
    stamp_at c30_state.array_list 0 0 = some 3
    ∧ readable_volumes c30_state = [[true]]
    ∧ readable_volumes
        (insert_member (open_but "bad") ⟨"bad", 0, 50⟩ (id_ordinal 0) 0 (2 ^ 64 - 1) c30_state).2
      = [[false]]
    ∧ stamp_at (insert_member (open_but "bad") ⟨"bad", 0, 50⟩ (id_ordinal 0) 0 (2 ^ 64 - 1)
        c30_state).2.array_list 0 0 = some 3
    ∧ stamp_at (grub_diskfilter_open (c30_scan (open_but "bad")) 0 "md/x" disk_unbound
        c30_state).2.2.1.array_list 0 0 = some 3 :=
  ⟨by decide, by decide, by decide,
    (C30_stamp_latch (open_but "bad") (c30_scan (open_but "bad")) 0 "md/x" disk_unbound 0 0 []
      [] (vg_of []) ⟨"bad", 0, 50⟩ (id_ordinal 0) 0 (2 ^ 64 - 1) c30_state 0 0 3
      (fun _ t => ⟨_, rfl⟩) (by decide) (by decide)).2.2.1,
    (C30_stamp_latch (open_but "bad") (c30_scan (open_but "bad")) 0 "md/x" disk_unbound 0 0 []
      [] (vg_of []) ⟨"bad", 0, 50⟩ (id_ordinal 0) 0 (2 ^ 64 - 1) c30_state 0 0 3
      (fun _ t => ⟨_, rfl⟩) (by decide) (by decide)).2.2.2.2.2.1⟩

/-! ## Readability in the two modes -/

theorem is_lv_readable_need_mono (seg : grub_diskfilter_seg) :
    is_lv_readable_need seg false ≤ is_lv_readable_need seg true := by
  unfold is_lv_readable_need
  simp only [Bool.not_false, Bool.not_true, if_true, Bool.false_eq_true, if_false]
  split_ifs <;> omega

mutual
theorem is_node_readable_mono (pvs : Nat → grub_diskfilter_pv) :
    ∀ node : grub_diskfilter_node,
      is_node_readable pvs node true = true → is_node_readable pvs node false = true
  | .mk _ _ (some _) _ => by
    intro h
    simpa [is_node_readable] using h
  | .mk _ _ none (some lv) => by
    intro h
    rw [is_node_readable] at h ⊢
    exact is_lv_readable_mono pvs lv h
  | .mk _ _ none none => by
    intro h
    simp [is_node_readable] at h
theorem is_lv_readable_mono (pvs : Nat → grub_diskfilter_pv) :
    ∀ lv : grub_diskfilter_lv,
      is_lv_readable pvs lv true = true → is_lv_readable pvs lv false = true
  | { segments := segs, .. } => by
    intro h
    rw [is_lv_readable] at h ⊢
    exact is_lv_readable_segments_mono pvs segs h
theorem is_lv_readable_segments_mono (pvs : Nat → grub_diskfilter_pv) :
    ∀ segs : List grub_diskfilter_seg,
      is_lv_readable_segments pvs segs true = true →
      is_lv_readable_segments pvs segs false = true
  | [] => by
    intro _
    rw [is_lv_readable_segments]
  | seg :: rest => by
    intro h
    rw [is_lv_readable_segments] at h ⊢
    by_cases hc : is_lv_readable_have pvs seg.nodes true (is_lv_readable_need seg true) 0
        < is_lv_readable_need seg true
    · rw [if_pos hc] at h
      cases h
    · rw [if_neg hc] at h
      have hcount := live_count_mono pvs seg.nodes
      have hc2 : ¬ (is_lv_readable_have pvs seg.nodes false (is_lv_readable_need seg false) 0
          < is_lv_readable_need seg false) := by
        rw [is_lv_readable_have_lt] at hc ⊢
        have := is_lv_readable_need_mono seg
        omega
      rw [if_neg hc2]
      exact is_lv_readable_segments_mono pvs rest h
theorem live_count_mono (pvs : Nat → grub_diskfilter_pv) :
    ∀ nodes : List grub_diskfilter_node,
      nodes.countP (fun node => is_node_readable pvs node true)
        ≤ nodes.countP (fun node => is_node_readable pvs node false)
  | [] => by simp
  | node :: rest => by
    have ih := live_count_mono pvs rest
    have hn := is_node_readable_mono pvs node
    rw [List.countP_cons, List.countP_cons]
    by_cases h : is_node_readable pvs node true = true
    · rw [if_pos h, if_pos (hn h)]
      omega
    · rw [if_neg h]
      split_ifs <;> omega
end

/-- C36: readability is monotone in the mode. For every logical volume, with
nested logical volumes or not, and every state of the physical members, a
volume that is readable with `easily` set is readable without it; segment by
segment the number of live nodes needed without `easily` is at most the number
needed with it, and every node that is live with `easily` is live without. -/
theorem C36_readable_mono (pvs : Nat → grub_diskfilter_pv) (lv : grub_diskfilter_lv)
    (h : is_lv_readable pvs lv true = true) :
    is_lv_readable pvs lv false = true
    ∧ (∀ seg ∈ lv.segments,
        is_lv_readable_need seg false ≤ is_lv_readable_need seg true
        ∧ live_nodes pvs seg true ≤ live_nodes pvs seg false)
    ∧ (∀ node : grub_diskfilter_node,
        is_node_readable pvs node true = true → is_node_readable pvs node false = true) :=
  ⟨is_lv_readable_mono pvs lv h,
    fun seg _ => ⟨is_lv_readable_need_mono seg, live_count_mono pvs seg.nodes⟩,
    is_node_readable_mono pvs⟩

/-- Witness of C36: a striped volume over a nested RAID5 volume and a physical
member, every member having a device. -/
theorem C36_readable_mono_witness :
    is_lv_readable (heap_of (fun _ => true)) c36_volume true = true
    ∧ is_lv_readable (heap_of (fun _ => true)) c36_volume false = true :=
  ⟨by decide, (C36_readable_mono (heap_of (fun _ => true)) c36_volume (by decide)).1⟩

/-! ## The read path on a validated volume -/

theorem read_lv_loop_total (bits : Nat) (segs : List grub_diskfilter_seg) (rd : List Reader)
    (E : Nat) (hE : 0 < E) (hlen : rd.length = segs.length)
    (hrd : ∀ (i : Nat) (f : Reader), rd[i]? = some f → ∀ s z b, ∃ r, f s z b = some r)
    (fuel sector size buf : Nat) (hf : size ≤ fuel) :
    ∃ r, read_lv_loop bits segs rd (some E) fuel sector size buf = some r := by
  induction fuel generalizing sector size buf with
  | zero =>
    have h0 : size = 0 := by omega
    rw [read_lv_loop, if_pos h0]
    exact ⟨_, rfl⟩
  | succ fuel ih =>
    rw [read_lv_loop]
    by_cases h0 : size = 0
    · rw [if_pos h0]; exact ⟨_, rfl⟩
    · rw [if_neg h0]
      simp only [grub_divmod64, if_neg (Nat.pos_iff_ne_zero.mp hE)]
      cases hfind : read_lv_find_segment (sector / E) segs 0 with
      | none => exact ⟨_, rfl⟩
      | some i =>
        simp only []
        obtain ⟨_, seg, hseg, hhas, _⟩ := read_lv_find_segment_first (sector / E) segs 0 i hfind
        rw [Nat.sub_zero] at hseg
        have hilt : i < segs.length := by
          rcases Nat.lt_or_ge i segs.length with h | h
          · exact h
          · rw [List.getElem?_eq_none h] at hseg; cases hseg
        have hrdi : rd[i]? = some (rd.get ⟨i, by omega⟩) := List.getElem?_eq_getElem (by omega)
        rw [hseg, hrdi]
        simp only []
        generalize hlen2 : (if (seg.start_extent + seg.extent_count) * E - sector > size then size
            else (seg.start_extent + seg.extent_count) * E - sector) = len
        obtain ⟨r, hr⟩ := hrd i _ hrdi (sector - seg.start_extent * E) len buf
        rw [hr]
        rcases r with ⟨err, sub⟩
        simp only []
        by_cases herr : err ≠ GRUB_ERR_NONE
        · rw [if_pos herr]; exact ⟨_, rfl⟩
        · rw [if_neg herr]
          have hpos : 0 < len := by
            have h1 : sector < (sector / E + 1) * E := by
              have := Nat.div_add_mod sector E
              have := Nat.mod_lt sector hE
              rw [Nat.add_mul, Nat.one_mul, Nat.mul_comm]
              omega
            have h2 : (sector / E + 1) * E ≤ (seg.start_extent + seg.extent_count) * E :=
              Nat.mul_le_mul_right E hhas.2
            rw [← hlen2]
            split_ifs <;> omega
          obtain ⟨r2, hr2⟩ := ih (sector + len) (size - len) (buf + (len <<< bits)) (by omega)
          rw [hr2]
          exact ⟨_, rfl⟩

theorem no_read_faults_of_nodes (env : Env) (nodes : List grub_diskfilter_node)
    (h : ∀ node ∈ nodes, ∀ s z b, ∃ r, grub_diskfilter_read_node env node s z b = some r) :
    no_read_faults (read_segment_readers env nodes) nodes.length := by
  intro k hk s z b
  unfold read_segment_node
  rw [read_segment_readers_get, List.getElem?_eq_getElem hk]
  simp only [Option.map_some']
  obtain ⟨r, hr⟩ := h nodes[k] (List.getElem_mem _) s z b
  rw [hr]
  exact ⟨_, rfl⟩

mutual
theorem read_node_total (env : Env) :
    ∀ node : grub_diskfilter_node, validate_node node = GRUB_ERR_NONE →
      ∀ s z b, ∃ r, grub_diskfilter_read_node env node s z b = some r
  | .mk _ _ (some pv) _ => by
    intro _ s z b
    rw [grub_diskfilter_read_node]
    cases (env.pvs pv).disk with
    | none => exact ⟨_, rfl⟩
    | some d => exact ⟨_, rfl⟩
  | .mk _ _ none (some lv) => by
    intro hv s z b
    rw [grub_diskfilter_read_node]
    rw [validate_node] at hv
    exact read_lv_total env lv hv _ _ _
  | .mk _ _ none none => by
    intro hv
    rw [validate_node] at hv
    cases hv
theorem read_lv_total (env : Env) :
    ∀ lv : grub_diskfilter_lv, validate_lv lv = GRUB_ERR_NONE →
      ∀ s z b, ∃ r, read_lv env lv s z b = some r
  | { segments := segs, vg := vg, fullname := fn, idname := idn, name := nm, number := num,
      size := sz, became_readable_at := st, scanned := sc, visible := vis } => by
    intro hv s z b
    obtain ⟨⟨E, hE, hpos⟩, hsegs⟩ := validate_lv_ok _ hv
    simp only [] at hE hsegs
    subst hE
    have ht := read_segments_total env segs hsegs
    rw [read_lv_eq]
    simp only []
    apply read_lv_loop_total _ _ _ E hpos (by simp)
    · intro i f hf
      rw [List.getElem?_map] at hf
      cases hsi : segs[i]? with
      | none => rw [hsi] at hf; cases hf
      | some seg =>
        rw [hsi] at hf
        simp only [Option.map_some', Option.some.injEq] at hf
        subst hf
        have hmem : seg ∈ segs := by
          obtain ⟨hlt, he⟩ := List.getElem?_eq_some.mp hsi
          rw [← he]; exact List.getElem_mem _
        exact ht seg hmem
    · exact Nat.le_refl _
theorem read_segments_total (env : Env) :
    ∀ segs : List grub_diskfilter_seg, (∀ seg ∈ segs, validate_segment seg = GRUB_ERR_NONE) →
      ∀ seg ∈ segs, ∀ s z b, ∃ r, read_segment env seg s z b = some r
  | [] => by
    intro _ seg hmem
    cases hmem
  | seg :: rest => by
    intro hv seg2 hmem s z b
    have hvs := hv seg (List.mem_cons_self _ _)
    have hnodes := (validate_segment_nodes_none_iff seg.nodes).mp
      (validate_segment_ok seg hvs).2.2.2.2.2.2
    have hseg := read_segment_total_of_valid env seg hvs
      (no_read_faults_of_nodes env seg.nodes (read_nodes_total env seg.nodes hnodes))
    have hrest := read_segments_total env rest (fun sg hsg => hv sg (List.mem_cons_of_mem _ hsg))
    rcases List.mem_cons.mp hmem with heq | hmem
    · rw [heq]; exact hseg s z b
    · exact hrest seg2 hmem s z b
theorem read_nodes_total (env : Env) :
    ∀ nodes : List grub_diskfilter_node, (∀ node ∈ nodes, validate_node node = GRUB_ERR_NONE) →
      ∀ node ∈ nodes, ∀ s z b, ∃ r, grub_diskfilter_read_node env node s z b = some r
  | [] => by
    intro _ node hmem
    cases hmem
  | node :: rest => by
    intro hv node2 hmem s z b
    have hnode := read_node_total env node (hv node (List.mem_cons_self _ _))
    have hrest := read_nodes_total env rest (fun nd hnd => hv nd (List.mem_cons_of_mem _ hnd))
    rcases List.mem_cons.mp hmem with heq | hmem
    · rw [heq]; exact hnode s z b
    · exact hrest node2 hmem s z b
end

theorem read_segment_node_index (rd : List Reader) (k s z b : Nat) (err : grub_err_t)
    (ev : Event) (h : read_segment_node rd k s z b = some (err, ev)) :
    ev.index_below rd.length := by
  unfold read_segment_node at h
  cases hk : rd[k]? with
  | none => rw [hk] at h; cases h
  | some f =>
    rw [hk] at h
    simp only [] at h
    cases hf : f s z b with
    | none => rw [hf] at h; cases h
    | some r =>
      rw [hf] at h
      simp only [Option.some.injEq, Prod.mk.injEq] at h
      rw [← h.2]
      exact (List.getElem?_eq_some.mp hk).1

theorem try_candidates_index (rd : List Reader) (z b : Nat) (cands : List (Nat × Nat))
    (e0 e : grub_err_t) (tr : List Event)
    (h : try_candidates rd z b cands e0 = some (e, tr)) :
    ∀ ev ∈ tr, ev.index_below rd.length := by
  induction cands generalizing e0 e tr with
  | nil =>
    rw [try_candidates] at h
    simp only [Option.some.injEq, Prod.mk.injEq] at h
    intro ev hev
    rw [← h.2] at hev
    cases hev
  | cons c rest ih =>
    rw [try_candidates] at h
    cases hr : read_segment_node rd c.1 c.2 z b with
    | none => rw [hr] at h; cases h
    | some r =>
      rcases r with ⟨err, ev0⟩
      rw [hr] at h
      simp only [] at h
      have h0 := read_segment_node_index rd c.1 c.2 z b err ev0 hr
      by_cases hc : err = GRUB_ERR_READ_ERROR ∨ err = GRUB_ERR_UNKNOWN_DEVICE
      · rw [if_pos hc] at h
        cases hrec : try_candidates rd z b rest err with
        | none => rw [hrec] at h; cases h
        | some r2 =>
          rcases r2 with ⟨e2, tr2⟩
          rw [hrec] at h
          simp only [Option.some.injEq, Prod.mk.injEq] at h
          intro ev hev
          rw [← h.2] at hev
          rcases List.mem_cons.mp hev with rfl | hev
          · exact h0
          · exact ih err e2 tr2 hrec ev hev
      · rw [if_neg hc] at h
        simp only [Option.some.injEq, Prod.mk.injEq] at h
        intro ev hev
        rw [← h.2] at hev
        rcases List.mem_cons.mp hev with rfl | hev
        · exact h0
        · cases hev

theorem copies_read_index (bits : Nat) (rd : List Reader) (N S near far ofs far_ofs : Nat)
    (fuel d rs b size buf : Nat) (e : grub_err_t) (tr : List Event)
    (h : copies_read bits rd N S near far ofs far_ofs fuel d rs b size buf = some (e, tr)) :
    ∀ ev ∈ tr, ev.index_below rd.length := by
  induction fuel generalizing d rs b size buf e tr with
  | zero =>
    rw [copies_read] at h
    generalize (if S - b > size then size else S - b) = len at h
    cases hc : try_candidates rd len buf (copies_candidates N near far ofs far_ofs b d rs)
        GRUB_ERR_NONE with
    | none => rw [hc] at h; cases h
    | some r =>
      rcases r with ⟨e1, tr1⟩
      rw [hc] at h
      simp only [] at h
      have h1 := try_candidates_index rd len buf _ _ e1 tr1 hc
      by_cases he : e1 ≠ GRUB_ERR_NONE
      · rw [if_pos he] at h
        simp only [Option.some.injEq, Prod.mk.injEq] at h
        rw [← h.2]; exact h1
      · rw [if_neg he] at h
        by_cases h2 : size - len = 0
        · rw [if_pos h2] at h
          simp only [Option.some.injEq, Prod.mk.injEq] at h
          rw [← h.2]; exact h1
        · rw [if_neg h2] at h
          cases h
  | succ fuel ih =>
    rw [copies_read] at h
    generalize (if S - b > size then size else S - b) = len at h
    cases hc : try_candidates rd len buf (copies_candidates N near far ofs far_ofs b d rs)
        GRUB_ERR_NONE with
    | none => rw [hc] at h; cases h
    | some r =>
      rcases r with ⟨e1, tr1⟩
      rw [hc] at h
      simp only [] at h
      have h1 := try_candidates_index rd len buf _ _ e1 tr1 hc
      by_cases he : e1 ≠ GRUB_ERR_NONE
      · rw [if_pos he] at h
        simp only [Option.some.injEq, Prod.mk.injEq] at h
        rw [← h.2]; exact h1
      · rw [if_neg he] at h
        by_cases h2 : size - len = 0
        · rw [if_pos h2] at h
          simp only [Option.some.injEq, Prod.mk.injEq] at h
          rw [← h.2]; exact h1
        · rw [if_neg h2] at h
          cases hrec : copies_read bits rd N S near far ofs far_ofs fuel ((d + near) % N)
              (rs + (d + near) / N * ofs) 0 (size - len) (buf + (len <<< bits)) with
          | none => rw [hrec] at h; cases h
          | some r2 =>
            rcases r2 with ⟨e2, tr2⟩
            rw [hrec] at h
            simp only [Option.some.injEq, Prod.mk.injEq] at h
            intro ev hev
            rw [← h.2] at hev
            rcases List.mem_append.mp hev with hev | hev
            · exact h1 ev hev
            · exact ih _ _ _ _ _ e2 tr2 hrec ev hev

theorem read_segment_recover_index (env : Env) (seg : grub_diskfilter_seg)
    (disknr p buf sector size N : Nat) :
    ∀ ev ∈ (read_segment_recover env seg disknr p buf sector size).2, ev.index_below N := by
  intro ev hev
  unfold read_segment_recover at hev
  split_ifs at hev
  · cases h6 : env.grub_raid6_recover_func with
    | none => rw [h6] at hev; cases hev
    | some f =>
      rw [h6] at hev
      simp only [List.mem_singleton] at hev
      rw [hev]; trivial
  · cases h5 : env.grub_raid5_recover_func with
    | none => rw [h5] at hev; cases hev
    | some f =>
      rw [h5] at hev
      simp only [List.mem_singleton] at hev
      rw [hev]; trivial

theorem read_segment_parity_loop_index (env : Env) (rd : List Reader)
    (seg : grub_diskfilter_seg) (n fuel d rs p b size buf : Nat) (e : grub_err_t)
    (tr : List Event)
    (h : read_segment_parity_loop env rd seg n fuel d rs p b size buf = some (e, tr)) :
    ∀ ev ∈ tr, ev.index_below rd.length := by
  induction fuel generalizing d rs p b size buf e tr with
  | zero =>
    obtain ⟨len, hlen⟩ : ∃ len, len = if seg.stripe_size - b > size then size
        else seg.stripe_size - b := ⟨_, rfl⟩
    obtain ⟨err0, sub0, rc, hnode, hrc, hcases⟩ :=
      read_segment_parity_loop_inv env rd seg n 0 d rs p b size buf e tr len hlen h
    have h0 := read_segment_node_index rd d (rs + b) _ buf err0 _ hnode
    have hrec : ∀ ev ∈ rc.2, ev.index_below rd.length := by
      rw [hrc]
      by_cases hz : err0 ≠ GRUB_ERR_NONE
      · rw [if_pos hz]
        exact read_segment_recover_index env seg _ _ _ _ _ _
      · rw [if_neg hz]
        intro ev hev
        simp at hev
    intro ev hev
    rcases hcases with ⟨_, _, _, _, htr⟩ | ⟨_, ⟨_, _, htr⟩ | ⟨_, _, _, htr⟩ | ⟨_, _, f2, _, hf, _⟩⟩
    · rw [htr] at hev
      rcases List.mem_cons.mp hev with rfl | hev
      · exact h0
      · cases hev
    · rw [htr] at hev
      rcases List.mem_cons.mp hev with rfl | hev
      · exact h0
      · exact hrec ev hev
    · rw [htr] at hev
      rcases List.mem_cons.mp hev with rfl | hev
      · exact h0
      · exact hrec ev hev
    · cases hf
  | succ fuel ih =>
    obtain ⟨len, hlen⟩ : ∃ len, len = if seg.stripe_size - b > size then size
        else seg.stripe_size - b := ⟨_, rfl⟩
    obtain ⟨err0, sub0, rc, hnode, hrc, hcases⟩ :=
      read_segment_parity_loop_inv env rd seg n (fuel + 1) d rs p b size buf e tr len hlen h
    have h0 := read_segment_node_index rd d (rs + b) _ buf err0 _ hnode
    have hrec : ∀ ev ∈ rc.2, ev.index_below rd.length := by
      rw [hrc]
      by_cases hz : err0 ≠ GRUB_ERR_NONE
      · rw [if_pos hz]
        exact read_segment_recover_index env seg _ _ _ _ _ _
      · rw [if_neg hz]
        intro ev hev
        simp at hev
    intro ev hev
    rcases hcases with ⟨_, _, _, _, htr⟩ | ⟨_, ⟨_, _, htr⟩ | ⟨_, _, _, htr⟩
      | ⟨_, _, f2, tr2, hf, hloop, htr⟩⟩
    · rw [htr] at hev
      rcases List.mem_cons.mp hev with rfl | hev
      · exact h0
      · cases hev
    · rw [htr] at hev
      rcases List.mem_cons.mp hev with rfl | hev
      · exact h0
      · exact hrec ev hev
    · rw [htr] at hev
      rcases List.mem_cons.mp hev with rfl | hev
      · exact h0
      · exact hrec ev hev
    · have hf2 : fuel = f2 := by omega
      subst hf2
      rw [htr] at hev
      rcases List.mem_cons.mp hev with rfl | hev
      · exact h0
      · rcases List.mem_append.mp hev with hev | hev
        · exact hrec ev hev
        · exact ih _ _ _ _ _ _ e tr2 hloop ev hev

theorem read_segment_with_index (env : Env) (rd : List Reader) (seg : grub_diskfilter_seg)
    (sector size buf : Nat) (e : grub_err_t) (tr : List Event)
    (h : read_segment_with env rd seg sector size buf = some (e, tr)) :
    ∀ ev ∈ tr, ev.index_below rd.length := by
  unfold read_segment_with at h
  by_cases h1 : seg.type = GRUB_DISKFILTER_STRIPED ∧ seg.node_count = 1
  · rw [if_pos h1] at h
    cases hr : read_segment_node rd 0 sector size buf with
    | none => rw [hr] at h; cases h
    | some r =>
      rcases r with ⟨err, ev0⟩
      rw [hr] at h
      simp only [Option.some.injEq, Prod.mk.injEq] at h
      intro ev hev
      rw [← h.2] at hev
      rcases List.mem_cons.mp hev with rfl | hev
      · exact read_segment_node_index rd 0 sector size buf err _ hr
      · cases hev
  · rw [if_neg h1] at h
    by_cases h2 : seg.type = GRUB_DISKFILTER_STRIPED ∨ seg.type = GRUB_DISKFILTER_MIRROR
        ∨ seg.type = GRUB_DISKFILTER_RAID10
    · rw [if_pos h2] at h
      cases hst : read_segment_copies_start seg sector with
      | none => rw [hst] at h; cases h
      | some st =>
        rcases st with ⟨near, far, ofs, far_ofs, d, rs, b⟩
        rw [hst] at h
        simp only [] at h
        obtain ⟨_, hN, hd, _, _⟩ :=
          read_segment_copies_start_inv seg sector near far ofs far_ofs d rs b hst
        rw [read_segment_copies_loop_eq _ _ _ _ _ _ _ _ hN _ _ _ _ _ _ hd] at h
        exact copies_read_index _ _ _ _ _ _ _ _ _ _ _ _ _ _ e tr h
    · rw [if_neg h2] at h
      by_cases h3 : seg.type = GRUB_DISKFILTER_RAID4 ∨ seg.type = GRUB_DISKFILTER_RAID5
          ∨ seg.type = GRUB_DISKFILTER_RAID6
      · rw [if_pos h3] at h
        cases hst : read_segment_parity_start env seg (seg.type / 3) sector with
        | none => rw [hst] at h; cases h
        | some st =>
          rcases st with ⟨d, rs, p, b⟩
          rw [hst] at h
          simp only [] at h
          exact read_segment_parity_loop_index env rd seg _ _ _ _ _ _ _ _ e tr h
      · rw [if_neg h3] at h
        simp only [Option.some.injEq, Prod.mk.injEq] at h
        intro ev hev
        rw [← h.2] at hev
        cases hev

/-- The read path on a logical volume accepted by validation, the sector
arithmetic being exact (the product `far * stripe_size` of lines 655-656 is
the one of the natural numbers, which is the one of the code below `2^64`).
For every request `read_lv` returns (a fault, which is a division by zero, an
index outside `seg->nodes` or a `NULL` `lv->vg`, would be `none`), nested
logical volumes included; the extent size is not 0; and for every segment of
the volume the stripe size and `node_count` are not 0, `node_count - n` is not
0 for the parity levels, `far * stripe_size` is not 0 for a RAID10 segment
outside the far-offset mode (nor is it 0 modulo `2^64` when the stripe size is
below `2^56`), `read_segment` returns for every request, and every member index
that it uses is less than `node_count`. -/
theorem read_path_no_faults (env : Env) (lv : grub_diskfilter_lv) (sector size buf : Nat)
    (hv : validate_lv lv = GRUB_ERR_NONE) :
    (∃ r, read_lv env lv sector size buf = some r)
    ∧ (∃ E, lv.vg = some E ∧ E ≠ 0)
    ∧ ∀ seg ∈ lv.segments,
        seg.stripe_size ≠ 0 ∧ seg.node_count ≠ 0
        ∧ (seg.type = GRUB_DISKFILTER_RAID4 ∨ seg.type = GRUB_DISKFILTER_RAID5
            ∨ seg.type = GRUB_DISKFILTER_RAID6 → seg.node_count - seg.type / 3 ≠ 0)
        ∧ (seg.type = GRUB_DISKFILTER_RAID10 → seg.layout >>> 16 = 0 →
            raid10_far seg.layout * seg.stripe_size ≠ 0
            ∧ (seg.stripe_size < 2 ^ 56 →
                (raid10_far seg.layout * seg.stripe_size) % 2 ^ 64 ≠ 0))
        ∧ ∀ s z b, ∃ e tr, read_segment env seg s z b = some (e, tr)
            ∧ ∀ ev ∈ tr, ev.index_below seg.node_count := by
  obtain ⟨⟨E, hE, hpos⟩, hsegs⟩ := validate_lv_ok lv hv
  refine ⟨read_lv_total env lv hv sector size buf, ⟨E, hE, by omega⟩, ?_⟩
  intro seg hseg
  obtain ⟨hS, hN, h10, h45, h6, _, _⟩ := validate_segment_ok seg (hsegs seg hseg)
  refine ⟨by omega, by omega, ?_, ?_, ?_⟩
  · rintro (ht | ht | ht)
    · have := h45 (Or.inl ht)
      rw [ht]; simp only [GRUB_DISKFILTER_RAID4]; omega
    · have := h45 (Or.inr ht)
      rw [ht]; simp only [GRUB_DISKFILTER_RAID5]; omega
    · have := h6 ht
      rw [ht]; simp only [GRUB_DISKFILTER_RAID6]; omega
  · intro ht hl
    have hfar : raid10_far seg.layout ≠ 0 := fun hc => (h10 ht).1 ⟨hl, hc⟩
    have hne : raid10_far seg.layout * seg.stripe_size ≠ 0 :=
      Nat.mul_ne_zero hfar (by omega)
    refine ⟨hne, ?_⟩
    intro hlt
    have hle : raid10_far seg.layout ≤ 255 := by
      unfold raid10_far
      exact Nat.and_le_right
    have h1 : raid10_far seg.layout * seg.stripe_size ≤ 255 * seg.stripe_size :=
      Nat.mul_le_mul_right _ hle
    have h2 : raid10_far seg.layout * seg.stripe_size < 2 ^ 64 := by omega
    rw [Nat.mod_eq_of_lt h2]
    exact hne
  · intro s z b
    obtain ⟨r, hr⟩ := read_segments_total env lv.segments hsegs seg hseg s z b
    rcases r with ⟨e, tr⟩
    refine ⟨e, tr, hr, ?_⟩
    have hidx := read_segment_with_index env (read_segment_readers env seg.nodes) seg s z b e tr hr
    have hlen : (read_segment_readers env seg.nodes).length = seg.node_count := by
      rw [read_segment_readers_eq, List.length_map]
      rfl
    rw [hlen] at hidx
    exact hidx

/-- The read path at work: a read of 10 sectors from sector 3 of the striped
volume over a nested RAID5 volume and a physical member. -/
theorem read_path_no_faults_example :
    validate_lv c36_volume = GRUB_ERR_NONE
    ∧ ∃ r, read_lv env_ok c36_volume 3 10 0 = some r :=
  ⟨by decide, (read_path_no_faults env_ok c36_volume 3 10 0 (by decide)).1⟩

/-! ## The address translation of single sectors -/

theorem mul_add_inj (S q1 q2 b1 b2 : Nat) (h1 : b1 < S) (h2 : b2 < S)
    (h : q1 * S + b1 = q2 * S + b2) : q1 = q2 ∧ b1 = b2 := by
  have hS : 0 < S := by omega
  have hq1 : (q1 * S + b1) / S = q1 := by
    rw [Nat.mul_comm, Nat.mul_add_div hS, Nat.div_eq_of_lt h1, Nat.add_zero]
  have hq2 : (q2 * S + b2) / S = q2 := by
    rw [Nat.mul_comm, Nat.mul_add_div hS, Nat.div_eq_of_lt h2, Nat.add_zero]
  have hq : q1 = q2 := by rw [← hq1, ← hq2, h]
  subst hq
  exact ⟨rfl, by omega⟩

theorem div_mod_inj (D x y : Nat) (hd : x / D = y / D) (hm : x % D = y % D) : x = y := by
  rw [← Nat.div_add_mod x D, ← Nat.div_add_mod y D, hd, hm]

theorem segment_address_striped (env : Env) (seg : grub_diskfilter_seg) (x : Nat)
    (ht : seg.type = GRUB_DISKFILTER_STRIPED) (hS : 0 < seg.stripe_size)
    (hN : 0 < seg.node_count) :
    segment_address env seg x
      = some (x / seg.stripe_size % seg.node_count,
          x / seg.stripe_size / seg.node_count * seg.stripe_size + x % seg.stripe_size) := by
  unfold segment_address
  rw [if_pos (Or.inl ht), read_segment_copies_start_striped seg x ht hS hN]

theorem segment_address_parity (env : Env) (seg : grub_diskfilter_seg) (x : Nat)
    (ht : seg.type = GRUB_DISKFILTER_RAID4 ∨ seg.type = GRUB_DISKFILTER_RAID5
      ∨ seg.type = GRUB_DISKFILTER_RAID6) (hS : 0 < seg.stripe_size)
    (hD : seg.type / 3 < seg.node_count) :
    segment_address env seg x
      = some
          (if seg.type ≥ 5 then
              read_segment_parity_disknr env seg (seg.type / 3)
                (read_segment_parity_p env seg
                  (x / seg.stripe_size / (seg.node_count - seg.type / 3) % seg.node_count))
                (x / seg.stripe_size % (seg.node_count - seg.type / 3))
            else x / seg.stripe_size % (seg.node_count - seg.type / 3),
           x / seg.stripe_size / (seg.node_count - seg.type / 3) * seg.stripe_size
            + x % seg.stripe_size) := by
  unfold segment_address
  have hnc : ¬ (seg.type = GRUB_DISKFILTER_STRIPED ∨ seg.type = GRUB_DISKFILTER_MIRROR
      ∨ seg.type = GRUB_DISKFILTER_RAID10) := by
    simp only [GRUB_DISKFILTER_STRIPED, GRUB_DISKFILTER_MIRROR, GRUB_DISKFILTER_RAID10,
      GRUB_DISKFILTER_RAID4, GRUB_DISKFILTER_RAID5, GRUB_DISKFILTER_RAID6] at ht ⊢
    omega
  rw [if_neg hnc, if_pos ht, read_segment_parity_start_eq env seg _ x hS hD]

theorem parity_count (seg : grub_diskfilter_seg)
    (hv : validate_segment seg = GRUB_ERR_NONE)
    (ht : seg.type = GRUB_DISKFILTER_RAID4 ∨ seg.type = GRUB_DISKFILTER_RAID5
      ∨ seg.type = GRUB_DISKFILTER_RAID6) :
    (seg.type / 3 = 1 ∨ seg.type / 3 = 2) ∧ seg.type / 3 < seg.node_count
    ∧ 0 < seg.node_count - seg.type / 3 ∧ (seg.type ≥ 5 ↔ seg.type ≠ GRUB_DISKFILTER_RAID4) := by
  obtain ⟨_, _, _, h45, h6, _, _⟩ := validate_segment_ok seg hv
  simp only [GRUB_DISKFILTER_RAID4, GRUB_DISKFILTER_RAID5, GRUB_DISKFILTER_RAID6] at ht h45 h6 ⊢
  rcases ht with ht | ht | ht
  · have := h45 (Or.inl ht); rw [ht]; omega
  · have := h45 (Or.inr ht); rw [ht]; omega
  · have := h6 ht; rw [ht]; omega

theorem segment_address_parity_lt (env : Env) (seg : grub_diskfilter_seg) (x : Nat)
    (hv : validate_segment seg = GRUB_ERR_NONE)
    (ht : seg.type = GRUB_DISKFILTER_RAID4 ∨ seg.type = GRUB_DISKFILTER_RAID5
      ∨ seg.type = GRUB_DISKFILTER_RAID6) :
    (if seg.type ≥ 5 then
        read_segment_parity_disknr env seg (seg.type / 3)
          (read_segment_parity_p env seg
            (x / seg.stripe_size / (seg.node_count - seg.type / 3) % seg.node_count))
          (x / seg.stripe_size % (seg.node_count - seg.type / 3))
      else x / seg.stripe_size % (seg.node_count - seg.type / 3)) < seg.node_count := by
  obtain ⟨hn, hD, hpos, _⟩ := parity_count seg hv ht
  have hd : x / seg.stripe_size % (seg.node_count - seg.type / 3)
      < seg.node_count - seg.type / 3 := Nat.mod_lt _ hpos
  split_ifs
  · exact (read_segment_parity_disknr_props env seg _ _ _ hn hD
      (read_segment_parity_p_lt env seg _ (Nat.mod_lt _ (by omega))) hd).1
  · omega

theorem read_segment_single_sector (env : Env) (seg : grub_diskfilter_seg) (x buf : Nat)
    (hv : validate_segment seg = GRUB_ERR_NONE)
    (ht : seg.type = GRUB_DISKFILTER_STRIPED ∨ seg.type = GRUB_DISKFILTER_RAID4
      ∨ seg.type = GRUB_DISKFILTER_RAID5 ∨ seg.type = GRUB_DISKFILTER_RAID6)
    (hN : 1 < seg.node_count) (hm : members_read_successfully env seg) :
    ∃ a, segment_address env seg x = some a
      ∧ res_calls (read_segment env seg x 1 buf)
          = some (GRUB_ERR_NONE, [(a.1, a.2, 1, buf, GRUB_ERR_NONE)]) := by
  obtain ⟨hS, _, _, _, _, _, _⟩ := validate_segment_ok seg hv
  have hh := all_healthy_of_members env seg hm
  rcases ht with ht | ht
  · refine ⟨_, segment_address_striped env seg x ht hS (by omega), ?_⟩
    rw [read_segment_striped env seg x 1 buf ht hS (by omega) hh]
    have hb := Nat.mod_lt x hS
    have hlen : (if seg.stripe_size - x % seg.stripe_size > 1 then 1
        else seg.stripe_size - x % seg.stripe_size) = 1 := by
      split_ifs <;> omega
    rw [striped_calls]
    simp only [hlen, Nat.sub_self, if_true]
  · have ht3 : seg.type = GRUB_DISKFILTER_RAID4 ∨ seg.type = GRUB_DISKFILTER_RAID5
        ∨ seg.type = GRUB_DISKFILTER_RAID6 := ht
    obtain ⟨hn, hD, hpos, _⟩ := parity_count seg hv ht3
    refine ⟨_, segment_address_parity env seg x ht3 hS hD, ?_⟩
    have hlt := segment_address_parity_lt env seg x hv ht3
    obtain ⟨sub, hsub⟩ := read_segment_node_healthy _ _ hh _
      (x / seg.stripe_size / (seg.node_count - seg.type / 3) * seg.stripe_size
        + x % seg.stripe_size) 1 buf hlt
    have hb := Nat.mod_lt x hS
    unfold read_segment
    rw [read_segment_parity_eq_loop env _ seg x 1 buf ht3 _ _ _ _
        (read_segment_parity_start_eq env seg _ x hS hD),
      read_segment_parity_loop_single env _ seg _ _ _ _ _ _ 1 buf _ (by omega) hsub]
    rfl

theorem segment_address_injective (env : Env) (seg : grub_diskfilter_seg) (x y : Nat)
    (hv : validate_segment seg = GRUB_ERR_NONE)
    (ht : seg.type = GRUB_DISKFILTER_STRIPED ∨ seg.type = GRUB_DISKFILTER_RAID4
      ∨ seg.type = GRUB_DISKFILTER_RAID5 ∨ seg.type = GRUB_DISKFILTER_RAID6)
    (h : segment_address env seg x = segment_address env seg y) : x = y := by
  obtain ⟨hS, hN0, _, _, _, _, _⟩ := validate_segment_ok seg hv
  have hbx := Nat.mod_lt x hS
  have hby := Nat.mod_lt y hS
  rcases ht with ht | ht
  · rw [segment_address_striped env seg x ht hS hN0, segment_address_striped env seg y ht hS hN0]
      at h
    simp only [Option.some.injEq, Prod.mk.injEq] at h
    obtain ⟨hq, hb⟩ := mul_add_inj _ _ _ _ _ hbx hby h.2
    exact div_mod_inj seg.stripe_size x y (div_mod_inj seg.node_count _ _ hq h.1) hb
  · have ht3 : seg.type = GRUB_DISKFILTER_RAID4 ∨ seg.type = GRUB_DISKFILTER_RAID5
        ∨ seg.type = GRUB_DISKFILTER_RAID6 := ht
    obtain ⟨hn, hD, hpos, _⟩ := parity_count seg hv ht3
    rw [segment_address_parity env seg x ht3 hS hD, segment_address_parity env seg y ht3 hS hD]
      at h
    simp only [Option.some.injEq, Prod.mk.injEq] at h
    obtain ⟨hm, hrs⟩ := h
    obtain ⟨hq, hb⟩ := mul_add_inj _ _ _ _ _ hbx hby hrs
    have hd : x / seg.stripe_size % (seg.node_count - seg.type / 3)
        = y / seg.stripe_size % (seg.node_count - seg.type / 3) := by
      by_cases h5 : seg.type ≥ 5
      · rw [if_pos h5, if_pos h5, hq] at hm
        by_contra hne
        exact (read_segment_parity_disknr_props env seg _ _ _ hn hD
          (read_segment_parity_p_lt env seg _ (Nat.mod_lt _ (by omega)))
          (Nat.mod_lt (y / seg.stripe_size) hpos)).2.2.2 _
            (Nat.mod_lt (x / seg.stripe_size) hpos) hne hm
      · rw [if_neg h5, if_neg h5] at hm
        exact hm
    exact div_mod_inj seg.stripe_size x y (div_mod_inj _ _ _ hq hd) hb

/-- C39: the address translation of single sectors of a validated multi-member
STRIPED, RAID4, RAID5 or RAID6 segment is injective. Every logical sector has
an address, the member and the member-relative sector at which `read_segment`
reads it (its read of one sector, when the members are read successfully, is
the one read of this address), and two distinct logical sectors never have the
same address. -/
theorem C39_address_injective (env : Env) (seg : grub_diskfilter_seg) (x y : Nat)
    (hv : validate_segment seg = GRUB_ERR_NONE)
    (ht : seg.type = GRUB_DISKFILTER_STRIPED ∨ seg.type = GRUB_DISKFILTER_RAID4
      ∨ seg.type = GRUB_DISKFILTER_RAID5 ∨ seg.type = GRUB_DISKFILTER_RAID6)
    (hN : 1 < seg.node_count) (hxy : x ≠ y) :
    ∃ ax ay, segment_address env seg x = some ax ∧ segment_address env seg y = some ay
      ∧ ax ≠ ay ∧ ax.1 < seg.node_count ∧ ay.1 < seg.node_count
      ∧ (members_read_successfully env seg → ∀ buf,
          res_calls (read_segment env seg x 1 buf)
            = some (GRUB_ERR_NONE, [(ax.1, ax.2, 1, buf, GRUB_ERR_NONE)])
          ∧ res_calls (read_segment env seg y 1 buf)
            = some (GRUB_ERR_NONE, [(ay.1, ay.2, 1, buf, GRUB_ERR_NONE)])) := by
  obtain ⟨hS, hN0, _, _, _, _, _⟩ := validate_segment_ok seg hv
  have haddr : ∀ z, ∃ a, segment_address env seg z = some a ∧ a.1 < seg.node_count := by
    intro z
    rcases ht with ht | ht
    · exact ⟨_, segment_address_striped env seg z ht hS hN0, Nat.mod_lt _ hN0⟩
    · have ht3 : seg.type = GRUB_DISKFILTER_RAID4 ∨ seg.type = GRUB_DISKFILTER_RAID5
          ∨ seg.type = GRUB_DISKFILTER_RAID6 := ht
      exact ⟨_, segment_address_parity env seg z ht3 hS (parity_count seg hv ht3).2.1,
        segment_address_parity_lt env seg z hv ht3⟩
  obtain ⟨ax, hax, hltx⟩ := haddr x
  obtain ⟨ay, hay, hlty⟩ := haddr y
  refine ⟨ax, ay, hax, hay, ?_, hltx, hlty, ?_⟩
  · intro heq
    apply hxy
    apply segment_address_injective env seg x y hv ht
    rw [hax, hay, heq]
  · intro hm buf
    obtain ⟨a1, h1, hr1⟩ := read_segment_single_sector env seg x buf hv ht hN hm
    obtain ⟨a2, h2, hr2⟩ := read_segment_single_sector env seg y buf hv ht hN hm
    rw [hax] at h1
    rw [hay] at h2
    simp only [Option.some.injEq] at h1 h2
    rw [h1, h2]
    exact ⟨hr1, hr2⟩

/-- Witness of C39: the sectors 0 and 6 of the RAID6 segment of 4 members with
stripe size 2, which are both on the member 1, at the member-relative sectors 0
and 2. -/
theorem C39_address_injective_witness :
    segment_address env_ok c10_segment 0 = some (1, 0)
    ∧ segment_address env_ok c10_segment 6 = some (1, 2)
    ∧ ∃ ax ay, segment_address env_ok c10_segment 0 = some ax
      ∧ segment_address env_ok c10_segment 6 = some ay ∧ ax ≠ ay := by
  obtain ⟨ax, ay, h1, h2, h3, _⟩ :=
    C39_address_injective env_ok c10_segment 0 6 (by decide) (by decide) (by decide) (by decide)
  exact ⟨by decide, by decide, ax, ay, h1, h2, h3⟩

/-! ## One read and the reads of its pieces: striped, mirror and RAID10 segments -/

theorem read_segment_copies_start_form (seg : grub_diskfilter_seg)
    (hv : validate_segment seg = GRUB_ERR_NONE) :
    ∃ near far ofs far_ofs, ∀ x,
      read_segment_copies_start seg x
        = some (near, far, ofs, far_ofs, (x / seg.stripe_size * near) % seg.node_count,
            (x / seg.stripe_size * near) / seg.node_count * ofs, x % seg.stripe_size) := by
  obtain ⟨hS, hN, h10, _, _, _, _⟩ := validate_segment_ok seg hv
  have hS0 : seg.stripe_size ≠ 0 := by omega
  have hN0 : seg.node_count ≠ 0 := by omega
  by_cases h1 : seg.type = 1
  · refine ⟨seg.node_count, 1, 1 * seg.stripe_size, 0, ?_⟩
    intro x
    simp only [read_segment_copies_start, grub_divmod64, if_neg hS0, if_pos h1, if_neg hN0]
  · by_cases h2 : seg.type = 10
    · by_cases h3 : seg.layout >>> 16 ≠ 0
      · refine ⟨seg.layout &&& 0xFF, (seg.layout >>> 8) &&& 0xFF,
          ((seg.layout >>> 8) &&& 0xFF) * seg.stripe_size, 1 * seg.stripe_size, ?_⟩
        intro x
        simp only [read_segment_copies_start, grub_divmod64, if_neg hS0, if_neg h1, if_pos h2,
          if_pos h3, if_neg hN0]
      · have hfar : ((seg.layout >>> 8) &&& 0xFF) * seg.stripe_size ≠ 0 := by
          have hl : seg.layout >>> 16 = 0 := by simpa using h3
          have := (h10 h2).1
          exact Nat.mul_ne_zero (fun hc => this ⟨hl, hc⟩) hS0
        refine ⟨seg.layout &&& 0xFF, (seg.layout >>> 8) &&& 0xFF, 1 * seg.stripe_size,
          seg.raid_member_size / (((seg.layout >>> 8) &&& 0xFF) * seg.stripe_size)
            * seg.stripe_size, ?_⟩
        intro x
        simp only [read_segment_copies_start, grub_divmod64, if_neg hS0, if_neg h1, if_pos h2,
          if_neg h3, if_neg hfar, if_neg hN0]
    · refine ⟨1, 1, 1 * seg.stripe_size, 0, ?_⟩
      intro x
      simp only [read_segment_copies_start, grub_divmod64, if_neg hS0, if_neg h1, if_neg h2,
        if_neg hN0]

theorem read_pieces_cons_none (f : Reader) (c : Nat × Nat × Nat)
    (rest : List (Nat × Nat × Nat)) (hr : f c.1 c.2.1 c.2.2 = none) :
    read_pieces f (c :: rest) = none := by
  rw [read_pieces, hr]

theorem read_pieces_cons_err (f : Reader) (c : Nat × Nat × Nat)
    (rest : List (Nat × Nat × Nat)) (err : grub_err_t) (tr : List Event)
    (hr : f c.1 c.2.1 c.2.2 = some (err, tr)) (he : err ≠ GRUB_ERR_NONE) :
    read_pieces f (c :: rest) = some (err, tr) := by
  rw [read_pieces, hr]
  simp only []
  rw [if_pos he]

theorem read_pieces_cons_ok (f : Reader) (c : Nat × Nat × Nat)
    (rest : List (Nat × Nat × Nat)) (tr : List Event)
    (hr : f c.1 c.2.1 c.2.2 = some (GRUB_ERR_NONE, tr)) :
    read_pieces f (c :: rest)
      = (read_pieces f rest).map (fun r => (r.1, tr ++ r.2)) := by
  rw [read_pieces, hr]
  simp only [ne_eq, not_true_eq_false, if_false]
  cases read_pieces f rest with
  | none => rfl
  | some r => rfl

theorem insert_array_stamp_spec (pvs : Nat → grub_diskfilter_pv)
    (lvs : List grub_diskfilter_lv) (n : Nat) :
    (insert_array_stamp pvs lvs n).1.length = lvs.length
    ∧ (insert_array_stamp pvs lvs n).2 = n + lvs.countP (stamp_eligible pvs)
    ∧ ∀ (i : Nat) (lv : grub_diskfilter_lv), lvs[i]? = some lv →
        (insert_array_stamp pvs lvs n).1[i]?
          = some (if stamp_eligible pvs lv = true then
              { lv with became_readable_at := n + (lvs.take i).countP (stamp_eligible pvs) + 1 }
            else lv) := by
  induction lvs generalizing n with
  | nil =>
    refine ⟨rfl, rfl, ?_⟩
    intro i lv h
    simp at h
  | cons l rest ih =>
    have hel : (l.became_readable_at = 0 ∧ l.fullname ≠ none
        ∧ is_lv_readable pvs l false = true) ↔ stamp_eligible pvs l = true := by
      unfold stamp_eligible
      simp only [Bool.and_eq_true, decide_eq_true_eq, Option.isSome_iff_ne_none, and_assoc]
    rw [insert_array_stamp]
    by_cases hc : l.became_readable_at = 0 ∧ l.fullname ≠ none
        ∧ is_lv_readable pvs l false = true
    · have he := hel.mp hc
      obtain ⟨h1, h2, h3⟩ := ih (n + 1)
      rw [if_pos hc]
      refine ⟨by simp only [List.length_cons, h1], ?_, ?_⟩
      · simp only [h2, List.countP_cons, he, if_true]
        omega
      · intro i lv hlv
        cases i with
        | zero =>
          simp only [List.getElem?_cons_zero, Option.some.injEq] at hlv
          subst hlv
          simp only [List.getElem?_cons_zero, he, if_true, List.take_zero, List.countP_nil,
            Nat.add_zero]
        | succ j =>
          simp only [List.getElem?_cons_succ] at hlv
          simp only [List.getElem?_cons_succ, h3 j lv hlv, List.take_succ_cons,
            List.countP_cons, he, if_true]
          have : n + 1 + List.countP (stamp_eligible pvs) (List.take j rest) + 1
              = n + (List.countP (stamp_eligible pvs) (List.take j rest) + 1) + 1 := by omega
          rw [this]
    · have he : stamp_eligible pvs l = false := by
        cases hq : stamp_eligible pvs l with
        | false => rfl
        | true => exact absurd (hel.mpr hq) hc
      obtain ⟨h1, h2, h3⟩ := ih n
      rw [if_neg hc]
      refine ⟨by simp only [List.length_cons, h1], ?_, ?_⟩
      · simp only [h2, List.countP_cons, he, Bool.false_eq_true, if_false, Nat.add_zero]
      · intro i lv hlv
        cases i with
        | zero =>
          simp only [List.getElem?_cons_zero, Option.some.injEq] at hlv
          subst hlv
          simp only [List.getElem?_cons_zero, he, Bool.false_eq_true, if_false]
        | succ j =>
          simp only [List.getElem?_cons_succ] at hlv
          simp only [List.getElem?_cons_succ, h3 j lv hlv, List.take_succ_cons,
            List.countP_cons, he, Bool.false_eq_true, if_false, Nat.add_zero]

/-- C31 as stated fails: the insertion attaches the device to the member; the
three volumes of the group had the stamp 0 and are now readable, but the second
one, which has no `fullname`, keeps the stamp 0, and the counter has advanced
by 2. -/
theorem C31_counterexample :
    stamps c31_vg.lvs = [0, 0, 0]
    ∧ c31_vg.lvs.map (fun lv => lv.fullname) = [some "md/a", none, some "md/b"]
    ∧ (insert_array (open_but "bad") ⟨"hd0", 0, 50⟩ (id_ordinal 0) c31_vg (2 ^ 64 - 1)
        (state_of_pv (pv_ordinal 0 none 0))).1 = GRUB_ERR_NONE
    ∧ ((insert_array (open_but "bad") ⟨"hd0", 0, 50⟩ (id_ordinal 0) c31_vg (2 ^ 64 - 1)
        (state_of_pv (pv_ordinal 0 none 0))).2.2.1.pvs 0).disk = some 7
    ∧ (insert_array (open_but "bad") ⟨"hd0", 0, 50⟩ (id_ordinal 0) c31_vg (2 ^ 64 - 1)
        (state_of_pv (pv_ordinal 0 none 0))).2.1.lvs.map
          (fun lv => is_lv_readable
            (insert_array (open_but "bad") ⟨"hd0", 0, 50⟩ (id_ordinal 0) c31_vg (2 ^ 64 - 1)
              (state_of_pv (pv_ordinal 0 none 0))).2.2.1.pvs lv false) = [true, true, true]
    ∧ stamps (insert_array (open_but "bad") ⟨"hd0", 0, 50⟩ (id_ordinal 0) c31_vg (2 ^ 64 - 1)
        (state_of_pv (pv_ordinal 0 none 0))).2.1.lvs = [1, 0, 2]
    ∧ (insert_array (open_but "bad") ⟨"hd0", 0, 50⟩ (id_ordinal 0) c31_vg (2 ^ 64 - 1)
        (state_of_pv (pv_ordinal 0 none 0))).2.2.1.inscnt = 2 :=
  ⟨by decide, by decide, by decide, by decide, by decide, by decide, by decide⟩

/-- C31 amended: after every insertion that attaches a device to a member of a
volume group, every logical volume of that group that has a fully-qualified
name, had the stamp zero and is now readable (best-effort) carries a non-zero
stamp equal to the next value of the global insertion sequence counter
(consecutive values in the group's LV order), every other logical volume is
unchanged (so a volume that is still unreadable, or that has no fully-qualified
name, keeps the stamp zero), the stamped volumes differ from what they were in
the stamp only, and the counter has advanced by exactly the number of volumes
stamped. -/
theorem C31_insert_stamps (grub_disk_open : String → Except grub_err_t Nat) (disk : insert_disk)
    (id : grub_diskfilter_pv_id) (array : grub_diskfilter_vg) (start_sector : Nat) (st : State)
    (a hd : Nat) (hfind : insert_array_find id st.pvs array.pvs = some a)
    (hattach : ¬ ((st.pvs a).disk ≠ none ∧ disk.native_sectors ≥ (st.pvs a).part_size))
    (hopen : grub_disk_open disk.name = .ok hd) :
    ((insert_array grub_disk_open disk id array start_sector st).2.2.1.pvs a).disk = some hd
    ∧ (insert_array grub_disk_open disk id array start_sector st).2.1.lvs.length
        = array.lvs.length
    ∧ (insert_array grub_disk_open disk id array start_sector st).2.2.1.inscnt
        = st.inscnt + array.lvs.countP
            (stamp_eligible (insert_array grub_disk_open disk id array start_sector st).2.2.1.pvs)
    ∧ ∀ (i : Nat) (lv : grub_diskfilter_lv), array.lvs[i]? = some lv →
        (stamp_eligible (insert_array grub_disk_open disk id array start_sector st).2.2.1.pvs lv
            = true →
          (insert_array grub_disk_open disk id array start_sector st).2.1.lvs[i]?
            = some { lv with became_readable_at :=
                (st.inscnt + (array.lvs.take i).countP
                  (stamp_eligible
                    (insert_array grub_disk_open disk id array start_sector st).2.2.1.pvs)
                  + 1) })
        ∧ (stamp_eligible (insert_array grub_disk_open disk id array start_sector st).2.2.1.pvs
            lv = false →
          (insert_array grub_disk_open disk id array start_sector st).2.1.lvs[i]? = some lv)
        ∧ (stamp_eligible (insert_array grub_disk_open disk id array start_sector st).2.2.1.pvs
            lv = true
          ↔ lv.became_readable_at = 0 ∧ lv.fullname ≠ none
            ∧ is_lv_readable
                (insert_array grub_disk_open disk id array start_sector st).2.2.1.pvs lv false
              = true) := by
  rw [insert_array_some _ _ _ _ _ _ a hfind, insert_array_member_ok _ _ _ _ _ _ hattach hd hopen]
  simp only []
  obtain ⟨h1, h2, h3⟩ := insert_array_stamp_spec
    (Function.update st.pvs a (insert_array_update disk start_sector hd (st.pvs a)))
    array.lvs st.inscnt
  refine ⟨by rw [Function.update_same]; rfl, h1, h2, ?_⟩
  intro i lv hlv
  refine ⟨?_, ?_, ?_⟩
  · intro he
    rw [h3 i lv hlv, if_pos he]
  · intro he
    rw [h3 i lv hlv, he]
    simp
  · unfold stamp_eligible
    simp only [Bool.and_eq_true, decide_eq_true_eq, Option.isSome_iff_ne_none, and_assoc]

/-- Witness of C31: the group of the three volumes `md/a`, a volume without
`fullname` and `md/b`, on the insertion that attaches the first device: `md/b`,
at the position 2, gets the stamp 2. -/
theorem C31_insert_stamps_witness :
    (insert_array (open_but "bad") ⟨"hd0", 0, 50⟩ (id_ordinal 0) c31_vg (2 ^ 64 - 1)
        (state_of_pv (pv_ordinal 0 none 0))).2.1.lvs[2]?
      = some { lv_named "md/b" [c6_segment] with became_readable_at := 2 }
    ∧ (insert_array (open_but "bad") ⟨"hd0", 0, 50⟩ (id_ordinal 0) c31_vg (2 ^ 64 - 1)
        (state_of_pv (pv_ordinal 0 none 0))).2.1.lvs[1]? = some (volume_of [c6_segment] 1) := by
  have h := (C31_insert_stamps (open_but "bad") ⟨"hd0", 0, 50⟩ (id_ordinal 0) c31_vg
    (2 ^ 64 - 1) (state_of_pv (pv_ordinal 0 none 0)) 0 7 (by decide) (by decide) rfl).2.2.2
  exact ⟨(h 2 (lv_named "md/b" [c6_segment]) rfl).1 (by decide),
    (h 1 (volume_of [c6_segment] 1) rfl).2.1 (by decide)⟩

/-! ## The name `mduuid/...` of an array -/

theorem hex2ascii_nibble (k : Nat) (hk : k < 16) :
    hex_value (hex2ascii k) = k ∧ is_hex_digit (hex2ascii k) = true := by
  interval_cases k <;> exact ⟨by decide, by decide⟩

theorem byte_nibbles (u : Nat) :
    (u % 256) >>> 4 < 16 ∧ (u % 256) &&& 0xf < 16
    ∧ 16 * ((u % 256) >>> 4) + ((u % 256) &&& 0xf) = u % 256 := by
  have h1 : (u % 256) >>> 4 = u % 256 / 16 := by
    rw [Nat.shiftRight_eq_div_pow]
  have h2 : (u % 256) &&& 0xf = u % 256 % 16 := by
    have := Nat.and_pow_two_sub_one_eq_mod (u % 256) 4
    simpa using this
  rw [h1, h2]
  have := Nat.mod_lt u (by decide : 0 < 256)
  omega

theorem hex_decode_flatMap (uuid : List Nat) :
    hex_decode (uuid.flatMap
      (fun u => [hex2ascii ((u % 256) >>> 4), hex2ascii ((u % 256) &&& 0xf)]))
      = uuid.map (fun u => u % 256) := by
  induction uuid with
  | nil => rfl
  | cons u rest ih =>
    obtain ⟨h1, h2, h3⟩ := byte_nibbles u
    rw [List.flatMap_cons, List.map_cons]
    show hex_decode (hex2ascii ((u % 256) >>> 4) :: hex2ascii ((u % 256) &&& 0xf)
      :: rest.flatMap
        (fun u => [hex2ascii ((u % 256) >>> 4), hex2ascii ((u % 256) &&& 0xf)])) = _
    rw [hex_decode, ih, (hex2ascii_nibble _ h1).1, (hex2ascii_nibble _ h2).1, h3]

theorem hex_flatMap_digits (uuid : List Nat) :
    (uuid.flatMap (fun u => [hex2ascii ((u % 256) >>> 4), hex2ascii ((u % 256) &&& 0xf)])).length
      = 2 * uuid.length
    ∧ ∀ c ∈ uuid.flatMap
        (fun u => [hex2ascii ((u % 256) >>> 4), hex2ascii ((u % 256) &&& 0xf)]),
        is_hex_digit c = true := by
  induction uuid with
  | nil => exact ⟨rfl, fun c hc => by cases hc⟩
  | cons u rest ih =>
    obtain ⟨h1, h2, _⟩ := byte_nibbles u
    refine ⟨?_, ?_⟩
    · simp only [List.flatMap_cons, List.length_append, List.length_cons, List.length_nil, ih.1]
      omega
    · intro c hc
      simp only [List.flatMap_cons, List.mem_append, List.mem_cons, List.mem_nil_iff,
        or_false] at hc
      rcases hc with (rfl | rfl) | hc
      · exact (hex2ascii_nibble _ h1).2
      · exact (hex2ascii_nibble _ h2).2
      · exact ih.2 c hc

theorem map_mod_byte (uuid : List Nat) (h : ∀ u ∈ uuid, u < 256) :
    uuid.map (fun u => u % 256) = uuid := by
  induction uuid with
  | nil => rfl
  | cons u rest ih =>
    rw [List.map_cons, ih (fun v hv => h v (List.mem_cons_of_mem _ hv)),
      Nat.mod_eq_of_lt (h u (List.mem_cons_self _ _))]

theorem make_raid_new (M size_max : Nat) (pv_alloc : Nat → Nat)
    (uuid : List Nat) (nmemb : Int) (name : Option String) (disk_size stripe_size layout : Nat)
    (level : Int) (st : State) (array : grub_diskfilter_vg) (st2 : State)
    (hnew : grub_diskfilter_get_vg_by_uuid st.array_list uuid = none)
    (h : grub_diskfilter_make_raid M size_max pv_alloc uuid nmemb name disk_size stripe_size
      layout level st = (some array, st2)) :
    ∃ totsize, make_raid_totsize nmemb disk_size layout level = some totsize
      ∧ ¬ (nmemb < 1 ∨ nmemb > M)
      ∧ ¬ (uuid.length * 2 > size_max ∨ uuid.length * 2 + 8 > size_max)
      ∧ (grub_diskfilter_vg_register
          (make_raid_array pv_alloc uuid nmemb.toNat name disk_size stripe_size layout
            level.toNat totsize)
          { st with pvs := make_raid_pvs pv_alloc nmemb.toNat st.pvs }).1 = GRUB_ERR_NONE
      ∧ array = (grub_diskfilter_vg_register
          (make_raid_array pv_alloc uuid nmemb.toNat name disk_size stripe_size layout
            level.toNat totsize)
          { st with pvs := make_raid_pvs pv_alloc nmemb.toNat st.pvs }).2.1
      ∧ st2 = (grub_diskfilter_vg_register
          (make_raid_array pv_alloc uuid nmemb.toNat name disk_size stripe_size layout
            level.toNat totsize)
          { st with pvs := make_raid_pvs pv_alloc nmemb.toNat st.pvs }).2.2 := by
  unfold grub_diskfilter_make_raid at h
  by_cases h1 : nmemb < 1 ∨ nmemb > M
  · rw [if_pos h1] at h
    cases h
  · rw [if_neg h1] at h
    cases ht : make_raid_totsize nmemb disk_size layout level with
    | none =>
      rw [ht] at h
      cases h
    | some totsize =>
      rw [ht, hnew] at h
      simp only [] at h
      by_cases h2 : uuid.length * 2 > size_max ∨ uuid.length * 2 + 8 > size_max
      · rw [if_pos h2] at h
        cases h
      · rw [if_neg h2] at h
        by_cases h3 : (grub_diskfilter_vg_register
            (make_raid_array pv_alloc uuid nmemb.toNat name disk_size stripe_size layout
              level.toNat totsize)
            { st with pvs := make_raid_pvs pv_alloc nmemb.toNat st.pvs }).1 ≠ GRUB_ERR_NONE
        · rw [if_pos h3] at h
          cases h
        · rw [if_neg h3] at h
          simp only [Prod.mk.injEq, Option.some.injEq] at h
          exact ⟨totsize, rfl, h1, h2, by simpa using h3, h.1.symm, h.2.symm⟩

theorem make_raid_idname_toList (uuid : List Nat) :
    (make_raid_idname uuid).toList
      = "mduuid/".toList
        ++ uuid.flatMap (fun u => [hex2ascii ((u % 256) >>> 4), hex2ascii ((u % 256) &&& 0xf)]) :=
  rfl

theorem make_raid_idname_drop (uuid : List Nat) :
    (make_raid_idname uuid).toList.drop 7
      = uuid.flatMap (fun u => [hex2ascii ((u % 256) >>> 4), hex2ascii ((u % 256) &&& 0xf)]) := by
  rw [make_raid_idname_toList]
  have h7 : "mduuid/".toList.length = 7 := by decide
  rw [← h7, List.drop_left]

theorem make_raid_new_idname (M size_max : Nat) (pv_alloc : Nat → Nat)
    (uuid : List Nat) (nmemb : Int) (name : Option String) (disk_size stripe_size layout : Nat)
    (level : Int) (st : State) (array : grub_diskfilter_vg) (st2 : State)
    (hnew : grub_diskfilter_get_vg_by_uuid st.array_list uuid = none)
    (h : grub_diskfilter_make_raid M size_max pv_alloc uuid nmemb name disk_size stripe_size
      layout level st = (some array, st2)) :
    array.lvs.map (fun lv => lv.idname) = [some (make_raid_idname uuid)] := by
  obtain ⟨totsize, _, _, _, hok, ha, _⟩ :=
    make_raid_new M size_max pv_alloc uuid nmemb name disk_size stripe_size layout level st
      array st2 hnew h
  obtain ⟨_, _, _, _, _, hlen, hget⟩ := vg_register_ok _ _ hok
  rw [← ha] at hlen hget
  have h0 := hget 0 _ rfl
  have hl : array.lvs.length = 1 := hlen
  match hq : array.lvs, hl with
  | [lv], _ =>
    rw [hq] at h0
    simp only [List.getElem?_cons_zero, Option.some.injEq] at h0
    rw [List.map_cons, List.map_nil, h0, (vg_register_lv_fields _ _ _).2.2.2.2.1]
    rfl

/-- C33: for every uuid byte string of length L, the name `idname` built for a
new array is the text `mduuid/` followed by exactly 2 L characters from
`0-9a-f`, the two hexadecimal digits of each byte in order, the high nibble
first; decoding these digits gives back the uuid, so that distinct uuids give
distinct names. -/
theorem C33_mduuid_name (u v : List Nat) (hu : ∀ b ∈ u, b < 256) (hv : ∀ b ∈ v, b < 256) :
    (make_raid_idname u).toList
      = "mduuid/".toList ++ u.flatMap (fun b => [hex2ascii (b / 16), hex2ascii (b % 16)])
    ∧ (u.flatMap (fun b => [hex2ascii (b / 16), hex2ascii (b % 16)])).length = 2 * u.length
    ∧ (∀ c ∈ u.flatMap (fun b => [hex2ascii (b / 16), hex2ascii (b % 16)]),
        is_hex_digit c = true)
    ∧ hex_decode ((make_raid_idname u).toList.drop 7) = u
    ∧ (make_raid_idname u = make_raid_idname v → u = v)
    ∧ (∀ (M size_max : Nat) (pv_alloc : Nat → Nat) (nmemb : Int) (name : Option String)
        (disk_size stripe_size layout : Nat) (level : Int) (st st2 : State)
        (array : grub_diskfilter_vg),
        grub_diskfilter_get_vg_by_uuid st.array_list u = none →
        grub_diskfilter_make_raid M size_max pv_alloc u nmemb name disk_size stripe_size layout
          level st = (some array, st2) →
        array.lvs.map (fun lv => lv.idname) = [some (make_raid_idname u)]) := by
  have hform : u.flatMap (fun b => [hex2ascii ((b % 256) >>> 4), hex2ascii ((b % 256) &&& 0xf)])
      = u.flatMap (fun b => [hex2ascii (b / 16), hex2ascii (b % 16)]) := by
    apply List.flatMap_congr
    intro b hb
    have hb2 := hu b hb
    have h1 : (b % 256) >>> 4 = b / 16 := by
      rw [Nat.shiftRight_eq_div_pow, Nat.mod_eq_of_lt hb2]
    have h2 : (b % 256) &&& 0xf = b % 16 := by
      have := Nat.and_pow_two_sub_one_eq_mod (b % 256) 4
      rw [Nat.mod_eq_of_lt hb2] at this ⊢
      simpa using this
    rw [h1, h2]
  have hdec : ∀ w : List Nat, (∀ b ∈ w, b < 256) →
      hex_decode ((make_raid_idname w).toList.drop 7) = w := by
    intro w hw
    rw [make_raid_idname_drop, hex_decode_flatMap, map_mod_byte w hw]
  refine ⟨?_, ?_, ?_, hdec u hu, ?_, ?_⟩
  · rw [make_raid_idname_toList, hform]
  · rw [← hform]; exact (hex_flatMap_digits u).1
  · rw [← hform]; exact (hex_flatMap_digits u).2
  · intro h
    rw [← hdec u hu, ← hdec v hv, h]
  · intro M size_max pv_alloc nmemb name disk_size stripe_size layout level st st2 array hnew h
    exact make_raid_new_idname M size_max pv_alloc u nmemb name disk_size stripe_size layout
      level st array st2 hnew h

/-- Witness of C33: the uuids of the two bytes `00 ab` and `00 ac`. -/
theorem C33_mduuid_name_witness :
    make_raid_idname [0, 0xab] = "mduuid/00ab"
    ∧ hex_decode ((make_raid_idname [0, 0xab]).toList.drop 7) = [0, 0xab]
    ∧ (make_raid_idname [0, 0xab] = make_raid_idname [0, 0xac] → [0, 0xab] = [0, 0xac])
    ∧ (grub_diskfilter_make_raid 4096 (2 ^ 32 - 1) (fun i => 100 + i) [0, 0xab] 2 (some "h:x")
        100 8 0 1 state_empty).1.map (fun a => a.lvs.map (fun lv => lv.idname))
      = some [some "mduuid/00ab"] := by
  have h := C33_mduuid_name [0, 0xab] [0, 0xac] (by decide) (by decide)
  exact ⟨by decide, h.2.2.2.1, h.2.2.2.2.1, by decide⟩

/-! ## The size of an array -/

theorem make_raid_totsize_eq (nmemb : Int) (disk_size layout : Nat) (level : Int) :
    make_raid_totsize nmemb disk_size layout level
      = if level = 1 then some disk_size
        else if level = 10 then
          (if make_raid_copies layout = 0 then none
           else some ((nmemb % 2 ^ 64).toNat * disk_size % 2 ^ 64 / make_raid_copies layout))
        else if level = 0 ∨ level = 4 ∨ level = 5 ∨ level = 6 then
          some (((nmemb - (level.toNat / 3 : Nat)) % 2 ^ 32).toNat * disk_size % 2 ^ 64)
        else none := rfl

theorem make_raid_none (M size_max : Nat) (pv_alloc : Nat → Nat)
    (uuid : List Nat) (nmemb : Int) (name : Option String) (disk_size stripe_size layout : Nat)
    (level : Int) (st : State)
    (h : nmemb < 1 ∨ nmemb > M ∨ make_raid_totsize nmemb disk_size layout level = none) :
    grub_diskfilter_make_raid M size_max pv_alloc uuid nmemb name disk_size stripe_size layout
      level st = (none, st) := by
  unfold grub_diskfilter_make_raid
  by_cases h1 : nmemb < 1 ∨ nmemb > M
  · rw [if_pos h1]
  · rw [if_neg h1]
    have h2 : make_raid_totsize nmemb disk_size layout level = none := by
      rcases h with h | h | h
      · exact absurd (Or.inl h) h1
      · exact absurd (Or.inr h) h1
      · exact h
    rw [h2]

theorem make_raid_new_shape (M size_max : Nat) (pv_alloc : Nat → Nat)
    (uuid : List Nat) (nmemb : Int) (name : Option String) (disk_size stripe_size layout : Nat)
    (level : Int) (st : State) (array : grub_diskfilter_vg) (st2 : State)
    (hnew : grub_diskfilter_get_vg_by_uuid st.array_list uuid = none)
    (h : grub_diskfilter_make_raid M size_max pv_alloc uuid nmemb name disk_size stripe_size
      layout level st = (some array, st2)) :
    ∃ totsize lv seg, make_raid_totsize nmemb disk_size layout level = some totsize
      ∧ array.extent_size = 1 ∧ array.lvs = [lv] ∧ lv.segments = [seg] ∧ lv.size = totsize
      ∧ seg.start_extent = 0 ∧ seg.extent_count = totsize ∧ seg.type = level.toNat
      ∧ seg.node_count = nmemb.toNat ∧ seg.raid_member_size = disk_size
      ∧ seg.layout = layout := by
  obtain ⟨totsize, htot, _, _, hok, ha, _⟩ :=
    make_raid_new M size_max pv_alloc uuid nmemb name disk_size stripe_size layout level st
      array st2 hnew h
  obtain ⟨_, _, _, hext, _, hlen, hget⟩ := vg_register_ok _ _ hok
  rw [← ha] at hlen hget hext
  have h0 := hget 0 _ rfl
  have hl : array.lvs.length = 1 := hlen
  match hq : array.lvs, hl with
  | [lv], _ =>
    rw [hq] at h0
    simp only [List.getElem?_cons_zero, Option.some.injEq] at h0
    obtain ⟨hsegs, _, _, _, _, _, hsize, _⟩ := vg_register_lv_fields st.array_list
      (st.lv_num + 0) (vg_register_normalize
        (make_raid_array pv_alloc uuid nmemb.toNat name disk_size stripe_size layout
          level.toNat totsize).lvs[0])
    rw [← h0] at hsegs hsize
    have hsegs2 : lv.segments = [vg_register_stripe_size
        { start_extent := 0, extent_count := totsize, type := level.toNat, layout := layout,
          raid_member_size := disk_size,
          nodes := (List.range nmemb.toNat).map
            (fun i => grub_diskfilter_node.mk "" 0 (some (pv_alloc i)) none),
          stripe_size := stripe_size }] := hsegs
    have hnc : ((List.range nmemb.toNat).map
        (fun i => grub_diskfilter_node.mk "" 0 (some (pv_alloc i)) none)).length
          = nmemb.toNat := by
      rw [List.length_map, List.length_range]
    refine ⟨totsize, lv, _, htot, hext, rfl, hsegs2, hsize, ?_, ?_, ?_, ?_, ?_, ?_⟩
    · rw [vg_register_stripe_size_eq]
    · rw [vg_register_stripe_size_eq]
    · rw [vg_register_stripe_size_eq]
    · rw [vg_register_stripe_size_eq]
      exact hnc
    · rw [vg_register_stripe_size_eq]
    · rw [vg_register_stripe_size_eq]

/-- C40 as stated fails: for the level 6 and 1 member of 1 sector the total
size is `2^32 - 1` sectors, as `nmemb - (unsigned) level / 3U` wraps, and an
array of 10 sectors that exists already with the uuid grows to this size; for
the level 0 and 2 members of `2^63` sectors the total size is 0, as the product
wraps at `2^64`. -/
theorem C40_counterexample :
    make_raid_totsize 1 1 0 6 = some 4294967295
    ∧ c40_state.array_list.map (fun a => a.lvs.map (fun lv => lv.size)) = [[10]]
    ∧ (grub_diskfilter_make_raid 4096 (2 ^ 32 - 1) (fun i => 200 + i) [1] 1 (some "x") 1 8 0 6
        c40_state).1.map (fun a => a.lvs.map (fun lv => lv.size)) = some [4294967295]
    ∧ make_raid_totsize 2 (2 ^ 63) 0 0 = some 0 :=
  ⟨by decide, by decide, by decide, by decide⟩

/-- C40 amended: for every member count `nmemb`, per-member size `disk_size`,
layout and level, `grub_diskfilter_make_raid` computes the total size as
`disk_size` for the level 1; as `(nmemb * disk_size mod 2^64) div n` for the
level 10, where n is the near-copy count, or the far-copy count when near is 1;
as `((nmemb - level div 3) mod 2^32) * disk_size mod 2^64` for the levels 0, 4,
5 and 6; these are `(nmemb * disk_size) div n` and
`(nmemb - level div 3) * disk_size` when `level div 3 ≤ nmemb < 2^31` and the
product is below `2^64`. It produces no array when `nmemb < 1` or exceeds the
supported maximum, when the level is any other value, or when n = 0 for the
level 10. A newly built array has the extent size 1 and a single volume of the
total size with a single segment that covers exactly `[0, total size)`. -/
theorem C40_make_raid_size (M size_max : Nat) (pv_alloc : Nat → Nat) (uuid : List Nat)
    (nmemb : Int) (name : Option String) (disk_size stripe_size layout : Nat) (level : Int)
    (st : State) :
    (level = 1 → make_raid_totsize nmemb disk_size layout level = some disk_size)
    ∧ (level = 10 → make_raid_copies layout ≠ 0 →
        make_raid_totsize nmemb disk_size layout level
          = some ((nmemb % 2 ^ 64).toNat * disk_size % 2 ^ 64 / make_raid_copies layout)
        ∧ (1 ≤ nmemb → nmemb < 2 ^ 31 → nmemb.toNat * disk_size < 2 ^ 64 →
            make_raid_totsize nmemb disk_size layout level
              = some (nmemb.toNat * disk_size / make_raid_copies layout)))
    ∧ (level = 0 ∨ level = 4 ∨ level = 5 ∨ level = 6 →
        make_raid_totsize nmemb disk_size layout level
          = some (((nmemb - (level.toNat / 3 : Nat)) % 2 ^ 32).toNat * disk_size % 2 ^ 64)
        ∧ ((level.toNat / 3 : Nat) ≤ nmemb → nmemb < 2 ^ 31 →
            (nmemb.toNat - level.toNat / 3) * disk_size < 2 ^ 64 →
            make_raid_totsize nmemb disk_size layout level
              = some ((nmemb.toNat - level.toNat / 3) * disk_size)))
    ∧ (nmemb < 1 ∨ nmemb > M
        ∨ (level ≠ 0 ∧ level ≠ 1 ∧ level ≠ 4 ∧ level ≠ 5 ∧ level ≠ 6 ∧ level ≠ 10)
        ∨ (level = 10 ∧ make_raid_copies layout = 0) →
        grub_diskfilter_make_raid M size_max pv_alloc uuid nmemb name disk_size stripe_size
          layout level st = (none, st))
    ∧ (∀ (array : grub_diskfilter_vg) (st2 : State),
        grub_diskfilter_get_vg_by_uuid st.array_list uuid = none →
        grub_diskfilter_make_raid M size_max pv_alloc uuid nmemb name disk_size stripe_size
          layout level st = (some array, st2) →
        ∃ totsize lv seg, make_raid_totsize nmemb disk_size layout level = some totsize
          ∧ array.extent_size = 1 ∧ array.lvs = [lv] ∧ lv.segments = [seg]
          ∧ lv.size = totsize ∧ seg.start_extent = 0 ∧ seg.extent_count = totsize
          ∧ seg.type = level.toNat ∧ seg.node_count = nmemb.toNat
          ∧ seg.raid_member_size = disk_size ∧ seg.layout = layout) := by
  refine ⟨?_, ?_, ?_, ?_, ?_⟩
  · intro h1
    rw [make_raid_totsize_eq, if_pos h1]
  · intro h10 hn
    have hne1 : ¬ level = 1 := by omega
    have hval : make_raid_totsize nmemb disk_size layout level
        = some ((nmemb % 2 ^ 64).toNat * disk_size % 2 ^ 64 / make_raid_copies layout) := by
      rw [make_raid_totsize_eq, if_neg hne1, if_pos h10, if_neg hn]
    refine ⟨hval, ?_⟩
    intro hge hlt hprod
    rw [hval]
    have hmod : (nmemb % 2 ^ 64).toNat = nmemb.toNat := by
      rw [Int.emod_eq_of_lt (by omega) (by omega)]
    rw [hmod, Nat.mod_eq_of_lt hprod]
  · intro hl
    have hne1 : ¬ level = 1 := by omega
    have hne10 : ¬ level = 10 := by omega
    have hval : make_raid_totsize nmemb disk_size layout level
        = some (((nmemb - (level.toNat / 3 : Nat)) % 2 ^ 32).toNat * disk_size % 2 ^ 64) := by
      rw [make_raid_totsize_eq, if_neg hne1, if_neg hne10, if_pos hl]
    refine ⟨hval, ?_⟩
    intro hge hlt hprod
    rw [hval]
    have hk : (level.toNat / 3 : Nat) ≤ 2 := by omega
    have hmod : ((nmemb - (level.toNat / 3 : Nat)) % 2 ^ 32).toNat
        = nmemb.toNat - level.toNat / 3 := by
      rw [Int.emod_eq_of_lt (by omega) (by omega)]
      omega
    rw [hmod, Nat.mod_eq_of_lt hprod]
  · intro h
    apply make_raid_none
    rcases h with h | h | h | h
    · exact Or.inl h
    · exact Or.inr (Or.inl h)
    · right; right
      rw [make_raid_totsize_eq, if_neg h.2.1, if_neg h.2.2.2.2.2,
        if_neg (by
          rintro (hc | hc | hc | hc)
          · exact h.1 hc
          · exact h.2.2.1 hc
          · exact h.2.2.2.1 hc
          · exact h.2.2.2.2.1 hc)]
    · right; right
      have hne1 : ¬ level = 1 := by omega
      rw [make_raid_totsize_eq, if_neg hne1, if_pos h.1, if_pos h.2]
  · intro array st2 hnew h
    exact make_raid_new_shape M size_max pv_alloc uuid nmemb name disk_size stripe_size layout
      level st array st2 hnew h

/-- Witness of C40: a RAID5 array of 3 members of 100 sectors built in the empty
registry has the total size 200 and one segment over the extents 0 to 199. -/
theorem C40_make_raid_size_witness :
    make_raid_totsize 3 100 0 5 = some 200
    ∧ ∃ totsize lv seg, make_raid_totsize 3 100 0 5 = some totsize
      ∧ (grub_diskfilter_make_raid 4096 (2 ^ 32 - 1) (fun i => 100 + i) [7] 3 (some "x") 100 8 0
          5 state_empty).1.map (fun a => a.lvs) = some [lv]
      ∧ lv.segments = [seg] ∧ lv.size = totsize ∧ seg.start_extent = 0
      ∧ seg.extent_count = totsize := by
  have h := C40_make_raid_size 4096 (2 ^ 32 - 1) (fun i => 100 + i) [7] 3 (some "x") 100 8 0 5
    state_empty
  have h5 := (h.2.2.1 (by decide)).2 (by decide) (by decide) (by decide)
  cases hr : grub_diskfilter_make_raid 4096 (2 ^ 32 - 1) (fun i => 100 + i) [7] 3 (some "x")
      100 8 0 5 state_empty with
  | mk oa st2 =>
    cases oa with
    | none =>
      have : (grub_diskfilter_make_raid 4096 (2 ^ 32 - 1) (fun i => 100 + i) [7] 3 (some "x")
        100 8 0 5 state_empty).1.isSome = true := by decide
      rw [hr] at this
      cases this
    | some array =>
      obtain ⟨totsize, lv, seg, h1, _, h3, h4, h5b, h6, h7, _⟩ :=
        h.2.2.2.2 array st2 (by decide) hr
      exact ⟨h5, totsize, lv, seg, h1, by simp [h3], h4, h5b, h6, h7⟩
/-! ## One read and the reads of its pieces: the parity levels -/

/-- C34 (the code departs from the claim): the RAID6 segment of 4 members with
the left-asymmetric layout 0 and the stripe size 2 passes validation and all its
members read successfully; the one call of `read_segment` for the 6 sectors
from sector 0 reads the members 1, 2 and 1 (the third read at member-relative
sector 2), while the three pieces of the request cut at the stripe boundaries,
read by independent calls, read the members 1, 2 and 0: on entering the second
stripe row the incremental computation takes member 1, which holds the logical
sectors 6 and 7 at that place, where the from-scratch address computation gives
member 0 for the logical sector 4. -/
theorem C34_raid6_left_asymmetric :
    validate_segment c10_segment = GRUB_ERR_NONE
    ∧ members_read_successfully env_ok c10_segment
    ∧ request_chunks 9 2 6 0 6 0 = [(0, 2, 0), (2, 2, 1024), (4, 2, 2048)]
    ∧ res_calls (read_segment env_ok c10_segment 0 6 0)
        = some (GRUB_ERR_NONE,
            [(1, 0, 2, 0, GRUB_ERR_NONE), (2, 0, 2, 1024, GRUB_ERR_NONE),
             (1, 2, 2, 2048, GRUB_ERR_NONE)])
    ∧ res_calls (read_pieces (read_segment env_ok c10_segment) (request_chunks 9 2 6 0 6 0))
        = some (GRUB_ERR_NONE,
            [(1, 0, 2, 0, GRUB_ERR_NONE), (2, 0, 2, 1024, GRUB_ERR_NONE),
             (0, 2, 2, 2048, GRUB_ERR_NONE)])
    ∧ res_calls (read_segment env_ok c10_segment 4 2 2048)
        = some (GRUB_ERR_NONE, [(0, 2, 2, 2048, GRUB_ERR_NONE)])
    ∧ segment_address env_ok c10_segment 4 = some (0, 2)
    ∧ segment_address env_ok c10_segment 6 = some (1, 2) := by
  refine ⟨by decide, ?_, by decide, by rfl, by rfl, by rfl, by decide, by decide⟩
  intro node hnode
  simp only [c10_segment, segment_of, List.range, List.range.loop, List.map_cons, List.map_nil,
    List.mem_cons, List.mem_singleton, List.not_mem_nil, or_false] at hnode
  rcases hnode with h | h | h | h <;> subst h
  · exact ⟨0, 0, rfl, rfl, fun _ _ _ _ => rfl⟩
  · exact ⟨1, 1, rfl, rfl, fun _ _ _ _ => rfl⟩
  · exact ⟨2, 2, rfl, rfl, fun _ _ _ _ => rfl⟩
  · exact ⟨3, 3, rfl, rfl, fun _ _ _ _ => rfl⟩

/-! ## Success of a read and the reads made -/

/-- C38 (the code departs from the claim): the RAID10 segment of 2 members with
the layout 0x10002 (2 near copies, 0 far copies, far-offset mode) and the
stripe size 4 passes validation, and `grub_diskfilter_make_raid` accepts the
level 10 with this layout for 2 members; the read of 1 sector from sector 0
returns `GRUB_ERR_NONE` without a single member read and without a recovery
call, whether the members are attached or not. -/
theorem C38_success_without_read :
    validate_segment c38_segment = GRUB_ERR_NONE
    ∧ c38_segment.layout &&& 0xFF = 2 ∧ (c38_segment.layout >>> 8) &&& 0xFF = 0
    ∧ c38_segment.layout >>> 16 ≠ 0
    ∧ make_raid_totsize 2 32 0x10002 10 = some 32
    ∧ read_segment env_ok c38_segment 0 1 0 = some (GRUB_ERR_NONE, [])
    ∧ read_segment (env_of (fun _ => false) (fun _ => GRUB_ERR_READ_ERROR)) c38_segment 0 1 0
        = some (GRUB_ERR_NONE, []) := by
  refine ⟨by decide, by decide, by decide, by decide, by rfl, by rfl, by rfl⟩

/-! ## The rescan loop -/

theorem scanned_kept_refl (l : List Bool) : scanned_kept l l := ⟨rfl, fun _ h => h⟩

theorem scanned_kept_get (l l2 : List Bool) (h : scanned_kept l l2) (i : Nat) (b : Bool)
    (hi : l[i]? = some b) : ∃ b2, l2[i]? = some b2 ∧ (b = true → b2 = true) := by
  have hlt : i < l.length := by
    rcases Nat.lt_or_ge i l.length with hlt | hge
    · exact hlt
    · rw [List.getElem?_eq_none hge] at hi; cases hi
  have hlt2 : i < l2.length := by rw [← h.1]; exact hlt
  refine ⟨l2[i], List.getElem?_eq_getElem hlt2, ?_⟩
  intro hb
  subst hb
  have h2 := h.2 i hi
  rw [List.getElem?_eq_getElem hlt2] at h2
  exact Option.some.inj h2

theorem insert_array_stamp_flags (pvs : Nat → grub_diskfilter_pv)
    (lvs : List grub_diskfilter_lv) (n : Nat) :
    scanned_flags (insert_array_stamp pvs lvs n).1 = scanned_flags lvs := by
  induction lvs generalizing n with
  | nil => rfl
  | cons lv rest ih =>
    rw [insert_array_stamp]
    split_ifs
    · simp only [scanned_flags, List.map_cons]
      have h := ih (n + 1)
      simp only [scanned_flags] at h
      rw [h]
    · simp only [scanned_flags, List.map_cons]
      have h := ih n
      simp only [scanned_flags] at h
      rw [h]

theorem insert_array_flags (grub_disk_open : String → Except grub_err_t Nat) (disk : insert_disk)
    (id : grub_diskfilter_pv_id) (array : grub_diskfilter_vg) (start_sector : Nat) (st : State) :
    scanned_flags (insert_array grub_disk_open disk id array start_sector st).2.1.lvs
      = scanned_flags array.lvs := by
  cases hfind : insert_array_find id st.pvs array.pvs with
  | none =>
    rw [insert_array_none _ _ _ _ _ _ hfind]
  | some a =>
    rw [insert_array_some _ _ _ _ _ _ a hfind]
    by_cases h : (st.pvs a).disk ≠ none ∧ disk.native_sectors ≥ (st.pvs a).part_size
    · rw [insert_array_member_noop _ _ _ _ _ _ h]
    · cases hopen : grub_disk_open disk.name with
      | error e =>
        rw [insert_array_member_error _ _ _ _ _ _ h e hopen]
      | ok hd =>
        rw [insert_array_member_ok _ _ _ _ _ _ h hd hopen]
        exact insert_array_stamp_flags _ _ _

theorem lv_set_scanned_kept (lvs : List grub_diskfilter_lv) (i : Nat) :
    scanned_kept (scanned_flags lvs) (scanned_flags (lv_set_scanned lvs i)) := by
  unfold lv_set_scanned
  cases h : lvs[i]? with
  | none => exact scanned_kept_refl _
  | some lv =>
    simp only [scanned_flags]
    refine ⟨by rw [List.length_map, List.length_map, List.length_set], ?_⟩
    intro j hj
    rw [List.getElem?_map] at hj
    rw [List.getElem?_map, List.getElem?_set]
    by_cases hij : i = j
    · subst hij
      rw [if_pos rfl]
      have hlt : i < lvs.length := by
        rcases Nat.lt_or_ge i lvs.length with hlt | hge
        · exact hlt
        · rw [List.getElem?_eq_none hge] at h; cases h
      rw [if_pos hlt]
      rfl
    · rw [if_neg hij]
      exact hj

theorem lv_set_scanned_flag (lvs : List grub_diskfilter_lv) (i : Nat) (hi : i < lvs.length) :
    (scanned_flags (lv_set_scanned lvs i))[i]? = some true := by
  unfold lv_set_scanned
  rw [List.getElem?_eq_getElem hi]
  simp only [scanned_flags]
  rw [List.getElem?_map, List.getElem?_set, if_pos rfl, if_pos hi]
  rfl

theorem scanned_at_lt (al : List grub_diskfilter_vg) (r i : Nat) (b : Bool)
    (h : scanned_at al r i = some b) : r < al.length := by
  rcases Nat.lt_or_ge r al.length with hlt | hge
  · exact hlt
  · unfold scanned_at at h
    rw [List.getElem?_eq_none (by rw [List.length_reverse]; exact hge)] at h
    cases h

theorem scanned_at_eq (al : List grub_diskfilter_vg) (r i : Nat) (hr : r < al.length) :
    scanned_at al r i = (al[al.length - 1 - r]?).bind (fun vg => (scanned_flags vg.lvs)[i]?) := by
  unfold scanned_at
  rw [List.getElem?_reverse hr]

theorem scanned_at_cons (al : List grub_diskfilter_vg) (vg : grub_diskfilter_vg) (r i : Nat)
    (b : Bool) (h : scanned_at al r i = some b) : scanned_at (vg :: al) r i = some b := by
  have hr := scanned_at_lt al r i b h
  unfold scanned_at at h ⊢
  rw [List.reverse_cons, List.getElem?_append_left (by rw [List.length_reverse]; exact hr)]
  exact h

theorem scanned_at_set (al : List grub_diskfilter_vg) (k : Nat) (vg vg2 : grub_diskfilter_vg)
    (hk : al[k]? = some vg) (hl : scanned_kept (scanned_flags vg.lvs) (scanned_flags vg2.lvs))
    (r i : Nat) (b : Bool) (h : scanned_at al r i = some b) :
    ∃ b2, scanned_at (al.set k vg2) r i = some b2 ∧ (b = true → b2 = true) := by
  have hr := scanned_at_lt al r i b h
  rw [scanned_at_eq al r i hr] at h
  rw [scanned_at_eq (al.set k vg2) r i (by rw [List.length_set]; exact hr), List.length_set,
    List.getElem?_set]
  by_cases hkr : k = al.length - 1 - r
  · rw [if_pos hkr]
    have hklt : k < al.length := by omega
    rw [if_pos hklt]
    rw [← hkr, hk] at h
    exact scanned_kept_get _ _ hl i b h
  · rw [if_neg hkr]
    exact ⟨b, h, fun hb => hb⟩

theorem insert_member_scanned_kept (grub_disk_open : String → Except grub_err_t Nat)
    (disk : insert_disk) (id : grub_diskfilter_pv_id) (k : Nat) (start_sector : Nat) (st : State)
    (r i : Nat) (b : Bool) (h : scanned_at st.array_list r i = some b) :
    ∃ b2, scanned_at (insert_member grub_disk_open disk id k start_sector st).2.array_list r i
        = some b2 ∧ (b = true → b2 = true) := by
  unfold insert_member
  cases hk : st.array_list[k]? with
  | none => exact ⟨b, h, fun hb => hb⟩
  | some array =>
    refine scanned_at_set st.array_list k array _ hk ?_ r i b h
    rw [insert_array_flags]
    exact scanned_kept_refl _

theorem apply_op_scanned_kept (grub_disk_open : String → Except grub_err_t Nat) (op : EngineOp)
    (st : State) (r i : Nat) (b : Bool) (h : scanned_at st.array_list r i = some b) :
    ∃ b2, scanned_at (apply_op grub_disk_open op st).array_list r i = some b2
      ∧ (b = true → b2 = true) := by
  cases op with
  | register vg =>
    rcases vg_register_array_list vg st with hal | hal
    · unfold apply_op; rw [hal]; exact ⟨b, h, fun hb => hb⟩
    · unfold apply_op; rw [hal]; exact ⟨b, scanned_at_cons _ _ r i b h, fun hb => hb⟩
  | insert disk id k start_sector =>
    exact insert_member_scanned_kept grub_disk_open disk id k start_sector st r i b h
  | scanned k j =>
    cases hk : st.array_list[k]? with
    | none =>
      have he : apply_op grub_disk_open (EngineOp.scanned k j) st = st := by
        simp only [apply_op, hk]
      rw [he]; exact ⟨b, h, fun hb => hb⟩
    | some vg =>
      have he : (apply_op grub_disk_open (EngineOp.scanned k j) st).array_list
          = st.array_list.set k { vg with lvs := lv_set_scanned vg.lvs j } := by
        simp only [apply_op, hk]
      rw [he]
      refine scanned_at_set st.array_list k vg _ hk ?_ r i b h
      exact lv_set_scanned_kept vg.lvs j
  | errno e => exact ⟨b, h, fun hb => hb⟩

theorem apply_ops_scanned_kept (grub_disk_open : String → Except grub_err_t Nat)
    (ops : List EngineOp) (st : State) (r i : Nat) (b : Bool)
    (h : scanned_at st.array_list r i = some b) :
    ∃ b2, scanned_at (apply_ops grub_disk_open ops st).array_list r i = some b2
      ∧ (b = true → b2 = true) := by
  induction ops generalizing st b with
  | nil => exact ⟨b, h, fun hb => hb⟩
  | cons op rest ih =>
    unfold apply_ops
    rw [List.foldl_cons]
    obtain ⟨b1, h1, hb1⟩ := apply_op_scanned_kept grub_disk_open op st r i b h
    obtain ⟨b2, h2, hb2⟩ := ih (apply_op grub_disk_open op st) b1 h1
    exact ⟨b2, h2, fun hb => hb2 (hb1 hb)⟩

theorem apply_op_scanned_mark (grub_disk_open : String → Except grub_err_t Nat) (st : State)
    (r i : Nat) (b : Bool) (h : scanned_at st.array_list r i = some b) :
    scanned_at (apply_op grub_disk_open
        (EngineOp.scanned (st.array_list.length - 1 - r) i) st).array_list r i = some true := by
  have hr := scanned_at_lt _ r i b h
  rw [scanned_at_eq _ r i hr] at h
  cases hk : st.array_list[st.array_list.length - 1 - r]? with
  | none => rw [hk] at h; cases h
  | some vg =>
    rw [hk] at h
    have hi : i < vg.lvs.length := by
      rcases Nat.lt_or_ge i vg.lvs.length with hlt | hge
      · exact hlt
      · simp only [Option.some_bind, scanned_flags] at h
        rw [List.getElem?_eq_none (by rw [List.length_map]; exact hge)] at h
        cases h
    have he : (apply_op grub_disk_open
          (EngineOp.scanned (st.array_list.length - 1 - r) i) st).array_list
        = st.array_list.set (st.array_list.length - 1 - r)
            { vg with lvs := lv_set_scanned vg.lvs i } := by
      simp only [apply_op, hk]
    rw [he, scanned_at_eq _ r i (by rw [List.length_set]; exact hr), List.length_set,
      List.getElem?_set, if_pos rfl, if_pos (by omega)]
    exact lv_set_scanned_flag vg.lvs i hi

theorem scanned_at_lv_at (al : List grub_diskfilter_vg) (r i : Nat) (lv : grub_diskfilter_lv)
    (h : lv_at al r i = some lv) : scanned_at al r i = some lv.scanned := by
  unfold lv_at at h
  unfold scanned_at
  cases hr : al.reverse[r]? with
  | none => rw [hr] at h; cases h
  | some vg =>
    rw [hr] at h
    simp only [Option.some_bind] at h ⊢
    simp only [scanned_flags]
    rw [List.getElem?_map, h]
    rfl

theorem rescan_lv_inv (grub_disk_open : String → Except grub_err_t Nat)
    (scan_disk : Nat → String → State → List EngineOp) (r i : Nat)
    (prev : List (Nat × Nat × grub_diskfilter_lv)) (s : rescan_state) (h : rescan_inv prev s) :
    rescan_inv prev (rescan_lv grub_disk_open scan_disk r i s) := by
  unfold rescan_lv
  cases hlv : lv_at s.st.array_list r i with
  | none => exact h
  | some lv =>
    simp only []
    cases hf : lv.fullname with
    | none => exact h
    | some fullname =>
      simp only []
      by_cases hc : lv.scanned = false ∧ lv.became_readable_at ≠ 0
      · rw [if_pos hc]
        obtain ⟨hnd, hsc, hdue, _⟩ := h
        have h0 : scanned_at s.st.array_list r i = some false := by
          rw [scanned_at_lv_at _ r i lv hlv, hc.1]
        have hnotin : (r, i) ∉ (prev ++ s.scans).map scan_position := by
          intro hin
          obtain ⟨e, he, hpos⟩ := List.mem_map.mp hin
          have h1 := hsc e he
          have hr : e.1 = r := congrArg Prod.fst hpos
          have hi : e.2.1 = i := congrArg Prod.snd hpos
          rw [hr, hi, h0] at h1
          cases h1
        have hstep : ∀ (r2 i2 : Nat) (b : Bool), scanned_at s.st.array_list r2 i2 = some b →
            ∃ b2, scanned_at (apply_op grub_disk_open
                (EngineOp.scanned ((apply_ops grub_disk_open (scan_disk s.calls fullname s.st)
                  s.st).array_list.length - 1 - r) i)
                (apply_ops grub_disk_open (scan_disk s.calls fullname s.st) s.st)).array_list
                r2 i2 = some b2 ∧ (b = true → b2 = true) := by
          intro r2 i2 b hb
          obtain ⟨b1, h1, hb1⟩ := apply_ops_scanned_kept grub_disk_open
            (scan_disk s.calls fullname s.st) s.st r2 i2 b hb
          obtain ⟨b2, h2, hb2⟩ := apply_op_scanned_kept grub_disk_open
            (EngineOp.scanned ((apply_ops grub_disk_open (scan_disk s.calls fullname s.st)
                  s.st).array_list.length - 1 - r) i) _ r2 i2 b1 h1
          exact ⟨b2, h2, fun hbt => hb2 (hb1 hbt)⟩
        refine ⟨?_, ?_, ?_, ?_⟩
        · show ((prev ++ (s.scans ++ [(r, i, lv)])).map scan_position).Nodup
          rw [← List.append_assoc, List.map_append, List.map_singleton]
          rw [List.nodup_append]
          refine ⟨hnd, List.nodup_singleton _, ?_⟩
          intro x hx hx2
          rw [List.mem_singleton] at hx2
          rw [hx2] at hx
          exact hnotin hx
        · intro e he
          have he2 : e ∈ (prev ++ s.scans) ++ [(r, i, lv)] := by
            rw [List.append_assoc]; exact he
          rcases List.mem_append.mp he2 with hold | hnew
          · obtain ⟨b2, h2, hb2⟩ := hstep e.1 e.2.1 true (hsc e hold)
            rw [h2, hb2 rfl]
          · rw [List.mem_singleton] at hnew
            rw [hnew]
            obtain ⟨b1, h1, _⟩ := apply_ops_scanned_kept grub_disk_open
              (scan_disk s.calls fullname s.st) s.st r i false h0
            exact apply_op_scanned_mark grub_disk_open _ r i b1 h1
        · intro e he
          rcases List.mem_append.mp he with hold | hnew
          · exact hdue e hold
          · rw [List.mem_singleton] at hnew
            rw [hnew]
            refine ⟨hc.1, ?_, hc.2⟩
            show lv.fullname ≠ none
            rw [hf]
            exact fun hx => by cases hx
        · constructor
          · intro _
            show s.scans ++ [(r, i, lv)] ≠ []
            exact fun hx => by simp at hx
          · intro _
            rfl
      · rw [if_neg hc]
        exact h

theorem foldl_invariant {α β : Type} (P : α → Prop) (f : α → β → α)
    (h : ∀ a b, P a → P (f a b)) (l : List β) (a : α) (ha : P a) : P (l.foldl f a) := by
  induction l generalizing a with
  | nil => exact ha
  | cons b rest ih =>
    rw [List.foldl_cons]
    exact ih (f a b) (h a b ha)

theorem rescan_group_inv (grub_disk_open : String → Except grub_err_t Nat)
    (scan_disk : Nat → String → State → List EngineOp) (r : Nat)
    (prev : List (Nat × Nat × grub_diskfilter_lv)) (s : rescan_state) (h : rescan_inv prev s) :
    rescan_inv prev (rescan_group grub_disk_open scan_disk r s) := by
  unfold rescan_group
  cases hr : s.st.array_list.reverse[r]? with
  | none => exact h
  | some vg =>
    simp only []
    exact foldl_invariant (rescan_inv prev) _
      (fun a i ha => rescan_lv_inv grub_disk_open scan_disk r i prev a ha) _ s h

theorem rescan_round_inv (grub_disk_open : String → Except grub_err_t Nat)
    (scan_disk : Nat → String → State → List EngineOp) (calls : Nat) (st : State)
    (prev : List (Nat × Nat × grub_diskfilter_lv)) (hnd : (prev.map scan_position).Nodup)
    (hsc : ∀ e ∈ prev, scanned_at st.array_list e.1 e.2.1 = some true) :
    rescan_inv prev (rescan_round grub_disk_open scan_disk calls st) := by
  unfold rescan_round
  refine foldl_invariant (rescan_inv prev) _
    (fun a r ha => rescan_group_inv grub_disk_open scan_disk r prev a ha) _ _ ?_
  refine ⟨?_, ?_, ?_, ?_⟩
  · show ((prev ++ []).map scan_position).Nodup
    rw [List.append_nil]; exact hnd
  · intro e he
    have he2 : e ∈ prev := by
      have h3 : e ∈ prev ++ [] := he
      rw [List.append_nil] at h3
      exact h3
    exact hsc e he2
  · intro e he
    cases he
  · constructor
    · intro hx; cases hx
    · intro hx; exact absurd rfl hx

theorem scanned_kept_trans (l l2 l3 : List Bool) (h : scanned_kept l l2)
    (h2 : scanned_kept l2 l3) : scanned_kept l l3 :=
  ⟨h.1.trans h2.1, fun i hi => h2.2 i (h.2 i hi)⟩

theorem group_kept_set (al : List grub_diskfilter_vg) (k : Nat) (vg0 vg2 : grub_diskfilter_vg)
    (hk : al[k]? = some vg0)
    (hl : scanned_kept (scanned_flags vg0.lvs) (scanned_flags vg2.lvs))
    (r : Nat) (vg : grub_diskfilter_vg) (h : al.reverse[r]? = some vg) :
    ∃ vg3, (al.set k vg2).reverse[r]? = some vg3
      ∧ scanned_kept (scanned_flags vg.lvs) (scanned_flags vg3.lvs) := by
  have hr : r < al.length := by
    rcases Nat.lt_or_ge r al.length with hlt | hge
    · exact hlt
    · rw [List.getElem?_eq_none (by rw [List.length_reverse]; exact hge)] at h; cases h
  rw [List.getElem?_reverse hr] at h
  rw [List.getElem?_reverse (by rw [List.length_set]; exact hr), List.length_set,
    List.getElem?_set]
  by_cases hkr : k = al.length - 1 - r
  · rw [if_pos hkr, if_pos (by omega)]
    rw [← hkr, hk] at h
    have hv : vg0 = vg := Option.some.inj h
    rw [← hv]
    exact ⟨vg2, rfl, hl⟩
  · rw [if_neg hkr]
    exact ⟨vg, h, scanned_kept_refl _⟩

theorem apply_op_group_kept (grub_disk_open : String → Except grub_err_t Nat) (op : EngineOp)
    (st : State) (r : Nat) (vg : grub_diskfilter_vg) (h : st.array_list.reverse[r]? = some vg) :
    ∃ vg2, (apply_op grub_disk_open op st).array_list.reverse[r]? = some vg2
      ∧ scanned_kept (scanned_flags vg.lvs) (scanned_flags vg2.lvs) := by
  have hr : r < st.array_list.length := by
    rcases Nat.lt_or_ge r st.array_list.length with hlt | hge
    · exact hlt
    · rw [List.getElem?_eq_none (by rw [List.length_reverse]; exact hge)] at h; cases h
  cases op with
  | register vg1 =>
    rcases vg_register_array_list vg1 st with hal | hal
    · unfold apply_op; rw [hal]; exact ⟨vg, h, scanned_kept_refl _⟩
    · unfold apply_op; rw [hal]
      rw [List.reverse_cons, List.getElem?_append_left (by rw [List.length_reverse]; exact hr)]
      exact ⟨vg, h, scanned_kept_refl _⟩
  | insert disk id k start_sector =>
    have he : (apply_op grub_disk_open (EngineOp.insert disk id k start_sector) st).array_list
        = (insert_member grub_disk_open disk id k start_sector st).2.array_list := rfl
    rw [he]
    unfold insert_member
    cases hk : st.array_list[k]? with
    | none => exact ⟨vg, h, scanned_kept_refl _⟩
    | some array =>
      refine group_kept_set st.array_list k array _ hk ?_ r vg h
      rw [insert_array_flags]
      exact scanned_kept_refl _
  | scanned k j =>
    cases hk : st.array_list[k]? with
    | none =>
      have he : apply_op grub_disk_open (EngineOp.scanned k j) st = st := by
        simp only [apply_op, hk]
      rw [he]; exact ⟨vg, h, scanned_kept_refl _⟩
    | some vg0 =>
      have he : (apply_op grub_disk_open (EngineOp.scanned k j) st).array_list
          = st.array_list.set k { vg0 with lvs := lv_set_scanned vg0.lvs j } := by
        simp only [apply_op, hk]
      rw [he]
      exact group_kept_set st.array_list k vg0 _ hk (lv_set_scanned_kept vg0.lvs j) r vg h
  | errno e => exact ⟨vg, h, scanned_kept_refl _⟩

/-- No operation of the engine changes the number of volumes of a registered
group, nor its rank in the order of registration: the volumes that the loop
over a group visits are those that the group has when the loop enters it. -/
theorem apply_ops_lvs_length (grub_disk_open : String → Except grub_err_t Nat)
    (ops : List EngineOp) (st : State) (r : Nat) (vg : grub_diskfilter_vg)
    (h : st.array_list.reverse[r]? = some vg) :
    ∃ vg2, (apply_ops grub_disk_open ops st).array_list.reverse[r]? = some vg2
      ∧ vg2.lvs.length = vg.lvs.length := by
  have hk : ∃ vg2, (apply_ops grub_disk_open ops st).array_list.reverse[r]? = some vg2
      ∧ scanned_kept (scanned_flags vg.lvs) (scanned_flags vg2.lvs) := by
    induction ops generalizing st vg with
    | nil => exact ⟨vg, h, scanned_kept_refl _⟩
    | cons op rest ih =>
      unfold apply_ops
      rw [List.foldl_cons]
      obtain ⟨vg1, h1, k1⟩ := apply_op_group_kept grub_disk_open op st r vg h
      obtain ⟨vg2, h2, k2⟩ := ih (apply_op grub_disk_open op st) vg1 h1
      exact ⟨vg2, h2, scanned_kept_trans _ _ _ k1 k2⟩
  obtain ⟨vg2, h2, k2⟩ := hk
  refine ⟨vg2, h2, ?_⟩
  have hl := k2.1
  simp only [scanned_flags, List.length_map] at hl
  exact hl.symm

/-! ## One read and the reads of its pieces: the parity levels with the other layouts -/

theorem parity_next_symmetric_stay (env : Env) (seg : grub_diskfilter_seg) (n disknr rs p : Nat)
    (hs : seg.layout &&& env.GRUB_RAID_LAYOUT_SYMMETRIC_MASK ≠ 0)
    (hne : (if disknr + 1 = seg.node_count then 0 else disknr + 1) ≠ p) :
    read_segment_parity_next env seg n disknr rs p
      = (if disknr + 1 = seg.node_count then 0 else disknr + 1, rs, p) := by
  unfold read_segment_parity_next
  simp only [hs, ne_eq, not_false_eq_true, decide_True, if_true, decide_eq_true_eq]
  rw [if_neg hne]

theorem parity_next_symmetric_move (env : Env) (seg : grub_diskfilter_seg) (n disknr rs p : Nat)
    (h5 : seg.type ≥ 5)
    (hs : seg.layout &&& env.GRUB_RAID_LAYOUT_SYMMETRIC_MASK ≠ 0)
    (he : (if disknr + 1 = seg.node_count then 0 else disknr + 1) = p) :
    read_segment_parity_next env seg n disknr rs p
      = (if (if seg.layout &&& env.GRUB_RAID_LAYOUT_RIGHT_MASK ≠ 0 then
              (if p = seg.node_count - 1 then 0 else p + 1)
            else (if p = 0 then seg.node_count - 1 else p - 1)) + n ≥ seg.node_count then
          (if seg.layout &&& env.GRUB_RAID_LAYOUT_RIGHT_MASK ≠ 0 then
              (if p = seg.node_count - 1 then 0 else p + 1)
            else (if p = 0 then seg.node_count - 1 else p - 1)) + n - seg.node_count
        else
          (if seg.layout &&& env.GRUB_RAID_LAYOUT_RIGHT_MASK ≠ 0 then
              (if p = seg.node_count - 1 then 0 else p + 1)
            else (if p = 0 then seg.node_count - 1 else p - 1)) + n,
        rs + seg.stripe_size,
        if seg.layout &&& env.GRUB_RAID_LAYOUT_RIGHT_MASK ≠ 0 then
          (if p = seg.node_count - 1 then 0 else p + 1)
        else (if p = 0 then seg.node_count - 1 else p - 1)) := by
  unfold read_segment_parity_next
  simp only [hs, ne_eq, not_false_eq_true, decide_True, if_true, decide_eq_true_eq]
  rw [if_pos he, if_pos h5]

theorem parity_next_asymmetric_stay (env : Env) (seg : grub_diskfilter_seg)
    (n disknr rs p : Nat)
    (hs : seg.layout &&& env.GRUB_RAID_LAYOUT_SYMMETRIC_MASK = 0)
    (hlt : (if disknr + 1 = p then disknr + 1 + n else disknr + 1) < seg.node_count) :
    read_segment_parity_next env seg n disknr rs p
      = (if disknr + 1 = p then disknr + 1 + n else disknr + 1, rs, p) := by
  unfold read_segment_parity_next
  simp only [hs, ne_eq, not_true_eq_false, decide_False, Bool.false_eq_true, if_false,
    decide_eq_true_eq, ge_iff_le]
  rw [if_neg (by omega)]

theorem parity_next_asymmetric_move (env : Env) (seg : grub_diskfilter_seg)
    (n disknr rs p k q : Nat) (h5 : seg.type ≥ 5)
    (hs : seg.layout &&& env.GRUB_RAID_LAYOUT_SYMMETRIC_MASK = 0)
    (hk : k = (if disknr + 1 = p then disknr + 1 + n else disknr + 1) - seg.node_count)
    (hq : q = if seg.layout &&& env.GRUB_RAID_LAYOUT_RIGHT_MASK ≠ 0 then
          (if p = seg.node_count - 1 then 0 else p + 1)
        else (if p = 0 then seg.node_count - 1 else p - 1))
    (hge : (if disknr + 1 = p then disknr + 1 + n else disknr + 1) ≥ seg.node_count) :
    read_segment_parity_next env seg n disknr rs p
      = (if (if (k ≥ q ∧ k < q + n) ∨ (k + seg.node_count ≥ q ∧ k + seg.node_count < q + n)
              then q + n else k) ≥ seg.node_count then
            (if (k ≥ q ∧ k < q + n) ∨ (k + seg.node_count ≥ q ∧ k + seg.node_count < q + n)
              then q + n else k) - seg.node_count
          else
            (if (k ≥ q ∧ k < q + n) ∨ (k + seg.node_count ≥ q ∧ k + seg.node_count < q + n)
              then q + n else k),
         rs + seg.stripe_size, q) := by
  subst hk hq
  unfold read_segment_parity_next
  simp only [hs, ne_eq, not_true_eq_false, decide_False, Bool.false_eq_true, if_false,
    decide_eq_true_eq, ge_iff_le]
  rw [if_pos hge, if_pos h5]

theorem parity_next_same_row (env : Env) (seg : grub_diskfilter_seg) (n d pm rs : Nat)
    (hn : n = 1 ∨ n = 2) (hN : n < seg.node_count)
    (hpm : pm < seg.node_count) (hd : d + 1 < seg.node_count - n) :
    read_segment_parity_next env seg n
        (read_segment_parity_disknr env seg n (read_segment_parity_p env seg pm) d) rs
        (read_segment_parity_p env seg pm)
      = (read_segment_parity_disknr env seg n (read_segment_parity_p env seg pm) (d + 1), rs,
          read_segment_parity_p env seg pm) := by
  have hp := read_segment_parity_p_lt env seg pm hpm
  obtain ⟨a, ha⟩ : ∃ a, a = read_segment_parity_disknr env seg n
      (read_segment_parity_p env seg pm) d := ⟨_, rfl⟩
  obtain ⟨a2, ha2⟩ : ∃ a2, a2 = read_segment_parity_disknr env seg n
      (read_segment_parity_p env seg pm) (d + 1) := ⟨_, rfl⟩
  rw [← ha, ← ha2]
  rw [read_segment_parity_disknr_eq env seg n _ _ hn hN hp (by omega)] at ha
  rw [read_segment_parity_disknr_eq env seg n _ _ hn hN hp hd] at ha2
  generalize read_segment_parity_p env seg pm = p at hp ha ha2 ⊢
  by_cases hs : seg.layout &&& env.GRUB_RAID_LAYOUT_SYMMETRIC_MASK ≠ 0
  · rw [if_pos hs] at ha ha2
    have hk : (if a + 1 = seg.node_count then 0 else a + 1) = a2 ∧ a2 ≠ p := by
      split_ifs at ha ha2 ⊢ <;> omega
    rw [parity_next_symmetric_stay env seg n a rs p hs (by rw [hk.1]; exact hk.2), hk.1]
  · rw [if_neg hs] at ha ha2
    have hs0 : seg.layout &&& env.GRUB_RAID_LAYOUT_SYMMETRIC_MASK = 0 := not_not.mp hs
    have hk : (if a + 1 = p then a + 1 + n else a + 1) = a2 ∧ a2 < seg.node_count := by
      split_ifs at ha ha2 ⊢ <;> omega
    rw [parity_next_asymmetric_stay env seg n a rs p hs0 (by rw [hk.1]; exact hk.2), hk.1]

theorem parity_p_rotate (env : Env) (seg : grub_diskfilter_seg) (pm : Nat)
    (hpm : pm < seg.node_count) :
    (if seg.layout &&& env.GRUB_RAID_LAYOUT_RIGHT_MASK ≠ 0 then
        (if read_segment_parity_p env seg pm = seg.node_count - 1 then 0
          else read_segment_parity_p env seg pm + 1)
      else (if read_segment_parity_p env seg pm = 0 then seg.node_count - 1
          else read_segment_parity_p env seg pm - 1))
      = read_segment_parity_p env seg (if pm + 1 = seg.node_count then 0 else pm + 1) := by
  unfold read_segment_parity_p
  generalize seg.node_count = N at *
  by_cases hr : seg.layout &&& env.GRUB_RAID_LAYOUT_RIGHT_MASK = 0
  · simp only [hr, ne_eq, not_true_eq_false, if_false, if_true]
    split_ifs <;> omega
  · simp only [hr, ne_eq, not_false_eq_true, if_false, if_true]
    split_ifs <;> omega

theorem parity_next_new_row (env : Env) (seg : grub_diskfilter_seg) (n d pm rs : Nat)
    (hn : n = 1 ∨ n = 2) (hN : n < seg.node_count) (h5 : seg.type ≥ 5)
    (hpm : pm < seg.node_count) (hd : d + 1 = seg.node_count - n)
    (hgood : n = 1 ∨ layout_not_left_asymmetric env seg ∨ seg.node_count = 3) :
    read_segment_parity_next env seg n
        (read_segment_parity_disknr env seg n (read_segment_parity_p env seg pm) d) rs
        (read_segment_parity_p env seg pm)
      = (read_segment_parity_disknr env seg n
            (read_segment_parity_p env seg (if pm + 1 = seg.node_count then 0 else pm + 1)) 0,
          rs + seg.stripe_size,
          read_segment_parity_p env seg (if pm + 1 = seg.node_count then 0 else pm + 1)) := by
  have hpm2 : (if pm + 1 = seg.node_count then 0 else pm + 1) < seg.node_count := by
    split_ifs <;> omega
  have hp := read_segment_parity_p_lt env seg pm hpm
  have hp2 := read_segment_parity_p_lt env seg _ hpm2
  have hrot := parity_p_rotate env seg pm hpm
  have hpv : read_segment_parity_p env seg pm
      = if seg.layout &&& env.GRUB_RAID_LAYOUT_RIGHT_MASK = 0 then seg.node_count - 1 - pm
        else pm := rfl
  obtain ⟨a, ha⟩ : ∃ a, a = read_segment_parity_disknr env seg n
      (read_segment_parity_p env seg pm) d := ⟨_, rfl⟩
  obtain ⟨a2, ha2⟩ : ∃ a2, a2 = read_segment_parity_disknr env seg n
      (read_segment_parity_p env seg (if pm + 1 = seg.node_count then 0 else pm + 1)) 0 :=
    ⟨_, rfl⟩
  rw [← ha, ← ha2]
  rw [read_segment_parity_disknr_eq env seg n _ _ hn hN hp (by omega)] at ha
  rw [read_segment_parity_disknr_eq env seg n _ _ hn hN hp2 (by omega)] at ha2
  generalize read_segment_parity_p env seg (if pm + 1 = seg.node_count then 0 else pm + 1)
    = p2 at hp2 hrot ha2 ⊢
  generalize read_segment_parity_p env seg pm = p at hp hrot ha ha2 hpv ⊢
  by_cases hs : seg.layout &&& env.GRUB_RAID_LAYOUT_SYMMETRIC_MASK ≠ 0
  · rw [if_pos hs] at ha ha2
    have he : (if a + 1 = seg.node_count then 0 else a + 1) = p := by
      split_ifs at ha ⊢ <;> omega
    rw [parity_next_symmetric_move env seg n a rs p h5 hs he, hrot]
    have h1 : (if p2 + n ≥ seg.node_count then p2 + n - seg.node_count else p2 + n) = a2 := by
      split_ifs at ha2 ⊢ <;> omega
    rw [h1]
  · rw [if_neg hs] at ha ha2
    have hs0 : seg.layout &&& env.GRUB_RAID_LAYOUT_SYMMETRIC_MASK = 0 := not_not.mp hs
    have hge : (if a + 1 = p then a + 1 + n else a + 1) ≥ seg.node_count := by
      split_ifs at ha ⊢ <;> omega
    rw [parity_next_asymmetric_move env seg n a rs p _ p2 h5 hs0 rfl hrot.symm hge]
    have hg2 : n = 1 ∨ seg.layout &&& env.GRUB_RAID_LAYOUT_RIGHT_MASK ≠ 0
        ∨ seg.node_count = 3 := by
      rcases hgood with h | h | h
      · exact Or.inl h
      · rcases h with h | h
        · exact absurd h hs
        · exact Or.inr (Or.inl h)
      · exact Or.inr (Or.inr h)
    obtain ⟨k, hk⟩ : ∃ k, k = (if a + 1 = p then a + 1 + n else a + 1) - seg.node_count :=
      ⟨_, rfl⟩
    rw [← hk]
    have hk0 : k = if n = 2 ∧ p + 1 = seg.node_count then 1 else 0 := by
      split_ifs at ha hk ⊢ <;> omega
    have h1 : (if (if (k ≥ p2 ∧ k < p2 + n)
              ∨ (k + seg.node_count ≥ p2 ∧ k + seg.node_count < p2 + n)
              then p2 + n else k) ≥ seg.node_count then
            (if (k ≥ p2 ∧ k < p2 + n)
              ∨ (k + seg.node_count ≥ p2 ∧ k + seg.node_count < p2 + n)
              then p2 + n else k) - seg.node_count
          else
            (if (k ≥ p2 ∧ k < p2 + n)
              ∨ (k + seg.node_count ≥ p2 ∧ k + seg.node_count < p2 + n)
              then p2 + n else k)) = a2 := by
      clear hk ha hge
      obtain ⟨k2, hk2⟩ : ∃ k2, k2 = (if (k ≥ p2 ∧ k < p2 + n)
              ∨ (k + seg.node_count ≥ p2 ∧ k + seg.node_count < p2 + n)
              then p2 + n else k) := ⟨_, rfl⟩
      rw [← hk2]
      by_cases hr : seg.layout &&& env.GRUB_RAID_LAYOUT_RIGHT_MASK = 0
      · rw [if_neg (by rw [hr]; exact fun hx => hx rfl)] at hrot
        rw [if_pos hr] at hpv
        have hg3 : n = 1 ∨ seg.node_count = 3 := by
          rcases hg2 with h | h | h
          · exact Or.inl h
          · exact absurd hr h
          · exact Or.inr h
        split_ifs at hrot ha2 hk0 hk2 ⊢ <;> omega
      · rw [if_pos hr] at hrot
        rw [if_neg hr] at hpv
        split_ifs at hrot ha2 hk0 hk2 ⊢ <;> omega
    rw [h1]

theorem parity_loop_chunk_none (env : Env) (rd : List Reader) (seg : grub_diskfilter_seg)
    (n fuel d rs p b size buf len : Nat)
    (hlen : len = if seg.stripe_size - b > size then size else seg.stripe_size - b)
    (hc : parity_chunk env rd seg d rs p b len buf = none) :
    read_segment_parity_loop env rd seg n fuel d rs p b size buf = none := by
  unfold parity_chunk at hc
  unfold read_segment_parity_loop
  simp only [← hlen]
  cases hr : read_segment_node rd d (rs + b) len buf with
  | none => rfl
  | some r =>
    rcases r with ⟨err, ev⟩
    rw [hr] at hc
    simp only [] at hc
    split_ifs at hc

theorem parity_loop_chunk_err (env : Env) (rd : List Reader) (seg : grub_diskfilter_seg)
    (n fuel d rs p b size buf len : Nat) (e : grub_err_t) (tr : List Event)
    (hlen : len = if seg.stripe_size - b > size then size else seg.stripe_size - b)
    (hc : parity_chunk env rd seg d rs p b len buf = some (e, tr)) (he : e ≠ GRUB_ERR_NONE) :
    read_segment_parity_loop env rd seg n fuel d rs p b size buf = some (e, tr) := by
  unfold parity_chunk at hc
  unfold read_segment_parity_loop
  simp only [← hlen]
  cases hr : read_segment_node rd d (rs + b) len buf with
  | none => rw [hr] at hc; cases hc
  | some r =>
    rcases r with ⟨err, ev⟩
    rw [hr] at hc
    simp only [] at hc ⊢
    by_cases h1 : err ≠ GRUB_ERR_NONE ∧ (err ≠ GRUB_ERR_READ_ERROR ∧ err ≠ GRUB_ERR_UNKNOWN_DEVICE)
    · rw [if_pos h1] at hc ⊢
      exact hc
    · rw [if_neg h1] at hc ⊢
      by_cases h2 : err ≠ GRUB_ERR_NONE
      · rw [if_pos h2] at hc
        simp only [if_pos h2]
        have h3 := Option.some.inj hc
        have h4 : (read_segment_recover env seg d p buf (rs + b) len).1 = e :=
          congrArg Prod.fst h3
        rw [if_pos (by rw [h4]; exact he)]
        exact hc
      · rw [if_neg h2] at hc
        have h3 := Option.some.inj hc
        exact absurd (congrArg Prod.fst h3).symm he

theorem parity_loop_chunk_ok (env : Env) (rd : List Reader) (seg : grub_diskfilter_seg)
    (n fuel d rs p b size buf len : Nat) (tr : List Event)
    (hlen : len = if seg.stripe_size - b > size then size else seg.stripe_size - b)
    (hc : parity_chunk env rd seg d rs p b len buf = some (GRUB_ERR_NONE, tr)) :
    read_segment_parity_loop env rd seg n fuel d rs p b size buf
      = if size - len = 0 then some (GRUB_ERR_NONE, tr)
        else
          match fuel with
          | 0 => none
          | fuel2 + 1 =>
            (read_segment_parity_loop env rd seg n fuel2
              (read_segment_parity_next env seg n d rs p).1
              (read_segment_parity_next env seg n d rs p).2.1
              (read_segment_parity_next env seg n d rs p).2.2 0 (size - len)
              (buf + (len <<< env.GRUB_DISK_SECTOR_BITS))).map (fun r => (r.1, tr ++ r.2)) := by
  unfold parity_chunk at hc
  rw [read_segment_parity_loop]
  simp only [← hlen]
  cases hr : read_segment_node rd d (rs + b) len buf with
  | none => rw [hr] at hc; cases hc
  | some r =>
    rcases r with ⟨err, ev⟩
    rw [hr] at hc
    simp only [] at hc ⊢
    by_cases h1 : err ≠ GRUB_ERR_NONE ∧ (err ≠ GRUB_ERR_READ_ERROR ∧ err ≠ GRUB_ERR_UNKNOWN_DEVICE)
    · rw [if_pos h1] at hc
      have h3 := Option.some.inj hc
      exact absurd (congrArg Prod.fst h3) h1.1
    · rw [if_neg h1] at hc ⊢
      by_cases h2 : err ≠ GRUB_ERR_NONE
      · rw [if_pos h2] at hc
        simp only [if_pos h2]
        have h3 := Option.some.inj hc
        have h4 : (read_segment_recover env seg d p buf (rs + b) len).1 = GRUB_ERR_NONE :=
          congrArg Prod.fst h3
        have h5 : ev :: (read_segment_recover env seg d p buf (rs + b) len).2 = tr :=
          congrArg Prod.snd h3
        rw [if_neg (by rw [h4]; exact fun hx => hx rfl), h5]
        by_cases h0 : size - len = 0
        · rw [if_pos h0, if_pos h0]
        · rw [if_neg h0, if_neg h0]
          cases fuel with
          | zero => rfl
          | succ fuel2 =>
            simp only []
            cases read_segment_parity_loop env rd seg n fuel2
              (read_segment_parity_next env seg n d rs p).1
              (read_segment_parity_next env seg n d rs p).2.1
              (read_segment_parity_next env seg n d rs p).2.2 0 (size - len)
              (buf + (len <<< env.GRUB_DISK_SECTOR_BITS)) with
            | none => rfl
            | some r2 => simp only [Option.map_some', ← h5, List.cons_append]
      · rw [if_neg h2] at hc
        simp only [if_neg h2]
        have h3 := Option.some.inj hc
        have h5 : [ev] = tr := congrArg Prod.snd h3
        rw [← h5]
        by_cases h0 : size - len = 0
        · rw [if_pos h0, if_pos h0]
        · rw [if_neg h0, if_neg h0]
          cases fuel with
          | zero => rfl
          | succ fuel2 =>
            simp only []
            cases read_segment_parity_loop env rd seg n fuel2
              (read_segment_parity_next env seg n d rs p).1
              (read_segment_parity_next env seg n d rs p).2.1
              (read_segment_parity_next env seg n d rs p).2.2 0 (size - len)
              (buf + (len <<< env.GRUB_DISK_SECTOR_BITS)) with
            | none => rfl
            | some r2 => simp only [Option.map_some', List.cons_append, List.nil_append]

theorem parity_next_scratch (env : Env) (seg : grub_diskfilter_seg) (t : Nat)
    (ht : seg.type = GRUB_DISKFILTER_RAID4 ∨ seg.type = GRUB_DISKFILTER_RAID5
      ∨ seg.type = GRUB_DISKFILTER_RAID6)
    (hN : seg.type / 3 < seg.node_count)
    (hgood : seg.type = GRUB_DISKFILTER_RAID6 →
      layout_not_left_asymmetric env seg ∨ seg.node_count = 3) :
    read_segment_parity_next env seg (seg.type / 3)
        (parity_scratch env seg (seg.type / 3) t).1
        (parity_scratch env seg (seg.type / 3) t).2.1
        (parity_scratch env seg (seg.type / 3) t).2.2
      = parity_scratch env seg (seg.type / 3) (t + 1) := by
  have hn : seg.type / 3 = 1 ∨ seg.type / 3 = 2 := by
    rcases ht with h | h | h <;> rw [h]
    · left; rfl
    · left; rfl
    · right; rfl
  have hg2 : seg.type / 3 = 1 ∨ layout_not_left_asymmetric env seg ∨ seg.node_count = 3 := by
    rcases ht with h | h | h
    · left; rw [h]; rfl
    · left; rw [h]; rfl
    · right; exact hgood h
  have hn4 : seg.type = GRUB_DISKFILTER_RAID4 → seg.type / 3 = 1 := by
    intro h; rw [h]; rfl
  have hD : 0 < seg.node_count - seg.type / 3 := by omega
  have hNpos : 0 < seg.node_count := by omega
  obtain ⟨hm, hq⟩ := succ_div_mod_ite t (seg.node_count - seg.type / 3) seg.stripe_size hD
  obtain ⟨_, hq1⟩ := succ_div_mod_ite t (seg.node_count - seg.type / 3) 1 hD
  have hdlt := Nat.mod_lt t hD
  have hpm := Nat.mod_lt (t / (seg.node_count - seg.type / 3)) hNpos
  unfold parity_scratch
  simp only []
  generalize seg.type / 3 = n at *
  by_cases h5 : seg.type ≥ 5
  · simp only [if_pos h5]
    by_cases hd : t % (seg.node_count - n) + 1 = seg.node_count - n
    · rw [if_pos hd] at hm hq hq1
      have hrow : (t + 1) / (seg.node_count - n) = t / (seg.node_count - n) + 1 := by
        simpa using hq1
      rw [hm, hq, hrow]
      have hmod : (t / (seg.node_count - n) + 1) % seg.node_count
          = if t / (seg.node_count - n) % seg.node_count + 1 = seg.node_count then 0
            else t / (seg.node_count - n) % seg.node_count + 1 := by
        rw [← (succ_div_mod (t / (seg.node_count - n)) seg.node_count hNpos).1]
        exact succ_mod_eq_ite seg.node_count _ hpm
      rw [hmod]
      exact parity_next_new_row env seg n _ _ _ hn hN h5 hpm hd hg2
    · rw [if_neg hd] at hm hq hq1
      have hrow : (t + 1) / (seg.node_count - n) = t / (seg.node_count - n) := by
        simpa using hq1
      rw [hm, hq, hrow]
      exact parity_next_same_row env seg n _ _ _ hn hN hpm (by omega)
  · simp only [if_neg h5]
    have h4 : seg.type = GRUB_DISKFILTER_RAID4 := by
      rcases ht with h | h | h
      · exact h
      · exact absurd (by rw [h]; decide) h5
      · exact absurd (by rw [h]; decide) h5
    have hn1 : n = 1 := hn4 h4
    subst hn1
    rw [read_segment_parity_next_raid4 env seg _ _ h4 (by omega), hm, hq]

theorem read_segment_with_parity_scratch (env : Env) (rd : List Reader)
    (seg : grub_diskfilter_seg)
    (ht : seg.type = GRUB_DISKFILTER_RAID4 ∨ seg.type = GRUB_DISKFILTER_RAID5
      ∨ seg.type = GRUB_DISKFILTER_RAID6)
    (hS : 0 < seg.stripe_size) (hN : seg.type / 3 < seg.node_count) (x z bf : Nat) :
    read_segment_with env rd seg x z bf
      = read_segment_parity_loop env rd seg (seg.type / 3) z
          (parity_scratch env seg (seg.type / 3) (x / seg.stripe_size)).1
          (parity_scratch env seg (seg.type / 3) (x / seg.stripe_size)).2.1
          (parity_scratch env seg (seg.type / 3) (x / seg.stripe_size)).2.2
          (x % seg.stripe_size) z bf :=
  read_segment_parity_eq_loop env rd seg x z bf ht _ _ _ _
    (read_segment_parity_start_eq env seg (seg.type / 3) x hS hN)

theorem parity_loop_pieces (env : Env) (rd : List Reader) (seg : grub_diskfilter_seg)
    (ht : seg.type = GRUB_DISKFILTER_RAID4 ∨ seg.type = GRUB_DISKFILTER_RAID5
      ∨ seg.type = GRUB_DISKFILTER_RAID6)
    (hS : 0 < seg.stripe_size) (hN : seg.type / 3 < seg.node_count)
    (hgood : seg.type = GRUB_DISKFILTER_RAID6 →
      layout_not_left_asymmetric env seg ∨ seg.node_count = 3)
    (fuel x size buf : Nat) (hf : size ≤ fuel) :
    read_segment_parity_loop env rd seg (seg.type / 3) fuel
        (parity_scratch env seg (seg.type / 3) (x / seg.stripe_size)).1
        (parity_scratch env seg (seg.type / 3) (x / seg.stripe_size)).2.1
        (parity_scratch env seg (seg.type / 3) (x / seg.stripe_size)).2.2
        (x % seg.stripe_size) size buf
      = read_pieces (read_segment_with env rd seg)
          (request_chunks env.GRUB_DISK_SECTOR_BITS seg.stripe_size fuel x size buf) := by
  induction fuel generalizing x size buf with
  | zero =>
    have hs : size = 0 := by omega
    subst hs
    have hl : (if seg.stripe_size - x % seg.stripe_size > 0 then 0
        else seg.stripe_size - x % seg.stripe_size) = 0 := by
      split_ifs <;> omega
    rw [request_chunks]
    simp only [hl, Nat.sub_self, if_true]
    cases hr : read_segment_parity_loop env rd seg (seg.type / 3) 0
        (parity_scratch env seg (seg.type / 3) (x / seg.stripe_size)).1
        (parity_scratch env seg (seg.type / 3) (x / seg.stripe_size)).2.1
        (parity_scratch env seg (seg.type / 3) (x / seg.stripe_size)).2.2
        (x % seg.stripe_size) 0 buf with
    | none =>
      rw [read_pieces_cons_none]
      simp only []
      rw [read_segment_with_parity_scratch env rd seg ht hS hN x 0 buf, hr]
    | some r =>
      rcases r with ⟨e, tr⟩
      by_cases he : e ≠ GRUB_ERR_NONE
      · rw [read_pieces_cons_err _ _ _ e tr _ he]
        simp only []
        rw [read_segment_with_parity_scratch env rd seg ht hS hN x 0 buf, hr]
      · have he2 : e = GRUB_ERR_NONE := by simpa using he
        subst he2
        rw [read_pieces_cons_ok _ _ _ tr]
        · simp [read_pieces]
        · simp only []
          rw [read_segment_with_parity_scratch env rd seg ht hS hN x 0 buf, hr]
  | succ fuel ih =>
    have hb := Nat.mod_lt x hS
    rw [request_chunks]
    obtain ⟨len, hlen⟩ : ∃ len, len = if seg.stripe_size - x % seg.stripe_size > size then size
        else seg.stripe_size - x % seg.stripe_size := ⟨_, rfl⟩
    simp only [← hlen]
    have hle : len ≤ seg.stripe_size - x % seg.stripe_size := by
      rw [hlen]; split_ifs <;> omega
    have hlen2 : len = if seg.stripe_size - x % seg.stripe_size > len then len
        else seg.stripe_size - x % seg.stripe_size := by
      split_ifs <;> omega
    have hfirst := read_segment_with_parity_scratch env rd seg ht hS hN x len buf
    cases hc : parity_chunk env rd seg
        (parity_scratch env seg (seg.type / 3) (x / seg.stripe_size)).1
        (parity_scratch env seg (seg.type / 3) (x / seg.stripe_size)).2.1
        (parity_scratch env seg (seg.type / 3) (x / seg.stripe_size)).2.2
        (x % seg.stripe_size) len buf with
    | none =>
      rw [parity_loop_chunk_none env rd seg _ _ _ _ _ _ _ _ len hlen hc]
      rw [parity_loop_chunk_none env rd seg _ _ _ _ _ _ _ _ len hlen2 hc] at hfirst
      rw [read_pieces_cons_none _ _ _ hfirst]
    | some r =>
      rcases r with ⟨e, tr⟩
      by_cases he : e ≠ GRUB_ERR_NONE
      · rw [parity_loop_chunk_err env rd seg _ _ _ _ _ _ _ _ len e tr hlen hc he]
        rw [parity_loop_chunk_err env rd seg _ _ _ _ _ _ _ _ len e tr hlen2 hc he] at hfirst
        rw [read_pieces_cons_err _ _ _ e tr hfirst he]
      · have he2 : e = GRUB_ERR_NONE := by simpa using he
        subst he2
        rw [parity_loop_chunk_ok env rd seg _ _ _ _ _ _ _ _ len tr hlen hc]
        rw [parity_loop_chunk_ok env rd seg _ _ _ _ _ _ _ _ len tr hlen2 hc,
          if_pos (Nat.sub_self len)] at hfirst
        rw [read_pieces_cons_ok _ _ _ tr hfirst]
        by_cases h0 : size - len = 0
        · rw [if_pos h0, if_pos h0]
          simp [read_pieces]
        · rw [if_neg h0, if_neg h0]
          simp only []
          have hlenS : len = seg.stripe_size - x % seg.stripe_size := by
            by_cases hgt : seg.stripe_size - x % seg.stripe_size > size
            · rw [if_pos hgt] at hlen
              rw [hlen] at h0
              exact absurd (Nat.sub_self _) h0
            · rw [if_neg hgt] at hlen
              exact hlen
          have hx : x + len = (x / seg.stripe_size + 1) * seg.stripe_size := by
            have := Nat.div_add_mod x seg.stripe_size
            rw [Nat.add_mul, Nat.one_mul, Nat.mul_comm]
            omega
          have hdiv : (x + len) / seg.stripe_size = x / seg.stripe_size + 1 := by
            rw [hx, Nat.mul_div_cancel _ hS]
          have hmod : (x + len) % seg.stripe_size = 0 := by
            rw [hx, Nat.mul_mod_left]
          have hih := ih (x + len) (size - len) (buf + (len <<< env.GRUB_DISK_SECTOR_BITS))
            (by omega)
          rw [hdiv, hmod] at hih
          rw [parity_next_scratch env seg (x / seg.stripe_size) ht hN hgood, hih]

/-- One read and the reads of its pieces, the parity levels: for every RAID4,
RAID5 or RAID6 segment that passes validation, the RAID6 segments of more than
3 members with the left-asymmetric layout excepted, every start sector, every
length and every behaviour of the members, one call of `read_segment` over the
range returns the error code and makes the calls, in order, of the independent
calls of `read_segment` on the pieces of the range cut at the stripe
boundaries, read one after the other up to the first piece that fails: the
rotation of `p` and the member with which a new stripe row is entered are those
of the computation from scratch. -/
theorem read_segment_parity_pieces (env : Env) (seg : grub_diskfilter_seg)
    (sector size buf : Nat) (hv : validate_segment seg = GRUB_ERR_NONE)
    (ht : seg.type = GRUB_DISKFILTER_RAID4 ∨ seg.type = GRUB_DISKFILTER_RAID5
      ∨ seg.type = GRUB_DISKFILTER_RAID6)
    (hgood : seg.type = GRUB_DISKFILTER_RAID6 →
      layout_not_left_asymmetric env seg ∨ seg.node_count = 3) :
    read_segment env seg sector size buf
      = read_pieces (read_segment env seg)
          (request_chunks env.GRUB_DISK_SECTOR_BITS seg.stripe_size size sector size buf) := by
  obtain ⟨hS, _, _, h45, h6, _, _⟩ := validate_segment_ok seg hv
  have hN : seg.type / 3 < seg.node_count := by
    rcases ht with h | h | h
    · have := h45 (Or.inl h)
      rw [h]
      exact this
    · have := h45 (Or.inr h)
      rw [h]
      exact this
    · have := h6 h
      rw [h]
      exact this
  unfold read_segment
  rw [read_segment_with_parity_scratch env _ seg ht hS hN sector size buf]
  exact parity_loop_pieces env _ seg ht hS hN hgood size sector size buf (Nat.le_refl _)

/-- The left-symmetric RAID6 segment of 4 members with stripe size 2: the read
of 6 sectors from sector 0 reads the members 1, 2 and 0, as do its three pieces
read one by one. -/
theorem read_segment_parity_pieces_example :
    res_calls (read_segment env_ok c34_segment_symmetric 0 6 0)
      = some (GRUB_ERR_NONE,
          [(1, 0, 2, 0, GRUB_ERR_NONE), (2, 0, 2, 1024, GRUB_ERR_NONE),
           (0, 2, 2, 2048, GRUB_ERR_NONE)])
    ∧ read_segment env_ok c34_segment_symmetric 0 6 0
      = read_pieces (read_segment env_ok c34_segment_symmetric)
          [(0, 2, 0), (2, 2, 1024), (4, 2, 2048)] :=
  ⟨rfl, read_segment_parity_pieces env_ok c34_segment_symmetric 0 6 0 (by decide) (by decide)
    (fun _ => Or.inl (Or.inl (by decide)))⟩

/-! ## Success of a read and the reads made: the chunks -/

theorem copies_candidates_ne_nil (N near far ofs far_ofs b d rs : Nat) (hnear : 0 < near)
    (hfar : 0 < far) : copies_candidates N near far ofs far_ofs b d rs ≠ [] := by
  obtain ⟨k, hk⟩ : ∃ k, near = k + 1 := ⟨near - 1, by omega⟩
  subst hk
  unfold copies_candidates
  rw [List.range_succ_eq_map, List.flatMap_cons]
  obtain ⟨c, rest, hc⟩ := far_candidates_ne_nil N far far_ofs b ((d + 0) % N)
    (rs + (d + 0) / N * ofs) hfar
  rw [hc]
  exact fun hx => by cases hx

theorem try_candidates_filled (rd : List Reader) (z b : Nat) (cands : List (Nat × Nat))
    (e0 : grub_err_t) (tr : List Event)
    (h : try_candidates rd z b cands e0 = some (GRUB_ERR_NONE, tr)) (hne : cands ≠ []) :
    ∃ ev ∈ tr, ev.fills z b := by
  induction cands generalizing e0 tr with
  | nil => exact absurd rfl hne
  | cons c rest ih =>
    rw [try_candidates] at h
    cases hr : read_segment_node rd c.1 c.2 z b with
    | none => rw [hr] at h; cases h
    | some r =>
      rcases r with ⟨err, ev⟩
      obtain ⟨sub, hev⟩ := read_segment_node_event rd c.1 c.2 z b err ev hr
      rw [hr] at h
      simp only [] at h
      by_cases hc : err = GRUB_ERR_READ_ERROR ∨ err = GRUB_ERR_UNKNOWN_DEVICE
      · rw [if_pos hc] at h
        cases ht : try_candidates rd z b rest err with
        | none => rw [ht] at h; cases h
        | some r2 =>
          rcases r2 with ⟨e2, tr2⟩
          rw [ht] at h
          simp only [] at h
          have h3 := Option.some.inj h
          have he2 : e2 = GRUB_ERR_NONE := congrArg Prod.fst h3
          have htr : ev :: tr2 = tr := congrArg Prod.snd h3
          subst he2
          by_cases hrest : rest = []
          · subst hrest
            rw [try_candidates] at ht
            have h4 := Option.some.inj ht
            have h5 : err = GRUB_ERR_NONE := congrArg Prod.fst h4
            rw [h5] at hc
            rcases hc with hc | hc <;> cases hc
          · obtain ⟨ev2, hm, hf⟩ := ih err tr2 ht hrest
            exact ⟨ev2, by rw [← htr]; exact List.mem_cons_of_mem _ hm, hf⟩
      · rw [if_neg hc] at h
        have h3 := Option.some.inj h
        have he : err = GRUB_ERR_NONE := congrArg Prod.fst h3
        have htr : [ev] = tr := congrArg Prod.snd h3
        refine ⟨ev, by rw [← htr]; exact List.mem_singleton.mpr rfl, ?_⟩
        rw [hev]
        exact ⟨rfl, rfl, he⟩

theorem copies_read_filled (bits : Nat) (rd : List Reader) (N S near far ofs far_ofs : Nat)
    (hS : 0 < S) (hnear : 0 < near) (hfar : 0 < far) (fuel : Nat) :
    ∀ (d rs x size buf : Nat) (tr : List Event),
      copies_read bits rd N S near far ofs far_ofs fuel d rs (x % S) size buf
        = some (GRUB_ERR_NONE, tr) →
      ∀ c ∈ request_chunks bits S fuel x size buf, ∃ ev ∈ tr, ev.fills c.2.1 c.2.2 := by
  induction fuel with
  | zero =>
    intro d rs x size buf tr h c hc
    rw [copies_read] at h
    rw [request_chunks] at hc
    obtain ⟨len, hlen⟩ : ∃ len, len = if S - x % S > size then size else S - x % S := ⟨_, rfl⟩
    simp only [← hlen] at h hc
    cases ht : try_candidates rd len buf
        (copies_candidates N near far ofs far_ofs (x % S) d rs) GRUB_ERR_NONE with
    | none => rw [ht] at h; cases h
    | some r =>
      rcases r with ⟨e, tr1⟩
      rw [ht] at h
      simp only [] at h
      by_cases he : e ≠ GRUB_ERR_NONE
      · rw [if_pos he] at h
        exact absurd (congrArg Prod.fst (Option.some.inj h)) he
      · rw [if_neg he] at h
        have he2 : e = GRUB_ERR_NONE := not_not.mp he
        subst he2
        by_cases h0 : size - len = 0
        · rw [if_pos h0] at h hc
          have htr : tr1 = tr := congrArg Prod.snd (Option.some.inj h)
          rw [List.mem_singleton] at hc
          rw [hc, ← htr]
          exact try_candidates_filled rd len buf _ _ tr1 ht
            (copies_candidates_ne_nil N near far ofs far_ofs _ d rs hnear hfar)
        · rw [if_neg h0] at h
          cases h
  | succ fuel ih =>
    intro d rs x size buf tr h c hc
    have hb := Nat.mod_lt x hS
    rw [copies_read] at h
    rw [request_chunks] at hc
    obtain ⟨len, hlen⟩ : ∃ len, len = if S - x % S > size then size else S - x % S := ⟨_, rfl⟩
    simp only [← hlen] at h hc
    cases ht : try_candidates rd len buf
        (copies_candidates N near far ofs far_ofs (x % S) d rs) GRUB_ERR_NONE with
    | none => rw [ht] at h; cases h
    | some r =>
      rcases r with ⟨e, tr1⟩
      rw [ht] at h
      simp only [] at h
      by_cases he : e ≠ GRUB_ERR_NONE
      · rw [if_pos he] at h
        exact absurd (congrArg Prod.fst (Option.some.inj h)) he
      · rw [if_neg he] at h
        have he2 : e = GRUB_ERR_NONE := not_not.mp he
        subst he2
        obtain ⟨ev1, hm1, hf1⟩ := try_candidates_filled rd len buf _ _ tr1 ht
          (copies_candidates_ne_nil N near far ofs far_ofs _ d rs hnear hfar)
        by_cases h0 : size - len = 0
        · rw [if_pos h0] at h hc
          have htr : tr1 = tr := congrArg Prod.snd (Option.some.inj h)
          rw [List.mem_singleton] at hc
          rw [hc, ← htr]
          exact ⟨ev1, hm1, hf1⟩
        · rw [if_neg h0] at h hc
          have hlenS : len = S - x % S := by
            by_cases hgt : S - x % S > size
            · rw [if_pos hgt] at hlen
              rw [hlen] at h0
              exact absurd (Nat.sub_self _) h0
            · rw [if_neg hgt] at hlen
              exact hlen
          have hx : x + len = (x / S + 1) * S := by
            have := Nat.div_add_mod x S
            rw [Nat.add_mul, Nat.one_mul, Nat.mul_comm]
            omega
          have hmod : (x + len) % S = 0 := by
            rw [hx, Nat.mul_mod_left]
          cases hrec : copies_read bits rd N S near far ofs far_ofs fuel ((d + near) % N)
              (rs + (d + near) / N * ofs) 0 (size - len) (buf + (len <<< bits)) with
          | none => rw [hrec] at h; cases h
          | some r2 =>
            rcases r2 with ⟨e2, tr2⟩
            rw [hrec] at h
            simp only [] at h
            have h3 := Option.some.inj h
            have he2 : e2 = GRUB_ERR_NONE := congrArg Prod.fst h3
            have htr : tr1 ++ tr2 = tr := congrArg Prod.snd h3
            subst he2
            rcases List.mem_cons.mp hc with hc1 | hc2
            · rw [hc1, ← htr]
              exact ⟨ev1, List.mem_append_left _ hm1, hf1⟩
            · rw [← hmod] at hrec
              obtain ⟨ev2, hm2, hf2⟩ := ih _ _ (x + len) (size - len) _ tr2 hrec c hc2
              exact ⟨ev2, by rw [← htr]; exact List.mem_append_right _ hm2, hf2⟩

theorem read_segment_recover_filled (env : Env) (seg : grub_diskfilter_seg)
    (d p buf s z : Nat) (h : (read_segment_recover env seg d p buf s z).1 = GRUB_ERR_NONE) :
    ∃ ev ∈ (read_segment_recover env seg d p buf s z).2, ev.fills z buf := by
  unfold read_segment_recover at h ⊢
  by_cases h6 : seg.type = GRUB_DISKFILTER_RAID6
  · rw [if_pos h6] at h ⊢
    cases hf : env.grub_raid6_recover_func with
    | none => rw [hf] at h; cases h
    | some f =>
      rw [hf] at h
      simp only [] at h ⊢
      exact ⟨_, List.mem_singleton.mpr rfl, rfl, rfl, h⟩
  · rw [if_neg h6] at h ⊢
    cases hf : env.grub_raid5_recover_func with
    | none => rw [hf] at h; cases h
    | some f =>
      rw [hf] at h
      simp only [] at h ⊢
      exact ⟨_, List.mem_singleton.mpr rfl, rfl, rfl, h⟩

theorem parity_chunk_filled (env : Env) (rd : List Reader) (seg : grub_diskfilter_seg)
    (d rs p b len buf : Nat) (tr : List Event)
    (h : parity_chunk env rd seg d rs p b len buf = some (GRUB_ERR_NONE, tr)) :
    ∃ ev ∈ tr, ev.fills len buf := by
  unfold parity_chunk at h
  cases hr : read_segment_node rd d (rs + b) len buf with
  | none => rw [hr] at h; cases h
  | some r =>
    rcases r with ⟨err, ev⟩
    obtain ⟨sub, hev⟩ := read_segment_node_event rd d (rs + b) len buf err ev hr
    rw [hr] at h
    simp only [] at h
    by_cases h1 : err ≠ GRUB_ERR_NONE ∧ (err ≠ GRUB_ERR_READ_ERROR ∧ err ≠ GRUB_ERR_UNKNOWN_DEVICE)
    · rw [if_pos h1] at h
      exact absurd (congrArg Prod.fst (Option.some.inj h)) h1.1
    · rw [if_neg h1] at h
      by_cases h2 : err ≠ GRUB_ERR_NONE
      · rw [if_pos h2] at h
        have h3 := Option.some.inj h
        have h4 : (read_segment_recover env seg d p buf (rs + b) len).1 = GRUB_ERR_NONE :=
          congrArg Prod.fst h3
        have h5 : ev :: (read_segment_recover env seg d p buf (rs + b) len).2 = tr :=
          congrArg Prod.snd h3
        obtain ⟨ev2, hm, hf⟩ := read_segment_recover_filled env seg d p buf (rs + b) len h4
        exact ⟨ev2, by rw [← h5]; exact List.mem_cons_of_mem _ hm, hf⟩
      · rw [if_neg h2] at h
        have h5 : [ev] = tr := congrArg Prod.snd (Option.some.inj h)
        refine ⟨ev, by rw [← h5]; exact List.mem_singleton.mpr rfl, ?_⟩
        rw [hev]
        exact ⟨rfl, rfl, not_not.mp h2⟩

theorem parity_loop_filled (env : Env) (rd : List Reader) (seg : grub_diskfilter_seg)
    (n : Nat) (hS : 0 < seg.stripe_size) (fuel : Nat) :
    ∀ (d rs p x size buf : Nat) (tr : List Event),
      read_segment_parity_loop env rd seg n fuel d rs p (x % seg.stripe_size) size buf
        = some (GRUB_ERR_NONE, tr) →
      ∀ c ∈ request_chunks env.GRUB_DISK_SECTOR_BITS seg.stripe_size fuel x size buf,
        ∃ ev ∈ tr, ev.fills c.2.1 c.2.2 := by
  induction fuel with
  | zero =>
    intro d rs p x size buf tr h c hc
    rw [request_chunks] at hc
    obtain ⟨len, hlen⟩ : ∃ len, len = if seg.stripe_size - x % seg.stripe_size > size then size
        else seg.stripe_size - x % seg.stripe_size := ⟨_, rfl⟩
    simp only [← hlen] at hc
    cases hk : parity_chunk env rd seg d rs p (x % seg.stripe_size) len buf with
    | none =>
      rw [parity_loop_chunk_none env rd seg _ _ _ _ _ _ _ _ len hlen hk] at h
      cases h
    | some r =>
      rcases r with ⟨e, tr1⟩
      by_cases he : e ≠ GRUB_ERR_NONE
      · rw [parity_loop_chunk_err env rd seg _ _ _ _ _ _ _ _ len e tr1 hlen hk he] at h
        exact absurd (congrArg Prod.fst (Option.some.inj h)) he
      · have he2 : e = GRUB_ERR_NONE := not_not.mp he
        subst he2
        rw [parity_loop_chunk_ok env rd seg _ _ _ _ _ _ _ _ len tr1 hlen hk] at h
        by_cases h0 : size - len = 0
        · rw [if_pos h0] at h hc
          have htr : tr1 = tr := congrArg Prod.snd (Option.some.inj h)
          rw [List.mem_singleton] at hc
          rw [hc, ← htr]
          exact parity_chunk_filled env rd seg _ _ _ _ len buf tr1 hk
        · rw [if_neg h0] at h
          cases h
  | succ fuel ih =>
    intro d rs p x size buf tr h c hc
    have hb := Nat.mod_lt x hS
    rw [request_chunks] at hc
    obtain ⟨len, hlen⟩ : ∃ len, len = if seg.stripe_size - x % seg.stripe_size > size then size
        else seg.stripe_size - x % seg.stripe_size := ⟨_, rfl⟩
    simp only [← hlen] at hc
    cases hk : parity_chunk env rd seg d rs p (x % seg.stripe_size) len buf with
    | none =>
      rw [parity_loop_chunk_none env rd seg _ _ _ _ _ _ _ _ len hlen hk] at h
      cases h
    | some r =>
      rcases r with ⟨e, tr1⟩
      by_cases he : e ≠ GRUB_ERR_NONE
      · rw [parity_loop_chunk_err env rd seg _ _ _ _ _ _ _ _ len e tr1 hlen hk he] at h
        exact absurd (congrArg Prod.fst (Option.some.inj h)) he
      · have he2 : e = GRUB_ERR_NONE := not_not.mp he
        subst he2
        rw [parity_loop_chunk_ok env rd seg _ _ _ _ _ _ _ _ len tr1 hlen hk] at h
        obtain ⟨ev1, hm1, hf1⟩ := parity_chunk_filled env rd seg _ _ _ _ len buf tr1 hk
        by_cases h0 : size - len = 0
        · rw [if_pos h0] at h hc
          have htr : tr1 = tr := congrArg Prod.snd (Option.some.inj h)
          rw [List.mem_singleton] at hc
          rw [hc, ← htr]
          exact ⟨ev1, hm1, hf1⟩
        · rw [if_neg h0] at h hc
          simp only [] at h
          have hlenS : len = seg.stripe_size - x % seg.stripe_size := by
            by_cases hgt : seg.stripe_size - x % seg.stripe_size > size
            · rw [if_pos hgt] at hlen
              rw [hlen] at h0
              exact absurd (Nat.sub_self _) h0
            · rw [if_neg hgt] at hlen
              exact hlen
          have hx : x + len = (x / seg.stripe_size + 1) * seg.stripe_size := by
            have := Nat.div_add_mod x seg.stripe_size
            rw [Nat.add_mul, Nat.one_mul, Nat.mul_comm]
            omega
          have hmod : (x + len) % seg.stripe_size = 0 := by
            rw [hx, Nat.mul_mod_left]
          cases hrec : read_segment_parity_loop env rd seg n fuel
              (read_segment_parity_next env seg n d rs p).1
              (read_segment_parity_next env seg n d rs p).2.1
              (read_segment_parity_next env seg n d rs p).2.2 0 (size - len)
              (buf + (len <<< env.GRUB_DISK_SECTOR_BITS)) with
          | none => rw [hrec] at h; cases h
          | some r2 =>
            rcases r2 with ⟨e2, tr2⟩
            rw [hrec] at h
            have h3 := Option.some.inj h
            have he2 : e2 = GRUB_ERR_NONE := congrArg Prod.fst h3
            have htr : tr1 ++ tr2 = tr := congrArg Prod.snd h3
            subst he2
            rcases List.mem_cons.mp hc with hc1 | hc2
            · rw [hc1, ← htr]
              exact ⟨ev1, List.mem_append_left _ hm1, hf1⟩
            · rw [← hmod] at hrec
              obtain ⟨ev2, hm2, hf2⟩ := ih _ _ _ (x + len) (size - len) _ tr2 hrec c hc2
              exact ⟨ev2, by rw [← htr]; exact List.mem_append_right _ hm2, hf2⟩

/-- Success of a read and the reads made: for every segment that passes
validation, a RAID10 segment having a near-copy count and a far-copy count
other than 0, and every request, if `read_segment` returns `GRUB_ERR_NONE` then
for every chunk of the request a member read or a recovery call for this chunk
returned `GRUB_ERR_NONE`. -/
theorem read_segment_success_filled (env : Env) (seg : grub_diskfilter_seg)
    (sector size buf : Nat) (tr : List Event)
    (hv : validate_segment seg = GRUB_ERR_NONE)
    (hcopies : seg.type = GRUB_DISKFILTER_RAID10 →
      raid10_near seg.layout ≠ 0 ∧ raid10_far seg.layout ≠ 0)
    (h : read_segment env seg sector size buf = some (GRUB_ERR_NONE, tr)) :
    ∀ c ∈ segment_chunks env seg sector size buf, ∃ ev ∈ tr, ev.fills c.2.1 c.2.2 := by
  obtain ⟨hS, hNpos, _, h45, h6, htypes, _⟩ := validate_segment_ok seg hv
  intro c hc
  unfold segment_chunks at hc
  unfold read_segment at h
  by_cases h1 : seg.type = GRUB_DISKFILTER_STRIPED ∧ seg.node_count = 1
  · rw [if_pos h1] at hc
    unfold read_segment_with at h
    rw [if_pos h1] at h
    cases hr : read_segment_node (read_segment_readers env seg.nodes) 0 sector size buf with
    | none => rw [hr] at h; cases h
    | some r =>
      rcases r with ⟨err, ev⟩
      obtain ⟨sub, hev⟩ := read_segment_node_event _ 0 sector size buf err ev hr
      rw [hr] at h
      simp only [] at h
      have h3 := Option.some.inj h
      have he : err = GRUB_ERR_NONE := congrArg Prod.fst h3
      have htr : [ev] = tr := congrArg Prod.snd h3
      rw [List.mem_singleton] at hc
      refine ⟨ev, by rw [← htr]; exact List.mem_singleton.mpr rfl, ?_⟩
      rw [hc, hev]
      exact ⟨rfl, rfl, he⟩
  · rw [if_neg h1] at hc
    by_cases ht : seg.type = GRUB_DISKFILTER_STRIPED ∨ seg.type = GRUB_DISKFILTER_MIRROR
        ∨ seg.type = GRUB_DISKFILTER_RAID10
    · obtain ⟨near, far, ofs, far_ofs, hst⟩ := read_segment_copies_start_form seg hv
      obtain ⟨_, _, hd, _, hnf⟩ := read_segment_copies_start_inv seg sector _ _ _ _ _ _ _
        (hst sector)
      have hpos : 0 < near ∧ 0 < far := by
        by_cases hm : seg.type = GRUB_DISKFILTER_MIRROR
        · rw [if_pos hm] at hnf
          have h3 : near = seg.node_count := congrArg Prod.fst hnf
          have h4 : far = 1 := congrArg Prod.snd hnf
          rw [h3, h4]
          exact ⟨hNpos, Nat.one_pos⟩
        · rw [if_neg hm] at hnf
          by_cases h10 : seg.type = GRUB_DISKFILTER_RAID10
          · rw [if_pos h10] at hnf
            have h3 : near = raid10_near seg.layout := congrArg Prod.fst hnf
            have h4 : far = raid10_far seg.layout := congrArg Prod.snd hnf
            rw [h3, h4]
            exact ⟨Nat.pos_of_ne_zero (hcopies h10).1, Nat.pos_of_ne_zero (hcopies h10).2⟩
          · rw [if_neg h10] at hnf
            have h3 : near = 1 := congrArg Prod.fst hnf
            have h4 : far = 1 := congrArg Prod.snd hnf
            rw [h3, h4]
            exact ⟨Nat.one_pos, Nat.one_pos⟩
      unfold read_segment_with at h
      rw [if_neg h1, if_pos ht, hst sector] at h
      simp only [] at h
      rw [read_segment_copies_loop_eq _ _ _ _ _ _ _ _ hNpos _ _ _ _ _ _ hd] at h
      exact copies_read_filled _ _ _ _ near far ofs far_ofs hS hpos.1 hpos.2 size _ _ sector
        size buf tr h c hc
    · have ht2 : seg.type = GRUB_DISKFILTER_RAID4 ∨ seg.type = GRUB_DISKFILTER_RAID5
          ∨ seg.type = GRUB_DISKFILTER_RAID6 := by
        rcases htypes with h | h | h | h | h | h
        · exact absurd (Or.inl h) ht
        · exact absurd (Or.inr (Or.inl h)) ht
        · exact Or.inl h
        · exact Or.inr (Or.inl h)
        · exact Or.inr (Or.inr h)
        · exact absurd (Or.inr (Or.inr h)) ht
      have hN : seg.type / 3 < seg.node_count := by
        rcases ht2 with h | h | h
        · have := h45 (Or.inl h)
          rw [h]
          exact this
        · have := h45 (Or.inr h)
          rw [h]
          exact this
        · have := h6 h
          rw [h]
          exact this
      rw [read_segment_with_parity_scratch env _ seg ht2 hS hN sector size buf] at h
      exact parity_loop_filled env _ seg _ hS size _ _ _ sector size buf tr h c hc

/-- The RAID10 segment of 4 members with 2 near copies and stripe size 4, the
member 0 failing: the read of 10 sectors from sector 2 succeeds, and each of its
three chunks is filled by a read that succeeds. -/
theorem read_segment_success_filled_example :
    segment_chunks (env_of (fun _ => true)
        (fun d => if d = 0 then GRUB_ERR_READ_ERROR else GRUB_ERR_NONE)) c7_segment 2 10 0
      = [(2, 2, 0), (4, 4, 1024), (8, 4, 3072)]
    ∧ ∃ tr, read_segment (env_of (fun _ => true)
        (fun d => if d = 0 then GRUB_ERR_READ_ERROR else GRUB_ERR_NONE)) c7_segment 2 10 0
        = some (GRUB_ERR_NONE, tr)
      ∧ ∀ c ∈ [(2, 2, 0), (4, 4, 1024), (8, 4, 3072)], ∃ ev ∈ tr, ev.fills c.2.1 c.2.2 :=
  ⟨by decide, _, rfl, fun c hc =>
    read_segment_success_filled (env_of (fun _ => true)
        (fun d => if d = 0 then GRUB_ERR_READ_ERROR else GRUB_ERR_NONE)) c7_segment 2 10 0 _
      (by decide) (fun _ => ⟨by decide, by decide⟩) rfl c hc⟩

/-! ## The divisor of the far copies in 64 bits -/

theorem read_segment_far_divisor_exact (seg : grub_diskfilter_seg)
    (h : seg.stripe_size < 2 ^ 56) :
    read_segment_far_divisor seg = raid10_far seg.layout * seg.stripe_size := by
  unfold read_segment_far_divisor raid10_far
  apply Nat.mod_eq_of_lt
  have hfar : (seg.layout >>> 8) &&& 0xFF ≤ 0xFF := Nat.and_le_right
  calc (seg.layout >>> 8 &&& 0xFF) * seg.stripe_size
      ≤ 0xFF * seg.stripe_size := Nat.mul_le_mul_right _ hfar
    _ < 2 ^ 64 := by omega

/-- C29 (the code departs from the claim): the identity that carries the uuid
of the 2 bytes 1, 2 is inserted in a group whose one member carries the uuid of
the 3 bytes 1, 2, 3. The member does not carry a uuid of the same length with
equal bytes, yet it is matched and gets the device: as the uuid lengths differ,
the condition of lines 1261-1264 compares the fields `id`, which hold no
ordinal in an identity that carries a uuid and are equal here. For every
identity that carries a uuid and every member whose uuid length is another, the
match is decided by the fields `id` alone, whatever the bytes of the uuids. -/
theorem C29_match_by_id_field :
    c29_id.uuidlen = 2 ∧ c29_id.uuid = [1, 2]
    ∧ c29_pv.id.uuidlen = 3 ∧ c29_pv.id.uuid = [1, 2, 3]
    ∧ insert_array_match c29_id c29_pv = true
    ∧ insert_array_find c29_id (state_of_pv c29_pv).pvs c27_vg.pvs = some 0
    ∧ (insert_array (open_but "bad") ⟨"hd0", 0, 50⟩ c29_id c27_vg (2 ^ 64 - 1)
        (state_of_pv c29_pv)).1 = GRUB_ERR_NONE
    ∧ ((insert_array (open_but "bad") ⟨"hd0", 0, 50⟩ c29_id c27_vg (2 ^ 64 - 1)
        (state_of_pv c29_pv)).2.2.1.pvs 0).disk = some 7
    ∧ (∀ (id : grub_diskfilter_pv_id) (pv : grub_diskfilter_pv),
        id.uuidlen ≠ 0 → pv.id.uuidlen ≠ id.uuidlen →
        (insert_array_match id pv = true ↔ pv.id.id = id.id)) := by
  refine ⟨rfl, rfl, rfl, rfl, by decide, by decide, by decide, by decide, ?_⟩
  intro id pv _ hlen
  unfold insert_array_match
  rw [if_neg (fun hc => hlen hc.1.symm)]
  simp

/-! ## The rescan loop: the rounds and the registry -/

theorem lv_kept_refl (lv : grub_diskfilter_lv) : lv_kept lv lv :=
  ⟨rfl, fun _ => rfl, fun h => h⟩

theorem lv_kept_trans (a b c : grub_diskfilter_lv) (h : lv_kept a b) (h2 : lv_kept b c) :
    lv_kept a c := by
  refine ⟨h2.1.trans h.1, ?_, fun hs => h2.2.2 (h.2.2 hs)⟩
  intro hne
  have hb := h.2.1 hne
  rw [← hb]
  exact h2.2.1 (by rw [hb]; exact hne)

theorem lvs_kept_refl (lvs : List grub_diskfilter_lv) : lvs_kept lvs lvs :=
  ⟨rfl, fun _ lv h => ⟨lv, h, lv_kept_refl lv⟩⟩

theorem lvs_kept_trans (a b c : List grub_diskfilter_lv) (h : lvs_kept a b)
    (h2 : lvs_kept b c) : lvs_kept a c := by
  refine ⟨h.1.trans h2.1, ?_⟩
  intro i lv hi
  obtain ⟨lv2, h3, k1⟩ := h.2 i lv hi
  obtain ⟨lv3, h4, k2⟩ := h2.2 i lv2 h3
  exact ⟨lv3, h4, lv_kept_trans _ _ _ k1 k2⟩

theorem lvs_kept_cons (lv lv2 : grub_diskfilter_lv) (rest rest2 : List grub_diskfilter_lv)
    (h : lv_kept lv lv2) (hr : lvs_kept rest rest2) : lvs_kept (lv :: rest) (lv2 :: rest2) := by
  refine ⟨by rw [List.length_cons, List.length_cons, hr.1], ?_⟩
  intro i l hi
  cases i with
  | zero =>
    rw [List.getElem?_cons_zero] at hi
    rw [List.getElem?_cons_zero]
    have hl : lv = l := Option.some.inj hi
    rw [← hl]
    exact ⟨lv2, rfl, h⟩
  | succ j =>
    rw [List.getElem?_cons_succ] at hi
    rw [List.getElem?_cons_succ]
    exact hr.2 j l hi

theorem insert_array_stamp_lvs_kept (pvs : Nat → grub_diskfilter_pv)
    (lvs : List grub_diskfilter_lv) (n : Nat) :
    lvs_kept lvs (insert_array_stamp pvs lvs n).1 := by
  induction lvs generalizing n with
  | nil => exact lvs_kept_refl _
  | cons lv rest ih =>
    rw [insert_array_stamp]
    by_cases hc : lv.became_readable_at = 0 ∧ lv.fullname ≠ none
        ∧ is_lv_readable pvs lv false = true
    · rw [if_pos hc]
      refine lvs_kept_cons lv _ rest _ ⟨rfl, fun hne => absurd hc.1 hne, fun hs => hs⟩ (ih _)
    · rw [if_neg hc]
      exact lvs_kept_cons lv _ rest _ (lv_kept_refl lv) (ih _)

theorem insert_array_lvs_kept (grub_disk_open : String → Except grub_err_t Nat)
    (disk : insert_disk) (id : grub_diskfilter_pv_id) (array : grub_diskfilter_vg)
    (start_sector : Nat) (st : State) :
    lvs_kept array.lvs (insert_array grub_disk_open disk id array start_sector st).2.1.lvs := by
  cases hfind : insert_array_find id st.pvs array.pvs with
  | none =>
    rw [insert_array_none _ _ _ _ _ _ hfind]
    exact lvs_kept_refl _
  | some a =>
    rw [insert_array_some _ _ _ _ _ _ a hfind]
    by_cases h : (st.pvs a).disk ≠ none ∧ disk.native_sectors ≥ (st.pvs a).part_size
    · rw [insert_array_member_noop _ _ _ _ _ _ h]
      exact lvs_kept_refl _
    · cases hopen : grub_disk_open disk.name with
      | error e =>
        rw [insert_array_member_error _ _ _ _ _ _ h e hopen]
        exact lvs_kept_refl _
      | ok hd =>
        rw [insert_array_member_ok _ _ _ _ _ _ h hd hopen]
        exact insert_array_stamp_lvs_kept _ _ _

theorem lv_set_scanned_lvs_kept (lvs : List grub_diskfilter_lv) (i : Nat) :
    lvs_kept lvs (lv_set_scanned lvs i) := by
  unfold lv_set_scanned
  cases h : lvs[i]? with
  | none => exact lvs_kept_refl _
  | some lv =>
    simp only []
    refine ⟨by rw [List.length_set], ?_⟩
    intro j l hj
    rw [List.getElem?_set]
    by_cases hij : i = j
    · subst hij
      rw [if_pos rfl]
      have hlt : i < lvs.length := by
        rcases Nat.lt_or_ge i lvs.length with hlt | hge
        · exact hlt
        · rw [List.getElem?_eq_none hge] at h; cases h
      rw [if_pos hlt]
      rw [h] at hj
      have hl : lv = l := Option.some.inj hj
      rw [← hl]
      exact ⟨_, rfl, rfl, fun _ => rfl, fun _ => rfl⟩
    · rw [if_neg hij]
      exact ⟨l, hj, lv_kept_refl l⟩

theorem group_lvs_kept_set (al : List grub_diskfilter_vg) (k : Nat)
    (vg0 vg2 : grub_diskfilter_vg) (hk : al[k]? = some vg0) (hl : lvs_kept vg0.lvs vg2.lvs)
    (r : Nat) (vg : grub_diskfilter_vg) (h : al.reverse[r]? = some vg) :
    ∃ vg3, (al.set k vg2).reverse[r]? = some vg3 ∧ lvs_kept vg.lvs vg3.lvs := by
  have hr : r < al.length := by
    rcases Nat.lt_or_ge r al.length with hlt | hge
    · exact hlt
    · rw [List.getElem?_eq_none (by rw [List.length_reverse]; exact hge)] at h; cases h
  rw [List.getElem?_reverse hr] at h
  rw [List.getElem?_reverse (by rw [List.length_set]; exact hr), List.length_set,
    List.getElem?_set]
  by_cases hkr : k = al.length - 1 - r
  · rw [if_pos hkr, if_pos (by omega)]
    rw [← hkr, hk] at h
    have hv : vg0 = vg := Option.some.inj h
    rw [← hv]
    exact ⟨vg2, rfl, hl⟩
  · rw [if_neg hkr]
    exact ⟨vg, h, lvs_kept_refl _⟩

theorem apply_op_lvs_kept (grub_disk_open : String → Except grub_err_t Nat) (op : EngineOp)
    (st : State) (r : Nat) (vg : grub_diskfilter_vg) (h : st.array_list.reverse[r]? = some vg) :
    ∃ vg2, (apply_op grub_disk_open op st).array_list.reverse[r]? = some vg2
      ∧ lvs_kept vg.lvs vg2.lvs := by
  have hr : r < st.array_list.length := by
    rcases Nat.lt_or_ge r st.array_list.length with hlt | hge
    · exact hlt
    · rw [List.getElem?_eq_none (by rw [List.length_reverse]; exact hge)] at h; cases h
  cases op with
  | register vg1 =>
    rcases vg_register_array_list vg1 st with hal | hal
    · unfold apply_op; rw [hal]; exact ⟨vg, h, lvs_kept_refl _⟩
    · unfold apply_op; rw [hal]
      rw [List.reverse_cons, List.getElem?_append_left (by rw [List.length_reverse]; exact hr)]
      exact ⟨vg, h, lvs_kept_refl _⟩
  | insert disk id k start_sector =>
    have he : (apply_op grub_disk_open (EngineOp.insert disk id k start_sector) st).array_list
        = (insert_member grub_disk_open disk id k start_sector st).2.array_list := rfl
    rw [he]
    unfold insert_member
    cases hk : st.array_list[k]? with
    | none => exact ⟨vg, h, lvs_kept_refl _⟩
    | some array =>
      exact group_lvs_kept_set st.array_list k array _ hk
        (insert_array_lvs_kept grub_disk_open disk id array start_sector st) r vg h
  | scanned k j =>
    cases hk : st.array_list[k]? with
    | none =>
      have he : apply_op grub_disk_open (EngineOp.scanned k j) st = st := by
        simp only [apply_op, hk]
      rw [he]; exact ⟨vg, h, lvs_kept_refl _⟩
    | some vg0 =>
      have he : (apply_op grub_disk_open (EngineOp.scanned k j) st).array_list
          = st.array_list.set k { vg0 with lvs := lv_set_scanned vg0.lvs j } := by
        simp only [apply_op, hk]
      rw [he]
      exact group_lvs_kept_set st.array_list k vg0 _ hk (lv_set_scanned_lvs_kept vg0.lvs j) r vg h
  | errno e => exact ⟨vg, h, lvs_kept_refl _⟩

theorem apply_ops_lvs_kept (grub_disk_open : String → Except grub_err_t Nat)
    (ops : List EngineOp) (st : State) (r : Nat) (vg : grub_diskfilter_vg)
    (h : st.array_list.reverse[r]? = some vg) :
    ∃ vg2, (apply_ops grub_disk_open ops st).array_list.reverse[r]? = some vg2
      ∧ lvs_kept vg.lvs vg2.lvs := by
  induction ops generalizing st vg with
  | nil => exact ⟨vg, h, lvs_kept_refl _⟩
  | cons op rest ih =>
    unfold apply_ops
    rw [List.foldl_cons]
    obtain ⟨vg1, h1, k1⟩ := apply_op_lvs_kept grub_disk_open op st r vg h
    obtain ⟨vg2, h2, k2⟩ := ih (apply_op grub_disk_open op st) vg1 h1
    exact ⟨vg2, h2, lvs_kept_trans _ _ _ k1 k2⟩

theorem registry_kept_refl (al : List grub_diskfilter_vg) : registry_kept al al :=
  fun _ vg h => ⟨vg, h, lvs_kept_refl _⟩

theorem registry_kept_trans (a b c : List grub_diskfilter_vg) (h : registry_kept a b)
    (h2 : registry_kept b c) : registry_kept a c := by
  intro r vg hr
  obtain ⟨vg2, h3, k1⟩ := h r vg hr
  obtain ⟨vg3, h4, k2⟩ := h2 r vg2 h3
  exact ⟨vg3, h4, lvs_kept_trans _ _ _ k1 k2⟩

theorem registry_kept_lv_at (al al2 : List grub_diskfilter_vg) (h : registry_kept al al2)
    (r i : Nat) (lv : grub_diskfilter_lv) (hlv : lv_at al r i = some lv) :
    ∃ lv2, lv_at al2 r i = some lv2 ∧ lv_kept lv lv2 := by
  unfold lv_at at hlv ⊢
  cases hr : al.reverse[r]? with
  | none => rw [hr] at hlv; cases hlv
  | some vg =>
    rw [hr] at hlv
    obtain ⟨vg2, h2, k⟩ := h r vg hr
    rw [h2]
    exact k.2 i lv hlv

theorem registry_kept_scanned (al al2 : List grub_diskfilter_vg) (h : registry_kept al al2)
    (r i : Nat) (hs : scanned_at al r i = some true) : scanned_at al2 r i = some true := by
  have hlv : ∃ lv, lv_at al r i = some lv ∧ lv.scanned = true := by
    unfold scanned_at at hs
    unfold lv_at
    cases hr : al.reverse[r]? with
    | none => rw [hr] at hs; cases hs
    | some vg =>
      rw [hr] at hs
      simp only [Option.some_bind, scanned_flags, List.getElem?_map] at hs ⊢
      cases hi : vg.lvs[i]? with
      | none => rw [hi] at hs; cases hs
      | some lv =>
        rw [hi] at hs
        exact ⟨lv, rfl, Option.some.inj hs⟩
  obtain ⟨lv, h1, h2⟩ := hlv
  obtain ⟨lv2, h3, k⟩ := registry_kept_lv_at al al2 h r i lv h1
  rw [scanned_at_lv_at al2 r i lv2 h3, k.2.2 h2]

theorem rescan_lv_kept (grub_disk_open : String → Except grub_err_t Nat)
    (scan_disk : Nat → String → State → List EngineOp) (r i : Nat) (s : rescan_state) :
    registry_kept s.st.array_list (rescan_lv grub_disk_open scan_disk r i s).st.array_list := by
  unfold rescan_lv
  cases hlv : lv_at s.st.array_list r i with
  | none => exact registry_kept_refl _
  | some lv =>
    simp only []
    cases hf : lv.fullname with
    | none => exact registry_kept_refl _
    | some fullname =>
      simp only []
      by_cases hc : lv.scanned = false ∧ lv.became_readable_at ≠ 0
      · rw [if_pos hc]
        intro r2 vg hr2
        obtain ⟨vg1, h1, k1⟩ := apply_ops_lvs_kept grub_disk_open
          (scan_disk s.calls fullname s.st) s.st r2 vg hr2
        obtain ⟨vg2, h2, k2⟩ := apply_op_lvs_kept grub_disk_open
          (EngineOp.scanned ((apply_ops grub_disk_open (scan_disk s.calls fullname s.st)
            s.st).array_list.length - 1 - r) i) _ r2 vg1 h1
        exact ⟨vg2, h2, lvs_kept_trans _ _ _ k1 k2⟩
      · rw [if_neg hc]
        exact registry_kept_refl _

theorem foldl_kept {β : Type} (f : rescan_state → β → rescan_state)
    (h : ∀ s b, registry_kept s.st.array_list (f s b).st.array_list) (l : List β)
    (s : rescan_state) : registry_kept s.st.array_list (l.foldl f s).st.array_list := by
  induction l generalizing s with
  | nil => exact registry_kept_refl _
  | cons b rest ih =>
    rw [List.foldl_cons]
    exact registry_kept_trans _ _ _ (h s b) (ih (f s b))

theorem rescan_group_kept (grub_disk_open : String → Except grub_err_t Nat)
    (scan_disk : Nat → String → State → List EngineOp) (r : Nat) (s : rescan_state) :
    registry_kept s.st.array_list (rescan_group grub_disk_open scan_disk r s).st.array_list := by
  unfold rescan_group
  cases hr : s.st.array_list.reverse[r]? with
  | none => exact registry_kept_refl _
  | some vg =>
    simp only []
    exact foldl_kept _ (fun s i => rescan_lv_kept grub_disk_open scan_disk r i s) _ s

theorem rescan_round_kept (grub_disk_open : String → Except grub_err_t Nat)
    (scan_disk : Nat → String → State → List EngineOp) (calls : Nat) (st : State) :
    registry_kept st.array_list (rescan_round grub_disk_open scan_disk calls st).st.array_list := by
  unfold rescan_round
  exact foldl_kept _ (fun s r => rescan_group_kept grub_disk_open scan_disk r s) _
    { st := st, need_rescan := false, calls := calls, scans := [] }

theorem foldl_visit {σ β : Type} (P Q : σ → Prop) (f : σ → β → σ)
    (hP : ∀ s y, P s → P (f s y)) (hQ : ∀ s y, Q s → Q (f s y)) (x : β)
    (hv : ∀ s, P s → Q (f s x)) (l : List β) (s : σ) (hx : x ∈ l) (hs : P s) :
    Q (l.foldl f s) := by
  induction l generalizing s with
  | nil => cases hx
  | cons y rest ih =>
    rw [List.foldl_cons]
    rcases List.mem_cons.mp hx with heq | hmem
    · rw [← heq]
      exact foldl_invariant Q f hQ rest (f s x) (hv s hs)
    · exact ih (f s y) hmem (hP s y hs)

theorem rescan_lv_marks (grub_disk_open : String → Except grub_err_t Nat)
    (scan_disk : Nat → String → State → List EngineOp) (r i : Nat) (s : rescan_state)
    (lv : grub_diskfilter_lv) (hlv : lv_at s.st.array_list r i = some lv)
    (hname : lv.fullname ≠ none) (hstamp : lv.became_readable_at ≠ 0) :
    scanned_at (rescan_lv grub_disk_open scan_disk r i s).st.array_list r i = some true := by
  unfold rescan_lv
  rw [hlv]
  simp only []
  cases hf : lv.fullname with
  | none => exact absurd hf hname
  | some fullname =>
    simp only []
    by_cases hc : lv.scanned = false ∧ lv.became_readable_at ≠ 0
    · rw [if_pos hc]
      have h0 : scanned_at s.st.array_list r i = some lv.scanned :=
        scanned_at_lv_at _ r i lv hlv
      obtain ⟨b1, h1, _⟩ := apply_ops_scanned_kept grub_disk_open
        (scan_disk s.calls fullname s.st) s.st r i _ h0
      exact apply_op_scanned_mark grub_disk_open _ r i b1 h1
    · rw [if_neg hc]
      rw [scanned_at_lv_at _ r i lv hlv]
      have hs : lv.scanned = true := by
        cases hq : lv.scanned with
        | true => rfl
        | false => exact absurd ⟨hq, hstamp⟩ hc
      rw [hs]

theorem rescan_lv_first (grub_disk_open : String → Except grub_err_t Nat)
    (scan_disk : Nat → String → State → List EngineOp) (r i : Nat) (st0 : State)
    (s : rescan_state) (h : rescan_first st0 s) :
    rescan_first st0 (rescan_lv grub_disk_open scan_disk r i s) := by
  unfold rescan_lv
  cases hlv : lv_at s.st.array_list r i with
  | none => exact h
  | some lv =>
    simp only []
    cases hf : lv.fullname with
    | none => exact h
    | some fullname =>
      simp only []
      by_cases hc : lv.scanned = false ∧ lv.became_readable_at ≠ 0
      · rw [if_pos hc]
        constructor
        · intro hx
          have hx2 : s.scans ++ [(r, i, lv)] = [] := hx
          simp at hx2
        · intro _
          by_cases hs : s.scans = []
          · have hst := h.1 hs
            rw [hst] at hlv
            refine ⟨r, i, lv, hlv, hc.1, ?_, hc.2⟩
            rw [hf]
            exact Option.some_ne_none _
          · exact h.2 hs
      · rw [if_neg hc]
        exact h

theorem rescan_group_first (grub_disk_open : String → Except grub_err_t Nat)
    (scan_disk : Nat → String → State → List EngineOp) (r : Nat) (st0 : State)
    (s : rescan_state) (h : rescan_first st0 s) :
    rescan_first st0 (rescan_group grub_disk_open scan_disk r s) := by
  unfold rescan_group
  cases hr : s.st.array_list.reverse[r]? with
  | none => exact h
  | some vg =>
    simp only []
    exact foldl_invariant (rescan_first st0) _
      (fun a i ha => rescan_lv_first grub_disk_open scan_disk r i st0 a ha) _ s h

theorem rescan_round_first (grub_disk_open : String → Except grub_err_t Nat)
    (scan_disk : Nat → String → State → List EngineOp) (calls : Nat) (st : State) :
    rescan_first st (rescan_round grub_disk_open scan_disk calls st) := by
  unfold rescan_round
  refine foldl_invariant (rescan_first st) _
    (fun a r ha => rescan_group_first grub_disk_open scan_disk r st a ha) _ _ ?_
  exact ⟨fun _ => rfl, fun hx => absurd rfl hx⟩

theorem rescan_round_marks (grub_disk_open : String → Except grub_err_t Nat)
    (scan_disk : Nat → String → State → List EngineOp) (calls : Nat) (st : State)
    (r0 i0 : Nat) (lv0 : grub_diskfilter_lv) (hlv : lv_at st.array_list r0 i0 = some lv0)
    (hname : lv0.fullname ≠ none) (hstamp : lv0.became_readable_at ≠ 0) :
    scanned_at (rescan_round grub_disk_open scan_disk calls st).st.array_list r0 i0
      = some true := by
  have hr0 : r0 < st.array_list.length := by
    rcases Nat.lt_or_ge r0 st.array_list.length with hlt | hge
    · exact hlt
    · unfold lv_at at hlv
      rw [List.getElem?_eq_none (by rw [List.length_reverse]; exact hge)] at hlv
      cases hlv
  unfold rescan_round
  refine foldl_visit (fun s => registry_kept st.array_list s.st.array_list)
    (fun s => scanned_at s.st.array_list r0 i0 = some true)
    (fun s r => rescan_group grub_disk_open scan_disk r s) ?_ ?_ r0 ?_ _ _ ?_ ?_
  · intro s r hs
    exact registry_kept_trans _ _ _ hs (rescan_group_kept grub_disk_open scan_disk r s)
  · intro s r hs
    exact registry_kept_scanned _ _ (rescan_group_kept grub_disk_open scan_disk r s) r0 i0 hs
  · intro s hs
    obtain ⟨lv, h1, k⟩ := registry_kept_lv_at _ _ hs r0 i0 lv0 hlv
    show scanned_at (rescan_group grub_disk_open scan_disk r0 s).st.array_list r0 i0 = some true
    unfold rescan_group
    have h1b := h1
    unfold lv_at at h1b
    cases hr : s.st.array_list.reverse[r0]? with
    | none => rw [hr] at h1b; cases h1b
    | some vg =>
      rw [hr] at h1b
      simp only [Option.some_bind] at h1b
      have hi0 : i0 < vg.lvs.length := by
        rcases Nat.lt_or_ge i0 vg.lvs.length with hlt | hge
        · exact hlt
        · rw [List.getElem?_eq_none hge] at h1b; cases h1b
      simp only []
      refine foldl_visit (fun s2 => registry_kept st.array_list s2.st.array_list)
        (fun s2 => scanned_at s2.st.array_list r0 i0 = some true)
        (fun s2 i => rescan_lv grub_disk_open scan_disk r0 i s2) ?_ ?_ i0 ?_ _ _
        (List.mem_range.mpr hi0) hs
      · intro s2 i hs2
        exact registry_kept_trans _ _ _ hs2 (rescan_lv_kept grub_disk_open scan_disk r0 i s2)
      · intro s2 i hs2
        exact registry_kept_scanned _ _ (rescan_lv_kept grub_disk_open scan_disk r0 i s2)
          r0 i0 hs2
      · intro s2 hs2
        obtain ⟨lv2, h2, k2⟩ := registry_kept_lv_at _ _ hs2 r0 i0 lv0 hlv
        refine rescan_lv_marks grub_disk_open scan_disk r0 i0 s2 lv2 h2 ?_ ?_
        · rw [k2.1]; exact hname
        · rw [k2.2.1 hstamp]; exact hstamp
  · exact List.mem_reverse.mpr (List.mem_range.mpr hr0)
  · exact registry_kept_refl _

theorem rescan_round_scans_iff (grub_disk_open : String → Except grub_err_t Nat)
    (scan_disk : Nat → String → State → List EngineOp) (calls : Nat) (st : State) :
    (rescan_round grub_disk_open scan_disk calls st).scans ≠ [] ↔ registry_due st.array_list := by
  obtain ⟨h1, h2⟩ := rescan_round_first grub_disk_open scan_disk calls st
  constructor
  · exact h2
  · rintro ⟨r, i, lv, hlv, hs, hn, hb⟩ hnil
    have hm := rescan_round_marks grub_disk_open scan_disk calls st r i lv hlv hn hb
    rw [h1 hnil, scanned_at_lv_at _ r i lv hlv, hs] at hm
    cases hm

theorem foldl_invariant_mem {α β : Type} (P : α → Prop) (f : α → β → α) (l : List β)
    (h : ∀ a b, b ∈ l → P a → P (f a b)) (a : α) (ha : P a) : P (l.foldl f a) := by
  induction l generalizing a with
  | nil => exact ha
  | cons b rest ih =>
    rw [List.foldl_cons]
    exact ih (fun a2 b2 hb => h a2 b2 (List.mem_cons_of_mem _ hb)) (f a b)
      (h a b (List.mem_cons_self _ _) ha)

theorem rescan_lv_found (grub_disk_open : String → Except grub_err_t Nat)
    (scan_disk : Nat → String → State → List EngineOp) (r i : Nat) (st0 : State)
    (hr : r < st0.array_list.length) (s : rescan_state)
    (hk : registry_kept st0.array_list s.st.array_list)
    (h : ∀ e ∈ s.scans, ∃ lv0, lv_at st0.array_list e.1 e.2.1 = some lv0 ∧ lv_kept lv0 e.2.2) :
    ∀ e ∈ (rescan_lv grub_disk_open scan_disk r i s).scans,
      ∃ lv0, lv_at st0.array_list e.1 e.2.1 = some lv0 ∧ lv_kept lv0 e.2.2 := by
  unfold rescan_lv
  cases hlv : lv_at s.st.array_list r i with
  | none => exact h
  | some lv =>
    simp only []
    cases hf : lv.fullname with
    | none => exact h
    | some fullname =>
      simp only []
      by_cases hc : lv.scanned = false ∧ lv.became_readable_at ≠ 0
      · rw [if_pos hc]
        intro e he
        have he2 : e ∈ s.scans ++ [(r, i, lv)] := he
        rcases List.mem_append.mp he2 with hold | hnew
        · exact h e hold
        · rw [List.mem_singleton.mp hnew]
          have h0 : ∃ vg0, st0.array_list.reverse[r]? = some vg0 := by
            have hlt : r < st0.array_list.reverse.length := by
              rw [List.length_reverse]; exact hr
            exact ⟨_, List.getElem?_eq_getElem hlt⟩
          obtain ⟨vg0, hvg0⟩ := h0
          obtain ⟨vg2, hvg2, hl, hkept⟩ := hk r vg0 hvg0
          unfold lv_at at hlv
          rw [hvg2] at hlv
          simp only [Option.some_bind] at hlv
          have hi : i < vg0.lvs.length := by
            rcases Nat.lt_or_ge i vg2.lvs.length with hlt | hge
            · rw [hl]; exact hlt
            · rw [List.getElem?_eq_none hge] at hlv; cases hlv
          obtain ⟨lv2, hlv2, hk2⟩ := hkept i _ (List.getElem?_eq_getElem hi)
          rw [hlv] at hlv2
          refine ⟨vg0.lvs[i], ?_, ?_⟩
          · show lv_at st0.array_list r i = some vg0.lvs[i]
            unfold lv_at
            rw [hvg0]
            simp only [Option.some_bind]
            exact List.getElem?_eq_getElem hi
          · rw [Option.some.inj hlv2]
            exact hk2
      · rw [if_neg hc]
        exact h

theorem rescan_group_found (grub_disk_open : String → Except grub_err_t Nat)
    (scan_disk : Nat → String → State → List EngineOp) (r : Nat) (st0 : State)
    (hr : r < st0.array_list.length) (s : rescan_state)
    (h : registry_kept st0.array_list s.st.array_list
      ∧ ∀ e ∈ s.scans, ∃ lv0, lv_at st0.array_list e.1 e.2.1 = some lv0 ∧ lv_kept lv0 e.2.2) :
    registry_kept st0.array_list (rescan_group grub_disk_open scan_disk r s).st.array_list
    ∧ ∀ e ∈ (rescan_group grub_disk_open scan_disk r s).scans,
      ∃ lv0, lv_at st0.array_list e.1 e.2.1 = some lv0 ∧ lv_kept lv0 e.2.2 := by
  unfold rescan_group
  cases hg : s.st.array_list.reverse[r]? with
  | none => exact h
  | some vg =>
    simp only []
    exact foldl_invariant
      (fun s2 : rescan_state => registry_kept st0.array_list s2.st.array_list
        ∧ ∀ e ∈ s2.scans, ∃ lv0, lv_at st0.array_list e.1 e.2.1 = some lv0 ∧ lv_kept lv0 e.2.2)
      _ (fun a i ha =>
        ⟨registry_kept_trans _ _ _ ha.1 (rescan_lv_kept grub_disk_open scan_disk r i a),
          rescan_lv_found grub_disk_open scan_disk r i st0 hr a ha.1 ha.2⟩) _ s h

theorem rescan_round_found (grub_disk_open : String → Except grub_err_t Nat)
    (scan_disk : Nat → String → State → List EngineOp) (calls : Nat) (st : State) :
    ∀ e ∈ (rescan_round grub_disk_open scan_disk calls st).scans,
      ∃ lv0, lv_at st.array_list e.1 e.2.1 = some lv0 ∧ lv_kept lv0 e.2.2 := by
  unfold rescan_round
  refine (foldl_invariant_mem
    (fun s2 : rescan_state => registry_kept st.array_list s2.st.array_list
      ∧ ∀ e ∈ s2.scans, ∃ lv0, lv_at st.array_list e.1 e.2.1 = some lv0 ∧ lv_kept lv0 e.2.2)
    _ _ (fun a r hmem ha => rescan_group_found grub_disk_open scan_disk r st
      (List.mem_range.mp (List.mem_reverse.mp hmem)) a ha) _ ?_).2
  exact ⟨registry_kept_refl _, fun e he => by cases he⟩

theorem rescan_round_sound (grub_disk_open : String → Except grub_err_t Nat)
    (scan_disk : Nat → String → State → List EngineOp) (calls : Nat) (st : State) :
    round_sound { start := st, scans := (rescan_round grub_disk_open scan_disk calls st).scans,
                  finish := (rescan_round grub_disk_open scan_disk calls st).st } := by
  obtain ⟨_, _, h3, _⟩ := rescan_round_inv grub_disk_open scan_disk calls st []
    List.nodup_nil (fun e he => by cases he)
  refine ⟨rescan_round_scans_iff grub_disk_open scan_disk calls st,
    (rescan_round_first grub_disk_open scan_disk calls st).1,
    rescan_round_kept grub_disk_open scan_disk calls st, ?_, ?_⟩
  · intro r i lv hlv hd
    exact rescan_round_marks grub_disk_open scan_disk calls st r i lv hlv hd.2.1 hd.2.2
  · intro e he
    exact ⟨h3 e he, rescan_round_found grub_disk_open scan_disk calls st e he⟩

theorem rounds_scans_cons (round : rescan_round_log) (rest : List rescan_round_log) :
    rounds_scans (round :: rest) = round.scans ++ rounds_scans rest := by
  unfold rounds_scans
  rw [List.map_cons, List.flatten_cons]

theorem rounds_scans_single (round : rescan_round_log) :
    rounds_scans [round] = round.scans := by
  unfold rounds_scans
  rw [List.map_cons, List.map_nil, List.flatten_cons, List.flatten_nil, List.append_nil]

theorem rescan_loop_spec (grub_disk_open : String → Except grub_err_t Nat)
    (scan_disk : Nat → String → State → List EngineOp) (depth : Nat) :
    ∀ (calls : Nat) (st : State) (prev : List (Nat × Nat × grub_diskfilter_lv)),
      (prev.map scan_position).Nodup →
      (∀ e ∈ prev, scanned_at st.array_list e.1 e.2.1 = some true) →
      (rescan_loop grub_disk_open scan_disk depth calls st).rounds.length ≤ depth
      ∧ ((rescan_loop grub_disk_open scan_disk depth calls st).need_rescan = true
          ↔ (rescan_loop grub_disk_open scan_disk depth calls st).rounds.length = depth
            ∧ ∀ round ∈ (rescan_loop grub_disk_open scan_disk depth calls st).rounds,
                round.scans ≠ [])
      ∧ ((rescan_loop grub_disk_open scan_disk depth calls st).need_rescan = false →
          ∃ last, (rescan_loop grub_disk_open scan_disk depth calls st).rounds.getLast?
              = some last ∧ last.scans = [])
      ∧ ((prev ++ rounds_scans (rescan_loop grub_disk_open scan_disk depth calls st).rounds).map
          scan_position).Nodup
      ∧ (∀ e ∈ prev ++ rounds_scans (rescan_loop grub_disk_open scan_disk depth calls st).rounds,
          scanned_at (rescan_loop grub_disk_open scan_disk depth calls st).st.array_list
            e.1 e.2.1 = some true)
      ∧ rounds_chained st (rescan_loop grub_disk_open scan_disk depth calls st).rounds
          (rescan_loop grub_disk_open scan_disk depth calls st).st
      ∧ (∀ round ∈ (rescan_loop grub_disk_open scan_disk depth calls st).rounds,
          round_sound round
          ∧ registry_kept round.finish.array_list
              (rescan_loop grub_disk_open scan_disk depth calls st).st.array_list) := by
  induction depth with
  | zero =>
    intro calls st prev hnd hsc
    refine ⟨Nat.le_refl _, ?_, ?_, ?_, ?_, ?_, ?_⟩
    · constructor
      · intro _
        exact ⟨rfl, fun round hr => by cases hr⟩
      · intro _
        rfl
    · intro hx; cases hx
    · show ((prev ++ []).map scan_position).Nodup
      rw [List.append_nil]; exact hnd
    · intro e he
      have h3 : e ∈ prev ++ [] := he
      rw [List.append_nil] at h3
      exact hsc e h3
    · exact rfl
    · intro round hr
      cases hr
  | succ depth ih =>
    intro calls st prev hnd hsc
    obtain ⟨h1, h2, h3, h4⟩ := rescan_round_inv grub_disk_open scan_disk calls st prev hnd hsc
    have hsound := rescan_round_sound grub_disk_open scan_disk calls st
    by_cases hneed : (rescan_round grub_disk_open scan_disk calls st).need_rescan = true
    · have hloop : rescan_loop grub_disk_open scan_disk (depth + 1) calls st
          = { st := (rescan_loop grub_disk_open scan_disk depth
                  (rescan_round grub_disk_open scan_disk calls st).calls
                  (rescan_round grub_disk_open scan_disk calls st).st).st,
              need_rescan := (rescan_loop grub_disk_open scan_disk depth
                  (rescan_round grub_disk_open scan_disk calls st).calls
                  (rescan_round grub_disk_open scan_disk calls st).st).need_rescan,
              rounds := { start := st,
                          scans := (rescan_round grub_disk_open scan_disk calls st).scans,
                          finish := (rescan_round grub_disk_open scan_disk calls st).st }
                :: (rescan_loop grub_disk_open scan_disk depth
                  (rescan_round grub_disk_open scan_disk calls st).calls
                  (rescan_round grub_disk_open scan_disk calls st).st).rounds } := by
        rw [rescan_loop]
        simp only []
        rw [if_pos hneed]
      have hne := h4.mp hneed
      obtain ⟨i1, i2, i3, i4, i5, i6, i7⟩ :=
        ih (rescan_round grub_disk_open scan_disk calls st).calls
          (rescan_round grub_disk_open scan_disk calls st).st
          (prev ++ (rescan_round grub_disk_open scan_disk calls st).scans) h1 h2
      have i8 : registry_kept (rescan_round grub_disk_open scan_disk calls st).st.array_list
          (rescan_loop grub_disk_open scan_disk depth
            (rescan_round grub_disk_open scan_disk calls st).calls
            (rescan_round grub_disk_open scan_disk calls st).st).st.array_list := by
        generalize rescan_loop grub_disk_open scan_disk depth
          (rescan_round grub_disk_open scan_disk calls st).calls
          (rescan_round grub_disk_open scan_disk calls st).st = res at i6 i7
        generalize (rescan_round grub_disk_open scan_disk calls st).st = st2 at i6
        cases hres : res.rounds with
        | nil =>
          rw [hres] at i6
          have h9 : res.st = st2 := i6
          rw [h9]
          exact registry_kept_refl _
        | cons a rest =>
          rw [hres] at i6 i7
          have h9 : a.start = st2 := i6.1
          rw [← h9]
          exact registry_kept_trans _ _ _ (i7 a (List.mem_cons_self _ _)).1.2.2.1
            (i7 a (List.mem_cons_self _ _)).2
      rw [hloop]
      generalize rescan_loop grub_disk_open scan_disk depth
        (rescan_round grub_disk_open scan_disk calls st).calls
        (rescan_round grub_disk_open scan_disk calls st).st = res at i1 i2 i3 i4 i5 i6 i7 i8
      generalize rescan_round grub_disk_open scan_disk calls st = s
        at h1 h2 h3 h4 hneed hne i4 i5 i6 i8 hsound
      refine ⟨?_, ?_, ?_, ?_, ?_, ?_, ?_⟩
      · show (_ :: res.rounds).length ≤ depth + 1
        rw [List.length_cons]; omega
      · show res.need_rescan = true ↔ (_ :: res.rounds).length = depth + 1
            ∧ ∀ round ∈ _ :: res.rounds, round.scans ≠ []
        rw [i2, List.length_cons]
        constructor
        · rintro ⟨hl, hall⟩
          refine ⟨by omega, ?_⟩
          intro round hr
          rcases List.mem_cons.mp hr with heq | hmem
          · rw [heq]; exact hne
          · exact hall round hmem
        · rintro ⟨hl, hall⟩
          exact ⟨by omega, fun round hr => hall round (List.mem_cons_of_mem _ hr)⟩
      · intro hx
        show ∃ last, (_ :: res.rounds).getLast? = some last ∧ last.scans = []
        obtain ⟨last, h5, h6⟩ := i3 hx
        cases hres : res.rounds with
        | nil => rw [hres] at h5; cases h5
        | cons a rest =>
          rw [hres] at h5
          rw [List.getLast?_cons_cons]
          exact ⟨last, h5, h6⟩
      · show ((prev ++ rounds_scans (_ :: res.rounds)).map scan_position).Nodup
        rw [rounds_scans_cons, ← List.append_assoc]
        exact i4
      · intro e he
        have he2 : e ∈ prev ++ rounds_scans
          ({ start := st, scans := s.scans, finish := s.st } :: res.rounds) := he
        rw [rounds_scans_cons, ← List.append_assoc] at he2
        exact i5 e he2
      · exact ⟨rfl, i6⟩
      · intro round hr
        rcases List.mem_cons.mp hr with heq | hmem
        · rw [heq]
          exact ⟨hsound, i8⟩
        · exact i7 round hmem
    · have hloop : rescan_loop grub_disk_open scan_disk (depth + 1) calls st
          = { st := (rescan_round grub_disk_open scan_disk calls st).st,
              need_rescan := false,
              rounds := [{ start := st,
                           scans := (rescan_round grub_disk_open scan_disk calls st).scans,
                           finish := (rescan_round grub_disk_open scan_disk calls st).st }] } := by
        rw [rescan_loop]
        simp only []
        rw [if_neg hneed]
      have hnil : (rescan_round grub_disk_open scan_disk calls st).scans = [] := by
        by_contra hx
        exact hneed (h4.mpr hx)
      rw [hloop]
      generalize rescan_round grub_disk_open scan_disk calls st = s
        at h1 h2 h3 h4 hneed hnil hsound
      refine ⟨?_, ?_, ?_, ?_, ?_, ?_, ?_⟩
      · show [_].length ≤ depth + 1
        rw [List.length_singleton]; omega
      · constructor
        · intro hx; cases hx
        · rintro ⟨_, hall⟩
          exact absurd hnil (hall _ (List.mem_singleton.mpr rfl))
      · intro _
        exact ⟨_, rfl, hnil⟩
      · show ((prev ++ rounds_scans [_]).map scan_position).Nodup
        rw [rounds_scans_single]
        exact h1
      · intro e he
        have he2 : e ∈ prev ++ rounds_scans
          [{ start := st, scans := s.scans, finish := s.st }] := he
        rw [rounds_scans_single] at he2
        exact h2 e he2
      · exact ⟨rfl, rfl⟩
      · intro round hr
        rw [List.mem_singleton.mp hr]
        exact ⟨hsound, registry_kept_refl _⟩

theorem rounds_scans_mem (rounds : List rescan_round_log) (e : Nat × Nat × grub_diskfilter_lv)
    (he : e ∈ rounds_scans rounds) : ∃ round ∈ rounds, e ∈ round.scans := by
  unfold rounds_scans at he
  obtain ⟨l, hl, hel⟩ := List.mem_flatten.mp he
  obtain ⟨round, hr, hrl⟩ := List.mem_map.mp hl
  exact ⟨round, hr, by rw [hrl]; exact hel⟩

/-- C32: for every registry state and every behaviour of the per-volume scan,
the rescan loop of `scan_devices` makes at most 100 rounds and stops. The rounds
are chained from the state in which the loop is entered to the state it leaves.
Each round calls `scan_disk` exactly when a volume of the registry in which it
begins is named, stamped and not yet scanned; it marks every such volume as
scanned, keeps the groups and volumes of the registry in place, and scans only
volumes that were in the registry when it began. The error
`GRUB_ERR_UNKNOWN_DEVICE` ("scan depth exceeded") is raised exactly when 100
rounds were made and each of them began with a due volume in the registry, and
then `grub_errno` holds it; otherwise the state is the one the loop left and no
volume of its registry is due. Every volume scanned is marked as scanned in the
final state, and no volume is scanned twice. -/
theorem C32_rescan_bounded (grub_disk_open : String → Except grub_err_t Nat)
    (scan_disk : Nat → String → State → List EngineOp) (st : State) :
    (scan_devices_rescan grub_disk_open scan_disk st).rounds.length ≤ 100
    ∧ rounds_chained st (scan_devices_rescan grub_disk_open scan_disk st).rounds
        (rescan_loop grub_disk_open scan_disk 100 0 st).st
    ∧ (∀ round ∈ (scan_devices_rescan grub_disk_open scan_disk st).rounds,
        round_sound round
        ∧ registry_kept round.finish.array_list
            (scan_devices_rescan grub_disk_open scan_disk st).st.array_list)
    ∧ ((scan_devices_rescan grub_disk_open scan_disk st).need_rescan = true
        ↔ (scan_devices_rescan grub_disk_open scan_disk st).rounds.length = 100
          ∧ ∀ round ∈ (scan_devices_rescan grub_disk_open scan_disk st).rounds,
              registry_due round.start.array_list)
    ∧ ((scan_devices_rescan grub_disk_open scan_disk st).need_rescan = true →
        (scan_devices_rescan grub_disk_open scan_disk st).st
          = { (rescan_loop grub_disk_open scan_disk 100 0 st).st with
              grub_errno := GRUB_ERR_UNKNOWN_DEVICE })
    ∧ ((scan_devices_rescan grub_disk_open scan_disk st).need_rescan = false →
        (scan_devices_rescan grub_disk_open scan_disk st).st
          = (rescan_loop grub_disk_open scan_disk 100 0 st).st
        ∧ ¬ registry_due (scan_devices_rescan grub_disk_open scan_disk st).st.array_list)
    ∧ (∀ e ∈ rounds_scans (scan_devices_rescan grub_disk_open scan_disk st).rounds,
        lv_due e.2.2
        ∧ scanned_at (scan_devices_rescan grub_disk_open scan_disk st).st.array_list e.1 e.2.1
            = some true)
    ∧ ((rounds_scans (scan_devices_rescan grub_disk_open scan_disk st).rounds).map
        scan_position).Nodup := by
  obtain ⟨h1, h2, h3, h4, h5, h6, h7⟩ := rescan_loop_spec grub_disk_open scan_disk 100 0 st []
    List.nodup_nil (fun e he => by cases he)
  rw [List.nil_append] at h4
  have h5b : ∀ e ∈ rounds_scans (rescan_loop grub_disk_open scan_disk 100 0 st).rounds,
      scanned_at (rescan_loop grub_disk_open scan_disk 100 0 st).st.array_list e.1 e.2.1
        = some true := fun e he => h5 e (by rw [List.nil_append]; exact he)
  have hdue : ∀ e ∈ rounds_scans (rescan_loop grub_disk_open scan_disk 100 0 st).rounds,
      lv_due e.2.2 := by
    intro e he
    obtain ⟨round, hr, her⟩ := rounds_scans_mem _ e he
    exact ((h7 round hr).1.2.2.2.2 e her).1
  have h2b : (rescan_loop grub_disk_open scan_disk 100 0 st).need_rescan = true
      ↔ (rescan_loop grub_disk_open scan_disk 100 0 st).rounds.length = 100
        ∧ ∀ round ∈ (rescan_loop grub_disk_open scan_disk 100 0 st).rounds,
            registry_due round.start.array_list := by
    rw [h2]
    constructor
    · rintro ⟨hl, hall⟩
      exact ⟨hl, fun round hr => (h7 round hr).1.1.mp (hall round hr)⟩
    · rintro ⟨hl, hall⟩
      exact ⟨hl, fun round hr => (h7 round hr).1.1.mpr (hall round hr)⟩
  have hquiet : (rescan_loop grub_disk_open scan_disk 100 0 st).need_rescan = false →
      ¬ registry_due (rescan_loop grub_disk_open scan_disk 100 0 st).st.array_list := by
    intro hf
    obtain ⟨last, hlast, hnil⟩ := h3 hf
    have hmem : last ∈ (rescan_loop grub_disk_open scan_disk 100 0 st).rounds :=
      List.mem_of_getLast?_eq_some hlast
    have hend : ∀ (rounds : List rescan_round_log) (s0 fin : State),
        rounds_chained s0 rounds fin → rounds.getLast? = some last → fin = last.finish := by
      intro rounds
      induction rounds with
      | nil => intro s0 fin _ hx; cases hx
      | cons a rest ih =>
        intro s0 fin hc hx
        cases hrest : rest with
        | nil =>
          rw [hrest] at hc hx
          have ha : a = last := Option.some.inj hx
          rw [← ha]
          exact hc.2
        | cons b rest2 =>
          rw [hrest] at hc hx
          rw [List.getLast?_cons_cons] at hx
          exact ih a.finish fin (by rw [hrest]; exact hc.2) (by rw [hrest]; exact hx)
    have hfin := hend _ st _ h6 hlast
    obtain ⟨s1, s2, _⟩ := (h7 last hmem).1
    rw [hfin, s2 hnil]
    intro hd
    exact (s1.mpr hd) hnil
  unfold scan_devices_rescan
  simp only []
  generalize rescan_loop grub_disk_open scan_disk 100 0 st = res
    at h1 h2b h4 h5b h6 h7 hdue hquiet
  by_cases hn : res.need_rescan = true
  · rw [if_pos hn]
    refine ⟨h1, h6, h7, h2b, ?_, ?_, ?_, h4⟩
    · intro _; rfl
    · intro hx
      exact absurd hn (by rw [show res.need_rescan = false from hx]; decide)
    · intro e he
      exact ⟨hdue e he, h5b e he⟩
  · rw [if_neg hn]
    have hf : res.need_rescan = false := by
      cases hq : res.need_rescan with
      | true => exact absurd hq hn
      | false => rfl
    refine ⟨h1, h6, h7, h2b, ?_, ?_, ?_, h4⟩
    · intro hx; exact absurd hx hn
    · intro _
      exact ⟨rfl, hquiet hf⟩
    · intro e he
      exact ⟨hdue e he, h5b e he⟩

theorem head_due_registry_due (al : List grub_diskfilter_vg) (h : head_due al) :
    registry_due al := by
  obtain ⟨vg, rest, lv, h1, h2, h3⟩ := h
  refine ⟨rest.length, 0, lv, ?_, h3⟩
  unfold lv_at
  rw [h1, List.reverse_cons, List.getElem?_append_right (by rw [List.length_reverse]),
    List.length_reverse, Nat.sub_self]
  exact h2

theorem c32_scan_valid (name : String) :
    validate_lv (vg_register_normalize
      { lv_named name [c6_segment] with became_readable_at := 1 }) = GRUB_ERR_NONE := by
  rfl

theorem c32_scan_head (grub_disk_open : String → Except grub_err_t Nat) (calls : Nat)
    (name : String) (st : State) :
    ∃ vg lv, (apply_ops grub_disk_open (c32_scan calls name st) st).array_list
        = vg :: st.array_list ∧ vg.lvs[0]? = some lv ∧ lv_due lv := by
  have hv := vg_register_lvs_all_valid st.array_list
    [vg_register_normalize
      { lv_named (String.mk (List.replicate (calls + 1) 'a')) [c6_segment] with
        became_readable_at := 1 }] st.lv_num
    (fun lv hlv => by rw [List.mem_singleton.mp hlv]; exact c32_scan_valid _)
  obtain ⟨h1, _, _, h4⟩ := hv
  have h5 := h4 0 (vg_register_normalize
      { lv_named (String.mk (List.replicate (calls + 1) 'a')) [c6_segment] with
        became_readable_at := 1 }) rfl
  have hst : (apply_ops grub_disk_open (c32_scan calls name st) st)
      = (grub_diskfilter_vg_register (vg_of [{ lv_named (String.mk (List.replicate (calls + 1) 'a'))
          [c6_segment] with became_readable_at := 1 }]) st).2.2 := rfl
  rw [hst]
  unfold grub_diskfilter_vg_register
  simp only []
  have h1b : (vg_register_lvs st.array_list
      ((vg_of [{ lv_named (String.mk (List.replicate (calls + 1) 'a'))
          [c6_segment] with became_readable_at := 1 }]).lvs.map vg_register_normalize)
      st.lv_num).1 = GRUB_ERR_NONE := h1
  rw [if_neg (by rw [h1b]; exact fun hx => hx rfl)]
  refine ⟨_, _, rfl, h5, ?_⟩
  obtain ⟨_, _, _, f4, _, _, _, f8, _, _⟩ := vg_register_lv_fields st.array_list (st.lv_num + 0)
    (vg_register_normalize { lv_named (String.mk (List.replicate (calls + 1) 'a'))
      [c6_segment] with became_readable_at := 1 })
  have f0 := vg_register_lv_fullname st.array_list (st.lv_num + 0)
    (vg_register_normalize { lv_named (String.mk (List.replicate (calls + 1) 'a'))
      [c6_segment] with became_readable_at := 1 })
  have hn : (vg_register_normalize { lv_named (String.mk (List.replicate (calls + 1) 'a'))
    [c6_segment] with became_readable_at := 1 }).fullname
      = some (String.mk (List.replicate (calls + 1) 'a')) := rfl
  rw [hn] at f0
  simp only [] at f0
  refine ⟨Eq.trans f8 rfl, ?_, ?_⟩
  · intro hx
    have f0b := Eq.trans hx.symm f0
    split_ifs at f0b
  · intro hx
    have f4b := Eq.trans f4.symm hx
    cases f4b

theorem apply_op_scanned_head (grub_disk_open : String → Except grub_err_t Nat) (k i : Nat)
    (st : State) (vg : grub_diskfilter_vg) (rest : List grub_diskfilter_vg)
    (h : st.array_list = vg :: rest) :
    ∃ rest2, (apply_op grub_disk_open (EngineOp.scanned (k + 1) i) st).array_list
      = vg :: rest2 := by
  unfold apply_op
  simp only []
  cases hg : st.array_list[k + 1]? with
  | none => exact ⟨rest, h⟩
  | some vg3 =>
    simp only []
    rw [h, List.set_cons_succ]
    exact ⟨_, rfl⟩

theorem c32_rescan_lv_head (r i : Nat) (s : rescan_state)
    (h : s.scans ≠ [] → head_due s.st.array_list) :
    (rescan_lv (open_but "") c32_scan r i s).scans ≠ [] →
      head_due (rescan_lv (open_but "") c32_scan r i s).st.array_list := by
  unfold rescan_lv
  cases hlv : lv_at s.st.array_list r i with
  | none => exact h
  | some lv =>
    simp only []
    cases hf : lv.fullname with
    | none => exact h
    | some fullname =>
      simp only []
      by_cases hc : lv.scanned = false ∧ lv.became_readable_at ≠ 0
      · rw [if_pos hc]
        intro _
        have hr : r < s.st.array_list.length := by
          rcases Nat.lt_or_ge r s.st.array_list.length with hlt | hge
          · exact hlt
          · unfold lv_at at hlv
            rw [List.getElem?_eq_none (by rw [List.length_reverse]; exact hge)] at hlv
            cases hlv
        obtain ⟨vg, lv2, h1, h2, h3⟩ := c32_scan_head (open_but "") s.calls fullname s.st
        show head_due (apply_op (open_but "")
          (EngineOp.scanned ((apply_ops (open_but "") (c32_scan s.calls fullname s.st)
            s.st).array_list.length - 1 - r) i)
          (apply_ops (open_but "") (c32_scan s.calls fullname s.st) s.st)).array_list
        generalize apply_ops (open_but "") (c32_scan s.calls fullname s.st) s.st = st2 at h1
        rw [h1, List.length_cons]
        obtain ⟨k, hk⟩ : ∃ k, s.st.array_list.length + 1 - 1 - r = k + 1 :=
          ⟨s.st.array_list.length - 1 - r, by omega⟩
        rw [hk]
        obtain ⟨rest2, hrest2⟩ := apply_op_scanned_head (open_but "") k i st2 vg _ h1
        exact ⟨vg, rest2, lv2, hrest2, h2, h3⟩
      · rw [if_neg hc]
        exact h

theorem c32_rescan_round_head (calls : Nat) (st : State) :
    (rescan_round (open_but "") c32_scan calls st).scans ≠ [] →
      head_due (rescan_round (open_but "") c32_scan calls st).st.array_list := by
  unfold rescan_round
  refine foldl_invariant (fun s : rescan_state => s.scans ≠ [] → head_due s.st.array_list) _
    (fun a r ha => ?_) _ _ (fun hx => absurd rfl hx)
  show (rescan_group (open_but "") c32_scan r a).scans ≠ [] →
    head_due (rescan_group (open_but "") c32_scan r a).st.array_list
  unfold rescan_group
  cases hg : a.st.array_list.reverse[r]? with
  | none => exact ha
  | some vg =>
    simp only []
    exact foldl_invariant (fun s : rescan_state => s.scans ≠ [] → head_due s.st.array_list) _
      (fun a2 i ha2 => c32_rescan_lv_head r i a2 ha2) _ a ha

theorem c32_rescan_loop_exceeds (depth : Nat) :
    ∀ (calls : Nat) (st : State), head_due st.array_list →
      (rescan_loop (open_but "") c32_scan depth calls st).need_rescan = true
      ∧ (rescan_loop (open_but "") c32_scan depth calls st).rounds.length = depth := by
  induction depth with
  | zero => intro calls st _; exact ⟨rfl, rfl⟩
  | succ depth ih =>
    intro calls st hd
    have hne : (rescan_round (open_but "") c32_scan calls st).scans ≠ [] :=
      (rescan_round_scans_iff (open_but "") c32_scan calls st).mpr (head_due_registry_due _ hd)
    obtain ⟨_, _, _, h4⟩ := rescan_round_inv (open_but "") c32_scan calls st []
      List.nodup_nil (fun e he => by cases he)
    have hneed := h4.mpr hne
    obtain ⟨i1, i2⟩ := ih (rescan_round (open_but "") c32_scan calls st).calls
      (rescan_round (open_but "") c32_scan calls st).st (c32_rescan_round_head calls st hne)
    rw [rescan_loop]
    simp only []
    rw [if_pos hneed]
    exact ⟨i1, by rw [List.length_cons, i2]⟩

theorem scan_devices_rescan_error (grub_disk_open : String → Except grub_err_t Nat)
    (scan_disk : Nat → String → State → List EngineOp) (st : State)
    (h : (rescan_loop grub_disk_open scan_disk 100 0 st).need_rescan = true) :
    (scan_devices_rescan grub_disk_open scan_disk st).need_rescan = true
    ∧ (scan_devices_rescan grub_disk_open scan_disk st).rounds
        = (rescan_loop grub_disk_open scan_disk 100 0 st).rounds
    ∧ (scan_devices_rescan grub_disk_open scan_disk st).st.grub_errno
        = GRUB_ERR_UNKNOWN_DEVICE := by
  unfold scan_devices_rescan
  simp only []
  generalize rescan_loop grub_disk_open scan_disk 100 0 st = res at h
  rw [if_pos h]
  exact ⟨h, rfl, rfl⟩

/-- The loop at work. With a scan that changes nothing, the one stamped volume
of `c32_state` is scanned in the first round, the second round finds nothing and
the loop ends without the error, in a registry with no due volume. With a scan
that registers one more stamped volume at each call, every round scans the
volume that the round before registered: the loop entered with 3 rounds left
ends after 3 rounds with `need_rescan` set, and `scan_devices` makes 100 rounds
and raises `GRUB_ERR_UNKNOWN_DEVICE`. -/
theorem rescan_loop_examples :
    (scan_devices_rescan (open_but "") c32_scan_nothing c32_state).rounds.map
        (fun round => round.scans.map scan_position) = [[(0, 0)], []]
    ∧ (scan_devices_rescan (open_but "") c32_scan_nothing c32_state).need_rescan = false
    ∧ scanned_at (scan_devices_rescan (open_but "") c32_scan_nothing c32_state).st.array_list 0 0
        = some true
    ∧ (scan_devices_rescan (open_but "") c32_scan_nothing c32_state).st.grub_errno
        = GRUB_ERR_NONE
    ∧ (rescan_loop (open_but "") c32_scan 3 0 c32_state).rounds.map
        (fun round => round.scans.map scan_position) = [[(0, 0)], [(1, 0)], [(2, 0)]]
    ∧ (rescan_loop (open_but "") c32_scan 3 0 c32_state).need_rescan = true
    ∧ (scan_devices_rescan (open_but "") c32_scan c32_state).need_rescan = true
    ∧ (scan_devices_rescan (open_but "") c32_scan c32_state).rounds.length = 100
    ∧ (scan_devices_rescan (open_but "") c32_scan c32_state).st.grub_errno
        = GRUB_ERR_UNKNOWN_DEVICE := by
  have hd : head_due c32_state.array_list :=
    ⟨_, [], _, rfl, rfl, rfl, Option.some_ne_none _, Nat.one_ne_zero⟩
  obtain ⟨e1, e2⟩ := c32_rescan_loop_exceeds 100 0 c32_state hd
  obtain ⟨e3, e4, e5⟩ := scan_devices_rescan_error (open_but "") c32_scan c32_state e1
  refine ⟨by decide, by decide, by decide, by decide, by decide, by decide, e3, ?_, e5⟩
  rw [e4]
  exact e2
/-! ## The scan of the registered names -/

theorem grub_strncmp_eq_iff (X p : List Char) :
    grub_strncmp_eq p X X.length = true ↔ X <+: p := by
  induction X generalizing p with
  | nil => simp [grub_strncmp_eq]
  | cons b X ih =>
    cases p with
    | nil => simp [grub_strncmp_eq]
    | cons a p =>
      simp only [List.length_cons, grub_strncmp_eq, Bool.and_eq_true, beq_iff_eq, ih,
        List.cons_prefix_cons]
      constructor
      · rintro ⟨h1, h2⟩; exact ⟨h1.symm, h2⟩
      · rintro ⟨h1, h2⟩; exact ⟨h1.symm, h2⟩

theorem grub_isdigit_le (c : Char) (h : grub_isdigit c = true) : c.toNat - '0'.toNat ≤ 9 := by
  unfold grub_isdigit at h
  simp only [Bool.and_eq_true, decide_eq_true_eq] at h
  have h0 : '0'.toNat = 48 := rfl
  have h9 : '9'.toNat = 57 := rfl
  rw [h0] at h ⊢
  rw [h9] at h
  omega

theorem digits_value_ge (num : List Char) (acc : Nat) : acc ≤ digits_value num acc := by
  induction num generalizing acc with
  | nil => exact Nat.le_refl _
  | cons c rest ih =>
    have h := ih (acc * 10 + (c.toNat - '0'.toNat))
    have hd : digits_value (c :: rest) acc
        = digits_value rest (acc * 10 + (c.toNat - '0'.toNat)) := rfl
    rw [hd]
    omega

theorem grub_strtoul_digits_all (num : List Char) (acc : Nat)
    (h : num.all grub_isdigit = true) (hv : digits_value num acc < 2 ^ 64) :
    grub_strtoul_digits num acc = (digits_value num acc, []) := by
  induction num generalizing acc with
  | nil => rfl
  | cons c rest ih =>
    simp only [List.all_cons, Bool.and_eq_true] at h
    have hd : digits_value (c :: rest) acc
        = digits_value rest (acc * 10 + (c.toNat - '0'.toNat)) := rfl
    rw [hd] at hv ⊢
    have hge := digits_value_ge rest (acc * 10 + (c.toNat - '0'.toNat))
    have hno : ¬ (acc > (2 ^ 64 - 1 - (c.toNat - '0'.toNat)) / 10) := by
      have h64 : (2 : Nat) ^ 64 = 18446744073709551616 := by norm_num
      rw [h64] at hv ⊢
      generalize c.toNat - '0'.toNat = d at hv hge ⊢
      omega
    rw [grub_strtoul_digits, if_pos h.1, if_neg hno]
    exact ih _ h.2 hv

theorem grub_strtoul_digits_rest (num : List Char) (acc : Nat) (hacc : acc < 2 ^ 64)
    (h : ¬ (num.all grub_isdigit = true ∧ digits_value num acc < 2 ^ 64)) :
    (grub_strtoul_digits num acc).2 ≠ [] := by
  induction num generalizing acc with
  | nil =>
    exfalso
    exact h ⟨rfl, hacc⟩
  | cons c rest ih =>
    rw [grub_strtoul_digits]
    by_cases hc : grub_isdigit c = true
    · rw [if_pos hc]
      by_cases ho : acc > (2 ^ 64 - 1 - (c.toNat - '0'.toNat)) / 10
      · rw [if_pos ho]
        exact List.cons_ne_nil _ _
      · rw [if_neg ho]
        apply ih
        · have h64 : (2 : Nat) ^ 64 = 18446744073709551616 := by norm_num
          have h9 := grub_isdigit_le c hc
          rw [h64] at ho ⊢
          generalize c.toNat - '0'.toNat = d at ho h9 ⊢
          omega
        · intro hr
          apply h
          simp only [List.all_cons, Bool.and_eq_true]
          exact ⟨⟨hc, hr.1⟩, hr.2⟩
    · rw [if_neg hc]
      exact List.cons_ne_nil _ _

theorem c_int_small (v : Nat) (h : v < 2 ^ 31) : c_int v = (v : Int) := by
  unfold c_int
  have h1 : v % 2 ^ 32 = v := Nat.mod_eq_of_lt (Nat.lt_trans h (by norm_num))
  rw [h1, if_pos h]

theorem scan_update (acc : Nat × Bool) (z : Int) :
    (if z > (acc.1 : Int) then (z.toNat, acc.2) else acc) = (max acc.1 z.toNat, acc.2) := by
  by_cases hz : z > (acc.1 : Int)
  · rw [if_pos hz]
    have : max acc.1 z.toNat = z.toNat := by omega
    rw [this]
  · rw [if_neg hz]
    have : max acc.1 z.toNat = acc.1 := by omega
    rw [this]

theorem name_number_append (X : List Char) (c : Char) (num : List Char) :
    name_number X (X ++ c :: num)
      = if c.toNat < 128 ∧ num ≠ [] ∧ num.all grub_isdigit = true
            ∧ digits_value num 0 < 2 ^ 64 then
          some (c_int (digits_value num 0)).toNat
        else none := by
  unfold name_number
  rw [if_pos (List.prefix_append _ _), List.drop_left]

theorem vg_register_scan_name_append (X : List Char) (acc : Nat × Bool)
    (p : grub_diskfilter_lv) (pn : String) (hp : p.fullname = some pn) (c : Char)
    (num : List Char) (ht : pn.toList = X ++ c :: num) :
    vg_register_scan_name X acc p
      = if c.toNat ≥ 128 then acc
        else if num.head?.all grub_isdigit = false ∨ num = [] then acc
        else if (grub_strtoul num).2 ≠ [] then acc
        else (max acc.1 (c_int (grub_strtoul num).1).toNat, acc.2) := by
  have hcmp : grub_strncmp_eq pn.toList X X.length = true :=
    (grub_strncmp_eq_iff X pn.toList).mpr ⟨_, ht.symm⟩
  have hdrop : List.drop (X.length + 1) (X ++ c :: num) = num := by
    rw [← List.drop_drop, List.drop_left]
    rfl
  have hsep : (X ++ c :: num)[X.length]? = some c := by
    rw [List.getElem?_append_right (Nat.le_refl _), Nat.sub_self, List.getElem?_cons_zero]
  unfold vg_register_scan_name
  rw [hp]
  simp only []
  rw [hcmp, ht, hsep, hdrop]
  simp only [Bool.not_true, Bool.false_eq_true, if_false]
  by_cases h128 : c.toNat ≥ 128
  · rw [if_pos h128, if_pos h128]
  · rw [if_neg h128, if_neg h128]
    cases num with
    | nil => simp
    | cons d rest =>
      by_cases hd : grub_isdigit d = true
      · simp only [List.getElem?_cons_zero, hd, Bool.not_true, Bool.false_eq_true, if_false,
          List.head?_cons, Option.all_some, reduceCtorEq, or_self]
        cases hq : (grub_strtoul (d :: rest)).2 with
        | nil =>
          simp only [List.getElem?_nil, ne_eq, not_true_eq_false, if_false]
          exact scan_update acc _
        | cons a b => simp
      · have hdf : grub_isdigit d = false := by
          cases hq : grub_isdigit d with
          | false => rfl
          | true => exact absurd hq hd
        simp [hdf]

theorem vg_register_scan_name_eq (X : List Char) (acc : Nat × Bool) (p : grub_diskfilter_lv)
    (pn : String) (hp : p.fullname = some pn) :
    vg_register_scan_name X acc p = scan_step X acc pn := by
  by_cases hpre : X <+: pn.toList
  · obtain ⟨t, ht⟩ := hpre
    cases t with
    | nil =>
      rw [List.append_nil] at ht
      have hcmp : grub_strncmp_eq pn.toList X X.length = true :=
        (grub_strncmp_eq_iff X pn.toList).mpr ⟨[], by rw [List.append_nil]; exact ht⟩
      have hnn : name_number X pn.toList = none := by
        unfold name_number
        rw [← ht, if_pos (List.prefix_refl _), List.drop_length]
      unfold vg_register_scan_name scan_step
      rw [hp, hnn]
      simp only []
      rw [hcmp, ← ht, List.getElem?_eq_none (Nat.le_refl _)]
      simp
    | cons c num =>
      have hne : ¬ (pn.toList = X) := by
        intro h
        rw [h] at ht
        have := congrArg List.length ht
        simp at this
      rw [vg_register_scan_name_append X acc p pn hp c num ht.symm]
      have hstep : ∀ v : Option Nat, name_number X pn.toList = v →
          scan_step X acc pn = (max acc.1 (v.getD 0), acc.2) := by
        intro v hv
        have hne2 : ¬ (pn.data = X) := hne
        unfold scan_step
        rw [hv]
        simp [hne2]
      have hacc : (max acc.1 ((none : Option Nat).getD 0), acc.2) = acc := by
        simp
      by_cases h128 : c.toNat ≥ 128
      · have hnn : name_number X pn.toList = none := by
          rw [← ht, name_number_append, if_neg (fun hc => absurd hc.1 (by omega))]
        rw [hstep _ hnn, if_pos h128, hacc]
      · rw [if_neg h128]
        by_cases hall : num ≠ [] ∧ num.all grub_isdigit = true ∧ digits_value num 0 < 2 ^ 64
        · have hnn : name_number X pn.toList = some (c_int (digits_value num 0)).toNat := by
            rw [← ht, name_number_append, if_pos ⟨by omega, hall⟩]
          have hr : grub_strtoul num = (digits_value num 0, []) :=
            grub_strtoul_digits_all _ _ hall.2.1 hall.2.2
          have hhead : ¬ (num.head?.all grub_isdigit = false ∨ num = []) := by
            rintro (hh | hh)
            · cases num with
              | nil => exact hall.1 rfl
              | cons d rest =>
                have h2 := hall.2.1
                simp only [List.all_cons, Bool.and_eq_true] at h2
                simp only [List.head?_cons, Option.all_some] at hh
                rw [h2.1] at hh
                cases hh
            · exact hall.1 hh
          rw [hstep _ hnn, if_neg hhead, hr, if_neg (fun hx => hx rfl)]
          rfl
        · have hnn : name_number X pn.toList = none := by
            rw [← ht, name_number_append, if_neg (fun hc => hall hc.2)]
          rw [hstep _ hnn, hacc]
          by_cases hhead : num.head?.all grub_isdigit = false ∨ num = []
          · rw [if_pos hhead]
          · rw [if_neg hhead]
            have hne2 : num ≠ [] := fun hx => hhead (Or.inr hx)
            have hr : (grub_strtoul num).2 ≠ [] :=
              grub_strtoul_digits_rest num 0 (by norm_num)
                (fun hc => hall ⟨hne2, hc.1, hc.2⟩)
            rw [if_pos hr]
  · have hcmp : grub_strncmp_eq pn.toList X X.length = false := by
      cases hq : grub_strncmp_eq pn.toList X X.length with
      | false => rfl
      | true => exact absurd ((grub_strncmp_eq_iff X pn.toList).mp hq) hpre
    have hne : ¬ (pn.toList = X) := by
      intro h
      apply hpre
      rw [h]
    have hne2 : ¬ (pn.data = X) := hne
    unfold vg_register_scan_name scan_step name_number
    rw [hp]
    simp only []
    rw [hcmp, if_neg hpre]
    simp [hne2]

theorem vg_register_scan_lvs (X : List Char) (lvs : List grub_diskfilter_lv) (acc : Nat × Bool) :
    lvs.foldl (vg_register_scan_name X) acc
      = (lvs.filterMap (fun lv => lv.fullname)).foldl (scan_step X) acc := by
  induction lvs generalizing acc with
  | nil => rfl
  | cons p rest ih =>
    rw [List.foldl_cons, ih]
    cases hp : p.fullname with
    | none =>
      have h1 : vg_register_scan_name X acc p = acc := by
        unfold vg_register_scan_name
        rw [hp]
      rw [h1, List.filterMap_cons_none hp]
    | some pn =>
      rw [vg_register_scan_name_eq X acc p pn hp, List.filterMap_cons_some hp, List.foldl_cons]

theorem vg_register_scan_groups (X : List Char) (al : List grub_diskfilter_vg) (acc : Nat × Bool) :
    al.foldl (fun acc vgp => vgp.lvs.foldl (vg_register_scan_name X) acc) acc
      = (registered_names al).foldl (scan_step X) acc := by
  induction al generalizing acc with
  | nil => rfl
  | cons vgp rest ih =>
    rw [List.foldl_cons, ih, vg_register_scan_lvs]
    unfold registered_names
    rw [List.flatMap_cons, List.foldl_append]

theorem scan_step_foldl (X : List Char) (names : List String) (acc : Nat × Bool) :
    names.foldl (scan_step X) acc
      = ((names.filterMap (fun p => name_number X p.toList)).foldl max acc.1,
          acc.2 || names.any (fun p => decide (p.toList = X))) := by
  induction names generalizing acc with
  | nil => simp
  | cons pn rest ih =>
    rw [List.foldl_cons, ih]
    cases hn : name_number X pn.toList with
    | none =>
      have hf : (pn :: rest).filterMap (fun p => name_number X p.toList)
          = rest.filterMap (fun p => name_number X p.toList) :=
        List.filterMap_cons_none hn
      rw [hf]
      have hn2 : name_number X pn.data = _ := hn
      simp [scan_step, hn2, Bool.or_assoc]
    | some v =>
      have hf : (pn :: rest).filterMap (fun p => name_number X p.toList)
          = v :: rest.filterMap (fun p => name_number X p.toList) :=
        List.filterMap_cons_some hn
      rw [hf]
      have hn2 : name_number X pn.data = _ := hn
      simp [scan_step, hn2, Bool.or_assoc]

theorem vg_register_scan_eq (al : List grub_diskfilter_vg) (X : String) :
    (vg_register_scan al X.toList).1 = max_used_number al X.toList
    ∧ ((vg_register_scan al X.toList).2 = true ↔ X ∈ registered_names al) := by
  unfold vg_register_scan
  rw [vg_register_scan_groups, scan_step_foldl]
  refine ⟨rfl, ?_⟩
  simp only [Bool.false_or, List.any_eq_true, decide_eq_true_eq]
  constructor
  · rintro ⟨p, hp, he⟩
    have : p = X := String.ext he
    rw [← this]; exact hp
  · intro h
    exact ⟨X, h, rfl⟩

theorem vg_register_name (vg : grub_diskfilter_vg) (st : State) (i : Nat)
    (lv : grub_diskfilter_lv) (hok : (grub_diskfilter_vg_register vg st).1 = GRUB_ERR_NONE)
    (hlv : vg.lvs[i]? = some lv) :
    ∃ lv2 : grub_diskfilter_lv, (grub_diskfilter_vg_register vg st).2.1.lvs[i]? = some lv2
      ∧ (lv.fullname = none → lv2.fullname = none)
      ∧ (∀ X : String, lv.fullname = some X → X ∈ registered_names st.array_list →
          lv2.fullname = some (vg_register_new_name X.toList
            (max_used_number st.array_list X.toList + 1)))
      ∧ (∀ X : String, lv.fullname = some X → X ∉ registered_names st.array_list →
          lv2.fullname = some X) := by
  obtain ⟨_, _, _, _, _, _, hget⟩ := vg_register_ok vg st hok
  refine ⟨_, hget i lv hlv, ?_, ?_, ?_⟩
  · intro hn
    rw [vg_register_lv_fullname]
    have : (vg_register_normalize lv).fullname = none := hn
    rw [this]
  · intro X hX hreg
    rw [vg_register_lv_fullname]
    have : (vg_register_normalize lv).fullname = some X := hX
    rw [this]
    obtain ⟨h1, h2⟩ := vg_register_scan_eq st.array_list X
    simp only []
    rw [if_pos (h2.mpr hreg), h1]
  · intro X hX hreg
    rw [vg_register_lv_fullname]
    have : (vg_register_normalize lv).fullname = some X := hX
    rw [this]
    obtain ⟨h1, h2⟩ := vg_register_scan_eq st.array_list X
    simp only []
    rw [if_neg (fun h => hreg (h2.mp h))]

theorem foldl_max_ge (l : List Nat) (a : Nat) :
    a ≤ l.foldl max a ∧ (∀ v ∈ l, v ≤ l.foldl max a)
    ∧ (l.foldl max a = a ∨ l.foldl max a ∈ l) := by
  induction l generalizing a with
  | nil => simp
  | cons b rest ih =>
    obtain ⟨h1, h2, h3⟩ := ih (max a b)
    rw [List.foldl_cons]
    refine ⟨by omega, ?_, ?_⟩
    · intro v hv
      rcases List.mem_cons.mp hv with rfl | hv
      · omega
      · exact h2 v hv
    · rcases h3 with h3 | h3
      · rw [h3]
        by_cases hab : a ≤ b
        · right; rw [max_eq_right hab]; exact List.mem_cons_self _ _
        · left; exact max_eq_left (by omega)
      · right; exact List.mem_cons_of_mem _ h3

theorem max_used_number_ge (al : List grub_diskfilter_vg) (X : List Char) (p : String) (v : Nat)
    (hp : p ∈ registered_names al) (hv : name_number X p.toList = some v) :
    v ≤ max_used_number al X := by
  unfold max_used_number
  apply (foldl_max_ge _ 0).2.1
  exact List.mem_filterMap.mpr ⟨p, hp, hv⟩

theorem max_used_number_attained (al : List grub_diskfilter_vg) (X : List Char) :
    max_used_number al X = 0
    ∨ ∃ p ∈ registered_names al, name_number X p.toList = some (max_used_number al X) := by
  unfold max_used_number
  rcases (foldl_max_ge ((registered_names al).filterMap (fun p => name_number X p.toList)) 0).2.2
    with h | h
  · left; exact h
  · right
    obtain ⟨p, hp, hv⟩ := List.mem_filterMap.mp h
    exact ⟨p, hp, hv⟩


theorem name_number_some (X p : List Char) (v : Nat) (h : name_number X p = some v) :
    ∃ c num, p = X ++ c :: num ∧ c.toNat < 128 ∧ num ≠ [] ∧ num.all grub_isdigit = true
      ∧ digits_value num 0 < 2 ^ 64 ∧ v = (c_int (digits_value num 0)).toNat := by
  unfold name_number at h
  by_cases hpre : X <+: p
  · rw [if_pos hpre] at h
    obtain ⟨t, ht⟩ := hpre
    subst ht
    rw [List.drop_left] at h
    cases t with
    | nil => simp at h
    | cons c num =>
      simp only [] at h
      by_cases hc : c.toNat < 128 ∧ num ≠ [] ∧ num.all grub_isdigit = true
          ∧ digits_value num 0 < 2 ^ 64
      · rw [if_pos hc] at h
        simp only [Option.some.injEq] at h
        exact ⟨c, num, rfl, hc.1, hc.2.1, hc.2.2.1, hc.2.2.2, h.symm⟩
      · rw [if_neg hc] at h
        simp at h
  · rw [if_neg hpre] at h
    simp at h

theorem name_number_of_form (X : List Char) (c : Char) (num : List Char) (hc : c.toNat < 128)
    (hne : num ≠ []) (hall : num.all grub_isdigit = true) (hv : digits_value num 0 < 2 ^ 31) :
    name_number X (X ++ c :: num) = some (digits_value num 0) := by
  rw [name_number_append, if_pos ⟨hc, hne, hall, Nat.lt_trans hv (by norm_num)⟩,
    c_int_small _ hv]
  rfl

theorem digitChar_isdigit (k : Nat) (hk : k < 10) :
    grub_isdigit (Nat.digitChar k) = true ∧ (Nat.digitChar k).toNat - '0'.toNat = k := by
  interval_cases k <;> exact ⟨by decide, by decide⟩

theorem toDigitsCore_value (fuel : Nat) :
    ∀ (n : Nat) (ds : List Char), n < fuel →
      ∃ pre : List Char, Nat.toDigitsCore 10 fuel n ds = pre ++ ds ∧ pre ≠ []
        ∧ pre.all grub_isdigit = true ∧ digits_value pre 0 = n := by
  induction fuel with
  | zero => intro n ds h; omega
  | succ fuel ih =>
    intro n ds hn
    obtain ⟨hd1, hd2⟩ := digitChar_isdigit (n % 10) (Nat.mod_lt _ (by decide))
    rw [Nat.toDigitsCore]
    by_cases h0 : n / 10 = 0
    · rw [if_pos h0]
      refine ⟨[Nat.digitChar (n % 10)], rfl, by simp, by simp [hd1], ?_⟩
      simp only [digits_value, List.foldl_cons, List.foldl_nil, hd2]
      omega
    · rw [if_neg h0]
      obtain ⟨pre, h1, h2, h3, h4⟩ := ih (n / 10) (Nat.digitChar (n % 10) :: ds) (by omega)
      refine ⟨pre ++ [Nat.digitChar (n % 10)], by rw [h1]; simp, by simp, ?_, ?_⟩
      · rw [List.all_append, h3]; simp [hd1]
      · unfold digits_value at h4 ⊢
        rw [List.foldl_append, h4]
        simp only [List.foldl_cons, List.foldl_nil, hd2]
        omega

theorem toDigits_value (n : Nat) :
    Nat.toDigits 10 n ≠ [] ∧ (Nat.toDigits 10 n).all grub_isdigit = true
    ∧ digits_value (Nat.toDigits 10 n) 0 = n := by
  obtain ⟨pre, h1, h2, h3, h4⟩ := toDigitsCore_value (n + 1) n [] (by omega)
  have : Nat.toDigits 10 n = pre := by
    unfold Nat.toDigits
    rw [h1, List.append_nil]
  rw [this]
  exact ⟨h2, h3, h4⟩

theorem vg_register_new_name_small (X : List Char) (n : Nat) (h : n < 2 ^ 31) :
    vg_register_new_name X n = String.mk (X ++ '_' :: Nat.toDigits 10 n) := by
  unfold vg_register_new_name print_d
  rw [c_int_small n h, if_neg (by omega)]
  rfl

theorem max_used_number_small (al : List grub_diskfilter_vg) (X : List Char)
    (hbound : ∀ (c : Char) (num : List Char), c.toNat < 128 → num ≠ [] →
      num.all grub_isdigit = true → String.mk (X ++ c :: num) ∈ registered_names al →
      digits_value num 0 < 2 ^ 31 - 1) :
    max_used_number al X < 2 ^ 31 - 1
    ∧ (max_used_number al X = 0
      ∨ ∃ (c : Char) (num : List Char), c.toNat < 128 ∧ num ≠ []
          ∧ num.all grub_isdigit = true ∧ String.mk (X ++ c :: num) ∈ registered_names al
          ∧ digits_value num 0 = max_used_number al X) := by
  rcases max_used_number_attained al X with h0 | ⟨p, hp, hv⟩
  · rw [h0]
    exact ⟨by norm_num, Or.inl rfl⟩
  · obtain ⟨c, num, hpe, hc, hne, hall, _, hval⟩ := name_number_some _ _ _ hv
    have hmem : String.mk (X ++ c :: num) ∈ registered_names al := by
      have : p = String.mk (X ++ c :: num) := String.ext hpe
      rw [← this]; exact hp
    have hb := hbound c num hc hne hall hmem
    have hsmall : digits_value num 0 < 2 ^ 31 := by omega
    rw [c_int_small _ hsmall] at hval
    have hval2 : max_used_number al X = digits_value num 0 := hval
    exact ⟨by rw [hval2]; exact hb, Or.inr ⟨c, num, hc, hne, hall, hmem, hval2.symm⟩⟩

theorem vg_register_new_name_fresh (al : List grub_diskfilter_vg) (X : List Char)
    (hbound : ∀ (c : Char) (num : List Char), c.toNat < 128 → num ≠ [] →
      num.all grub_isdigit = true → String.mk (X ++ c :: num) ∈ registered_names al →
      digits_value num 0 < 2 ^ 31 - 1) :
    vg_register_new_name X (max_used_number al X + 1) ∉ registered_names al := by
  obtain ⟨hm, _⟩ := max_used_number_small al X hbound
  obtain ⟨h1, h2, h3⟩ := toDigits_value (max_used_number al X + 1)
  rw [vg_register_new_name_small X _ (by omega)]
  intro h
  have hb := hbound '_' _ (by decide) h1 h2 h
  rw [h3] at hb
  have hnn := name_number_of_form X '_' (Nat.toDigits 10 (max_used_number al X + 1))
    (by decide) h1 h2 (by rw [h3]; omega)
  rw [h3] at hnn
  have := max_used_number_ge al X _ _ h hnn
  omega

/-- C24 as stated fails: the registry holds the names `md/x` and `md/x_5`, so
that `md/x_1` is not the name of any registered volume and 1 is the smallest
unused number; the volume named `md/x` that is registered gets the name
`md/x_6`. -/
theorem C24_counterexample :
    registered_names (state_named ["md/x", "md/x_5"]).array_list = ["md/x", "md/x_5"]
    ∧ "md/x_1" ∉ registered_names (state_named ["md/x", "md/x_5"]).array_list
    ∧ (grub_diskfilter_vg_register (vg_of [lv_named "md/x" [c6_segment]])
        (state_named ["md/x", "md/x_5"])).1 = GRUB_ERR_NONE
    ∧ (grub_diskfilter_vg_register (vg_of [lv_named "md/x" [c6_segment]])
        (state_named ["md/x", "md/x_5"])).2.1.lvs.map (fun lv => lv.fullname)
      = [some "md/x_6"] :=
  ⟨by decide, by decide, by decide, by decide⟩

/-- C24 amended: for every registry state in which the numbers carried by the
registered names made of X, of one character of one byte and of decimal digits
are below `2^31 - 1`, when a logical volume is registered whose fully-qualified
name X equals the fully-qualified name of an already registered volume, its name
becomes X followed by `_N` with N in decimal, where N is one more than the
largest of these numbers (N is 1 when no registered name has this form); N is
positive and `X_N` is not the fully-qualified name of any registered volume. -/
theorem C24_register_collision (vg : grub_diskfilter_vg) (st : State) (i : Nat)
    (lv : grub_diskfilter_lv) (X : String)
    (hok : (grub_diskfilter_vg_register vg st).1 = GRUB_ERR_NONE)
    (hlv : vg.lvs[i]? = some lv) (hX : lv.fullname = some X)
    (hreg : X ∈ registered_names st.array_list)
    (hbound : ∀ (c : Char) (num : List Char), c.toNat < 128 → num ≠ [] →
      num.all grub_isdigit = true →
      String.mk (X.toList ++ c :: num) ∈ registered_names st.array_list →
      digits_value num 0 < 2 ^ 31 - 1) :
    ∃ (lv2 : grub_diskfilter_lv) (N : Nat),
      (grub_diskfilter_vg_register vg st).2.1.lvs[i]? = some lv2
      ∧ lv2.fullname = some (String.mk (X.toList ++ '_' :: Nat.toDigits 10 N))
      ∧ 0 < N
      ∧ N < 2 ^ 31
      ∧ String.mk (X.toList ++ '_' :: Nat.toDigits 10 N) ∉ registered_names st.array_list
      ∧ (∀ (c : Char) (num : List Char), c.toNat < 128 → num ≠ [] →
          num.all grub_isdigit = true →
          String.mk (X.toList ++ c :: num) ∈ registered_names st.array_list →
          digits_value num 0 < N)
      ∧ (N = 1 ∨ ∃ (c : Char) (num : List Char), c.toNat < 128 ∧ num ≠ []
          ∧ num.all grub_isdigit = true
          ∧ String.mk (X.toList ++ c :: num) ∈ registered_names st.array_list
          ∧ digits_value num 0 + 1 = N) := by
  obtain ⟨lv2, h1, _, h2, _⟩ := vg_register_name vg st i lv hok hlv
  obtain ⟨hm, hatt⟩ := max_used_number_small st.array_list X.toList hbound
  have hfresh := vg_register_new_name_fresh st.array_list X.toList hbound
  have hname := vg_register_new_name_small X.toList
    (max_used_number st.array_list X.toList + 1) (by omega)
  refine ⟨lv2, max_used_number st.array_list X.toList + 1, h1, ?_, by omega, by omega, ?_,
    ?_, ?_⟩
  · rw [h2 X hX hreg, hname]
  · rw [← hname]
    exact hfresh
  · intro c num hc hne hall hmem
    have hb := hbound c num hc hne hall hmem
    have := max_used_number_ge st.array_list X.toList _ _ hmem
      (name_number_of_form X.toList c num hc hne hall (by omega))
    omega
  · rcases hatt with h0 | ⟨c, num, hc, hne, hall, hmem, hval⟩
    · left; omega
    · right
      exact ⟨c, num, hc, hne, hall, hmem, by omega⟩

/-- Witness of C24: the volume named `md/x` registered when the registry holds
the names `md/x` and `md/x_5`, where the only number carried is 5. -/
theorem C24_register_collision_witness :
    (∀ (c : Char) (num : List Char), c.toNat < 128 → num ≠ [] →
      num.all grub_isdigit = true →
      String.mk ("md/x".toList ++ c :: num)
        ∈ registered_names (state_named ["md/x", "md/x_5"]).array_list →
      digits_value num 0 < 2 ^ 31 - 1)
    ∧ ∃ (lv2 : grub_diskfilter_lv) (N : Nat),
      (grub_diskfilter_vg_register (vg_of [lv_named "md/x" [c6_segment]])
        (state_named ["md/x", "md/x_5"])).2.1.lvs[0]? = some lv2
      ∧ lv2.fullname = some (String.mk ("md/x".toList ++ '_' :: Nat.toDigits 10 N))
      ∧ 0 < N
      ∧ N < 2 ^ 31
      ∧ String.mk ("md/x".toList ++ '_' :: Nat.toDigits 10 N)
          ∉ registered_names (state_named ["md/x", "md/x_5"]).array_list
      ∧ (∀ (c : Char) (num : List Char), c.toNat < 128 → num ≠ [] →
          num.all grub_isdigit = true →
          String.mk ("md/x".toList ++ c :: num)
            ∈ registered_names (state_named ["md/x", "md/x_5"]).array_list →
          digits_value num 0 < N)
      ∧ (N = 1 ∨ ∃ (c : Char) (num : List Char), c.toNat < 128 ∧ num ≠ []
          ∧ num.all grub_isdigit = true
          ∧ String.mk ("md/x".toList ++ c :: num)
            ∈ registered_names (state_named ["md/x", "md/x_5"]).array_list
          ∧ digits_value num 0 + 1 = N) := by
  have hbound : ∀ (c : Char) (num : List Char), c.toNat < 128 → num ≠ [] →
      num.all grub_isdigit = true →
      String.mk ("md/x".toList ++ c :: num)
        ∈ registered_names (state_named ["md/x", "md/x_5"]).array_list →
      digits_value num 0 < 2 ^ 31 - 1 := by
    intro c num _ _ _ hmem
    have hnames : registered_names (state_named ["md/x", "md/x_5"]).array_list
        = ["md/x", "md/x_5"] := by decide
    rw [hnames] at hmem
    rcases List.mem_cons.mp hmem with h1 | h2
    · have hd := congrArg String.data h1
      have hl := congrArg List.length hd
      simp at hl
    · have hd := congrArg String.data (List.mem_singleton.mp h2)
      have hd2 : ['m', 'd', '/', 'x'] ++ c :: num = ['m', 'd', '/', 'x'] ++ ['_', '5'] := hd
      have hd3 := List.append_cancel_left hd2
      have hnum : num = ['5'] := (List.cons.inj hd3).2
      rw [hnum]
      decide
  exact ⟨hbound, C24_register_collision (vg_of [lv_named "md/x" [c6_segment]])
    (state_named ["md/x", "md/x_5"]) 0 (lv_named "md/x" [c6_segment]) "md/x"
    (by decide) rfl rfl (by decide) hbound⟩

/-- The numbers of the name scan beyond `2^31 - 2`, as the definitions read
them. The separator is not compared with `_`, and a separator of several bytes
hides the number. The value `2^32` is the `int` 0, so that the new name is
`md/x_1`; a number above `2^64 - 1` stops `grub_strtoul` at a digit and the
name is passed over; after the number `2^31 - 1` the sum `max_used_number + 1`
is printed as `-2147483648`. -/
theorem vg_register_int_examples :
    (grub_diskfilter_vg_register (vg_of [lv_named "md/x" [c6_segment]])
        (state_named ["md/x", "md/x-7"])).2.1.lvs.map (fun lv => lv.fullname)
      = [some "md/x_8"]
    ∧ (grub_diskfilter_vg_register (vg_of [lv_named "md/x" [c6_segment]])
        (state_named ["md/x", "md/xé7"])).2.1.lvs.map (fun lv => lv.fullname)
      = [some "md/x_1"]
    ∧ (grub_diskfilter_vg_register (vg_of [lv_named "md/x" [c6_segment]])
        (state_named ["md/x", "md/x_4294967296"])).2.1.lvs.map (fun lv => lv.fullname)
      = [some "md/x_1"]
    ∧ (grub_diskfilter_vg_register (vg_of [lv_named "md/x" [c6_segment]])
        (state_named ["md/x", "md/x_18446744073709551616"])).2.1.lvs.map
          (fun lv => lv.fullname)
      = [some "md/x_1"]
    ∧ (grub_diskfilter_vg_register (vg_of [lv_named "md/x" [c6_segment]])
        (state_named ["md/x", "md/x_2147483647"])).2.1.lvs.map (fun lv => lv.fullname)
      = [some "md/x_-2147483648"] :=
  ⟨by decide, by decide, by decide, by decide, by decide⟩

theorem vg_register_single_nodup (vg : grub_diskfilter_vg) (st : State) (lv : grub_diskfilter_lv)
    (hone : vg.lvs = [lv]) (hok : (grub_diskfilter_vg_register vg st).1 = GRUB_ERR_NONE)
    (hnd : (registered_names st.array_list).Nodup)
    (hbound : ∀ (X : String) (c : Char) (num : List Char), lv.fullname = some X →
      c.toNat < 128 → num ≠ [] → num.all grub_isdigit = true →
      String.mk (X.toList ++ c :: num) ∈ registered_names st.array_list →
      digits_value num 0 < 2 ^ 31 - 1) :
    (registered_names (grub_diskfilter_vg_register vg st).2.2.array_list).Nodup := by
  obtain ⟨hreg, _, _, _, _, hlen, _⟩ := vg_register_ok vg st hok
  obtain ⟨lv2, h1, hnone, hin, hout⟩ := vg_register_name vg st 0 lv hok (by rw [hone]; rfl)
  have hlvs : (grub_diskfilter_vg_register vg st).2.1.lvs = [lv2] := by
    rw [hone] at hlen
    match hq : (grub_diskfilter_vg_register vg st).2.1.lvs, hlen with
    | [a], _ =>
      rw [hq] at h1
      simp only [List.getElem?_cons_zero, Option.some.injEq] at h1
      rw [h1]
  have hal : (grub_diskfilter_vg_register vg st).2.2.array_list
      = (grub_diskfilter_vg_register vg st).2.1 :: st.array_list := by
    rw [hreg]
  rw [hal]
  unfold registered_names
  rw [List.flatMap_cons, hlvs]
  cases hf : lv.fullname with
  | none =>
    rw [List.filterMap_cons_none (hnone hf)]
    exact hnd
  | some X =>
    by_cases hX : X ∈ registered_names st.array_list
    · rw [List.filterMap_cons_some (hin X hf hX)]
      exact List.nodup_cons.mpr
        ⟨vg_register_new_name_fresh st.array_list X.toList (fun c num => hbound X c num hf), hnd⟩
    · rw [List.filterMap_cons_some (hout X hf hX)]
      exact List.nodup_cons.mpr ⟨hX, hnd⟩

/-- C25 fails on the code: the scan of the registered names does not see the
volumes of the group that is being registered. A group of two volumes both
named `md/x` is registered in the empty registry with both names unchanged; a
group of the volumes `a` and `a_1` is registered in a registry that holds the
name `a` with both volumes named `a_1`. -/
theorem C25_duplicate_names :
    (registered_names state_empty.array_list).Nodup
    ∧ (grub_diskfilter_vg_register
        (vg_of [lv_named "md/x" [c6_segment], lv_named "md/x" [c6_segment]]) state_empty).1
      = GRUB_ERR_NONE
    ∧ registered_names (grub_diskfilter_vg_register
        (vg_of [lv_named "md/x" [c6_segment], lv_named "md/x" [c6_segment]])
        state_empty).2.2.array_list = ["md/x", "md/x"]
    ∧ (registered_names (state_named ["a"]).array_list).Nodup
    ∧ (grub_diskfilter_vg_register
        (vg_of [lv_named "a" [c6_segment], lv_named "a_1" [c6_segment]]) (state_named ["a"])).1
      = GRUB_ERR_NONE
    ∧ registered_names (grub_diskfilter_vg_register
        (vg_of [lv_named "a" [c6_segment], lv_named "a_1" [c6_segment]])
        (state_named ["a"])).2.2.array_list = ["a_1", "a_1", "a"]
    ∧ ¬ (registered_names (grub_diskfilter_vg_register
        (vg_of [lv_named "a" [c6_segment], lv_named "a_1" [c6_segment]])
        (state_named ["a"])).2.2.array_list).Nodup :=
  ⟨by decide, by decide, by decide, by decide, by decide, by decide, by decide⟩

/-- C26: a volume named X that is registered when no registered volume is named
X keeps the name X; a volume named X that is registered when the registry holds
a volume named X and no other name that extends X gets the name `X_1`; two
groups of one volume named `md/x` registered one after the other in the empty
registry give the names `md/x` and `md/x_1`. -/
theorem C26_register_names (vg : grub_diskfilter_vg) (st : State) (i : Nat)
    (lv : grub_diskfilter_lv) (X : String)
    (hok : (grub_diskfilter_vg_register vg st).1 = GRUB_ERR_NONE)
    (hlv : vg.lvs[i]? = some lv) (hX : lv.fullname = some X) :
    ∃ lv2 : grub_diskfilter_lv,
      (grub_diskfilter_vg_register vg st).2.1.lvs[i]? = some lv2
      ∧ (X ∉ registered_names st.array_list → lv2.fullname = some X)
      ∧ (X ∈ registered_names st.array_list →
          (∀ p ∈ registered_names st.array_list, X.toList <+: p.toList → p = X) →
          lv2.fullname = some (X ++ "_1"))
      ∧ registered_names
          (grub_diskfilter_vg_register (vg_of [lv_named "md/x" [c6_segment]])
            (grub_diskfilter_vg_register (vg_of [lv_named "md/x" [c6_segment]])
              state_empty).2.2).2.2.array_list = ["md/x_1", "md/x"] := by
  obtain ⟨lv2, h1, _, hin, hout⟩ := vg_register_name vg st i lv hok hlv
  refine ⟨lv2, h1, hout X hX, ?_, by decide⟩
  intro hreg hno
  rw [hin X hX hreg]
  have h0 : max_used_number st.array_list X.toList = 0 := by
    rcases max_used_number_attained st.array_list X.toList with h0 | ⟨p, hp, hv⟩
    · exact h0
    · exfalso
      obtain ⟨c, num, hpe, _⟩ := name_number_some _ _ _ hv
      have hpX := hno p hp (by rw [hpe]; exact List.prefix_append _ _)
      rw [hpX] at hpe
      have := congrArg List.length hpe
      simp at this
  rw [h0]
  rfl

/-- Witness of C26: the second group with a volume named `md/x`, registered
when the registry holds the name `md/x` alone, has its volume named `md/x_1`. -/
theorem C26_register_names_witness :
    (grub_diskfilter_vg_register (vg_of [lv_named "md/x" [c6_segment]])
        (state_named ["md/x"])).1 = GRUB_ERR_NONE
    ∧ "md/x" ∈ registered_names (state_named ["md/x"]).array_list
    ∧ ∃ lv2 : grub_diskfilter_lv,
      (grub_diskfilter_vg_register (vg_of [lv_named "md/x" [c6_segment]])
        (state_named ["md/x"])).2.1.lvs[0]? = some lv2
      ∧ lv2.fullname = some "md/x_1" := by
  have hnames : registered_names (state_named ["md/x"]).array_list = ["md/x"] := by decide
  obtain ⟨lv2, h1, _, h3, _⟩ :=
    C26_register_names (vg_of [lv_named "md/x" [c6_segment]]) (state_named ["md/x"]) 0
      (lv_named "md/x" [c6_segment]) "md/x" (by decide) rfl rfl
  refine ⟨by decide, by decide, lv2, h1, ?_⟩
  rw [h3 (by decide) (by
    intro p hp _
    rw [hnames] at hp
    exact List.mem_singleton.mp hp)]
  rfl


end Diskfilter
